import Mathlib

/-!
# qescript: the configuration and expression interpreter of QEmacs

A shallow embedding of `qescript.c`.  A pointer into the NUL-terminated source
text is modelled by the suffix of the text that starts at the pointer, so that
`*p` is the head of the suffix (0 when nothing is left) and `p++` is its tail.
Bytes are natural numbers below 256.  Signed 64-bit and 32-bit integers are
integers reduced into their range by `wrap64` and `wrap32`.
-/

namespace QEScript

abbrev Bytes := List Nat

/-! ## Machine integers -/

/-- The signed 64-bit integer congruent to `x`. -/
def wrap64 (x : Int) : Int := (x + 9223372036854775808) % 18446744073709551616 - 9223372036854775808

/-- The signed 32-bit integer congruent to `x` (conversion to C `int`). -/
def wrap32 (x : Int) : Int := (x + 2147483648) % 4294967296 - 2147483648

/-- The unsigned 64-bit pattern of a signed value. -/
def to_u64 (x : Int) : Nat := (x % 18446744073709551616).toNat

def LLONG_MAX : Int := 9223372036854775807
def LLONG_MIN : Int := -9223372036854775808

/-! ## Character classes and helpers of cutils.h -/

/-- Modelled from the spec: `qe_isspace`, the ASCII whitespace skipped between tokens. -/
def qe_isspace (c : Nat) : Bool := c == 32 || (9 ≤ c && c ≤ 13)

/-- Modelled from the spec: `qe_isdigit`, a decimal digit. -/
def qe_isdigit (c : Nat) : Bool := 48 ≤ c && c ≤ 57

/-- Modelled from the spec: `qe_isoctdigit`, an octal digit. -/
def qe_isoctdigit (c : Nat) : Bool := 48 ≤ c && c ≤ 55

/-- Modelled from the spec: `qe_isalpha`, an ASCII letter. -/
def qe_isalpha (c : Nat) : Bool := (65 ≤ c && c ≤ 90) || (97 ≤ c && c ≤ 122)

/-- Modelled from the spec: `qe_isalpha_`, a letter or `_`. -/
def qe_isalpha_ (c : Nat) : Bool := qe_isalpha c || c == 95

/-- Modelled from the spec: `qe_isalnum_`, a letter, a digit or `_`. -/
def qe_isalnum_ (c : Nat) : Bool := qe_isalpha c || qe_isdigit c || c == 95

/-- Modelled from the spec: `qe_isxdigit`, a hexadecimal digit. -/
def qe_isxdigit (c : Nat) : Bool :=
  qe_isdigit c || (65 ≤ c && c ≤ 70) || (97 ≤ c && c ≤ 102)

/-- Modelled from the spec: `qe_digit_value`, the value of a digit in bases up to 36,
255 for a byte that is no digit. -/
def qe_digit_value (c : Nat) : Nat :=
  if 48 ≤ c ∧ c ≤ 57 then c - 48
  else if 97 ≤ c ∧ c ≤ 122 then c - 87
  else if 65 ≤ c ∧ c ≤ 90 then c - 55
  else 255

/-- The bytes of a C string: everything before the first NUL. -/
def cstr : Bytes → Bytes
  | [] => []
  | c :: s => if c == 0 then [] else c :: cstr s

/-- Modelled from the spec: `utf8_encode`, the UTF-8 encoding of a code point given as a
C `int` (forms of up to six bytes; a negative value is stored as its low byte). -/
def utf8_encode (c : Int) : Bytes :=
  let n := c.toNat
  if c < 0x80 then [(c % 256).toNat]
  else if c < 0x800 then [n / 64 % 256 ||| 0xc0, n % 64 ||| 0x80]
  else if c < 0x10000 then [n / 4096 % 256 ||| 0xe0, n / 64 % 64 ||| 0x80, n % 64 ||| 0x80]
  else if c < 0x200000 then
    [n / 262144 % 256 ||| 0xf0, n / 4096 % 64 ||| 0x80, n / 64 % 64 ||| 0x80, n % 64 ||| 0x80]
  else if c < 0x4000000 then
    [n / 16777216 % 256 ||| 0xf8, n / 262144 % 64 ||| 0x80, n / 4096 % 64 ||| 0x80,
     n / 64 % 64 ||| 0x80, n % 64 ||| 0x80]
  else
    [n / 1073741824 % 256 ||| 0xfc, n / 16777216 % 64 ||| 0x80, n / 262144 % 64 ||| 0x80,
     n / 4096 % 64 ||| 0x80, n / 64 % 64 ||| 0x80, n % 64 ||| 0x80]

/-- The code returned by `utf8_decode` for a malformed sequence. -/
def INVALID_CHAR : Int := 0xfffd

/-- Continuation bytes of a UTF-8 sequence: reads `k` bytes of the form 10xxxxxx. -/
def utf8_cont : Nat → Bytes → Nat → Option Nat
  | 0, _, acc => some acc
  | k + 1, s, acc =>
    let c1 := s.headD 0
    if c1 < 0x80 || 0xc0 ≤ c1 then none
    else utf8_cont k s.tail (acc * 64 + c1 % 64)

/-- Modelled from the spec: `utf8_decode`, the first UTF-8 code point of a C string;
a malformed, overlong or surrogate sequence gives `INVALID_CHAR`. -/
def utf8_decode (s : Bytes) : Int :=
  let c := s.headD 0
  if c < 0x80 then c
  else
    let l := if c < 0xc0 then 1 else if c < 0xe0 then 2 else if c < 0xf0 then 3
             else if c < 0xf8 then 4 else if c < 0xfc then 5 else if c < 0xfe then 6 else 1
    if l == 1 then INVALID_CHAR
    else
      let mask := if l == 2 then 0x1f else if l == 3 then 0x0f else if l == 4 then 0x07
                  else if l == 5 then 0x03 else 0x01
      let min := if l == 2 then 0x80 else if l == 3 then 0x800 else if l == 4 then 0x10000
                 else if l == 5 then 0x200000 else 0x4000000
      match utf8_cont (l - 1) s.tail (c &&& mask) with
      | none => INVALID_CHAR
      | some v =>
        if v < min then INVALID_CHAR
        else if (0xd800 ≤ v && v ≤ 0xdfff) || v == 0xfffe || v == 0xffff then INVALID_CHAR
        else v

/-! ## The C library: `strtoll` and `snprintf` -/

/-- The digits of `strtoll` in the given base: the accumulated value, whether a digit
was read, and the rest of the text. -/
def strtoll_digits (base : Nat) : Bytes → Nat → Bool → Nat × Bool × Bytes
  | [], acc, any => (acc, any, [])
  | c :: s, acc, any =>
    if qe_digit_value c < base then strtoll_digits base s (acc * base + qe_digit_value c) true
    else (acc, any, c :: s)

/-- Leading white space skipped by `strtoll`. -/
def strtoll_skip : Bytes → Bytes
  | [] => []
  | c :: s => if qe_isspace c then strtoll_skip s else c :: s

/-- Modelled from the spec: the C-style numeric conversion `strtoll(s, &end, 0)`: optional
white space and sign, base 16 after `0x`, base 8 after `0`, else decimal; the value
saturates at the 64-bit limits; with no digit the value is 0 and `end` is `s`. -/
def strtoll_c (s : Bytes) : Int × Bytes :=
  let t := strtoll_skip s
  let neg := t.headD 0 == 45
  let t := if t.headD 0 == 45 || t.headD 0 == 43 then t.tail else t
  let hex := t.headD 0 == 48 && (t.tail.headD 0 == 120 || t.tail.headD 0 == 88)
             && qe_isxdigit (t.tail.tail.headD 0)
  let base := if hex then 16 else if t.headD 0 == 48 then 8 else 10
  let t := if hex then t.tail.tail else t
  match strtoll_digits base t 0 false with
  | (acc, any, rest) =>
    if any then
      (if neg then (if acc ≤ 9223372036854775808 then -(acc : Int) else LLONG_MIN)
       else (if acc ≤ 9223372036854775807 then (acc : Int) else LLONG_MAX), rest)
    else (0, s)

/-- The value of `strtoll(s, NULL, 0)`. -/
def strtoll (s : Bytes) : Int := (strtoll_c s).1

/-- Digits of `n` in `base`, most significant first, onto `acc` (`fuel` bounds the count). -/
def nat_digits (base : Nat) (upper : Bool) : Nat → Nat → Bytes → Bytes
  | 0, _, acc => acc
  | fuel + 1, n, acc =>
    let d := n % base
    let ch := if d < 10 then 48 + d else if upper then 55 + d else 87 + d
    if n / base == 0 then ch :: acc else nat_digits base upper fuel (n / base) (ch :: acc)

/-- The text of a natural number in a base from 2 to 16 (64 digits suffice below 2^64). -/
def fmt_nat (base : Nat) (upper : Bool) (n : Nat) : Bytes := nat_digits base upper 64 n []

/-- Modelled from the spec: `snprintf(buf, size, "%lld", v)`, the decimal text of a signed
64-bit integer. -/
def fmt_lld (v : Int) : Bytes :=
  if v < 0 then 45 :: fmt_nat 10 false (-v).toNat else fmt_nat 10 false v.toNat

/-! ## Tokens, precedences and the operator table -/

def TOK_EOF : Int := -1
def TOK_ERR : Int := -2
def TOK_VOID : Int := 0
def TOK_NUMBER : Int := 128
def TOK_STRING : Int := 129
def TOK_CHAR : Int := 130
def TOK_ID : Int := 131
def TOK_IF : Int := 132
def TOK_ELSE : Int := 133
def TOK_MUL_EQ : Int := 134
def TOK_DIV_EQ : Int := 135
def TOK_MOD_EQ : Int := 136
def TOK_ADD_EQ : Int := 137
def TOK_SUB_EQ : Int := 138
def TOK_SHL_EQ : Int := 139
def TOK_SHR_EQ : Int := 140
def TOK_AND_EQ : Int := 141
def TOK_XOR_EQ : Int := 142
def TOK_OR_EQ : Int := 143
def TOK_EQ : Int := 144
def TOK_NE : Int := 145
def TOK_SHL : Int := 146
def TOK_SHR : Int := 147
def TOK_LE : Int := 148
def TOK_GE : Int := 149
def TOK_INC : Int := 150
def TOK_DEC : Int := 151
def TOK_LOR : Int := 152
def TOK_LAND : Int := 153

def PREC_NONE : Nat := 0
def PREC_EXPRESSION : Nat := 1
def PREC_ASSIGNMENT : Nat := 2
def PREC_CONDITIONAL : Nat := 3
def PREC_LOGICAL_OR : Nat := 4
def PREC_LOGICAL_AND : Nat := 5
def PREC_BITOR : Nat := 6
def PREC_BITXOR : Nat := 7
def PREC_BITAND : Nat := 8
def PREC_EQUALITY : Nat := 9
def PREC_RELATIONAL : Nat := 10
def PREC_SHIFT : Nat := 11
def PREC_ADDITIVE : Nat := 12
def PREC_MULTIPLICATIVE : Nat := 13
def PREC_POSTFIX : Nat := 14

/-- An entry of the operator table: spelling, token code, precedence class. -/
structure opdef where
  str : Bytes
  op : Int
  prec : Nat
deriving DecidableEq, Repr

/-- The operator table `ops` (full configuration), in the order of the source. -/
def ops : List opdef := [
  ⟨[33], 33, PREC_NONE⟩,
  ⟨[33, 61], TOK_NE, PREC_EQUALITY⟩,
  ⟨[37], 37, PREC_MULTIPLICATIVE⟩,
  ⟨[37, 61], TOK_MOD_EQ, PREC_ASSIGNMENT⟩,
  ⟨[38], 38, PREC_BITAND⟩,
  ⟨[38, 38], TOK_LAND, PREC_LOGICAL_AND⟩,
  ⟨[38, 61], TOK_AND_EQ, PREC_ASSIGNMENT⟩,
  ⟨[40], 40, PREC_POSTFIX⟩,
  ⟨[41], 41, PREC_NONE⟩,
  ⟨[42], 42, PREC_MULTIPLICATIVE⟩,
  ⟨[42, 61], TOK_MUL_EQ, PREC_ASSIGNMENT⟩,
  ⟨[43], 43, PREC_ADDITIVE⟩,
  ⟨[43, 43], TOK_INC, PREC_POSTFIX⟩,
  ⟨[43, 61], TOK_ADD_EQ, PREC_ASSIGNMENT⟩,
  ⟨[44], 44, PREC_EXPRESSION⟩,
  ⟨[45], 45, PREC_ADDITIVE⟩,
  ⟨[45, 45], TOK_DEC, PREC_POSTFIX⟩,
  ⟨[45, 61], TOK_SUB_EQ, PREC_ASSIGNMENT⟩,
  ⟨[46], 46, PREC_POSTFIX⟩,
  ⟨[47], 47, PREC_MULTIPLICATIVE⟩,
  ⟨[47, 61], TOK_DIV_EQ, PREC_ASSIGNMENT⟩,
  ⟨[58], 58, PREC_NONE⟩,
  ⟨[59], 59, PREC_NONE⟩,
  ⟨[60], 60, PREC_SHIFT⟩,
  ⟨[60, 60], TOK_SHL, PREC_SHIFT⟩,
  ⟨[60, 60, 61], TOK_SHL_EQ, PREC_ASSIGNMENT⟩,
  ⟨[60, 61], TOK_LE, PREC_RELATIONAL⟩,
  ⟨[61], 61, PREC_ASSIGNMENT⟩,
  ⟨[61, 61], TOK_EQ, PREC_EQUALITY⟩,
  ⟨[62], 62, PREC_SHIFT⟩,
  ⟨[62, 61], TOK_GE, PREC_RELATIONAL⟩,
  ⟨[62, 62], TOK_SHR, PREC_SHIFT⟩,
  ⟨[62, 62, 61], TOK_SHR_EQ, PREC_ASSIGNMENT⟩,
  ⟨[63], 63, PREC_CONDITIONAL⟩,
  ⟨[91], 91, PREC_POSTFIX⟩,
  ⟨[93], 93, PREC_NONE⟩,
  ⟨[94], 94, PREC_BITXOR⟩,
  ⟨[94, 61], TOK_XOR_EQ, PREC_ASSIGNMENT⟩,
  ⟨[123], 123, PREC_NONE⟩,
  ⟨[124], 124, PREC_BITOR⟩,
  ⟨[124, 61], TOK_OR_EQ, PREC_ASSIGNMENT⟩,
  ⟨[124, 124], TOK_LOR, PREC_LOGICAL_OR⟩,
  ⟨[125], 125, PREC_NONE⟩,
  ⟨[126], 126, PREC_NONE⟩ ]

/-! ## Values, errors and the host -/

/-- The union `u` of a value slot: the integer member or the string pointer member. -/
inductive QEUnion where
  | value (v : Int)
  | str (s : Bytes)
deriving DecidableEq, Repr

/-- Reading `u.value`.  A slot that holds a live string pointer reads as the pointer
bits, which are not zero; the model uses 1 for them. -/
def QEUnion.asValue : QEUnion → Int
  | .value v => v
  | .str _ => 1

/-- Reading `u.str`; the null pointer (integer member) reads as the empty text. -/
def QEUnion.asStr : QEUnion → Bytes
  | .value _ => []
  | .str s => s

/-- A value slot `QEValue`: type tag, ownership flag, string length and the union. -/
structure QEValue where
  type : Int
  alloc : Bool
  len : Nat
  u : QEUnion
deriving DecidableEq, Repr

/-- A zeroed slot, as `memset` leaves it. -/
def QEValue.zero : QEValue := ⟨0, false, 0, .value 0⟩

instance : Inhabited QEValue := ⟨QEValue.zero⟩

/-- Modelled from the spec: `qe_cfg_set_void`, releases an owned buffer (the freed pointer
is nulled) and tags the slot void. -/
def qe_cfg_set_void (v : QEValue) : QEValue :=
  if v.alloc then { v with type := TOK_VOID, alloc := false, u := .value 0 }
  else { v with type := TOK_VOID }

/-- Modelled from the spec: `qe_cfg_set_num`, releases an owned buffer and stores a number. -/
def qe_cfg_set_num (v : QEValue) (n : Int) : QEValue :=
  { v with type := TOK_NUMBER, alloc := false, u := .value n }

/-- Modelled from the spec: `qe_cfg_set_char`, releases an owned buffer and stores a
character code. -/
def qe_cfg_set_char (v : QEValue) (c : Int) : QEValue :=
  { v with type := TOK_CHAR, alloc := false, u := .value c }

/-- Modelled from the spec: `qe_cfg_set_str`, releases an owned buffer and stores an owned
copy of the first `len` bytes of `s`. -/
def qe_cfg_set_str (_v : QEValue) (s : Bytes) (len : Nat) : QEValue :=
  { type := TOK_STRING, alloc := true, len := len, u := .str (s.take len) }

/-- Modelled from the spec: `qe_cfg_set_pstr`, releases an owned buffer and takes over the
heap buffer `s` of length `len`. -/
def qe_cfg_set_pstr (_v : QEValue) (s : Bytes) (len : Nat) : QEValue :=
  { type := TOK_STRING, alloc := true, len := len, u := .str s }

/-- The error messages of the interpreter, one constructor per `put_error` format. -/
inductive QError where
  | unterminated_string
  | invalid_number
  | unsupported_operator_byte (c : Nat)
  | expected (tok : Int)
  | no_variable (name : Bytes)
  | not_a_variable
  | stack_overflow
  | invalid_expression
  | unknown_command (name : Bytes)
  | invalid_function_call
  | expected_property_name
  | no_such_property (name : Bytes)
  | unsupported_operator (op : Int)
  | invalid_string_operator (op : Int)
  | division_overflow (op : Int)
  | invalid_numeric_operator (op : Int)
  | invalid_argument
  | missing_arguments
  | extra_arguments
  | invalid_command_definition (name : Bytes)
  | missing_arguments_for (name : Bytes)
  | too_many_arguments_for (name : Bytes)
  | missing_semicolon
  | missing_brace
  | read_only
deriving DecidableEq, Repr

/-- What the variable broker answers for a name. -/
inductive VarValue where
  | number (n : Int)
  | string (s : Bytes)
  | chars (s : Bytes)
deriving DecidableEq, Repr

/-- An argument handed to a host command: the window, an `int`, or a string pointer. -/
inductive CmdArg where
  | s
  | n (v : Int)
  | p (str : Option Bytes)
deriving DecidableEq, Repr

/-- A host command definition `CmdDef`: name, argument spec string and the integer
constant `val`. -/
structure CmdDef where
  name : Bytes
  spec : Bytes
  val : Int
deriving DecidableEq, Repr

/-- One answer of the host argument parser `parse_arg`: the return code, the argument
type, the prompt and the rest of the spec string. -/
structure CmdArgSpec where
  ret : Int
  arg_type : Nat
  prompt : Bytes
  rest : Bytes
deriving DecidableEq, Repr

/-- Modelled from the spec: the host editor behind `EditState *s`: the variable broker
(the newest binding of a name first, so a read returns the value last set), the command
registry, the argument parser, the buffer and window state, and the log of command calls. -/
structure Host where
  vars : List (Bytes × VarValue)
  cmds : List CmdDef
  parse_arg : Bytes → CmdArgSpec
  max_cmd_args : Nat
  read_only : Bool
  mark : Int
  offset : Int
  total_size : Int
  calls : List (Bytes × List CmdArg)

/-- Modelled from the spec: `qe_get_variable`, the broker's answer for `name`. -/
def qe_get_variable (h : Host) (name : Bytes) : Option VarValue :=
  (h.vars.find? (fun e => e.1 == name)).map (fun e => e.2)

/-- Modelled from the spec: `qe_set_variable`, the broker's setter: a string when `value`
is given, else the number. -/
def qe_set_variable (h : Host) (name : Bytes) (value : Option Bytes) (num : Int) : Host :=
  { h with vars := (name, match value with
                          | some s => VarValue.string (cstr s)
                          | none => VarValue.number num) :: h.vars }

/-- Modelled from the spec: `qe_find_cmd`, the command registered under `name`. -/
def qe_find_cmd (h : Host) (name : Bytes) : Option CmdDef :=
  h.cmds.find? (fun d => d.name == name)

/-- The interpreter context `QEmacsDataSource`.  `lineno` is the line of the host error
context `ec.lineno`; `errors` collects what `put_error` reports, each with that line. -/
structure QEmacsDataSource where
  s : Host
  allocated_buf : Bool
  buf : Bytes
  p : Bytes
  start_p : Bytes
  line_num : Nat
  start_line : Nat
  newline_seen : Bool
  tok : Int
  prec : Nat
  len : Nat
  sp_max : Nat
  stack : List QEValue
  str : Bytes
  lineno : Nat
  errors : List (Nat × QError)

/-- Modelled from the spec: `put_error`, reports a message with the current line of the
error context. -/
def put_error (ds : QEmacsDataSource) (e : QError) : QEmacsDataSource :=
  { ds with errors := ds.errors ++ [(ds.lineno, e)] }

/-- The slot `stack[i]`. -/
def slot (ds : QEmacsDataSource) (i : Nat) : QEValue := ds.stack.getD i QEValue.zero

/-- Writing `stack[i]`; a write behind the last slot lengthens the list, so that
a stack longer than 16 records an access outside the array. -/
def set_slot (ds : QEmacsDataSource) (i : Nat) (v : QEValue) : QEmacsDataSource :=
  if i < ds.stack.length then { ds with stack := ds.stack.set i v }
  else { ds with stack := ds.stack ++ List.replicate (i - ds.stack.length) QEValue.zero ++ [v] }

/-! ## The lexer -/

/-- The escape-sequence digits of `\x`, `\u` and `\U`: reads hex digits while `maxc`
(counted down, never reaching 0 from -1) allows, accumulating a C `int`. -/
def parse_hex : Bytes → Int → Int → Int × Bytes
  | [], _, c => (c, [])
  | d :: p, maxc, c =>
    if qe_isxdigit d && maxc != 0 then
      parse_hex p (maxc - 1) (wrap32 (c * 16 + ((qe_digit_value d : Nat) : Int)))
    else (c, d :: p)

/-- The loop of `qe_cfg_parse_string`: returns `res`, the pointer `*pp` and the bytes
`dest[0..pos)`.  `end_` is `size - 1`. -/
def parse_string_loop (delim : Nat) (end_ : Nat) : Nat → Bytes → Bytes → Int × Bytes × Bytes
  | 0, p, dest => (-1, p, dest)
  | fuel + 1, p, dest =>
    let c := p.headD 0
    if c == 10 || c == 0 then (-1, p, dest)
    else
      let p := p.tail
      if c == delim then (0, p, dest)
      else if c == 92 then
        let c := p.headD 0
        let p := p.tail
        if c == 85 || c == 117 || c == 120 then
          let maxc : Int := if c == 85 then 8 else if c == 117 then 4 else -1
          match parse_hex p maxc 0 with
          | (code, p) =>
            let cbuf := utf8_encode code
            parse_string_loop delim end_ fuel p
              (if dest.length + cbuf.length < end_ then dest ++ cbuf else dest)
        else
          let (c, p) :=
            if c == 110 then (10, p)
            else if c == 114 then (13, p)
            else if c == 116 then (9, p)
            else if c == 97 then (7, p)
            else if c == 98 then (8, p)
            else if c == 101 then (27, p)
            else if c == 102 then (12, p)
            else if c == 118 then (11, p)
            else if qe_isoctdigit c then
              let c := c - 48
              if qe_isoctdigit (p.headD 0) then
                let c := c * 8 + (p.headD 0 - 48)
                let p := p.tail
                if c < 32 && qe_isoctdigit (p.headD 0) then (c * 8 + (p.headD 0 - 48), p.tail)
                else (c, p)
              else (c, p)
            else (c, p)
          parse_string_loop delim end_ fuel p (if dest.length < end_ then dest ++ [c] else dest)
      else parse_string_loop delim end_ fuel p (if dest.length < end_ then dest ++ [c] else dest)

/-- The function `qe_cfg_parse_string` on the text after the opening quote: the result
code, the new pointer, the buffer `dest` up to and including its NUL, and `*plen`.
An error is reported by the caller's wrapper below. -/
def qe_cfg_parse_string (p : Bytes) (delim : Nat) (size : Nat) : Int × Bytes × Bytes × Nat :=
  match parse_string_loop delim (size - 1) (p.length + 1) p [] with
  | (res, p, dest) => (res, p, dest ++ [0], dest.length)

/-- The identifier loop of the lexer: consumes letters, digits, `_` and every `-` that a
letter follows, storing `_` as `-`, at most 255 bytes in all. -/
def scan_ident : Bytes → Bytes → Bytes × Bytes
  | [], str => ([], str)
  | c :: p, str =>
    if qe_isalnum_ c || (c == 45 && qe_isalpha (p.headD 0)) then
      scan_ident p (if str.length < 255 then str ++ [if c == 95 then 45 else c] else str)
    else (c :: p, str)

/-- The body of a line comment: everything up to the newline or the NUL. -/
def skip_line_comment : Bytes → Bytes
  | [] => []
  | c :: p => if c != 0 && c != 10 then skip_line_comment p else c :: p

/-- The body of a block comment, entered with `p` at the `*` of `/*`: returns the pointer
behind the closing `*/` (or at the NUL) and the number of newlines passed. -/
def skip_block_comment : Bytes → Nat → Bytes × Nat
  | [], n => ([], n)
  | _ :: q, n =>
    match q with
    | [] => ([], n)
    | c :: r =>
      if c == 0 then (q, n)
      else if c == 42 && r.headD 0 == 47 then (r.tail, n)
      else skip_block_comment q (if c == 10 then n + 1 else n)

/-- One operator spelling against the input that starts at the current byte: the rest of
the input behind the operator when all of the spelling matches. -/
def op_match : Bytes → Bytes → Option Bytes
  | _, [] => none
  | s, [k] => if s.headD 0 == k then some s.tail else none
  | s, k :: k2 :: ks => if s.headD 0 == k then op_match s.tail (k2 :: ks) else none

/-- The operator scan, over the table from its last entry to its first. -/
def scan_ops : List opdef → Bytes → Option (opdef × Bytes)
  | [], _ => none
  | op :: rest, s =>
    match op_match s op.str with
    | some p => some (op, p)
    | none => scan_ops rest s

/-- The lexer's part of the context: the fields of `QEmacsDataSource` that
`qe_cfg_next_token` reads and writes, the line `lineno` of the host error context, and the
error this call reports, if any. -/
structure Lexer where
  p : Bytes
  start_p : Bytes
  line_num : Nat
  start_line : Nat
  newline_seen : Bool
  tok : Int
  prec : Nat
  len : Nat
  str : Bytes
  lineno : Nat
  err : Option QError
deriving DecidableEq, Repr

/-- The token cases of the loop body of `qe_cfg_next_token`: identifier, number, string or
character literal and operator.  `c` is the first byte of the token and `p` points behind
it; `lx.start_p` points at it. -/
def scan_token (lx : Lexer) (c : Nat) (p : Bytes) : Lexer :=
  if qe_isalpha_ c then
    let str := (scan_ident p [c]).2
    let lx := { lx with str := str ++ [0], len := str.length, p := (scan_ident p [c]).1 }
    if str.length == 2 && lx.start_p.take 2 == [105, 102] then { lx with tok := TOK_IF }
    else if str.length == 4 && lx.start_p.take 4 == [101, 108, 115, 101] then
      { lx with tok := TOK_ELSE }
    else { lx with tok := TOK_ID }
  else if qe_isdigit c then
    let lx := { lx with p := (strtoll_c lx.start_p).2 }
    if qe_isalnum_ (lx.p.headD 0) then
      { lx with err := some QError.invalid_number, tok := TOK_ERR }
    else { lx with tok := TOK_NUMBER }
  else if c == 39 || c == 34 then
    match qe_cfg_parse_string p c 256 with
    | (res, p, str, len) =>
      if res < 0 then
        { lx with p := p, str := str, len := len, err := some QError.unterminated_string,
                  tok := TOK_ERR }
      else if c == 39 then { lx with p := p, str := str, len := len, tok := TOK_CHAR }
      else { lx with p := p, str := str, len := len, tok := TOK_STRING }
  else
    match scan_ops ops.reverse (c :: p) with
    | some (op, p) => { lx with p := p, prec := op.prec, tok := op.op }
    | none => { lx with p := p, err := some (QError.unsupported_operator_byte c),
                        tok := (c : Int) }

/-- The main loop of `qe_cfg_next_token`, with `p` the local pointer: end of input, white
space and comments, and then the token cases. -/
def next_token_loop : Nat → Lexer → Bytes → Lexer
  | 0, lx, p => { lx with p := p, tok := TOK_EOF }
  | fuel + 1, lx, p =>
    let lx := { lx with start_p := p, start_line := lx.line_num, prec := PREC_NONE }
    let c := p.headD 0
    if c == 0 then { lx with p := p, tok := TOK_EOF }
    else
      let p := p.tail
      if c == 10 then
        next_token_loop fuel
          { lx with newline_seen := true, line_num := lx.line_num + 1,
                    lineno := lx.line_num + 1 } p
      else if qe_isspace c then next_token_loop fuel lx p
      else if c == 47 && p.headD 0 == 47 then next_token_loop fuel lx (skip_line_comment p)
      else if c == 47 && p.headD 0 == 42 then
        next_token_loop fuel
          (if (skip_block_comment p 0).2 == 0 then lx
           else { lx with line_num := lx.line_num + (skip_block_comment p 0).2,
                          lineno := lx.line_num + (skip_block_comment p 0).2 })
          (skip_block_comment p 0).1
      else scan_token lx c p

/-- The lexer on its own fields: `qe_cfg_next_token` from the pointer `p`, the lines
`line_num` and `lineno` and the token buffer `str`, `len` of the context.  Every round of
the loop consumes a byte, so the length of the remaining text bounds the rounds. -/
def lex (p : Bytes) (line_num lineno : Nat) (len : Nat) (str : Bytes) : Lexer :=
  next_token_loop (p.length + 1)
    { p := p, start_p := [], line_num := line_num, start_line := 0, newline_seen := false,
      tok := 0, prec := 0, len := len, str := str, lineno := lineno, err := none } p

/-- The lexer's fields written back into the context, and its error reported. -/
def store_token (ds : QEmacsDataSource) (lx : Lexer) : QEmacsDataSource :=
  { ds with p := lx.p, start_p := lx.start_p, line_num := lx.line_num,
            start_line := lx.start_line, newline_seen := lx.newline_seen, tok := lx.tok,
            prec := lx.prec, len := lx.len, str := lx.str, lineno := lx.lineno,
            errors := match lx.err with
                      | none => ds.errors
                      | some e => ds.errors ++ [(lx.lineno, e)] }

/-- The lexer `qe_cfg_next_token`. -/
def qe_cfg_next_token (ds : QEmacsDataSource) : QEmacsDataSource :=
  store_token ds (lex ds.p ds.line_num ds.lineno ds.len ds.str)

def has_token (ds : QEmacsDataSource) (tok : Int) : Bool × QEmacsDataSource :=
  if ds.tok == tok then (true, qe_cfg_next_token ds) else (false, ds)

def expect_token (ds : QEmacsDataSource) (tok : Int) : Bool × QEmacsDataSource :=
  if ds.tok == tok then (true, qe_cfg_next_token ds)
  else (false, put_error ds (QError.expected tok))

/-! ## Value conversions -/

def qe_cfg_getvalue (ds : QEmacsDataSource) (sp : Nat) : Int × QEmacsDataSource :=
  let v := slot ds sp
  if v.type == TOK_ID then
    match qe_get_variable ds.s (cstr v.u.asStr) with
    | some (VarValue.chars s) =>
      (0, set_slot ds sp (qe_cfg_set_str v ((cstr s).take 255) ((cstr s).take 255).length))
    | some (VarValue.string s) =>
      (0, set_slot ds sp (qe_cfg_set_str v ((cstr s).take 255) ((cstr s).take 255).length))
    | some (VarValue.number n) => (0, set_slot ds sp (qe_cfg_set_num v (wrap32 n)))
    | none =>
      (1, set_slot (put_error ds (QError.no_variable (cstr v.u.asStr))) sp (qe_cfg_set_void v))
  else (0, ds)

def qe_cfg_tonum (ds : QEmacsDataSource) (sp : Nat) : Int × QEmacsDataSource :=
  match qe_cfg_getvalue ds sp with
  | (r, ds) =>
    if r != 0 then (1, ds)
    else
      let v := slot ds sp
      if v.type == TOK_NUMBER then (0, ds)
      else if v.type == TOK_STRING then (0, set_slot ds sp (qe_cfg_set_num v (strtoll v.u.asStr)))
      else if v.type == TOK_CHAR then (0, set_slot ds sp { v with type := TOK_NUMBER })
      else (0, set_slot ds sp { v with type := TOK_NUMBER, u := .value 0 })

def qe_cfg_tostr (ds : QEmacsDataSource) (sp : Nat) : Int × QEmacsDataSource :=
  match qe_cfg_getvalue ds sp with
  | (r, ds) =>
    if r != 0 then (1, ds)
    else
      let v := slot ds sp
      if v.type == TOK_STRING then (0, ds)
      else if v.type == TOK_NUMBER then
        (0, set_slot ds sp (qe_cfg_set_str v (fmt_lld v.u.asValue) (fmt_lld v.u.asValue).length))
      else if v.type == TOK_CHAR then
        (0, set_slot ds sp (qe_cfg_set_str v (utf8_encode (wrap32 v.u.asValue))
                              (utf8_encode (wrap32 v.u.asValue)).length))
      else (0, set_slot ds sp (qe_cfg_set_str v [] 0))

def qe_cfg_tochar (ds : QEmacsDataSource) (sp : Nat) : Int × QEmacsDataSource :=
  match qe_cfg_getvalue ds sp with
  | (r, ds) =>
    if r != 0 then (1, ds)
    else
      let v := slot ds sp
      if v.type == TOK_STRING then (0, set_slot ds sp (qe_cfg_set_num v (utf8_decode v.u.asStr)))
      else if v.type == TOK_NUMBER || v.type == TOK_CHAR then
        (0, set_slot ds sp { v with type := TOK_CHAR })
      else (0, set_slot ds sp (qe_cfg_set_num v 0))

def qe_cfg_append (ds : QEmacsDataSource) (sp : Nat) (p : Bytes) (len : Nat) :
    Int × QEmacsDataSource :=
  match qe_cfg_tostr ds sp with
  | (r, ds) =>
    if r != 0 then (1, ds)
    else
      let v := slot ds sp
      (0, set_slot ds sp (qe_cfg_set_pstr v (v.u.asStr.take v.len ++ p.take len) (v.len + len)))

def qe_cfg_check_lvalue (ds : QEmacsDataSource) (sp : Nat) : Int × QEmacsDataSource :=
  if (slot ds sp).type != TOK_ID then (1, put_error ds QError.not_a_variable) else (0, ds)

/-! ## Formatting -/

/-- The longest prefix of `s` made of bytes of `set` (`strspn`), and the rest. -/
def span_in (set : Bytes) : Bytes → Bytes × Bytes
  | [] => ([], [])
  | c :: s => if set.contains c then ((span_in set s).1.cons c, (span_in set s).2) else ([], c :: s)

/-- A run of decimal digits read as a number, and the rest. -/
def read_width : Bytes → Nat → Nat × Bytes
  | [], acc => (acc, [])
  | c :: s, acc => if qe_isdigit c then read_width s (acc * 10 + (c - 48)) else (acc, c :: s)

/-- Modelled from the spec: the C library's integer directive `%<spec>ll<conv>` applied to
a 64-bit value, for a well-formed `spec` (flags, width, precision); the output is left
empty for a malformed or cut-off directive. -/
def c_fmt_int (spec : Bytes) (conv : Nat) (v : Int) : Bytes :=
  match span_in [45, 43, 32, 35, 48] spec with
  | (flags, r1) =>
    match read_width r1 0 with
    | (width, r2) =>
      let has_prec := r2.headD 0 == 46
      match read_width (if has_prec then r2.tail else r2) 0 with
      | (prec, r3) =>
        if r3 != [] then []
        else
          let signed := conv == 100 || conv == 105
          let mag : Nat := if signed then v.natAbs else to_u64 v
          let base := if conv == 111 then 8 else if conv == 120 || conv == 88 then 16 else 10
          let digits := if has_prec && prec == 0 && mag == 0 then [] else fmt_nat base (conv == 88) mag
          let digits := List.replicate (prec - digits.length) 48 ++ digits
          let digits := if conv == 111 && flags.contains 35 && digits.headD 0 != 48
                        then 48 :: digits else digits
          let pre : Bytes :=
            if signed then
              (if v < 0 then [45] else if flags.contains 43 then [43]
               else if flags.contains 32 then [32] else [])
            else if (conv == 120 || conv == 88) && flags.contains 35 && mag != 0 then [48, conv]
            else []
          let pad := width - (pre.length + digits.length)
          if flags.contains 45 then pre ++ digits ++ List.replicate pad 32
          else if flags.contains 48 && !has_prec then pre ++ List.replicate pad 48 ++ digits
          else List.replicate pad 32 ++ pre ++ digits

/-- Modelled from the spec: the C library printing a format text with no argument: plain
bytes are copied and `%%` gives `%`; any other directive has no argument to print and the
model drops its `%`. -/
def c_fmt_noargs : Bytes → Bytes
  | [] => []
  | c :: s =>
    if c == 37 then
      match s with
      | [] => []
      | d :: t => if d == 37 then 37 :: c_fmt_noargs t else c_fmt_noargs (d :: t)
    else c :: c_fmt_noargs s

/-- The loop of `qe_cfg_format`.  `start` and `p` point into the format string, `buf` is
the output so far (at most 255 bytes). -/
def format_loop : Nat → QEmacsDataSource → Nat → Bytes → Bytes → Bytes →
    Int × QEmacsDataSource × Bytes
  | 0, ds, _, _, _, buf => (1, ds, buf)
  | fuel + 1, ds, sp, start, p, buf =>
    let p := p.dropWhile (fun c => c != 37 && c != 0)
    let buf := buf ++ (cstr (start.take (start.length - p.length))).take (255 - buf.length)
    if p.headD 0 == 0 then (0, ds, buf)
    else
      let start := p
      let p := p.tail
      if p.headD 0 == 37 then format_loop fuel ds sp start.tail p.tail buf
      else
        let p := (span_in [48, 49, 50, 51, 52, 53, 54, 55, 56, 57, 43, 45, 32, 35, 46] p).2
        let c := p.headD 0
        let p := p.tail
        if [100, 105, 111, 117, 120, 88, 0].contains c then
          match qe_cfg_tonum ds (sp + 1) with
          | (r, ds) =>
            if r != 0 then (1, ds, buf)
            else
              let spec := (start.tail.take (start.length - p.length - 2))
              let out := if c != 0 && spec.length + 4 ≤ 15
                         then c_fmt_int spec c (slot ds (sp + 1)).u.asValue else []
              format_loop fuel ds sp p p (buf ++ out.take (255 - buf.length))
        else if c == 99 || c == 115 then
          match (if c == 99 then qe_cfg_tochar ds (sp + 1) else (0, ds)) with
          | (r, ds) =>
            if r != 0 then (1, ds, buf)
            else
              match qe_cfg_tostr ds (sp + 1) with
              | (r, ds) =>
                if r != 0 then (1, ds, buf)
                else
                  let out := cstr (c_fmt_noargs (cstr (slot ds (sp + 1)).u.asStr))
                  format_loop fuel ds sp p p (buf ++ out.take (255 - buf.length))
        else format_loop fuel ds sp start p buf

def qe_cfg_format (ds : QEmacsDataSource) (sp : Nat) : Int × QEmacsDataSource :=
  match qe_cfg_tostr ds sp with
  | (r, ds) =>
    if r != 0 then (1, ds)
    else
      let str := (slot ds sp).u.asStr
      match format_loop (str.length + 1) ds sp str str [] with
      | (r, ds, buf) =>
        if r != 0 then (1, ds)
        else (0, set_slot ds sp (qe_cfg_set_str (slot ds sp) buf buf.length))

/-! ## Operators -/

/-- The sign of `strcmp(a, b)` on C strings. -/
def strcmp : Bytes → Bytes → Int
  | [], [] => 0
  | [], d :: _ => if d == 0 then 0 else -1
  | c :: _, [] => if c == 0 then 0 else 1
  | c :: a, d :: b =>
    if c < d then -1 else if d < c then 1 else if c == 0 then 0 else strcmp a b

/-- Bitwise operation on two signed 64-bit values through their unsigned patterns. -/
def bitop (f : Nat → Nat → Nat) (a b : Int) : Int := wrap64 (f (to_u64 a) (to_u64 b))

/-- The numeric part of `qe_cfg_op` (label `num`): `a` is `sp->u.value`, `b` is
`sp[1].u.value`; `none` stands for a reported error.  A shift count is taken modulo 64. -/
def num_op (op : Int) (a b : Int) : Except QError Int :=
  if op == 42 || op == TOK_MUL_EQ then .ok (wrap64 (a * b))
  else if op == 47 || op == 37 || op == TOK_DIV_EQ || op == TOK_MOD_EQ then
    if b == 0 || (a == LLONG_MIN && b == -1) then .error (QError.division_overflow op)
    else if op == 47 || op == TOK_DIV_EQ then .ok (Int.tdiv a b)
    else .ok (Int.tmod a b)
  else if op == 43 || op == TOK_ADD_EQ || op == TOK_INC then .ok (wrap64 (a + b))
  else if op == 45 || op == TOK_SUB_EQ || op == TOK_DEC then .ok (wrap64 (a - b))
  else if op == TOK_SHL || op == TOK_SHL_EQ then .ok (wrap64 (a * 2 ^ (to_u64 b % 64)))
  else if op == TOK_SHR || op == TOK_SHR_EQ then .ok (a / 2 ^ (to_u64 b % 64))
  else if op == 60 then .ok (if a < b then 1 else 0)
  else if op == 62 then .ok (if a > b then 1 else 0)
  else if op == TOK_LE then .ok (if a ≤ b then 1 else 0)
  else if op == TOK_GE then .ok (if a ≥ b then 1 else 0)
  else if op == TOK_EQ then .ok (if a == b then 1 else 0)
  else if op == TOK_NE then .ok (if a != b then 1 else 0)
  else if op == 38 || op == TOK_AND_EQ then .ok (bitop Nat.land a b)
  else if op == 94 || op == TOK_XOR_EQ then .ok (bitop Nat.xor a b)
  else if op == 124 || op == TOK_OR_EQ then .ok (bitop Nat.lor a b)
  else if op == TOK_LAND then .ok (if a != 0 && b != 0 then 1 else 0)
  else if op == TOK_LOR then .ok (if a != 0 || b != 0 then 1 else 0)
  else if op == 63 || op == 44 then .ok b
  else .error (QError.invalid_numeric_operator op)

/-- The label `num` of `qe_cfg_op`: applies the numeric operator to the two slots. -/
def qe_cfg_op_num (ds : QEmacsDataSource) (sp : Nat) (op : Int) : Int × QEmacsDataSource :=
  let v := slot ds sp
  match num_op op v.u.asValue (slot ds (sp + 1)).u.asValue with
  | .ok r => (0, set_slot ds sp { v with u := .value r })
  | .error e => (1, put_error ds e)

/-- The function `qe_cfg_op`.  The subscript reads `sp->u.str[i]` through a `char *`, with
`char` signed as on the x86 targets: a byte from 128 up is the negative value byte - 256. -/
def qe_cfg_op (ds : QEmacsDataSource) (sp : Nat) (op : Int) : Int × QEmacsDataSource :=
  if (slot ds sp).type == TOK_STRING then
    if op == 60 || op == 62 || op == TOK_LE || op == TOK_GE || op == TOK_EQ || op == TOK_NE then
      match qe_cfg_tostr ds (sp + 1) with
      | (r, ds) =>
        if r != 0 then (1, ds)
        else
          let ds := set_slot ds sp (qe_cfg_set_num (slot ds sp)
                      (strcmp (slot ds sp).u.asStr (slot ds (sp + 1)).u.asStr))
          let ds := set_slot ds (sp + 1) (qe_cfg_set_num (slot ds (sp + 1)) 0)
          qe_cfg_op_num ds sp op
    else if op == 43 || op == TOK_ADD_EQ then
      match qe_cfg_tostr ds (sp + 1) with
      | (r, ds) =>
        if r != 0 then (1, ds)
        else qe_cfg_append ds sp (slot ds (sp + 1)).u.asStr (slot ds (sp + 1)).len
    else if op == 91 then
      match qe_cfg_tonum ds (sp + 1) with
      | (r, ds) =>
        if r != 0 then (1, ds)
        else
          let i := (slot ds (sp + 1)).u.asValue
          let v := slot ds sp
          if 0 ≤ i && i < (v.len : Int) then
            (0, set_slot ds sp (qe_cfg_set_char v
                  (let b := v.u.asStr.getD i.toNat 0; if b < 128 then (b : Int) else (b : Int) - 256)))
          else (0, set_slot ds sp (qe_cfg_set_void v))
    else if op == 37 then qe_cfg_format ds sp
    else (1, put_error ds (QError.invalid_string_operator op))
  else
    match qe_cfg_tonum ds sp with
    | (r, ds) =>
      if r != 0 then (1, ds)
      else
        match qe_cfg_tonum ds (sp + 1) with
        | (r, ds) => if r != 0 then (1, ds) else qe_cfg_op_num ds sp op

def qe_cfg_assign (ds : QEmacsDataSource) (sp : Nat) (op : Int) : Int × QEmacsDataSource :=
  match qe_cfg_check_lvalue ds sp with
  | (r, ds) =>
    if r != 0 then (1, ds)
    else
      match qe_cfg_getvalue ds (sp + 1) with
      | (r, ds) =>
        if r != 0 then (1, ds)
        else
          let store (ds : QEmacsDataSource) : Int × QEmacsDataSource :=
            let name := cstr (slot ds sp).u.asStr
            let v1 := slot ds (sp + 1)
            if v1.type == TOK_STRING then
              (0, { ds with s := qe_set_variable ds.s name (some v1.u.asStr) 0 })
            else (0, { ds with s := qe_set_variable ds.s name none v1.u.asValue })
          if op != 61 then
            let val := slot ds sp
            let ds := set_slot ds sp { val with alloc := false }
            match qe_cfg_getvalue ds sp with
            | (r, ds) =>
              if r != 0 then (1, ds)
              else
                match qe_cfg_op ds sp op with
                | (r, ds) =>
                  if r != 0 then (1, ds)
                  else
                    let ds := set_slot ds (sp + 1) (slot ds sp)
                    store (set_slot ds sp val)
          else store ds

/-- The function `qe_cfg_skip_expr`, with `level` the bracket depth so far. -/
def qe_cfg_skip_expr : Nat → QEmacsDataSource → Nat → Option (Int × QEmacsDataSource)
  | 0, _, _ => none
  | fuel + 1, ds, level =>
    if ds.tok == TOK_EOF then some (1, ds)
    else if ds.tok == 63 || ds.tok == 123 || ds.tok == 91 || ds.tok == 40 then
      qe_cfg_skip_expr fuel (qe_cfg_next_token ds) (level + 1)
    else if ds.tok == 58 || ds.tok == 125 || ds.tok == 93 || ds.tok == 41 then
      if level == 0 then some (1, ds)
      else qe_cfg_skip_expr fuel (qe_cfg_next_token ds) (level - 1)
    else if ds.tok == 59 then
      if level == 0 then some (1, ds)
      else qe_cfg_skip_expr fuel (qe_cfg_next_token ds) level
    else qe_cfg_skip_expr fuel (qe_cfg_next_token ds) level

/-! ## Host command arguments -/

def CMD_ARG_INT : Nat := 0
def CMD_ARG_INTVAL : Nat := 1
def CMD_ARG_STRING : Nat := 2
def CMD_ARG_STRINGVAL : Nat := 3
def CMD_ARG_WINDOW : Nat := 4
def CMD_ARG_TYPE_MASK : Nat := 0x0f
def CMD_ARG_RAW_ARGVAL : Nat := 0x10
def CMD_ARG_NUM_ARGVAL : Nat := 0x20
def CMD_ARG_NEG_ARGVAL : Nat := 0x30
def CMD_ARG_USE_MARK : Nat := 0x40
def CMD_ARG_USE_POINT : Nat := 0x50
def CMD_ARG_USE_ZERO : Nat := 0x60
def CMD_ARG_USE_BSIZE : Nat := 0x70

/-- The constant `NO_ARG`, the smallest C `int`. -/
def NO_ARG : Int := -2147483648

/-- The loop of `qe_cfg_call` that collects the argument types of a command: `none` when
the definition is invalid, else the types behind the window argument and the last prompt.
After `max_cmd_args` rounds the next argument is refused, which bounds the loop. -/
def collect_arg_types (h : Host) : Nat → Bytes → List Nat → Bytes → Option (List Nat × Bytes)
  | 0, _, _, _ => none
  | fuel + 1, r, types, prompt =>
    let cas := h.parse_arg r
    if cas.ret == 0 then some (types, prompt)
    else if cas.ret < 0 || types.length ≥ h.max_cmd_args then none
    else collect_arg_types h fuel cas.rest (types ++ [cas.arg_type]) cas.prompt

/-- Bitwise or of two result codes (`res |= ...`). -/
def res_or (a b : Int) : Int := bitop Nat.lor a b

/-- The default of an omitted argument of type `t`, if it has one. -/
def default_arg (h : Host) (t : Nat) : Option Int :=
  if t == CMD_ARG_INT ||| CMD_ARG_RAW_ARGVAL then some NO_ARG
  else if t == CMD_ARG_INT ||| CMD_ARG_NUM_ARGVAL then some 1
  else if t == CMD_ARG_INT ||| CMD_ARG_NEG_ARGVAL then some (-1)
  else if t == CMD_ARG_INT ||| CMD_ARG_USE_MARK then some (wrap32 h.mark)
  else if t == CMD_ARG_INT ||| CMD_ARG_USE_POINT then some (wrap32 h.offset)
  else if t == CMD_ARG_INT ||| CMD_ARG_USE_ZERO then some 0
  else if t == CMD_ARG_INT ||| CMD_ARG_USE_BSIZE then some (wrap32 h.total_size)
  else none

/-- Modelled from the spec: `call_func`, the host invoker; the model records the command
and its argument vector. -/
def call_func (h : Host) (d : CmdDef) (args : List CmdArg) : Host :=
  { h with calls := h.calls ++ [(d.name, args)] }

/-! ## The evaluator -/

/-- The label `fail` of `qe_cfg_expr`: rewinds to the start of the expression and skips it. -/
def expr_fail (fuel : Nat) (ds : QEmacsDataSource) (start_p : Bytes) (start_line : Nat) :
    Option (Int × QEmacsDataSource) :=
  qe_cfg_skip_expr fuel (qe_cfg_next_token { ds with p := start_p, line_num := start_line }) 0

/-- A call whose non-zero result sends control to `fail` and whose zero result lets it
go on with `k`, as in `if (call) goto fail;`.  No result (the fuel ran out) is passed on. -/
def chk (r : Option (Int × QEmacsDataSource))
    (fail k : QEmacsDataSource → Option (Int × QEmacsDataSource)) :
    Option (Int × QEmacsDataSource) :=
  match r with
  | none => none
  | some (c, ds) => if c != 0 then fail ds else k ds

/-- A call whose result code is examined by what follows it. -/
def after (r : Option (Int × QEmacsDataSource))
    (k : Int → QEmacsDataSource → Option (Int × QEmacsDataSource)) :
    Option (Int × QEmacsDataSource) :=
  match r with
  | none => none
  | some (c, ds) => k c ds

/-- The same for a helper that always returns. -/
def chk1 (r : Int × QEmacsDataSource)
    (fail k : QEmacsDataSource → Option (Int × QEmacsDataSource)) :
    Option (Int × QEmacsDataSource) :=
  match r with
  | (c, ds) => if c != 0 then fail ds else k ds

/-- The same for `has_token` and `expect_token`: a missing token sends control to `fail`. -/
def chkb (r : Bool × QEmacsDataSource)
    (fail k : QEmacsDataSource → Option (Int × QEmacsDataSource)) :
    Option (Int × QEmacsDataSource) :=
  match r with
  | (ok, ds) => if ok then k ds else fail ds

/-- The end of an expression statement in `qe_cfg_stmt`: consumes `;` if any, else
complains unless the statement ends at EOF, at a closing brace or before a newline. -/
def stmt_end (res : Int) (ds : QEmacsDataSource) : Option (Int × QEmacsDataSource) :=
  match has_token ds 59 with
  | (true, ds) => some (res, ds)
  | (false, ds) =>
    if ds.tok != TOK_EOF && ds.tok != 125 && !ds.newline_seen then
      some (res, put_error ds QError.missing_semicolon)
    else some (res, ds)

/-- The truth value of a condition slot: `(sp->type == TOK_STRING) || (sp->u.value != 0)`. -/
def truth_of (v : QEValue) : Bool := v.type == TOK_STRING || v.u.asValue != 0

mutual

/-- The function `qe_cfg_expr`: entry, skip mode and the stack check. -/
def qe_cfg_expr : Nat → QEmacsDataSource → Nat → Nat → Bool → Option (Int × QEmacsDataSource)
  | 0, _, _, _, _ => none
  | fuel + 1, ds, sp, prec0, skip =>
    if skip then qe_cfg_skip_expr fuel ds 0
    else if sp ≥ ds.sp_max then
      if sp ≥ 16 then qe_cfg_skip_expr fuel (put_error ds QError.stack_overflow) 0
      else expr_again fuel { ds with sp_max := sp + 1 } sp prec0 ds.tok ds.start_p ds.line_num
    else expr_again fuel ds sp prec0 ds.tok ds.start_p ds.line_num
termination_by structural fuel => fuel

/-- The label `again` of `qe_cfg_expr`: the prefix switch on the local `tok`, which holds
the token kind the function was entered with. -/
def expr_again : Nat → QEmacsDataSource → Nat → Nat → Int → Bytes → Nat →
    Option (Int × QEmacsDataSource)
  | 0, _, _, _, _, _, _ => none
  | fuel + 1, ds, sp, prec0, tok, start_p, start_line =>
    if tok == 40 then
      chk (qe_cfg_expr fuel (qe_cfg_next_token ds) sp PREC_EXPRESSION false)
        (fun ds => expr_fail fuel ds start_p start_line) fun ds =>
      chkb (expect_token ds 41)
        (fun ds => expr_fail fuel ds start_p start_line) fun ds =>
      expr_loop fuel ds sp prec0 tok start_p start_line
    else if tok == 45 then
      chk (qe_cfg_expr fuel (qe_cfg_next_token ds) sp PREC_POSTFIX false)
        (fun ds => expr_fail fuel ds start_p start_line) fun ds =>
      chk1 (qe_cfg_tonum ds sp)
        (fun ds => expr_fail fuel ds start_p start_line) fun ds =>
      expr_loop fuel
        (set_slot ds sp { slot ds sp with u := .value (wrap64 (-(slot ds sp).u.asValue)) })
        sp prec0 tok start_p start_line
    else if tok == 43 then
      chk (qe_cfg_expr fuel (qe_cfg_next_token ds) sp PREC_POSTFIX false)
        (fun ds => expr_fail fuel ds start_p start_line) fun ds =>
      chk1 (qe_cfg_tonum ds sp)
        (fun ds => expr_fail fuel ds start_p start_line) fun ds =>
      expr_loop fuel ds sp prec0 tok start_p start_line
    else if tok == 126 then
      chk (qe_cfg_expr fuel (qe_cfg_next_token ds) sp PREC_POSTFIX false)
        (fun ds => expr_fail fuel ds start_p start_line) fun ds =>
      chk1 (qe_cfg_tonum ds sp)
        (fun ds => expr_fail fuel ds start_p start_line) fun ds =>
      expr_loop fuel
        (set_slot ds sp { slot ds sp with u := .value (-(slot ds sp).u.asValue - 1) })
        sp prec0 tok start_p start_line
    else if tok == 33 then
      chk (qe_cfg_expr fuel (qe_cfg_next_token ds) sp PREC_POSTFIX false)
        (fun ds => expr_fail fuel ds start_p start_line) fun ds =>
      chk1 (qe_cfg_getvalue ds sp)
        (fun ds => expr_fail fuel ds start_p start_line) fun ds =>
      expr_loop fuel
        (set_slot ds sp (qe_cfg_set_num (slot ds sp)
          (if (slot ds sp).type == TOK_STRING then 0
           else if (slot ds sp).u.asValue == 0 then 1 else 0)))
        sp prec0 tok start_p start_line
    else if tok == TOK_INC || tok == TOK_DEC then
      chk (qe_cfg_expr fuel (qe_cfg_next_token ds) sp PREC_POSTFIX false)
        (fun ds => expr_fail fuel ds start_p start_line) fun ds =>
      chk1 (qe_cfg_check_lvalue ds sp)
        (fun ds => expr_fail fuel ds start_p start_line) fun ds =>
      chk1 (qe_cfg_assign (set_slot ds (sp + 1) (qe_cfg_set_num (slot ds (sp + 1)) 1)) sp tok)
        (fun ds => expr_fail fuel ds start_p start_line) fun ds =>
      chk1 (qe_cfg_getvalue ds sp)
        (fun ds => expr_fail fuel ds start_p start_line) fun ds =>
      expr_loop fuel ds sp prec0 tok start_p start_line
    else if tok == TOK_NUMBER then
      expr_loop fuel
        (qe_cfg_next_token (set_slot ds sp (qe_cfg_set_num (slot ds sp) (strtoll ds.start_p))))
        sp prec0 tok start_p start_line
    else if tok == TOK_STRING || tok == TOK_ID then
      expr_loop fuel
        (qe_cfg_next_token
          (set_slot ds sp { qe_cfg_set_str (slot ds sp) ds.str ds.len with type := tok }))
        sp prec0 tok start_p start_line
    else if tok == TOK_CHAR then
      expr_loop fuel
        (qe_cfg_next_token (set_slot ds sp (qe_cfg_set_char (slot ds sp) (utf8_decode ds.str))))
        sp prec0 tok start_p start_line
    else
      expr_fail fuel
        (put_error (set_slot ds sp (qe_cfg_set_void (slot ds sp))) QError.invalid_expression)
        start_p start_line
termination_by structural fuel => fuel

/-- The operator loop of `qe_cfg_expr`: `ds0` is the context on entry of a round, `op` and
`prec` are its token and precedence. -/
def expr_loop : Nat → QEmacsDataSource → Nat → Nat → Int → Bytes → Nat →
    Option (Int × QEmacsDataSource)
  | 0, _, _, _, _, _, _ => none
  | fuel + 1, ds0, sp, prec0, tok, start_p, start_line =>
    if ds0.prec < prec0 then some (0, ds0)
    else if ds0.tok == 44 then
      expr_again fuel (qe_cfg_next_token ds0) sp prec0 tok start_p start_line
    else if ds0.tok == 63 then
      expr_cond fuel (qe_cfg_next_token ds0) sp prec0 tok start_p start_line
    else if ds0.prec == PREC_POSTFIX then
      expr_postop fuel (qe_cfg_next_token ds0) sp prec0 tok start_p start_line ds0.tok
    else if ds0.prec == PREC_ASSIGNMENT then
      chk (qe_cfg_expr fuel (qe_cfg_next_token ds0) (sp + 1) PREC_ASSIGNMENT false)
        (fun ds => expr_fail fuel ds start_p start_line) fun ds =>
      chk1 (qe_cfg_assign ds sp ds0.tok)
        (fun ds => expr_fail fuel ds start_p start_line) fun ds =>
      expr_loop fuel ds sp prec0 tok start_p start_line
    else
      chk (qe_cfg_expr fuel (qe_cfg_next_token ds0) (sp + 1) (ds0.prec + 1) false)
        (fun ds => expr_fail fuel ds start_p start_line) fun ds =>
      chk1 (qe_cfg_getvalue ds sp)
        (fun ds => expr_fail fuel ds start_p start_line) fun ds =>
      chk1 (qe_cfg_op ds sp ds0.tok)
        (fun ds => expr_fail fuel ds start_p start_line) fun ds =>
      expr_loop fuel ds sp prec0 tok start_p start_line
termination_by structural fuel => fuel

/-- The conditional operator in the loop of `qe_cfg_expr`, entered behind the `?`; every
failure goes back to the label `again`. -/
def expr_cond : Nat → QEmacsDataSource → Nat → Nat → Int → Bytes → Nat →
    Option (Int × QEmacsDataSource)
  | 0, _, _, _, _, _, _ => none
  | fuel + 1, ds, sp, prec0, tok, start_p, start_line =>
    chk1 (qe_cfg_getvalue ds sp)
      (fun ds => expr_again fuel ds sp prec0 tok start_p start_line) fun ds =>
    after (qe_cfg_expr fuel ds sp PREC_EXPRESSION (!truth_of (slot ds sp))) fun r ds1 =>
    if r != (if truth_of (slot ds sp) then 0 else 1) then
      expr_again fuel ds1 sp prec0 tok start_p start_line
    else
      chkb (has_token ds1 58)
        (fun ds => expr_again fuel ds sp prec0 tok start_p start_line) fun ds2 =>
      after (qe_cfg_expr fuel ds2 sp PREC_CONDITIONAL (truth_of (slot ds sp))) fun r ds3 =>
      if r != (if truth_of (slot ds sp) then 1 else 0) then
        expr_again fuel ds3 sp prec0 tok start_p start_line
      else expr_loop fuel ds3 sp prec0 tok start_p start_line
termination_by structural fuel => fuel

/-- The postfix operators in the loop of `qe_cfg_expr`, entered behind the operator `op`. -/
def expr_postop : Nat → QEmacsDataSource → Nat → Nat → Int → Bytes → Nat → Int →
    Option (Int × QEmacsDataSource)
  | 0, _, _, _, _, _, _, _ => none
  | fuel + 1, ds, sp, prec0, tok, start_p, start_line, op =>
    if op == 40 then
      if (slot ds sp).type == TOK_ID then
        match qe_find_cmd ds.s (cstr (slot ds sp).u.asStr) with
        | none =>
          if cstr (slot ds sp).u.asStr == [99, 104, 97, 114] then
            after (qe_cfg_get_args fuel ds sp 1 1 0 0) fun n ds =>
            if n < 0 then expr_fail fuel ds start_p start_line
            else expr_loop fuel (qe_cfg_tochar ds sp).2 sp prec0 tok start_p start_line
          else if cstr (slot ds sp).u.asStr == [105, 110, 116] then
            after (qe_cfg_get_args fuel ds sp 1 1 0 0) fun n ds =>
            if n < 0 then expr_fail fuel ds start_p start_line
            else expr_loop fuel (qe_cfg_tonum ds sp).2 sp prec0 tok start_p start_line
          else if cstr (slot ds sp).u.asStr == [115, 116, 114, 105, 110, 103] then
            after (qe_cfg_get_args fuel ds sp 1 1 0 0) fun n ds =>
            if n < 0 then expr_fail fuel ds start_p start_line
            else expr_loop fuel (qe_cfg_tostr ds sp).2 sp prec0 tok start_p start_line
          else
            expr_fail fuel (put_error ds (QError.unknown_command (cstr (slot ds sp).u.asStr)))
              start_p start_line
        | some d =>
          chk (qe_cfg_call fuel ds sp d)
            (fun ds => expr_fail fuel ds start_p start_line) fun ds =>
          expr_loop fuel ds sp prec0 tok start_p start_line
      else expr_fail fuel (put_error ds QError.invalid_function_call) start_p start_line
    else if op == TOK_INC || op == TOK_DEC then
      chk1 (qe_cfg_check_lvalue ds sp)
        (fun ds => expr_fail fuel ds start_p start_line) fun ds =>
      chk1 (qe_cfg_getvalue
              (set_slot (set_slot ds (sp + 1) (slot ds sp)) sp { slot ds sp with alloc := false })
              sp)
        (fun ds => expr_fail fuel ds start_p start_line) fun ds =>
      chk1 (qe_cfg_assign (set_slot ds (sp + 2) (qe_cfg_set_num (slot ds (sp + 2)) 1))
              (sp + 1) op)
        (fun ds => expr_fail fuel ds start_p start_line) fun ds =>
      expr_loop fuel ds sp prec0 tok start_p start_line
    else if op == 91 then
      chk (qe_cfg_expr fuel ds (sp + 1) PREC_EXPRESSION false)
        (fun ds => expr_fail fuel ds start_p start_line) fun ds =>
      chkb (expect_token ds 93)
        (fun ds => expr_fail fuel ds start_p start_line) fun ds =>
      chk1 (qe_cfg_op ds sp op) (fun ds => some (1, ds)) fun ds =>
      expr_loop fuel ds sp prec0 tok start_p start_line
    else if op == 46 then
      if ds.tok != TOK_ID then
        expr_fail fuel (put_error ds QError.expected_property_name) start_p start_line
      else
        chk1 (qe_cfg_getvalue ds sp) (fun ds => some (1, ds)) fun ds =>
        if (slot ds sp).type == TOK_STRING && cstr ds.str == [108, 101, 110, 103, 116, 104] then
          expr_loop fuel
            (qe_cfg_next_token
              (set_slot ds sp (qe_cfg_set_num (slot ds sp)
                ((cstr (slot ds sp).u.asStr).length : Int))))
            sp prec0 tok start_p start_line
        else
          expr_fail fuel (put_error ds (QError.no_such_property (cstr ds.str)))
            start_p start_line
    else expr_fail fuel (put_error ds (QError.unsupported_operator op)) start_p start_line
termination_by structural fuel => fuel

/-- The function `qe_cfg_get_args`, with the loop variables `nargs` and `sep`; the result
is the number of arguments, or -1 after an error. -/
def qe_cfg_get_args : Nat → QEmacsDataSource → Nat → Nat → Nat → Nat → Int →
    Option (Int × QEmacsDataSource)
  | 0, _, _, _, _, _, _ => none
  | fuel + 1, ds, sp, n1, n2, nargs, sep =>
    match has_token ds 41 with
    | (true, ds) =>
      if nargs < n1 then some (-1, put_error ds QError.missing_arguments)
      else if nargs > n2 then some (-1, put_error ds QError.extra_arguments)
      else some ((nargs : Int), ds)
    | (false, ds) =>
      chkb (if sep != 0 then expect_token ds sep else (true, ds))
        (fun ds => some (-1, ds)) fun ds =>
      chk (qe_cfg_expr fuel ds (sp + nargs) PREC_ASSIGNMENT false)
        (fun ds => some (-1, put_error ds QError.invalid_argument)) fun ds =>
      qe_cfg_get_args fuel ds sp n1 n2 (nargs + 1) 44
termination_by structural fuel => fuel

/-- The argument loop of `qe_cfg_call` over the argument types still to fill: `sep` is the
separator to expect, `used` the bytes taken in the 1024-byte staging area, `args` the
argument vector so far. -/
def call_args : Nat → QEmacsDataSource → Nat → CmdDef → List Nat → Bytes → Int → Nat →
    List CmdArg → Option (Int × QEmacsDataSource × List CmdArg)
  | 0, _, _, _, _, _, _, _, _ => none
  | _ + 1, ds, _, _, [], _, _, _, args => some (0, ds, args)
  | fuel + 1, ds, sp, d, t :: ts, prompt, sep, used, args =>
    if t == CMD_ARG_WINDOW then call_args fuel ds sp d ts prompt sep used (args ++ [CmdArg.s])
    else if t == CMD_ARG_INTVAL then
      call_args fuel ds sp d ts prompt sep used (args ++ [CmdArg.n (wrap32 d.val)])
    else if t == CMD_ARG_STRINGVAL then
      call_args fuel ds sp d ts prompt sep used (args ++ [CmdArg.p (some prompt)])
    else
      match (if ds.tok == 41 then default_arg ds.s t else none) with
      | some n => call_args fuel ds sp d ts prompt sep used (args ++ [CmdArg.n n])
      | none =>
        match (if ds.tok == 41 then (true, ds, sep)
               else if sep != 0 then ((expect_token ds sep).1, (expect_token ds sep).2, 44)
               else (true, ds, 44)) with
        | (ok, ds, sep) =>
          if !ok then some (-1, ds, args)
          else
            match qe_cfg_expr fuel ds sp PREC_ASSIGNMENT false with
            | none => none
            | some (r, ds) =>
              if r != 0 then some (-1, put_error ds (QError.missing_arguments_for d.name), args)
              else if t &&& CMD_ARG_TYPE_MASK == CMD_ARG_INT then
                call_args fuel (qe_cfg_tonum ds sp).2 sp d ts prompt sep used
                  (args ++ [CmdArg.n (if t == CMD_ARG_INT ||| CMD_ARG_NEG_ARGVAL
                      then wrap32 (-(wrap32 (slot (qe_cfg_tonum ds sp).2 sp).u.asValue))
                      else wrap32 (slot (qe_cfg_tonum ds sp).2 sp).u.asValue)])
              else if t &&& CMD_ARG_TYPE_MASK == CMD_ARG_STRING then
                call_args fuel (qe_cfg_tostr ds sp).2 sp d ts prompt sep
                  (if used < 1023
                   then used + ((cstr (slot (qe_cfg_tostr ds sp).2 sp).u.asStr).take
                                  (1024 - used - 1)).length + 1
                   else used)
                  (args ++ [CmdArg.p (some ((cstr (slot (qe_cfg_tostr ds sp).2 sp).u.asStr).take
                                              (1024 - used - 1)))])
              else call_args fuel ds sp d ts prompt sep used (args ++ [CmdArg.p none])
termination_by structural fuel => fuel

/-- The function `qe_cfg_call`. -/
def qe_cfg_call : Nat → QEmacsDataSource → Nat → CmdDef → Option (Int × QEmacsDataSource)
  | 0, _, _, _ => none
  | fuel + 1, ds, sp, d =>
    if d.spec.headD 0 == 42 && ds.s.read_only then some (-1, put_error ds QError.read_only)
    else
      match collect_arg_types ds.s (ds.s.max_cmd_args + 1)
              (if d.spec.headD 0 == 42 then d.spec.tail else d.spec) [CMD_ARG_WINDOW] [] with
      | none => some (-1, put_error ds (QError.invalid_command_definition d.name))
      | some (types, prompt) =>
        match call_args fuel ds sp d types prompt 0 0 [] with
        | none => none
        | some (r, ds, args) =>
          if r != 0 then some (-1, ds)
          else
            match has_token ds 41 with
            | (false, ds) => some (-1, put_error ds (QError.too_many_arguments_for d.name))
            | (true, ds) =>
              some (0, set_slot { ds with s := call_func ds.s d args } sp
                         { slot ds sp with type := TOK_VOID })
termination_by structural fuel => fuel

/-- The function `qe_cfg_stmt`. -/
def qe_cfg_stmt : Nat → QEmacsDataSource → Nat → Bool → Option (Int × QEmacsDataSource)
  | 0, _, _, _ => none
  | fuel + 1, ds, sp, skip =>
    if ds.tok == 123 then stmt_block fuel (qe_cfg_next_token ds) sp skip 0
    else if ds.tok == TOK_IF then
      after (qe_cfg_expr fuel (qe_cfg_next_token ds) sp PREC_EXPRESSION skip) fun r ds1 =>
      stmt_if fuel (if r != 0 then 1 else (qe_cfg_getvalue ds1 sp).1)
        (if r != 0 then ds1 else (qe_cfg_getvalue ds1 sp).2) sp skip
    else if ds.tok != 59 then
      after (qe_cfg_expr fuel ds sp PREC_EXPRESSION skip) fun r ds1 =>
      if r != 0 then stmt_end 1 ds1
      else stmt_end (if (qe_cfg_getvalue ds1 sp).1 != 0 then 1 else 0) (qe_cfg_getvalue ds1 sp).2
    else stmt_end 0 ds
termination_by structural fuel => fuel

/-- The branches of an `if` statement in `qe_cfg_stmt`, entered with the result `c` of
evaluating the condition. -/
def stmt_if : Nat → Int → QEmacsDataSource → Nat → Bool → Option (Int × QEmacsDataSource)
  | 0, _, _, _, _ => none
  | fuel + 1, c, ds, sp, skip =>
    after (qe_cfg_stmt fuel ds sp
            ((if c != 0 then true else skip)
             || !(if c != 0 then false else truth_of (slot ds sp)))) fun r1 ds1 =>
    if ds1.tok == TOK_ELSE then
      after (qe_cfg_stmt fuel (qe_cfg_next_token ds1) sp
              ((if c != 0 then true else skip)
               || (if c != 0 then false else truth_of (slot ds sp)))) fun r2 ds2 =>
      some (res_or (res_or (if c != 0 then 1 else 0) r1) r2, ds2)
    else some (res_or (if c != 0 then 1 else 0) r1, ds1)
termination_by structural fuel => fuel

/-- The block loop of `qe_cfg_stmt`, entered behind the opening brace. -/
def stmt_block : Nat → QEmacsDataSource → Nat → Bool → Int → Option (Int × QEmacsDataSource)
  | 0, _, _, _, _ => none
  | fuel + 1, ds, sp, skip, res =>
    if ds.tok == 125 then some (res, qe_cfg_next_token ds)
    else if ds.tok == TOK_EOF then some (1, put_error ds QError.missing_brace)
    else
      after (qe_cfg_stmt fuel ds sp skip) fun r ds =>
      stmt_block fuel ds sp skip (res_or res r)
termination_by structural fuel => fuel

end

/-- The statement loop of `qe_parse_script`. -/
def parse_script_loop : Nat → QEmacsDataSource → Option QEmacsDataSource
  | 0, _ => none
  | fuel + 1, ds =>
    if ds.tok != TOK_EOF && ds.tok != TOK_ERR then
      match qe_cfg_stmt fuel ds 0 false with
      | none => none
      | some (r, ds) =>
        parse_script_loop fuel
          (if r != 0 then set_slot ds 0 { slot ds 0 with type := TOK_VOID } else ds)
    else some ds

/-- The start of `qe_parse_script`: the context before the first token is read. -/
def script_begin (s : Host) (ds : QEmacsDataSource) : QEmacsDataSource :=
  let ds := { ds with s := s, p := ds.buf }
  let ds := set_slot ds 0 { slot ds 0 with type := TOK_VOID }
  { ds with line_num := 1, lineno := 1 }

/-- The end of `qe_parse_script`: frees an owned source text, restores the error context
(`ec_lineno` is its saved line) and returns the type of slot 0. -/
def script_finish (ec_lineno : Nat) (ds : QEmacsDataSource) : Int × QEmacsDataSource :=
  let ds := if ds.allocated_buf then { ds with allocated_buf := false, p := [], buf := [] }
            else ds
  ((slot ds 0).type, { ds with lineno := ec_lineno })

/-- The function `qe_parse_script`: the type of slot 0 at the end, and the context. -/
def qe_parse_script (fuel : Nat) (s : Host) (ds : QEmacsDataSource) :
    Option (Int × QEmacsDataSource) :=
  (parse_script_loop fuel (qe_cfg_next_token (script_begin s ds))).map (script_finish ds.lineno)

/-- The function `qe_cfg_init` followed by the assignment of the source text `buf`. -/
def qe_cfg_init (s : Host) (buf : Bytes) : QEmacsDataSource :=
  { s := s, allocated_buf := false, buf := buf, p := [], start_p := [], line_num := 0,
    start_line := 0, newline_seen := false, tok := 0, prec := 0, len := 0, sp_max := 0,
    stack := List.replicate 16 QEValue.zero, str := [], lineno := 0, errors := [] }

def qe_cfg_release (ds : QEmacsDataSource) : QEmacsDataSource :=
  { ds with stack := ds.stack.take ds.sp_max |>.map qe_cfg_set_void
                     |>.append (ds.stack.drop ds.sp_max) }

/-- What `do_eval_expression` leaves behind: the status line shown (`put_status`), the
text inserted at point, and the context after `qe_cfg_release`. -/
structure EvalOutcome where
  status : Option Bytes
  inserted : Option Bytes
  ds : QEmacsDataSource

/-- The function `do_eval_expression` on the NUL-terminated text `expression`. -/
def do_eval_expression (fuel : Nat) (s : Host) (expression : Bytes) (argval : Int) :
    Option EvalOutcome :=
  match qe_parse_script fuel s (qe_cfg_init s expression) with
  | none => none
  | some (t, ds) =>
    if t == TOK_ERR then some ⟨none, none, qe_cfg_release ds⟩
    else if argval != NO_ARG && ds.s.read_only then some ⟨none, none, put_error ds QError.read_only⟩
    else
      match qe_cfg_getvalue ds 0 with
      | (r, ds) =>
        let v := slot ds 0
        if r != 0 then some ⟨none, none, qe_cfg_release ds⟩
        else if v.type == TOK_VOID then some ⟨none, none, qe_cfg_release ds⟩
        else if v.type == TOK_NUMBER then
          if argval == NO_ARG then
            some ⟨some ([45, 62, 32] ++ fmt_lld v.u.asValue), none, qe_cfg_release ds⟩
          else some ⟨none, some (fmt_lld v.u.asValue), qe_cfg_release ds⟩
        else if v.type == TOK_STRING then
          if argval == NO_ARG then
            some ⟨some ([45, 62, 32, 34] ++ cstr v.u.asStr ++ [34]), none, qe_cfg_release ds⟩
          else some ⟨none, some (v.u.asStr.take v.len), qe_cfg_release ds⟩
        else if v.type == TOK_CHAR then
          if argval == NO_ARG then
            some ⟨some ([45, 62, 32, 39] ++ cstr (utf8_encode (wrap32 v.u.asValue)) ++ [39]), none,
                  qe_cfg_release ds⟩
          else some ⟨none, some (utf8_encode (wrap32 v.u.asValue)), qe_cfg_release ds⟩
        else some ⟨none, none, qe_cfg_release ds⟩

/-! ## A host for the examples -/

/-- An argument parser for the examples: every byte of the spec string is one argument
type, the end of the string ends the arguments, and the byte 255 is a malformed spec. -/
def byte_parse_arg (r : Bytes) : CmdArgSpec :=
  match r with
  | [] => ⟨0, 0, [], []⟩
  | c :: rest => if c == 0 then ⟨0, 0, [], c :: rest⟩
                 else if c == 255 then ⟨-1, 0, [], rest⟩ else ⟨1, c, [], rest⟩

/-- A host with the variables `vars` and the commands `cmds`, a writable empty buffer. -/
def host_with (vars : List (Bytes × VarValue)) (cmds : List CmdDef) : Host :=
  { vars := vars, cmds := cmds, parse_arg := byte_parse_arg, max_cmd_args := 5,
    read_only := false, mark := 0, offset := 0, total_size := 0, calls := [] }

/-- The script `src` run by `qe_parse_script` on a fresh context, as `do_eval_expression`
does it; the source text gets its terminating NUL here. -/
def run_script (fuel : Nat) (s : Host) (src : Bytes) : Option (Int × QEmacsDataSource) :=
  qe_parse_script fuel s (qe_cfg_init s (src ++ [0]))

/-! ## Further definitions used by the theorems -/

/-- An integer literal of the language: decimal digits not starting with 0, or 0 followed
by octal digits, or `0x`/`0X` followed by at least one hexadecimal digit. -/
def is_int_literal (l : Bytes) : Bool :=
  if l.headD 0 == 48 then
    if l.tail.headD 0 == 120 || l.tail.headD 0 == 88 then
      decide (3 ≤ l.length) && (l.drop 2).all qe_isxdigit
    else l.tail.all qe_isoctdigit
  else qe_isdigit (l.headD 0) && l.all qe_isdigit

/-- The slot that `qe_cfg_getvalue` stores for a variable the broker knows: a string of at
most 255 bytes, or a number cut to a C `int`. -/
def var_slot (v : QEValue) (r : VarValue) : QEValue :=
  match r with
  | VarValue.chars s => qe_cfg_set_str v ((cstr s).take 255) ((cstr s).take 255).length
  | VarValue.string s => qe_cfg_set_str v ((cstr s).take 255) ((cstr s).take 255).length
  | VarValue.number n => qe_cfg_set_num v (wrap32 n)

/-- The byte the lexer stores for an identifier byte: `-` for `_`, the byte itself
otherwise. -/
def dash_byte (c : Nat) : Nat := if c == 95 then 45 else c

/-- The text `r'` is the text `r` with some of its `_` replaced by `-`, each such `_`
standing before a letter. -/
def dash_variant : Bytes → Bytes → Bool
  | [], [] => true
  | c :: r, c' :: r' =>
    (c' == c || (c == 95 && c' == 45 && qe_isalpha (r.headD 0))) && dash_variant r r'
  | _, _ => false

/-- The text `rest` ends an identifier: its first byte is no identifier byte and no `-`
followed by a letter. -/
def ident_end (rest : Bytes) : Bool :=
  !qe_isalnum_ (rest.headD 0) && !(rest.headD 0 == 45 && qe_isalpha (rest.tail.headD 0))

/-- The context `ds` with another host, value stack and high-water mark: what is left of
`ds` is the state of the lexer and the error log. -/
def with_frame (ds : QEmacsDataSource) (h : Host) (stack : List QEValue) (sp_max : Nat) :
    QEmacsDataSource :=
  { ds with s := h, stack := stack, sp_max := sp_max }

/-- A byte that continues an identifier, given the byte after it: a letter, a digit, `_`,
or a `-` that a letter follows. -/
def ident_byte (c next : Nat) : Bool := qe_isalnum_ c || (c == 45 && qe_isalpha next)

/-- The code point formed from hex digits, accumulated as a C `int`. -/
def hex_code (hs : Bytes) (c : Int) : Int :=
  hs.foldl (fun c d => wrap32 (c * 16 + ((qe_digit_value d : Nat) : Int))) c

/-- The hex digits an escape consumes out of the run `hs` of hex digits that follows it:
all of them for `\x`, at most 4 for `\u` and at most 8 for `\U`. -/
def hex_taken (k : Nat) (hs : Bytes) : Bytes :=
  if k == 85 then hs.take 8 else if k == 117 then hs.take 4 else hs

/-- The hex digits of the run `hs` that the escape leaves in the text. -/
def hex_left (k : Nat) (hs : Bytes) : Bytes :=
  if k == 85 then hs.drop 8 else if k == 117 then hs.drop 4 else []

/-- The text holds no escape `\x`, `\u` or `\U`: no backslash stands before `x`, `u`
or `U`. -/
def no_hex_escape : Bytes → Bool
  | [] => true
  | c :: p =>
    !(c == 92 && (p.headD 0 == 85 || p.headD 0 == 117 || p.headD 0 == 120)) && no_hex_escape p

/-! ## Frame lemmas -/

theorem slot_set_slot (ds : QEmacsDataSource) (i : Nat) (v : QEValue) :
    slot (set_slot ds i v) i = v := by
  unfold slot set_slot
  split_ifs with h
  · simp [List.getD_eq_getElem?_getD, h]
  · simp only [not_lt] at h
    simp [List.getD_eq_getElem?_getD, List.getElem?_append_right, h]

theorem set_slot_s (ds : QEmacsDataSource) (i : Nat) (v : QEValue) :
    (set_slot ds i v).s = ds.s := by
  unfold set_slot; split_ifs <;> rfl

theorem next_token_s (ds : QEmacsDataSource) : (qe_cfg_next_token ds).s = ds.s := rfl

theorem next_token_stack (ds : QEmacsDataSource) : (qe_cfg_next_token ds).stack = ds.stack := rfl

theorem next_token_sp_max (ds : QEmacsDataSource) :
    (qe_cfg_next_token ds).sp_max = ds.sp_max := rfl

/-- Skip mode leaves the host and the value stack alone and always returns 1. -/
theorem skip_expr_frame (fuel : Nat) (ds : QEmacsDataSource) (level : Nat) (r : Int)
    (ds' : QEmacsDataSource) (h : qe_cfg_skip_expr fuel ds level = some (r, ds')) :
    r = 1 ∧ ds'.s = ds.s ∧ ds'.stack = ds.stack ∧ ds'.sp_max = ds.sp_max := by
  induction fuel generalizing ds level with
  | zero => simp [qe_cfg_skip_expr] at h
  | succ n ih =>
    unfold qe_cfg_skip_expr at h
    split_ifs at h
    all_goals first
      | (simp only [Option.some.injEq, Prod.mk.injEq] at h
         obtain ⟨h1, h2⟩ := h
         subst h1 h2
         exact ⟨rfl, rfl, rfl, rfl⟩)
      | (have hrec := ih _ _ h
         simpa [next_token_s, next_token_stack, next_token_sp_max] using hrec)

/-! ## Helper functions on known slots -/

theorem stmt_end_cases (res : Int) (ds : QEmacsDataSource) :
    stmt_end res ds =
      if ds.tok = 59 then some (res, qe_cfg_next_token ds)
      else if ds.tok ≠ -1 ∧ ds.tok ≠ 125 ∧ ds.newline_seen = false then
        some (res, put_error ds QError.missing_semicolon)
      else some (res, ds) := by
  unfold stmt_end has_token
  by_cases h : ds.tok = 59
  · simp [h]
  · by_cases h1 : ds.tok = -1 <;> by_cases h2 : ds.tok = 125 <;>
      cases hn : ds.newline_seen <;> simp [h, h1, h2, hn, TOK_EOF]

theorem num_op_div (op a b : Int) (hop : op = 47 ∨ op = TOK_DIV_EQ) :
    num_op op a b =
      if b = 0 ∨ (a = LLONG_MIN ∧ b = -1) then .error (QError.division_overflow op)
      else .ok (Int.tdiv a b) := by
  rcases hop with rfl | rfl <;>
    by_cases hb : b = 0 <;> by_cases ha : a = LLONG_MIN <;> by_cases hb1 : b = -1 <;>
    simp [num_op, hb, ha, hb1, TOK_DIV_EQ, TOK_MUL_EQ, TOK_MOD_EQ, LLONG_MIN]

theorem num_op_mod (op a b : Int) (hop : op = 37 ∨ op = TOK_MOD_EQ) :
    num_op op a b =
      if b = 0 ∨ (a = LLONG_MIN ∧ b = -1) then .error (QError.division_overflow op)
      else .ok (Int.tmod a b) := by
  rcases hop with rfl | rfl <;>
    by_cases hb : b = 0 <;> by_cases ha : a = LLONG_MIN <;> by_cases hb1 : b = -1 <;>
    simp [num_op, hb, ha, hb1, TOK_DIV_EQ, TOK_MUL_EQ, TOK_MOD_EQ, LLONG_MIN]

theorem getvalue_not_id (ds : QEmacsDataSource) (sp : Nat) (h : (slot ds sp).type ≠ TOK_ID) :
    qe_cfg_getvalue ds sp = (0, ds) := by
  unfold qe_cfg_getvalue
  simp [h]

theorem tonum_number (ds : QEmacsDataSource) (sp : Nat) (h : (slot ds sp).type = TOK_NUMBER) :
    qe_cfg_tonum ds sp = (0, ds) := by
  have h1 : (slot ds sp).type ≠ TOK_ID := by rw [h]; decide
  simp [qe_cfg_tonum, getvalue_not_id ds sp h1, h]

theorem op_numbers (ds : QEmacsDataSource) (sp : Nat) (op : Int)
    (h0 : (slot ds sp).type = TOK_NUMBER) (h1 : (slot ds (sp + 1)).type = TOK_NUMBER) :
    qe_cfg_op ds sp op = qe_cfg_op_num ds sp op := by
  have : ((slot ds sp).type == TOK_STRING) = false := by rw [h0]; decide
  simp [qe_cfg_op, this, tonum_number ds sp h0, tonum_number ds (sp + 1) h1]

/-- C14: on two number slots the operators `/`, `%`, `/=` and `%=` fail with "division
overflow" exactly when the divisor is 0 or the operands are INT64_MIN and -1, and give the
truncating quotient or its remainder otherwise; `1 / 0`, `1 % 0` and INT64_MIN / -1 report
the error, `-7 / 2` is -3 and `-7 % 2` is -1. -/
theorem c14_division_overflow :
    (∀ (ds : QEmacsDataSource) (sp : Nat) (op a b : Int) (al0 al1 : Bool) (ln0 ln1 : Nat),
      slot ds sp = ⟨TOK_NUMBER, al0, ln0, QEUnion.value a⟩ →
      slot ds (sp + 1) = ⟨TOK_NUMBER, al1, ln1, QEUnion.value b⟩ →
      (op = 47 ∨ op = 37 ∨ op = TOK_DIV_EQ ∨ op = TOK_MOD_EQ) →
      qe_cfg_op ds sp op =
        if b = 0 ∨ (a = LLONG_MIN ∧ b = -1) then (1, put_error ds (QError.division_overflow op))
        else (0, set_slot ds sp ⟨TOK_NUMBER, al0, ln0,
                QEUnion.value (if op = 47 ∨ op = TOK_DIV_EQ then Int.tdiv a b
                               else Int.tmod a b)⟩)) ∧
    (do_eval_expression 50 (host_with [] []) [49, 32, 47, 32, 48, 0] NO_ARG).map
        (fun o => (o.status, o.ds.errors)) = some (none, [(1, QError.division_overflow 47)]) ∧
    (do_eval_expression 50 (host_with [] []) [49, 32, 37, 32, 48, 0] NO_ARG).map
        (fun o => (o.status, o.ds.errors)) = some (none, [(1, QError.division_overflow 37)]) ∧
    (do_eval_expression 50 (host_with [] []) [40, 45, 57, 50, 50, 51, 51, 55, 50, 48, 51, 54, 56, 53, 52, 55, 55, 53, 56, 48, 55, 32, 45, 32, 49, 41, 32, 47, 32, 45, 49, 0] NO_ARG).map
        (fun o => (o.status, o.ds.errors)) = some (none, [(1, QError.division_overflow 47)]) ∧
    (do_eval_expression 50 (host_with [] []) [45, 55, 32, 47, 32, 50, 0] NO_ARG).map
        (fun o => (o.status, o.ds.errors)) = some (some [45, 62, 32, 45, 51], []) ∧
    (do_eval_expression 50 (host_with [] []) [45, 55, 32, 37, 32, 50, 0] NO_ARG).map
        (fun o => (o.status, o.ds.errors)) = some (some [45, 62, 32, 45, 49], []) := by
  refine ⟨?_, by decide!, by decide!, by decide!, by decide!, by decide!⟩
  intro ds sp op a b al0 al1 ln0 ln1 h0 h1 hop
  have t0 : (slot ds sp).type = TOK_NUMBER := by rw [h0]
  have t1 : (slot ds (sp + 1)).type = TOK_NUMBER := by rw [h1]
  rw [op_numbers ds sp op t0 t1]
  unfold qe_cfg_op_num
  rw [h0, h1]
  simp only [QEUnion.asValue]
  rcases hop with rfl | rfl | rfl | rfl
  · rw [num_op_div _ _ _ (Or.inl rfl)]
    split_ifs <;> simp_all
  · rw [num_op_mod _ _ _ (Or.inl rfl)]
    split_ifs <;> simp_all [TOK_DIV_EQ]
  · rw [num_op_div _ _ _ (Or.inr rfl)]
    split_ifs <;> simp_all
  · rw [num_op_mod _ _ _ (Or.inr rfl)]
    split_ifs <;> simp_all [TOK_DIV_EQ, TOK_MOD_EQ]

/-- C20: a slot that holds the char `c` holds the number `c` after `qe_cfg_tonum` (the
built-in `int`) and the char `c` again after `qe_cfg_tochar` (the built-in `char`), both
conversions succeeding. -/
theorem c20_char_int_char (ds : QEmacsDataSource) (sp : Nat) (c : Int) (al : Bool) (ln : Nat)
    (h : slot ds sp = ⟨TOK_CHAR, al, ln, QEUnion.value c⟩) :
    (qe_cfg_tonum ds sp).1 = 0 ∧
    slot (qe_cfg_tonum ds sp).2 sp = ⟨TOK_NUMBER, al, ln, QEUnion.value c⟩ ∧
    (qe_cfg_tochar (qe_cfg_tonum ds sp).2 sp).1 = 0 ∧
    slot (qe_cfg_tochar (qe_cfg_tonum ds sp).2 sp).2 sp = ⟨TOK_CHAR, al, ln, QEUnion.value c⟩ := by
  have h1 : (slot ds sp).type ≠ TOK_ID := by rw [h]; simp [TOK_CHAR, TOK_ID]
  have e1 : qe_cfg_tonum ds sp = (0, set_slot ds sp ⟨TOK_NUMBER, al, ln, QEUnion.value c⟩) := by
    unfold qe_cfg_tonum
    rw [getvalue_not_id ds sp h1]
    simp [h, TOK_CHAR, TOK_NUMBER, TOK_STRING]
  have h2 : (slot (set_slot ds sp ⟨TOK_NUMBER, al, ln, QEUnion.value c⟩) sp).type ≠ TOK_ID := by
    rw [slot_set_slot]; simp [TOK_NUMBER, TOK_ID]
  have e2 : qe_cfg_tochar (set_slot ds sp ⟨TOK_NUMBER, al, ln, QEUnion.value c⟩) sp
      = (0, set_slot (set_slot ds sp ⟨TOK_NUMBER, al, ln, QEUnion.value c⟩) sp
              ⟨TOK_CHAR, al, ln, QEUnion.value c⟩) := by
    unfold qe_cfg_tochar
    rw [getvalue_not_id _ sp h2]
    simp [slot_set_slot, TOK_CHAR, TOK_NUMBER, TOK_STRING]
  rw [e1]
  simp only [e2, slot_set_slot, and_self]

/-- C20 (witness): the char `a` (97) in slot 0, and the script `char(int('a'))`, which
shows `'a'`. -/
theorem c20_char_int_char_witness :
    ((qe_cfg_tonum (set_slot (qe_cfg_init (host_with [] []) []) 0
        ⟨TOK_CHAR, false, 0, QEUnion.value 97⟩) 0).1 = 0 ∧
     slot (qe_cfg_tonum (set_slot (qe_cfg_init (host_with [] []) []) 0
        ⟨TOK_CHAR, false, 0, QEUnion.value 97⟩) 0).2 0 = ⟨TOK_NUMBER, false, 0, QEUnion.value 97⟩ ∧
     (qe_cfg_tochar (qe_cfg_tonum (set_slot (qe_cfg_init (host_with [] []) []) 0
        ⟨TOK_CHAR, false, 0, QEUnion.value 97⟩) 0).2 0).1 = 0 ∧
     slot (qe_cfg_tochar (qe_cfg_tonum (set_slot (qe_cfg_init (host_with [] []) []) 0
        ⟨TOK_CHAR, false, 0, QEUnion.value 97⟩) 0).2 0).2 0
       = ⟨TOK_CHAR, false, 0, QEUnion.value 97⟩) ∧
    (do_eval_expression 50 (host_with [] []) [99, 104, 97, 114, 40, 105, 110, 116, 40, 39, 97, 39, 41, 41, 0] NO_ARG).map
        (fun o => (o.status, o.ds.errors)) = some (some [45, 62, 32, 39, 97, 39], []) :=
  ⟨c20_char_int_char _ 0 97 false 0 (by decide), by decide!⟩

/-- C12 (counterexample): the literal 1 wrapped in 17 nested pairs of parentheses evaluates
to 1 and raises no error. -/
theorem c12_seventeen_parens_evaluate :
    (do_eval_expression 100 (host_with [] []) [40, 40, 40, 40, 40, 40, 40, 40, 40, 40, 40, 40, 40, 40, 40, 40, 40, 49, 41, 41, 41, 41, 41, 41, 41, 41, 41, 41, 41, 41, 41, 41, 41, 41, 41, 0] NO_ARG).map
        (fun o => (o.status, o.ds.errors)) = some (some [45, 62, 32, 49], []) := by
  decide!

/-- C12 (amended): parentheses take no value slot, a right operand takes the next one:
`qe_cfg_expr` entered on a slot index of 16 or more that is not below the high-water mark
raises "stack overflow" and skips the expression; 1 in 16 and in 17 pairs of parentheses
evaluates to 1 with a high-water mark of 1, the right-nested sum of 16 operands evaluates
to 16, and the right-nested sum of 17 operands raises "stack overflow". -/
theorem c12_stack_depth :
    (∀ (f : Nat) (ds : QEmacsDataSource) (sp prec0 : Nat), ds.sp_max ≤ sp → 16 ≤ sp →
      qe_cfg_expr (f + 1) ds sp prec0 false
        = qe_cfg_skip_expr f (put_error ds QError.stack_overflow) 0) ∧
    (do_eval_expression 100 (host_with [] []) [40, 40, 40, 40, 40, 40, 40, 40, 40, 40, 40, 40, 40, 40, 40, 40, 49, 41, 41, 41, 41, 41, 41, 41, 41, 41, 41, 41, 41, 41, 41, 41, 41, 0] NO_ARG).map
        (fun o => (o.status, o.ds.errors, o.ds.sp_max)) = some (some [45, 62, 32, 49], [], 1) ∧
    (do_eval_expression 100 (host_with [] []) [40, 40, 40, 40, 40, 40, 40, 40, 40, 40, 40, 40, 40, 40, 40, 40, 40, 49, 41, 41, 41, 41, 41, 41, 41, 41, 41, 41, 41, 41, 41, 41, 41, 41, 41, 0] NO_ARG).map
        (fun o => (o.status, o.ds.errors, o.ds.sp_max)) = some (some [45, 62, 32, 49], [], 1) ∧
    (do_eval_expression 100 (host_with [] []) [49, 43, 40, 49, 43, 40, 49, 43, 40, 49, 43, 40, 49, 43, 40, 49, 43, 40, 49, 43, 40, 49, 43, 40, 49, 43, 40, 49, 43, 40, 49, 43, 40, 49, 43, 40, 49, 43, 40, 49, 43, 40, 49, 43, 40, 49, 41, 41, 41, 41, 41, 41, 41, 41, 41, 41, 41, 41, 41, 41, 41, 0] NO_ARG).map
        (fun o => (o.status, o.ds.errors, o.ds.sp_max)) = some (some [45, 62, 32, 49, 54], [], 16) ∧
    (do_eval_expression 100 (host_with [] []) [49, 43, 40, 49, 43, 40, 49, 43, 40, 49, 43, 40, 49, 43, 40, 49, 43, 40, 49, 43, 40, 49, 43, 40, 49, 43, 40, 49, 43, 40, 49, 43, 40, 49, 43, 40, 49, 43, 40, 49, 43, 40, 49, 43, 40, 49, 43, 40, 49, 41, 41, 41, 41, 41, 41, 41, 41, 41, 41, 41, 41, 41, 41, 41, 41, 0] NO_ARG).map
        (fun o => (o.status, o.ds.errors, o.ds.sp_max))
      = some (none, [(1, QError.stack_overflow)], 16) := by
  refine ⟨?_, by decide!, by decide!, by decide!, by decide!⟩
  intro f ds sp prec0 h1 h2
  rw [qe_cfg_expr]
  simp [h1, h2]

/-- C13: the script `x++` with the variable x = 5 shows 5 and sets x to 6, and after
`qe_cfg_release` slot 1, above the high-water mark of 1, still owns the buffer with the
name of the variable; `qe_cfg_release` leaves every slot from the high-water mark on as
it is. -/
theorem c13_postincrement_leaves_owned_slot :
    (do_eval_expression 100 (host_with [([120], VarValue.number 5)] []) [120, 43, 43, 0] NO_ARG).map
        (fun o => (o.status, o.ds.errors, o.ds.sp_max)) = some (some [45, 62, 32, 53], [], 1) ∧
    (do_eval_expression 100 (host_with [([120], VarValue.number 5)] []) [120, 43, 43, 0] NO_ARG).map
        (fun o => (o.ds.s.vars, (slot o.ds 1).type, (slot o.ds 1).alloc, (slot o.ds 1).u.asStr))
      = some ([([120], VarValue.number 6), ([120], VarValue.number 5)], TOK_ID, true, [120]) ∧
    (∀ (ds : QEmacsDataSource) (i : Nat), ds.sp_max ≤ i →
      slot (qe_cfg_release ds) i = slot ds i) := by
  refine ⟨by decide!, by decide!, ?_⟩
  intro ds i h
  unfold qe_cfg_release slot
  by_cases hl : ds.sp_max ≤ ds.stack.length
  · simp [List.getD_eq_getElem?_getD, List.getElem?_append_right, List.length_take, hl, h,
      Nat.min_eq_left hl]
  · simp only [not_le] at hl
    have hi : ds.stack.length ≤ i := by omega
    simp [List.getD_eq_getElem?_getD, List.take_of_length_le (le_of_lt hl),
      List.drop_of_length_le (le_of_lt hl), List.getElem?_eq_none hi]

/-- The token cases of the lexer leave the line and the error line alone. -/
theorem scan_token_lines (lx : Lexer) (c : Nat) (p : Bytes) :
    (scan_token lx c p).line_num = lx.line_num ∧ (scan_token lx c p).lineno = lx.lineno := by
  unfold scan_token
  dsimp only
  repeat' split
  all_goals exact ⟨rfl, rfl⟩

/-- The lexer moves the line of the error context with its own line: after a call the
error line is the lexer's line when a newline was passed, and is unchanged otherwise. -/
theorem next_token_loop_lineno (fuel : Nat) (lx : Lexer) (p : Bytes) (r : Lexer)
    (h : next_token_loop fuel lx p = r) :
    lx.line_num ≤ r.line_num ∧
    r.lineno = if r.line_num = lx.line_num then lx.lineno else r.line_num := by
  induction fuel generalizing lx p with
  | zero =>
    simp only [next_token_loop] at h
    subst h
    simp
  | succ n ih =>
    unfold next_token_loop at h
    dsimp only at h
    repeat' split at h
    all_goals first
      | (subst h; simp [(scan_token_lines _ _ _).1, (scan_token_lines _ _ _).2])
      | (have ih1 := ih _ _ h
         dsimp only at ih1
         obtain ⟨i1, i2⟩ := ih1
         refine ⟨by omega, ?_⟩
         first
           | exact i2
           | (rw [i2]
              simp only [beq_iff_eq] at *
              split_ifs <;> first | rfl | omega))

/-- Skip mode of `qe_cfg_expr` leaves the host and the value stack alone and returns 1. -/
theorem expr_skip_frame (fuel : Nat) (ds : QEmacsDataSource) (sp prec0 : Nat) (r : Int)
    (ds' : QEmacsDataSource) (h : qe_cfg_expr fuel ds sp prec0 true = some (r, ds')) :
    r = 1 ∧ ds'.s = ds.s ∧ ds'.stack = ds.stack ∧ ds'.sp_max = ds.sp_max := by
  cases fuel with
  | zero => simp [qe_cfg_expr] at h
  | succ n =>
    rw [qe_cfg_expr] at h
    simp only [if_true] at h
    exact skip_expr_frame n ds 0 r ds' h

/-- C17: behind the `?`, when the condition is truthy the first branch is evaluated into
the slot and the second is skipped, which changes neither the host nor the value stack;
when it is falsy the first branch is skipped in the same way and the second is evaluated
into the slot.  `1 ? (a = 1) : (x = 2)` sets only a and yields 1, `0 ? (a = 1) : (x = 2)`
sets only x and yields 2, and of two commands only the one in the taken branch is called. -/
theorem c17_conditional :
    (∀ (f : Nat) (ds : QEmacsDataSource) (sp prec0 : Nat) (tok : Int) (start_p : Bytes)
        (start_line : Nat) (dsv ds1 ds3 : QEmacsDataSource) (r : Int),
      qe_cfg_getvalue ds sp = (0, dsv) → truth_of (slot dsv sp) = true →
      qe_cfg_expr f dsv sp PREC_EXPRESSION false = some (0, ds1) → ds1.tok = 58 →
      qe_cfg_expr f (qe_cfg_next_token ds1) sp PREC_CONDITIONAL true = some (r, ds3) →
      expr_cond (f + 1) ds sp prec0 tok start_p start_line
          = expr_loop f ds3 sp prec0 tok start_p start_line ∧
        ds3.s = ds1.s ∧ ds3.stack = ds1.stack) ∧
    (∀ (f : Nat) (ds : QEmacsDataSource) (sp prec0 : Nat) (tok : Int) (start_p : Bytes)
        (start_line : Nat) (dsv ds1 ds3 : QEmacsDataSource) (r : Int),
      qe_cfg_getvalue ds sp = (0, dsv) → truth_of (slot dsv sp) = false →
      qe_cfg_expr f dsv sp PREC_EXPRESSION true = some (r, ds1) → ds1.tok = 58 →
      qe_cfg_expr f (qe_cfg_next_token ds1) sp PREC_CONDITIONAL false = some (0, ds3) →
      expr_cond (f + 1) ds sp prec0 tok start_p start_line
          = expr_loop f ds3 sp prec0 tok start_p start_line ∧
        ds1.s = dsv.s ∧ ds1.stack = dsv.stack) ∧
    (do_eval_expression 50 (host_with [] []) [49, 32, 63, 32, 40, 97, 32, 61, 32, 49, 41, 32, 58, 32, 40, 120, 32, 61, 32, 50, 41, 0] NO_ARG).map
        (fun o => (o.status, o.ds.errors, o.ds.s.vars))
      = some (some [45, 62, 32, 49], [], [([97], VarValue.number 1)]) ∧
    (do_eval_expression 50 (host_with [] []) [48, 32, 63, 32, 40, 97, 32, 61, 32, 49, 41, 32, 58, 32, 40, 120, 32, 61, 32, 50, 41, 0] NO_ARG).map
        (fun o => (o.status, o.ds.errors, o.ds.s.vars))
      = some (some [45, 62, 32, 50], [], [([120], VarValue.number 2)]) ∧
    (do_eval_expression 50 (host_with [] [⟨[102], [], 0⟩, ⟨[103], [], 0⟩]) [49, 32, 63, 32, 102, 40, 41, 32, 58, 32, 103, 40, 41, 0]
        NO_ARG).map (fun o => (o.ds.errors, o.ds.s.calls)) = some ([], [([102], [CmdArg.s])]) ∧
    (do_eval_expression 50 (host_with [] [⟨[102], [], 0⟩, ⟨[103], [], 0⟩]) [48, 32, 63, 32, 102, 40, 41, 32, 58, 32, 103, 40, 41, 0]
        NO_ARG).map (fun o => (o.ds.errors, o.ds.s.calls)) = some ([], [([103], [CmdArg.s])]) ∧
    (do_eval_expression 50 (host_with [] []) [34, 115, 34, 32, 63, 32, 49, 48, 32, 58, 32, 50, 48, 0] NO_ARG).map
        (fun o => (o.status, o.ds.errors)) = some (some [45, 62, 32, 49, 48], []) := by
  refine ⟨?_, ?_, by decide!, by decide!, by decide!, by decide!, by decide!⟩
  · intro f ds sp prec0 tok start_p start_line dsv ds1 ds3 r hv ht hx hc hy
    obtain ⟨hr, h1, h2, -⟩ := expr_skip_frame _ _ _ _ _ _ hy
    subst hr
    refine ⟨?_, by rw [h1]; rfl, by rw [h2]; rfl⟩
    rw [expr_cond]
    simp [chk1, after, chkb, has_token, hv, ht, hx, hc, hy]
  · intro f ds sp prec0 tok start_p start_line dsv ds1 ds3 r hv ht hx hc hy
    obtain ⟨hr, h1, h2, -⟩ := expr_skip_frame _ _ _ _ _ _ hx
    subst hr
    refine ⟨?_, h1, h2⟩
    rw [expr_cond]
    simp [chk1, after, chkb, has_token, hv, ht, hx, hc, hy]

/-- C18 (counterexample): the unknown command `foo` stands on line 1 and the closing
parenthesis read as look-ahead on line 2; the error is reported with line 2. -/
theorem c18_error_on_lookahead_line :
    (do_eval_expression 50 (host_with [] []) [102, 111, 111, 40, 10, 41, 0] NO_ARG).map (fun o => o.ds.errors)
      = some [(2, QError.unknown_command [102, 111, 111])] := by
  decide!

/-- C18 (amended): an error is reported with the line of the error context, which the
lexer sets to its own line at every newline it passes, look-ahead included: after
`qe_cfg_next_token` the error line is the lexer's line if that has moved, and is unchanged
otherwise.  So an error carries the line the lexer has reached: line 1 for `foo()`, line 2
when the look-ahead lies on line 2, line 4 for a variable on line 1 with the look-ahead
on line 4. -/
theorem c18_error_line :
    (∀ (ds : QEmacsDataSource) (e : QError),
      (put_error ds e).errors = ds.errors ++ [(ds.lineno, e)]) ∧
    (∀ ds : QEmacsDataSource,
      ds.line_num ≤ (qe_cfg_next_token ds).line_num ∧
      (qe_cfg_next_token ds).lineno =
        if (qe_cfg_next_token ds).line_num = ds.line_num then ds.lineno
        else (qe_cfg_next_token ds).line_num) ∧
    (do_eval_expression 50 (host_with [] []) [102, 111, 111, 40, 41, 0] NO_ARG).map (fun o => o.ds.errors)
      = some [(1, QError.unknown_command [102, 111, 111])] ∧
    (do_eval_expression 50 (host_with [] []) [102, 111, 111, 40, 10, 41, 0] NO_ARG).map (fun o => o.ds.errors)
      = some [(2, QError.unknown_command [102, 111, 111])] ∧
    (do_eval_expression 50 (host_with [] []) [97, 32, 61, 32, 110, 111, 115, 117, 99, 104, 10, 10, 10, 98, 32, 61, 32, 50, 0] NO_ARG).map
        (fun o => o.ds.errors) = some [(4, QError.no_variable [110, 111, 115, 117, 99, 104])] ∧
    (do_eval_expression 50 (host_with [] []) [102, 111, 111, 40, 41, 59, 10, 98, 97, 114, 40, 41, 0] NO_ARG).map
        (fun o => o.ds.errors)
      = some [(1, QError.unknown_command [102, 111, 111]), (2, QError.unknown_command [98, 97, 114])] := by
  refine ⟨fun _ _ => rfl, ?_, by decide!, by decide!, by decide!, by decide!⟩
  intro ds
  have h := next_token_loop_lineno (ds.p.length + 1)
    { p := ds.p, start_p := [], line_num := ds.line_num, start_line := 0, newline_seen := false,
      tok := 0, prec := 0, len := ds.len, str := ds.str, lineno := ds.lineno, err := none }
    ds.p _ rfl
  exact h

/-! ## The C library: digits written and read back -/

theorem digit_value_of_isdigit (c : Nat) (h : qe_isdigit c = true) : qe_digit_value c < 10 := by
  simp [qe_isdigit] at h
  simp only [qe_digit_value]
  split_ifs
  all_goals omega

theorem digit_value_decimal (d : Nat) (h : d < 10) : qe_digit_value (48 + d) = d := by
  simp only [qe_digit_value, qe_isdigit]
  split_ifs with h1
  all_goals omega

theorem strtoll_digits_all (base : Nat) (l : Bytes) (acc : Nat) (any : Bool)
    (hl : ∀ c ∈ l, qe_digit_value c < base) :
    strtoll_digits base l acc any
      = (l.foldl (fun a c => a * base + qe_digit_value c) acc, any || !l.isEmpty, []) := by
  induction l generalizing acc any with
  | nil => simp [strtoll_digits]
  | cons c l ih =>
    have hc := hl c (by simp)
    simp only [strtoll_digits, hc, if_true, List.foldl_cons]
    rw [ih _ _ (fun d hd => hl d (by simp [hd]))]
    simp

theorem nat_digits_append (fuel n : Nat) (acc : Bytes) :
    nat_digits 10 false fuel n acc = nat_digits 10 false fuel n [] ++ acc := by
  induction fuel generalizing n acc with
  | zero => simp [nat_digits]
  | succ k ih =>
    have hd : n % 10 < 10 := Nat.mod_lt _ (by decide)
    simp only [nat_digits, hd, if_true]
    split_ifs
    · simp
    · rw [ih (n / 10) (_ :: acc), ih (n / 10) [_]]
      simp

theorem nat_digits_spec (fuel n : Nat) (h : n < 10 ^ fuel) :
    (∀ c ∈ nat_digits 10 false fuel n [], qe_digit_value c < 10) ∧
    (nat_digits 10 false fuel n []).foldl (fun a c => a * 10 + qe_digit_value c) 0 = n ∧
    (n ≠ 0 → 49 ≤ (nat_digits 10 false fuel n []).headD 0 ∧
             (nat_digits 10 false fuel n []).headD 0 ≤ 57) := by
  induction fuel generalizing n with
  | zero =>
    have : n = 0 := by simpa using h
    subst this
    simp [nat_digits]
  | succ k ih =>
    have hd : n % 10 < 10 := Nat.mod_lt _ (by decide)
    simp only [nat_digits, hd, if_true]
    by_cases h0 : n / 10 = 0
    · have hn : n < 10 := by omega
      have hm : n % 10 = n := Nat.mod_eq_of_lt hn
      simp only [h0, beq_self_eq_true, if_true, hm]
      refine ⟨?_, ?_, ?_⟩
      · intro c hc
        simp only [List.mem_singleton] at hc
        subst hc
        rw [digit_value_decimal n hn]; exact hn
      · simp [digit_value_decimal n hn]
      · intro hne
        simp only [List.headD_cons]
        omega
    · have hb : ((n / 10 == 0) = true) = False := by simp [h0]
      simp only [hb, if_false]
      have hlt : n / 10 < 10 ^ k := by
        rw [Nat.div_lt_iff_lt_mul (by decide)]
        calc n < 10 ^ (k + 1) := h
          _ = 10 ^ k * 10 := by ring
      obtain ⟨i1, i2, i3⟩ := ih (n / 10) hlt
      rw [nat_digits_append]
      refine ⟨?_, ?_, ?_⟩
      · intro c hc
        rcases List.mem_append.mp hc with hc | hc
        · exact i1 c hc
        · simp only [List.mem_singleton] at hc
          subst hc
          rw [digit_value_decimal _ hd]; exact hd
      · rw [List.foldl_append, i2]
        simp only [List.foldl_cons, List.foldl_nil, digit_value_decimal _ hd]
        omega
      · intro _
        have := i3 h0
        cases hD : nat_digits 10 false k (n / 10) [] with
        | nil => rw [hD] at this; simp at this
        | cons x xs => rw [hD] at this; simpa using this

theorem strtoll_c_decimal (c : Nat) (t : Bytes) (h1 : 49 ≤ c) (h2 : c ≤ 57) (neg : Bool) :
    strtoll_c (if neg then 45 :: c :: t else c :: t) =
      (let r := strtoll_digits 10 (c :: t) 0 false
       if r.2.1 then
         (if neg then (if r.1 ≤ 9223372036854775808 then -(r.1 : Int) else LLONG_MIN)
          else (if r.1 ≤ 9223372036854775807 then (r.1 : Int) else LLONG_MAX), r.2.2)
       else (0, if neg then 45 :: c :: t else c :: t)) := by
  have e1 : qe_isspace c = false := by simp [qe_isspace]; omega
  have e2 : (c == 45) = false := by simp; omega
  have e3 : (c == 43) = false := by simp; omega
  have e4 : (c == 48) = false := by simp; omega
  cases neg
  · simp [strtoll_c, strtoll_skip, e1, e2, e3, e4]
  · simp [strtoll_c, strtoll_skip, qe_isspace, e4]

theorem strtoll_fmt_nat (m : Nat) (neg : Bool) (h0 : m ≠ 0) (hm : m < 10 ^ 64) :
    strtoll (if neg then 45 :: fmt_nat 10 false m else fmt_nat 10 false m) =
      if neg then (if m ≤ 9223372036854775808 then -(m : Int) else LLONG_MIN)
      else (if m ≤ 9223372036854775807 then (m : Int) else LLONG_MAX) := by
  obtain ⟨i1, i2, i3⟩ := nat_digits_spec 64 m hm
  have i3 := i3 h0
  unfold fmt_nat
  cases hD : nat_digits 10 false 64 m [] with
  | nil => rw [hD] at i3; simp at i3
  | cons c t =>
    rw [hD] at i1 i2 i3
    simp only [List.headD_cons] at i3
    unfold strtoll
    rw [strtoll_c_decimal c t i3.1 i3.2 neg, strtoll_digits_all 10 (c :: t) 0 false i1, i2]
    simp

theorem strtoll_fmt_lld (v : Int) (h1 : LLONG_MIN ≤ v) (h2 : v ≤ LLONG_MAX) :
    strtoll (fmt_lld v) = v := by
  unfold LLONG_MIN at h1
  unfold LLONG_MAX at h2
  unfold fmt_lld
  by_cases hneg : v < 0
  · have hm : (-v).toNat ≠ 0 := by omega
    have hb : (-v).toNat < 10 ^ 64 := by
      have : (-v).toNat ≤ 9223372036854775808 := by omega
      exact lt_of_le_of_lt this (by norm_num)
    have := strtoll_fmt_nat (-v).toNat true hm hb
    simp only [if_true] at this
    rw [if_pos hneg, this, if_pos (by omega)]
    omega
  · rw [if_neg hneg]
    by_cases hz : v = 0
    · subst hz
      decide
    · have hm : v.toNat ≠ 0 := by omega
      have hb : v.toNat < 10 ^ 64 := by
        have : v.toNat ≤ 9223372036854775807 := by omega
        exact lt_of_le_of_lt this (by norm_num)
      have := strtoll_fmt_nat v.toNat false hm hb
      simp only [Bool.false_eq_true, if_false] at this
      rw [this, if_pos (by omega)]
      omega

/-- C19: a slot that holds a number n between INT64_MIN and INT64_MAX holds the decimal
text of n after `qe_cfg_tostr` (the built-in `string`) and the number n again after
`qe_cfg_tonum` (the built-in `int`), both conversions succeeding. -/
theorem c19_string_int_roundtrip (ds : QEmacsDataSource) (sp : Nat) (n : Int) (al : Bool)
    (ln : Nat) (h : slot ds sp = ⟨TOK_NUMBER, al, ln, QEUnion.value n⟩)
    (h1 : LLONG_MIN ≤ n) (h2 : n ≤ LLONG_MAX) :
    (qe_cfg_tostr ds sp).1 = 0 ∧
    (slot (qe_cfg_tostr ds sp).2 sp).type = TOK_STRING ∧
    (slot (qe_cfg_tostr ds sp).2 sp).u = QEUnion.str (fmt_lld n) ∧
    (qe_cfg_tonum (qe_cfg_tostr ds sp).2 sp).1 = 0 ∧
    (slot (qe_cfg_tonum (qe_cfg_tostr ds sp).2 sp).2 sp).type = TOK_NUMBER ∧
    (slot (qe_cfg_tonum (qe_cfg_tostr ds sp).2 sp).2 sp).u = QEUnion.value n := by
  have t1 : (slot ds sp).type ≠ TOK_ID := by rw [h]; simp [TOK_NUMBER, TOK_ID]
  have e1 : qe_cfg_tostr ds sp
      = (0, set_slot ds sp (qe_cfg_set_str (slot ds sp) (fmt_lld n) (fmt_lld n).length)) := by
    unfold qe_cfg_tostr
    rw [getvalue_not_id ds sp t1]
    simp [h, TOK_NUMBER, TOK_STRING, QEUnion.asValue]
  have t2 : (slot (set_slot ds sp (qe_cfg_set_str (slot ds sp) (fmt_lld n) (fmt_lld n).length))
      sp).type ≠ TOK_ID := by
    rw [slot_set_slot]; simp [qe_cfg_set_str, TOK_STRING, TOK_ID]
  have e2 : qe_cfg_tonum
      (set_slot ds sp (qe_cfg_set_str (slot ds sp) (fmt_lld n) (fmt_lld n).length)) sp
      = (0, set_slot (set_slot ds sp (qe_cfg_set_str (slot ds sp) (fmt_lld n)
              (fmt_lld n).length)) sp
            (qe_cfg_set_num (qe_cfg_set_str (slot ds sp) (fmt_lld n) (fmt_lld n).length) n)) := by
    unfold qe_cfg_tonum
    rw [getvalue_not_id _ sp t2]
    simp [slot_set_slot, qe_cfg_set_str, QEUnion.asStr, TOK_NUMBER, TOK_STRING,
      strtoll_fmt_lld n h1 h2]
  rw [e1]
  simp only [e2, slot_set_slot]
  simp [qe_cfg_set_str, qe_cfg_set_num]

/-- C19 (witness): the number 42 in slot 0; and the scripts `int(string(42))` and
`int(string(-9223372036854775807 - 1))`, which show the number they start from. -/
theorem c19_string_int_roundtrip_witness :
    ((qe_cfg_tostr (set_slot (qe_cfg_init (host_with [] []) []) 0
        ⟨TOK_NUMBER, false, 0, QEUnion.value 42⟩) 0).1 = 0 ∧
     (slot (qe_cfg_tostr (set_slot (qe_cfg_init (host_with [] []) []) 0
        ⟨TOK_NUMBER, false, 0, QEUnion.value 42⟩) 0).2 0).type = TOK_STRING ∧
     (slot (qe_cfg_tostr (set_slot (qe_cfg_init (host_with [] []) []) 0
        ⟨TOK_NUMBER, false, 0, QEUnion.value 42⟩) 0).2 0).u = QEUnion.str (fmt_lld 42) ∧
     (qe_cfg_tonum (qe_cfg_tostr (set_slot (qe_cfg_init (host_with [] []) []) 0
        ⟨TOK_NUMBER, false, 0, QEUnion.value 42⟩) 0).2 0).1 = 0 ∧
     (slot (qe_cfg_tonum (qe_cfg_tostr (set_slot (qe_cfg_init (host_with [] []) []) 0
        ⟨TOK_NUMBER, false, 0, QEUnion.value 42⟩) 0).2 0).2 0).type = TOK_NUMBER ∧
     (slot (qe_cfg_tonum (qe_cfg_tostr (set_slot (qe_cfg_init (host_with [] []) []) 0
        ⟨TOK_NUMBER, false, 0, QEUnion.value 42⟩) 0).2 0).2 0).u = QEUnion.value 42) ∧
    (do_eval_expression 50 (host_with [] []) [105, 110, 116, 40, 115, 116, 114, 105, 110, 103, 40, 52, 50, 41, 41, 0] NO_ARG).map
        (fun o => (o.status, o.ds.errors)) = some (some [45, 62, 32, 52, 50], []) ∧
    (do_eval_expression 50 (host_with [] []) [105, 110, 116, 40, 115, 116, 114, 105, 110, 103, 40, 45, 57, 50, 50, 51, 51, 55, 50, 48, 51, 54, 56, 53, 52, 55, 55, 53, 56, 48, 55, 32, 45, 32, 49, 41, 41, 0]
        NO_ARG).map (fun o => (o.status, o.ds.errors))
      = some (some [45, 62, 32, 45, 57, 50, 50, 51, 51, 55, 50, 48, 51, 54, 56, 53, 52, 55, 55, 53, 56, 48, 56], []) :=
  ⟨c19_string_int_roundtrip _ 0 42 false 0 (by decide) (by decide) (by decide),
   by decide!, by decide!⟩

/-! ## The lexer on string and number literals -/

/-- The string loop copies plain bytes up to the closing delimiter, at most `end_` of them. -/
theorem parse_string_loop_plain (s rest dest : Bytes) (fuel : Nat)
    (hs : ∀ c ∈ s, c ≠ 34 ∧ c ≠ 92 ∧ c ≠ 10 ∧ c ≠ 0) (hf : s.length < fuel) :
    parse_string_loop 34 255 fuel (s ++ 34 :: rest) dest
      = (0, rest, dest ++ s.take (255 - dest.length)) := by
  induction s generalizing dest fuel with
  | nil =>
    cases fuel with
    | zero => simp at hf
    | succ n => simp [parse_string_loop]
  | cons c s ih =>
    cases fuel with
    | zero => simp at hf
    | succ n =>
      obtain ⟨h1, h2, h3, h4⟩ := hs c (by simp)
      have hs' : ∀ d ∈ s, d ≠ 34 ∧ d ≠ 92 ∧ d ≠ 10 ∧ d ≠ 0 := fun d hd => hs d (by simp [hd])
      have hf' : s.length < n := by simpa using hf
      simp only [List.cons_append, parse_string_loop, List.headD_cons, List.tail_cons]
      simp only [beq_iff_eq, h1, h2, h3, h4, Bool.or_self, Bool.false_eq_true, if_false]
      rw [ih _ _ hs' hf']
      by_cases hd : dest.length < 255
      · simp only [hd, if_true, List.length_append, List.length_singleton, List.append_assoc,
          List.singleton_append]
        have : 255 - dest.length = (255 - (dest.length + 1)) + 1 := by omega
        rw [this, List.take_succ_cons]
        simp [h3, h4]
      · simp only [hd, if_false]
        have : 255 - dest.length = 0 := by omega
        simp [this, h3, h4]

theorem strtoll_digits_append (base : Nat) (l rest : Bytes) (acc : Nat) (any : Bool)
    (hl : ∀ c ∈ l, qe_digit_value c < base) (hr : ¬ qe_digit_value (rest.headD 0) < base) :
    strtoll_digits base (l ++ rest) acc any
      = ((strtoll_digits base l acc any).1, (strtoll_digits base l acc any).2.1, rest) := by
  induction l generalizing acc any with
  | nil =>
    cases rest with
    | nil => simp [strtoll_digits]
    | cons c r => simp at hr; simp [strtoll_digits, hr]
  | cons c l ih =>
    have hc := hl c (by simp)
    simp only [List.cons_append, strtoll_digits, hc, if_true]
    exact ih _ _ (fun d hd => hl d (by simp [hd]))

theorem digit_value_of_not_alnum (c : Nat) (h : qe_isalnum_ c = false) : qe_digit_value c = 255 := by
  simp [qe_isalnum_, qe_isalpha, qe_isdigit] at h
  simp only [qe_digit_value]
  split_ifs
  all_goals omega

theorem digit_value_of_isoct (c : Nat) (h : qe_isoctdigit c = true) : qe_digit_value c < 8 := by
  simp [qe_isoctdigit] at h
  simp only [qe_digit_value]
  split_ifs
  all_goals omega

theorem digit_value_of_isxdigit (c : Nat) (h : qe_isxdigit c = true) : qe_digit_value c < 16 := by
  simp [qe_isxdigit, qe_isdigit] at h
  simp only [qe_digit_value]
  split_ifs
  all_goals omega


theorem strtoll_digits_any (base : Nat) (l : Bytes) (acc : Nat) :
    (strtoll_digits base l acc true).2.1 = true := by
  induction l generalizing acc with
  | nil => simp [strtoll_digits]
  | cons c l ih =>
    simp only [strtoll_digits]
    split_ifs
    · exact ih _
    · rfl

theorem strtoll_digits_cons_any (base c : Nat) (l : Bytes) (acc : Nat) (any : Bool)
    (hc : qe_digit_value c < base) : (strtoll_digits base (c :: l) acc any).2.1 = true := by
  simp only [strtoll_digits, hc, if_true]
  exact strtoll_digits_any _ _ _

theorem strtoll_c_digit_start (c : Nat) (t : Bytes) (hc : qe_isdigit c = true) :
    strtoll_c (c :: t) =
      (let hex := c == 48 && (t.headD 0 == 120 || t.headD 0 == 88) && qe_isxdigit (t.tail.headD 0)
       let r := strtoll_digits (if hex then 16 else if c == 48 then 8 else 10)
                  (if hex then t.tail else c :: t) 0 false
       if r.2.1 then ((if r.1 ≤ 9223372036854775807 then (r.1 : Int) else LLONG_MAX), r.2.2)
       else (0, c :: t)) := by
  simp only [qe_isdigit, Bool.and_eq_true, decide_eq_true_eq] at hc
  have h1 : qe_isspace c = false := by simp [qe_isspace]; omega
  have h2 : (c == 45) = false := by simp; omega
  have h3 : (c == 43) = false := by simp; omega
  simp [strtoll_c, strtoll_skip, h1, h2, h3]

theorem strtoll_c_literal (l rest : Bytes) (hl : is_int_literal l = true)
    (hr : qe_isalnum_ (rest.headD 0) = false) :
    strtoll_c (l ++ rest) = (strtoll l, rest) := by
  have h255 := digit_value_of_not_alnum _ hr
  have hx : (rest.headD 0 == 120) = false ∧ (rest.headD 0 == 88) = false := by
    simp [qe_isalnum_, qe_isalpha, qe_isdigit] at hr
    constructor <;> simp <;> omega
  cases l with
  | nil => simp [is_int_literal, qe_isdigit] at hl
  | cons c t =>
    have hc : qe_isdigit c = true := by
      simp only [is_int_literal, List.headD_cons] at hl
      split_ifs at hl with h1
      · simp at h1; simp [qe_isdigit, h1]
      · simp at h1; simp [qe_isdigit, h1]
      · simp at hl; exact hl.1
    simp only [strtoll, List.cons_append, strtoll_c_digit_start c _ hc]
    simp only [is_int_literal, List.headD_cons, List.tail_cons] at hl
    by_cases h48 : c = 48
    · subst h48
      simp only [beq_self_eq_true, if_true, Bool.true_and] at hl ⊢
      cases t with
      | nil =>
        cases rest with
        | nil => simp [strtoll_digits, qe_digit_value, qe_isxdigit, qe_isdigit]
        | cons r0 r =>
          have e := strtoll_digits_append 8 [48] (r0 :: r) 0 false
            (by simp [qe_digit_value]) (by omega)
          simp only [List.cons_append, List.nil_append] at e
          simp only [List.headD_cons] at hx
          simp [hx.1, hx.2, e]
          simp [strtoll_digits, qe_digit_value]
      | cons x t2 =>
        by_cases hxx : (x == 120 || x == 88) = true
        · simp only [List.headD_cons, hxx, if_true] at hl
          cases t2 with
          | nil => simp at hl
          | cons h t3 =>
            simp only [List.length_cons, List.drop_succ_cons, List.drop_zero, List.all_cons,
              Bool.and_eq_true, decide_eq_true_eq] at hl
            obtain ⟨-, hh, ht⟩ := hl
            have hall : ∀ d ∈ h :: t3, qe_digit_value d < 16 := by
              intro d hd
              rcases List.mem_cons.mp hd with rfl | hd
              · exact digit_value_of_isxdigit _ hh
              · exact digit_value_of_isxdigit _ (List.all_eq_true.mp ht d hd)
            have e := strtoll_digits_append 16 (h :: t3) rest 0 false hall (by omega)
            simp only [List.cons_append] at e
            simp [hxx, hh, e, strtoll_digits_cons_any 16 h t3 0 false (digit_value_of_isxdigit _ hh)]
        · simp only [List.headD_cons, hxx] at hl
          have hall : ∀ d ∈ 48 :: x :: t2, qe_digit_value d < 8 := by
            intro d hd
            rcases List.mem_cons.mp hd with rfl | hd
            · simp [qe_digit_value]
            · exact digit_value_of_isoct _ (List.all_eq_true.mp hl d hd)
          have e := strtoll_digits_append 8 (48 :: x :: t2) rest 0 false hall (by omega)
          simp only [List.cons_append] at e
          simp at hxx
          simp [hxx, e, strtoll_digits_cons_any 8 48 (x :: t2) 0 false (by simp [qe_digit_value])]
    · have h48' : (c == 48) = false := by simp [h48]
      simp only [h48', Bool.false_eq_true, if_false, Bool.and_eq_true] at hl
      have hall : ∀ d ∈ c :: t, qe_digit_value d < 10 := by
        intro d hd
        exact digit_value_of_isdigit _ (List.all_eq_true.mp hl.2 d hd)
      have e := strtoll_digits_append 10 (c :: t) rest 0 false hall (by omega)
      simp only [List.cons_append] at e
      simp [h48', e, strtoll_digits_cons_any 10 c t 0 false (digit_value_of_isdigit _ hc)]

/-- The lexer on an integer literal: the token is a number and ends where the literal ends. -/
theorem next_token_loop_number (f : Nat) (lx : Lexer) (l rest : Bytes)
    (hl : is_int_literal l = true) (hr : qe_isalnum_ (rest.headD 0) = false) :
    next_token_loop (f + 1) lx (l ++ rest) =
      { lx with start_p := l ++ rest, start_line := lx.line_num, prec := PREC_NONE, p := rest,
                tok := TOK_NUMBER } := by
  cases l with
  | nil => simp [is_int_literal, qe_isdigit] at hl
  | cons c t =>
    have hc : qe_isdigit c = true := by
      simp only [is_int_literal, List.headD_cons] at hl
      split_ifs at hl with h1
      · simp at h1; simp [qe_isdigit, h1]
      · simp at h1; simp [qe_isdigit, h1]
      · simp at hl; exact hl.1
    have hc' := hc
    simp only [qe_isdigit, Bool.and_eq_true, decide_eq_true_eq] at hc'
    have e0 : (c == 0) = false := by simp; omega
    have e1 : (c == 10) = false := by simp; omega
    have e2 : qe_isspace c = false := by simp [qe_isspace]; omega
    have e3 : (c == 47) = false := by simp; omega
    have e4 : qe_isalpha_ c = false := by simp [qe_isalpha_, qe_isalpha]; omega
    have e5 := strtoll_c_literal (c :: t) rest hl hr
    simp only [List.cons_append] at e5
    have hr2 : qe_isalnum_ ((List.head? rest).getD 0) = false := by simpa using hr
    simp [next_token_loop, scan_token, e0, e1, e2, e3, e4, hc, e5, hr2]

theorem lex_number (l rest : Bytes) (ln lno len : Nat) (str : Bytes)
    (hl : is_int_literal l = true) (hr : qe_isalnum_ (rest.headD 0) = false) :
    lex (l ++ rest) ln lno len str =
      ⟨rest, l ++ rest, ln, ln, false, TOK_NUMBER, PREC_NONE, len, str, lno, none⟩ := by
  unfold lex
  rw [next_token_loop_number _ _ l rest hl hr]

theorem lex_space_number (l rest : Bytes) (ln lno len : Nat) (str : Bytes)
    (hl : is_int_literal l = true) (hr : qe_isalnum_ (rest.headD 0) = false) :
    lex (32 :: (l ++ rest)) ln lno len str =
      ⟨rest, l ++ rest, ln, ln, false, TOK_NUMBER, PREC_NONE, len, str, lno, none⟩ := by
  unfold lex
  simp only [List.length_cons]
  rw [next_token_loop]
  simp only [List.headD_cons, List.tail_cons]
  have : qe_isspace 32 = true := by decide
  simp only [this, if_true]
  simp only [show ((32 : Nat) == 0) = false by decide, show ((32 : Nat) == 10) = false by decide,
    Bool.false_eq_true, if_false]
  rw [next_token_loop_number _ _ l rest hl hr]

/-- The lexer on a string literal of plain bytes: the token is a string whose text is the
first 255 bytes between the quotes. -/
theorem lex_string (s rest : Bytes) (ln lno len : Nat) (str : Bytes)
    (hs : ∀ c ∈ s, c ≠ 34 ∧ c ≠ 92 ∧ c ≠ 10 ∧ c ≠ 0) :
    lex (34 :: (s ++ 34 :: rest)) ln lno len str =
      ⟨rest, 34 :: (s ++ 34 :: rest), ln, ln, false, TOK_STRING, PREC_NONE,
        (s.take 255).length, s.take 255 ++ [0], lno, none⟩ := by
  unfold lex
  simp only [List.length_cons]
  rw [next_token_loop]
  have e := parse_string_loop_plain s rest [] (s.length + (rest.length + 1) + 1) hs
    (by omega)
  simp [scan_token, qe_isspace, qe_isalpha_, qe_isalpha, qe_isdigit, qe_cfg_parse_string, e,
    TOK_STRING]

/-! ## One step of the evaluator on a known token -/

theorem chk_some (c : Int) (ds : QEmacsDataSource)
    (fail k : QEmacsDataSource → Option (Int × QEmacsDataSource)) :
    chk (some (c, ds)) fail k = if c != 0 then fail ds else k ds := rfl

theorem after_some (c : Int) (ds : QEmacsDataSource)
    (k : Int → QEmacsDataSource → Option (Int × QEmacsDataSource)) :
    after (some (c, ds)) k = k c ds := rfl

theorem chk1_pair (c : Int) (ds : QEmacsDataSource)
    (fail k : QEmacsDataSource → Option (Int × QEmacsDataSource)) :
    chk1 (c, ds) fail k = if c != 0 then fail ds else k ds := rfl

theorem chkb_pair (b : Bool) (ds : QEmacsDataSource)
    (fail k : QEmacsDataSource → Option (Int × QEmacsDataSource)) :
    chkb (b, ds) fail k = if b then k ds else fail ds := rfl

theorem stmt_expr_step (f : Nat) (ds : QEmacsDataSource) (sp : Nat) (skip : Bool)
    (h1 : ds.tok ≠ 123) (h2 : ds.tok ≠ 132) (h3 : ds.tok ≠ 59) :
    qe_cfg_stmt (f + 1) ds sp skip =
      after (qe_cfg_expr f ds sp 1 skip) fun r ds1 =>
        if r != 0 then stmt_end 1 ds1
        else stmt_end (if (qe_cfg_getvalue ds1 sp).1 != 0 then 1 else 0)
               (qe_cfg_getvalue ds1 sp).2 := by
  rw [qe_cfg_stmt]
  simp [h1, h2, h3, TOK_IF, PREC_EXPRESSION]

theorem expr_enter_new (f : Nat) (ds : QEmacsDataSource) (sp prec0 : Nat)
    (h1 : ds.sp_max ≤ sp) (h2 : sp < 16) :
    qe_cfg_expr (f + 1) ds sp prec0 false =
      expr_again f { ds with sp_max := sp + 1 } sp prec0 ds.tok ds.start_p ds.line_num := by
  rw [qe_cfg_expr]
  simp [h1, h2]

theorem expr_enter_old (f : Nat) (ds : QEmacsDataSource) (sp prec0 : Nat)
    (h1 : sp < ds.sp_max) :
    qe_cfg_expr (f + 1) ds sp prec0 false =
      expr_again f ds sp prec0 ds.tok ds.start_p ds.line_num := by
  rw [qe_cfg_expr]
  simp [h1]

theorem again_number (f : Nat) (ds : QEmacsDataSource) (sp prec0 : Nat) (start_p : Bytes)
    (start_line : Nat) :
    expr_again (f + 1) ds sp prec0 128 start_p start_line =
      expr_loop f
        (qe_cfg_next_token (set_slot ds sp (qe_cfg_set_num (slot ds sp) (strtoll ds.start_p))))
        sp prec0 128 start_p start_line := by
  rw [expr_again]
  simp [TOK_INC, TOK_DEC, TOK_NUMBER]

theorem again_string (f : Nat) (ds : QEmacsDataSource) (sp prec0 : Nat) (start_p : Bytes)
    (start_line : Nat) :
    expr_again (f + 1) ds sp prec0 129 start_p start_line =
      expr_loop f
        (qe_cfg_next_token
          (set_slot ds sp { qe_cfg_set_str (slot ds sp) ds.str ds.len with type := 129 }))
        sp prec0 129 start_p start_line := by
  rw [expr_again]
  simp [TOK_INC, TOK_DEC, TOK_NUMBER, TOK_STRING]

theorem again_ident (f : Nat) (ds : QEmacsDataSource) (sp prec0 : Nat) (start_p : Bytes)
    (start_line : Nat) :
    expr_again (f + 1) ds sp prec0 131 start_p start_line =
      expr_loop f
        (qe_cfg_next_token
          (set_slot ds sp { qe_cfg_set_str (slot ds sp) ds.str ds.len with type := 131 }))
        sp prec0 131 start_p start_line := by
  rw [expr_again]
  simp [TOK_INC, TOK_DEC, TOK_NUMBER, TOK_STRING, TOK_ID]

theorem loop_exit (f : Nat) (ds0 : QEmacsDataSource) (sp prec0 : Nat) (tok : Int)
    (start_p : Bytes) (start_line : Nat) (h : ds0.prec < prec0) :
    expr_loop (f + 1) ds0 sp prec0 tok start_p start_line = some (0, ds0) := by
  rw [expr_loop]
  simp [h]

theorem loop_postop (f : Nat) (ds0 : QEmacsDataSource) (sp prec0 : Nat) (tok : Int)
    (start_p : Bytes) (start_line : Nat) (h1 : prec0 ≤ ds0.prec) (h2 : ds0.tok ≠ 44)
    (h3 : ds0.tok ≠ 63) (h4 : ds0.prec = 14) :
    expr_loop (f + 1) ds0 sp prec0 tok start_p start_line =
      expr_postop f (qe_cfg_next_token ds0) sp prec0 tok start_p start_line ds0.tok := by
  rw [expr_loop, if_neg (by omega : ¬ ds0.prec < prec0)]
  simp [h2, h3, h4, PREC_POSTFIX]

theorem loop_assign (f : Nat) (ds0 : QEmacsDataSource) (sp prec0 : Nat) (tok : Int)
    (start_p : Bytes) (start_line : Nat) (h1 : prec0 ≤ ds0.prec) (h2 : ds0.tok ≠ 44)
    (h3 : ds0.tok ≠ 63) (h4 : ds0.prec = 2) :
    expr_loop (f + 1) ds0 sp prec0 tok start_p start_line =
      chk (qe_cfg_expr f (qe_cfg_next_token ds0) (sp + 1) 2 false)
        (fun ds => expr_fail f ds start_p start_line) fun ds =>
      chk1 (qe_cfg_assign ds sp ds0.tok)
        (fun ds => expr_fail f ds start_p start_line) fun ds =>
      expr_loop f ds sp prec0 tok start_p start_line := by
  rw [expr_loop, if_neg (by omega : ¬ ds0.prec < prec0)]
  simp [h2, h3, h4, PREC_POSTFIX, PREC_ASSIGNMENT]

theorem loop_binary (f : Nat) (ds0 : QEmacsDataSource) (sp prec0 : Nat) (tok : Int)
    (start_p : Bytes) (start_line : Nat) (h1 : prec0 ≤ ds0.prec) (h2 : ds0.tok ≠ 44)
    (h3 : ds0.tok ≠ 63) (h4 : ds0.prec ≠ 14) (h5 : ds0.prec ≠ 2) :
    expr_loop (f + 1) ds0 sp prec0 tok start_p start_line =
      chk (qe_cfg_expr f (qe_cfg_next_token ds0) (sp + 1) (ds0.prec + 1) false)
        (fun ds => expr_fail f ds start_p start_line) fun ds =>
      chk1 (qe_cfg_getvalue ds sp)
        (fun ds => expr_fail f ds start_p start_line) fun ds =>
      chk1 (qe_cfg_op ds sp ds0.tok)
        (fun ds => expr_fail f ds start_p start_line) fun ds =>
      expr_loop f ds sp prec0 tok start_p start_line := by
  rw [expr_loop, if_neg (by omega : ¬ ds0.prec < prec0)]
  simp [h2, h3, h4, h5, PREC_POSTFIX, PREC_ASSIGNMENT]

theorem postop_length (f : Nat) (ds : QEmacsDataSource) (sp prec0 : Nat) (tok : Int)
    (start_p : Bytes) (start_line : Nat) (h1 : ds.tok = 131) (h2 : (slot ds sp).type = 129)
    (h3 : cstr ds.str = [108, 101, 110, 103, 116, 104]) :
    expr_postop (f + 1) ds sp prec0 tok start_p start_line 46 =
      expr_loop f
        (qe_cfg_next_token
          (set_slot ds sp (qe_cfg_set_num (slot ds sp)
            ((cstr (slot ds sp).u.asStr).length : Int))))
        sp prec0 tok start_p start_line := by
  have hid : (slot ds sp).type ≠ TOK_ID := by rw [h2]; simp [TOK_ID]
  rw [expr_postop]
  simp [h1, h2, h3, TOK_INC, TOK_DEC, TOK_ID, TOK_STRING, getvalue_not_id ds sp hid, chk1]

theorem script_loop_stmt (f : Nat) (ds : QEmacsDataSource) (h1 : ds.tok ≠ -1)
    (h2 : ds.tok ≠ -2) :
    parse_script_loop (f + 1) ds =
      (qe_cfg_stmt f ds 0 false).bind fun x =>
        parse_script_loop f
          (if x.1 != 0 then set_slot x.2 0 { slot x.2 0 with type := 0 } else x.2) := by
  rw [parse_script_loop]
  cases qe_cfg_stmt f ds 0 false with
  | none => simp [h1, h2, TOK_EOF, TOK_ERR]
  | some x => simp [h1, h2, TOK_EOF, TOK_ERR, TOK_VOID]

theorem script_loop_eof (f : Nat) (ds : QEmacsDataSource) (h1 : ds.tok = -1) :
    parse_script_loop (f + 1) ds = some ds := by
  rw [parse_script_loop]
  simp [h1, TOK_EOF, TOK_ERR]

theorem cstr_plain (s : Bytes) (hs : ∀ c ∈ s, c ≠ 0) : cstr s = s := by
  induction s with
  | nil => simp [cstr]
  | cons c s ih =>
    have h := hs c (by simp)
    simp [cstr, h, ih (fun d hd => hs d (by simp [hd]))]

theorem set_slot_mk (s : Host) (ab : Bool) (buf p sp0 : Bytes) (ln sl : Nat) (nl : Bool)
    (tok : Int) (prec len spm : Nat) (stack : List QEValue) (str : Bytes) (lno : Nat)
    (errs : List (Nat × QError)) (i : Nat) (v : QEValue) (h : i < stack.length) :
    set_slot ⟨s, ab, buf, p, sp0, ln, sl, nl, tok, prec, len, spm, stack, str, lno, errs⟩ i v =
      ⟨s, ab, buf, p, sp0, ln, sl, nl, tok, prec, len, spm, stack.set i v, str, lno, errs⟩ := by
  simp [set_slot, h]

theorem next_token_mk (s : Host) (ab : Bool) (buf p sp0 : Bytes) (ln sl : Nat) (nl : Bool)
    (tok : Int) (prec len spm : Nat) (stack : List QEValue) (str : Bytes) (lno : Nat)
    (errs : List (Nat × QError)) :
    qe_cfg_next_token ⟨s, ab, buf, p, sp0, ln, sl, nl, tok, prec, len, spm, stack, str, lno, errs⟩ =
      store_token ⟨s, ab, buf, p, sp0, ln, sl, nl, tok, prec, len, spm, stack, str, lno, errs⟩
        (lex p ln lno len str) := rfl

/-- What `do_eval_expression` shows for a script that leaves a number in slot 0. -/
theorem eval_number (fuel : Nat) (h : Host) (e : Bytes) (ds : QEmacsDataSource) (n : Int)
    (al : Bool) (ln : Nat)
    (hp : qe_parse_script fuel h (qe_cfg_init h e) = some (128, ds))
    (hv : slot ds 0 = ⟨128, al, ln, QEUnion.value n⟩) :
    (do_eval_expression fuel h e NO_ARG).map (fun o => (o.status, o.ds.errors))
      = some (some ([45, 62, 32] ++ fmt_lld n), ds.errors) := by
  have hid : (slot ds 0).type ≠ TOK_ID := by rw [hv]; simp [TOK_ID]
  unfold do_eval_expression
  rw [hp]
  simp [getvalue_not_id ds 0 hid, hv, TOK_ERR, TOK_VOID, TOK_NUMBER, NO_ARG, qe_cfg_release,
    QEUnion.asValue]

/-- The script made of a string literal of plain bytes and `.length`, run by
`qe_parse_script`: slot 0 ends as the number of bytes of the literal. -/
theorem parse_string_length (s : Bytes) (f : Nat) (h : Host)
    (hs : ∀ c ∈ s, c ≠ 34 ∧ c ≠ 92 ∧ c ≠ 10 ∧ c ≠ 0) (hl : s.length ≤ 255) :
    ∃ ds, qe_parse_script (f + 8) h (qe_cfg_init h (34 :: (s ++ 34 :: [46, 108, 101, 110, 103, 116, 104, 0])))
        = some (128, ds) ∧
      slot ds 0 = ⟨128, false, s.length, QEUnion.value s.length⟩ ∧ ds.errors = [] := by
  have t1 := fun ln lno len str => lex_string s [46, 108, 101, 110, 103, 116, 104, 0] ln lno len str hs
  have t2 : ∀ ln lno len str, lex [46, 108, 101, 110, 103, 116, 104, 0] ln lno len str
      = ⟨[108, 101, 110, 103, 116, 104, 0], [46, 108, 101, 110, 103, 116, 104, 0], ln, ln, false, 46, 14, len, str, lno, none⟩ :=
    fun _ _ _ _ => rfl
  have t3 : ∀ ln lno len str, lex [108, 101, 110, 103, 116, 104, 0] ln lno len str
      = ⟨[0], [108, 101, 110, 103, 116, 104, 0], ln, ln, false, 131, 0, 6, [108, 101, 110, 103, 116, 104, 0], lno, none⟩ :=
    fun _ _ _ _ => rfl
  have t4 : ∀ ln lno len str, lex [0] ln lno len str
      = ⟨[0], [0], ln, ln, false, -1, 0, len, str, lno, none⟩ :=
    fun _ _ _ _ => rfl
  have i0 : qe_cfg_init h (34 :: (s ++ 34 :: [46, 108, 101, 110, 103, 116, 104, 0])) =
      ⟨h, false, 34 :: (s ++ 34 :: [46, 108, 101, 110, 103, 116, 104, 0]), [], [], 0, 0, false, 0, 0, 0, 0,
        [⟨0, false, 0, .value 0⟩, ⟨0, false, 0, .value 0⟩, ⟨0, false, 0, .value 0⟩,
         ⟨0, false, 0, .value 0⟩, ⟨0, false, 0, .value 0⟩, ⟨0, false, 0, .value 0⟩,
         ⟨0, false, 0, .value 0⟩, ⟨0, false, 0, .value 0⟩, ⟨0, false, 0, .value 0⟩,
         ⟨0, false, 0, .value 0⟩, ⟨0, false, 0, .value 0⟩, ⟨0, false, 0, .value 0⟩,
         ⟨0, false, 0, .value 0⟩, ⟨0, false, 0, .value 0⟩, ⟨0, false, 0, .value 0⟩,
         ⟨0, false, 0, .value 0⟩], [], 0, []⟩ := rfl
  have ht : s.take 255 = s := List.take_of_length_le hl
  have hc : cstr s = s := cstr_plain s (fun c hc => (hs c hc).2.2.2)
  simp (disch := simp [slot, cstr, TOK_ID, TOK_NUMBER]) only [qe_parse_script, i0, script_begin,
    next_token_mk, set_slot_mk,
    store_token, t1, t2, t3, t4, slot, List.length_cons, List.length_nil, List.set_cons_zero,
    List.set_cons_succ, List.getD_cons_zero, List.getD_cons_succ, Nat.reduceLT, Nat.reduceAdd,
    TOK_STRING, TOK_VOID, PREC_NONE,
    script_loop_stmt, script_loop_eof, stmt_expr_step, expr_enter_new, expr_enter_old,
    again_string, loop_exit, loop_postop, postop_length, after_some, chk_some, chk1_pair,
    chkb_pair, Option.some_bind, Option.bind_some, QEValue.zero, qe_cfg_set_str, qe_cfg_set_num,
    getvalue_not_id, stmt_end_cases, bne_self_eq_false, Bool.false_eq_true, if_false,
    Int.reduceEq, Int.reduceNeg, if_true, ne_eq, not_true_eq_false, not_false_eq_true, and_true,
    true_and, false_and, Option.map_some', script_finish]
  simp [TOK_NUMBER, QEUnion.asStr, ht, hc]

/-- C15 (amended): for every string s of at most 255 bytes, none of them a backslash, a
newline, a double quote or a NUL, evaluating the source text made of `"`, s, `"` and
`.length` shows the number of bytes of s and reports no error, with any fuel of 8 or more
and on any host. -/
theorem c15_string_length (s : Bytes) (f : Nat) (h : Host)
    (hs : ∀ c ∈ s, c ≠ 34 ∧ c ≠ 92 ∧ c ≠ 10 ∧ c ≠ 0) (hl : s.length ≤ 255) :
    (do_eval_expression (f + 8) h (34 :: (s ++ 34 :: [46, 108, 101, 110, 103, 116, 104, 0])) NO_ARG).map
        (fun o => (o.status, o.ds.errors))
      = some (some ([45, 62, 32] ++ fmt_lld s.length), []) := by
  obtain ⟨ds, hp, hv, he⟩ := parse_string_length s f h hs hl
  rw [eval_number _ h _ ds s.length false s.length hp hv, he]

/-- C15 (witness): the literal `"abc"`, with fuel 8 on the host of the examples. -/
theorem c15_string_length_witness :
    (do_eval_expression (0 + 8) (host_with [] []) (34 :: ([97, 98, 99] ++ 34 :: [46, 108, 101, 110, 103, 116, 104, 0]))
        NO_ARG).map (fun o => (o.status, o.ds.errors))
      = some (some ([45, 62, 32] ++ fmt_lld (3 : Nat)), []) :=
  c15_string_length [97, 98, 99] 0 (host_with [] []) (by decide) (by decide)

/-- C15 (counterexample): a literal of 256 bytes `a`, which holds neither a backslash nor
a newline, has the length 255; and the three bytes `a"b` between the quotes give no
length at all but errors. -/
theorem c15_long_literal_is_truncated :
    (do_eval_expression 50 (host_with [] []) [34, 97, 97, 97, 97, 97, 97, 97, 97, 97, 97, 97, 97, 97, 97, 97, 97, 97, 97, 97, 97, 97, 97, 97, 97, 97, 97, 97, 97, 97, 97, 97, 97, 97, 97, 97, 97, 97, 97, 97, 97, 97, 97, 97, 97, 97, 97, 97, 97, 97, 97, 97, 97, 97, 97, 97, 97, 97, 97, 97, 97, 97, 97, 97, 97, 97, 97, 97, 97, 97, 97, 97, 97, 97, 97, 97, 97, 97, 97, 97, 97, 97, 97, 97, 97, 97, 97, 97, 97, 97, 97, 97, 97, 97, 97, 97, 97, 97, 97, 97, 97, 97, 97, 97, 97, 97, 97, 97, 97, 97, 97, 97, 97, 97, 97, 97, 97, 97, 97, 97, 97, 97, 97, 97, 97, 97, 97, 97, 97, 97, 97, 97, 97, 97, 97, 97, 97, 97, 97, 97, 97, 97, 97, 97, 97, 97, 97, 97, 97, 97, 97, 97, 97, 97, 97, 97, 97, 97, 97, 97, 97, 97, 97, 97, 97, 97, 97, 97, 97, 97, 97, 97, 97, 97, 97, 97, 97, 97, 97, 97, 97, 97, 97, 97, 97, 97, 97, 97, 97, 97, 97, 97, 97, 97, 97, 97, 97, 97, 97, 97, 97, 97, 97, 97, 97, 97, 97, 97, 97, 97, 97, 97, 97, 97, 97, 97, 97, 97, 97, 97, 97, 97, 97, 97, 97, 97, 97, 97, 97, 97, 97, 97, 97, 97, 97, 97, 97, 97, 97, 97, 97, 97, 97, 97, 97, 97, 97, 97, 97, 97, 97, 97, 97, 97, 97, 97, 97, 34, 46, 108, 101, 110, 103, 116, 104, 0] NO_ARG).map
        (fun o => (o.status, o.ds.errors)) = some (some [45, 62, 32, 50, 53, 53], []) ∧
    (do_eval_expression 50 (host_with [] []) [34, 97, 34, 98, 34, 46, 108, 101, 110, 103, 116, 104, 0] NO_ARG).map
        (fun o => o.status) = some none := by
  refine ⟨by decide!, by decide!⟩

/-- C4 (counterexample): `"x=%d y=%s" % (42, "q")` yields the string "x=0 y=0". -/
theorem c4_two_operands_not_consumed :
    (do_eval_expression 50 (host_with [] []) [34, 120, 61, 37, 100, 32, 121, 61, 37, 115, 34, 32, 37, 32, 40, 52, 50, 44, 32, 34, 113, 34, 41, 0] NO_ARG).map
        (fun o => (o.status, o.ds.errors)) = some (some [45, 62, 32, 34, 120, 61, 48, 32, 121, 61, 48, 34], []) := by
  decide!

/-- C4 (amended): every conversion of the format string reads the one right operand:
`"x=%d" % 42` yields "x=42", `"y=%s" % "q"` yields "y=q", `"x=%d y=%s" % 42` yields
"x=42 y=42" and `"x=%s y=%s" % "q"` yields "x=q y=q". -/
theorem c4_format_one_operand :
    (do_eval_expression 50 (host_with [] []) [34, 120, 61, 37, 100, 34, 32, 37, 32, 52, 50, 0] NO_ARG).map
        (fun o => (o.status, o.ds.errors)) = some (some [45, 62, 32, 34, 120, 61, 52, 50, 34], []) ∧
    (do_eval_expression 50 (host_with [] []) [34, 121, 61, 37, 115, 34, 32, 37, 32, 34, 113, 34, 0] NO_ARG).map
        (fun o => (o.status, o.ds.errors)) = some (some [45, 62, 32, 34, 121, 61, 113, 34], []) ∧
    (do_eval_expression 50 (host_with [] []) [34, 120, 61, 37, 100, 32, 121, 61, 37, 115, 34, 32, 37, 32, 52, 50, 0] NO_ARG).map
        (fun o => (o.status, o.ds.errors)) = some (some [45, 62, 32, 34, 120, 61, 52, 50, 32, 121, 61, 52, 50, 34], []) ∧
    (do_eval_expression 50 (host_with [] []) [34, 120, 61, 37, 115, 32, 121, 61, 37, 115, 34, 32, 37, 32, 34, 113, 34, 0] NO_ARG).map
        (fun o => (o.status, o.ds.errors)) = some (some [45, 62, 32, 34, 120, 61, 113, 32, 121, 61, 113, 34], []) := by
  refine ⟨by decide!, by decide!, by decide!, by decide!⟩

/-- C5: `1, "a"` yields the number 0 and `x, 5` with x = 3 yields 3, not the value of the
right operand; `1, 2` yields 2 and `"a", "b"` yields "b". -/
theorem c5_comma_reuses_first_token_kind :
    (do_eval_expression 50 (host_with [] []) [49, 44, 32, 34, 97, 34, 0] NO_ARG).map
        (fun o => (o.status, o.ds.errors)) = some (some [45, 62, 32, 48], []) ∧
    (do_eval_expression 50 (host_with [([120], VarValue.number 3)] []) [120, 44, 32, 53, 0] NO_ARG).map
        (fun o => (o.status, o.ds.errors)) = some (some [45, 62, 32, 51], []) ∧
    (do_eval_expression 50 (host_with [] []) [49, 44, 32, 50, 0] NO_ARG).map
        (fun o => (o.status, o.ds.errors)) = some (some [45, 62, 32, 50], []) ∧
    (do_eval_expression 50 (host_with [] []) [34, 97, 34, 44, 32, 34, 98, 34, 0] NO_ARG).map
        (fun o => (o.status, o.ds.errors)) = some (some [45, 62, 32, 34, 98, 34], []) := by
  refine ⟨by decide!, by decide!, by decide!, by decide!⟩

/-- C6: `0 && (a = 5)` yields 0 and `1 || (a = 5)` yields 1, and both set a to 5;
`0 && f()` calls the command f. -/
theorem c6_right_operand_is_evaluated :
    (do_eval_expression 50 (host_with [] []) [48, 32, 38, 38, 32, 40, 97, 32, 61, 32, 53, 41, 0] NO_ARG).map
        (fun o => (o.status, o.ds.errors, o.ds.s.vars))
      = some (some [45, 62, 32, 48], [], [([97], VarValue.number 5)]) ∧
    (do_eval_expression 50 (host_with [] []) [49, 32, 124, 124, 32, 40, 97, 32, 61, 32, 53, 41, 0] NO_ARG).map
        (fun o => (o.status, o.ds.errors, o.ds.s.vars))
      = some (some [45, 62, 32, 49], [], [([97], VarValue.number 5)]) ∧
    (do_eval_expression 50 (host_with [] [⟨[102], [], 0⟩]) [48, 32, 38, 38, 32, 102, 40, 41, 0] NO_ARG).map
        (fun o => (o.status, o.ds.s.calls)) = some (some [45, 62, 32, 48], [([102], [CmdArg.s])]) := by
  refine ⟨by decide!, by decide!, by decide!⟩

theorem strtoll_literal_prefix (l rest : Bytes) (hl : is_int_literal l = true)
    (hr : qe_isalnum_ (rest.headD 0) = false) : strtoll (l ++ rest) = strtoll l := by
  unfold strtoll
  rw [strtoll_c_literal l rest hl hr]
  rfl

theorem init_mk (h : Host) (buf : Bytes) :
    qe_cfg_init h buf =
      ⟨h, false, buf, [], [], 0, 0, false, 0, 0, 0, 0,
        [⟨0, false, 0, .value 0⟩, ⟨0, false, 0, .value 0⟩, ⟨0, false, 0, .value 0⟩,
         ⟨0, false, 0, .value 0⟩, ⟨0, false, 0, .value 0⟩, ⟨0, false, 0, .value 0⟩,
         ⟨0, false, 0, .value 0⟩, ⟨0, false, 0, .value 0⟩, ⟨0, false, 0, .value 0⟩,
         ⟨0, false, 0, .value 0⟩, ⟨0, false, 0, .value 0⟩, ⟨0, false, 0, .value 0⟩,
         ⟨0, false, 0, .value 0⟩, ⟨0, false, 0, .value 0⟩, ⟨0, false, 0, .value 0⟩,
         ⟨0, false, 0, .value 0⟩], [], 0, []⟩ := rfl

theorem num_op_add (a b : Int) : num_op 43 a b = .ok (wrap64 (a + b)) := by
  simp [num_op, TOK_MUL_EQ, TOK_DIV_EQ, TOK_MOD_EQ]

theorem num_op_mul (a b : Int) : num_op 42 a b = .ok (wrap64 (a * b)) := by
  simp [num_op]

/-- The script `a + b * c` on three integer literals, run by `qe_parse_script`. -/
theorem parse_sum_product (la lb lc : Bytes) (f : Nat) (h : Host)
    (ha : is_int_literal la = true) (hb : is_int_literal lb = true)
    (hc : is_int_literal lc = true) :
    ∃ ds, qe_parse_script (f + 12) h
        (qe_cfg_init h (la ++ 32 :: 43 :: 32 :: (lb ++ 32 :: 42 :: 32 :: (lc ++ [0]))))
        = some (128, ds) ∧
      slot ds 0 = ⟨128, false, 0,
        QEUnion.value (wrap64 (strtoll la + wrap64 (strtoll lb * strtoll lc)))⟩ ∧
      ds.errors = [] := by
  have t1 := fun ln lno len str =>
    lex_number la (32 :: 43 :: 32 :: (lb ++ 32 :: 42 :: 32 :: (lc ++ [0]))) ln lno len str ha rfl
  have t2 : ∀ ln lno len str,
      lex (32 :: 43 :: 32 :: (lb ++ 32 :: 42 :: 32 :: (lc ++ [0]))) ln lno len str
      = ⟨32 :: (lb ++ 32 :: 42 :: 32 :: (lc ++ [0])),
         43 :: 32 :: (lb ++ 32 :: 42 :: 32 :: (lc ++ [0])), ln, ln, false, 43, 12, len, str, lno,
         none⟩ :=
    fun _ _ _ _ => rfl
  have t3 := fun ln lno len str =>
    lex_space_number lb (32 :: 42 :: 32 :: (lc ++ [0])) ln lno len str hb rfl
  have t4 : ∀ ln lno len str, lex (32 :: 42 :: 32 :: (lc ++ [0])) ln lno len str
      = ⟨32 :: (lc ++ [0]), 42 :: 32 :: (lc ++ [0]), ln, ln, false, 42, 13, len, str, lno,
         none⟩ :=
    fun _ _ _ _ => rfl
  have t5 := fun ln lno len str => lex_space_number lc [0] ln lno len str hc rfl
  have t6 : ∀ ln lno len str, lex [0] ln lno len str
      = ⟨[0], [0], ln, ln, false, -1, 0, len, str, lno, none⟩ :=
    fun _ _ _ _ => rfl
  have v1 := strtoll_literal_prefix la (32 :: 43 :: 32 :: (lb ++ 32 :: 42 :: 32 :: (lc ++ [0])))
    ha rfl
  have v2 := strtoll_literal_prefix lb (32 :: 42 :: 32 :: (lc ++ [0])) hb rfl
  have v3 := strtoll_literal_prefix lc [0] hc rfl
  simp (disch := simp [slot, cstr, TOK_ID, TOK_NUMBER]) only [qe_parse_script, init_mk,
    script_begin, next_token_mk, set_slot_mk,
    store_token, t1, t2, t3, t4, t5, t6, v1, v2, v3, slot, List.length_cons, List.length_nil,
    List.set_cons_zero,
    List.set_cons_succ, List.getD_cons_zero, List.getD_cons_succ, Nat.reduceLT, Nat.reduceAdd,
    TOK_NUMBER, TOK_VOID, PREC_NONE,
    script_loop_stmt, script_loop_eof, stmt_expr_step, expr_enter_new, expr_enter_old,
    again_number, loop_exit, loop_binary, op_numbers, qe_cfg_op_num, num_op_add, num_op_mul,
    QEUnion.asValue, after_some, chk_some, chk1_pair,
    chkb_pair, Option.some_bind, Option.bind_some, qe_cfg_set_num,
    getvalue_not_id, stmt_end_cases, bne_self_eq_false, Bool.false_eq_true, if_false,
    Int.reduceEq, Int.reduceNeg, if_true, ne_eq, not_true_eq_false, not_false_eq_true, and_true,
    true_and, false_and, Option.map_some', script_finish]
  exact ⟨_, rfl, rfl, rfl⟩

/-- C3: for all integer literals a, b, c (decimal, octal or hexadecimal, read as `strtoll`
reads them), on any host and with any fuel of 12 or more, evaluating `a + b * c` shows the
number a + (b * c), the product and the sum each wrapped to 64 bits, and reports no
error. -/
theorem c3_product_binds_tighter (la lb lc : Bytes) (f : Nat) (h : Host)
    (ha : is_int_literal la = true) (hb : is_int_literal lb = true)
    (hc : is_int_literal lc = true) :
    (do_eval_expression (f + 12) h
        (la ++ 32 :: 43 :: 32 :: (lb ++ 32 :: 42 :: 32 :: (lc ++ [0]))) NO_ARG).map
        (fun o => (o.status, o.ds.errors))
      = some (some ([45, 62, 32] ++ fmt_lld (wrap64 (strtoll la + wrap64 (strtoll lb * strtoll lc)))),
              []) := by
  obtain ⟨ds, hp, hv, he⟩ := parse_sum_product la lb lc f h ha hb hc
  rw [eval_number _ h _ ds _ false 0 hp hv, he]

/-- C3 (witness): the literals 1, 2 and 3: `1 + 2 * 3` shows 7. -/
theorem c3_product_binds_tighter_witness :
    (do_eval_expression (0 + 12) (host_with [] [])
        ([49] ++ 32 :: 43 :: 32 :: ([50] ++ 32 :: 42 :: 32 :: ([51] ++ [0]))) NO_ARG).map
        (fun o => (o.status, o.ds.errors))
      = some (some ([45, 62, 32] ++ fmt_lld (wrap64 (strtoll [49] + wrap64 (strtoll [50] * strtoll [51])))),
              []) ∧
    (do_eval_expression 12 (host_with [] []) [49, 32, 43, 32, 50, 32, 42, 32, 51, 0] NO_ARG).map
        (fun o => (o.status, o.ds.errors)) = some (some [45, 62, 32, 55], []) :=
  ⟨c3_product_binds_tighter [49] [50] [51] 0 (host_with [] []) (by decide) (by decide) (by decide),
   by decide!⟩

/-! ## Further steps: assignment, variables, calls, failure and `if` -/

theorem get_set_variable_number (h : Host) (name : Bytes) (n : Int) :
    qe_get_variable (qe_set_variable h name none n) name = some (VarValue.number n) := by
  simp [qe_get_variable, qe_set_variable]

theorem find_cmd_set_variable (h : Host) (name : Bytes) (v : Option Bytes) (n : Int)
    (cmd : Bytes) : qe_find_cmd (qe_set_variable h name v n) cmd = qe_find_cmd h cmd := rfl

theorem getvalue_id (ds : QEmacsDataSource) (sp : Nat) (h : (slot ds sp).type = 131) :
    qe_cfg_getvalue ds sp =
      (qe_get_variable ds.s (cstr (slot ds sp).u.asStr)).elim
        (1, set_slot (put_error ds (QError.no_variable (cstr (slot ds sp).u.asStr))) sp
              (qe_cfg_set_void (slot ds sp)))
        (fun r => (0, set_slot ds sp (var_slot (slot ds sp) r))) := by
  unfold qe_cfg_getvalue
  simp only [h, TOK_ID, beq_self_eq_true, if_true]
  cases qe_get_variable ds.s (cstr (slot ds sp).u.asStr) with
  | none => rfl
  | some r => cases r <;> rfl

theorem assign_number (ds : QEmacsDataSource) (sp : Nat) (h0 : (slot ds sp).type = 131)
    (h1 : (slot ds (sp + 1)).type = 128) :
    qe_cfg_assign ds sp 61 =
      (0, { ds with s := qe_set_variable ds.s (cstr (slot ds sp).u.asStr) none
                           (slot ds (sp + 1)).u.asValue }) := by
  have hid : (slot ds (sp + 1)).type ≠ TOK_ID := by rw [h1]; simp [TOK_ID]
  unfold qe_cfg_assign qe_cfg_check_lvalue
  simp [h0, h1, TOK_ID, TOK_STRING, getvalue_not_id ds (sp + 1) hid]

theorem has_token_yes (ds : QEmacsDataSource) (t : Int) (h : ds.tok = t) :
    has_token ds t = (true, qe_cfg_next_token ds) := by
  simp [has_token, h]

theorem has_token_no (ds : QEmacsDataSource) (t : Int) (h : ds.tok ≠ t) :
    has_token ds t = (false, ds) := by
  simp [has_token, h]

theorem expect_token_yes (ds : QEmacsDataSource) (t : Int) (h : ds.tok = t) :
    expect_token ds t = (true, qe_cfg_next_token ds) := by
  simp [expect_token, h]

theorem again_paren (f : Nat) (ds : QEmacsDataSource) (sp prec0 : Nat) (start_p : Bytes)
    (start_line : Nat) :
    expr_again (f + 1) ds sp prec0 40 start_p start_line =
      chk (qe_cfg_expr f (qe_cfg_next_token ds) sp 1 false)
        (fun ds => expr_fail f ds start_p start_line) fun ds =>
      chkb (expect_token ds 41)
        (fun ds => expr_fail f ds start_p start_line) fun ds =>
      expr_loop f ds sp prec0 40 start_p start_line := by
  rw [expr_again]
  simp [PREC_EXPRESSION]

theorem expr_enter_skip (f : Nat) (ds : QEmacsDataSource) (sp prec0 : Nat) :
    qe_cfg_expr (f + 1) ds sp prec0 true = qe_cfg_skip_expr f ds 0 := by
  rw [qe_cfg_expr]
  simp

/-- The label `fail` on a context whose high-water mark is known. -/
theorem expr_fail_step (f : Nat) (ds : QEmacsDataSource) (start_p : Bytes) (start_line : Nat)
    (_ : ds.sp_max ≤ 16) :
    expr_fail f ds start_p start_line =
      qe_cfg_skip_expr f (qe_cfg_next_token { ds with p := start_p, line_num := start_line }) 0 :=
  rfl

theorem postop_unknown (f : Nat) (ds : QEmacsDataSource) (sp prec0 : Nat) (tok : Int)
    (start_p : Bytes) (start_line : Nat) (h0 : (slot ds sp).type = 131)
    (hf : qe_find_cmd ds.s (cstr (slot ds sp).u.asStr) = none)
    (h1 : cstr (slot ds sp).u.asStr ≠ [99, 104, 97, 114])
    (h2 : cstr (slot ds sp).u.asStr ≠ [105, 110, 116])
    (h3 : cstr (slot ds sp).u.asStr ≠ [115, 116, 114, 105, 110, 103]) :
    expr_postop (f + 1) ds sp prec0 tok start_p start_line 40 =
      expr_fail f (put_error ds (QError.unknown_command (cstr (slot ds sp).u.asStr)))
        start_p start_line := by
  rw [expr_postop]
  simp [h0, hf, h1, h2, h3, TOK_ID]

theorem skip_stop_eof (f : Nat) (ds : QEmacsDataSource) (level : Nat) (h : ds.tok = -1) :
    qe_cfg_skip_expr (f + 1) ds level = some (1, ds) := by
  rw [qe_cfg_skip_expr]
  simp [h, TOK_EOF]

theorem skip_open (f : Nat) (ds : QEmacsDataSource) (level : Nat)
    (h : ds.tok = 63 ∨ ds.tok = 123 ∨ ds.tok = 91 ∨ ds.tok = 40) :
    qe_cfg_skip_expr (f + 1) ds level = qe_cfg_skip_expr f (qe_cfg_next_token ds) (level + 1) := by
  rw [qe_cfg_skip_expr]
  rcases h with h | h | h | h <;> simp [h, TOK_EOF]

theorem skip_close (f : Nat) (ds : QEmacsDataSource) (level : Nat)
    (h : ds.tok = 58 ∨ ds.tok = 125 ∨ ds.tok = 93 ∨ ds.tok = 41) :
    qe_cfg_skip_expr (f + 1) ds level =
      if level = 0 then some (1, ds)
      else qe_cfg_skip_expr f (qe_cfg_next_token ds) (level - 1) := by
  rw [qe_cfg_skip_expr]
  rcases h with h | h | h | h <;> simp [h, TOK_EOF]

theorem skip_semicolon (f : Nat) (ds : QEmacsDataSource) (level : Nat) (h : ds.tok = 59) :
    qe_cfg_skip_expr (f + 1) ds level =
      if level = 0 then some (1, ds) else qe_cfg_skip_expr f (qe_cfg_next_token ds) level := by
  rw [qe_cfg_skip_expr]
  simp [h, TOK_EOF]

theorem skip_other (f : Nat) (ds : QEmacsDataSource) (level : Nat) (h0 : ds.tok ≠ -1)
    (h1 : ds.tok ≠ 63) (h2 : ds.tok ≠ 123) (h3 : ds.tok ≠ 91) (h4 : ds.tok ≠ 40)
    (h5 : ds.tok ≠ 58) (h6 : ds.tok ≠ 125) (h7 : ds.tok ≠ 93) (h8 : ds.tok ≠ 41)
    (h9 : ds.tok ≠ 59) :
    qe_cfg_skip_expr (f + 1) ds level = qe_cfg_skip_expr f (qe_cfg_next_token ds) level := by
  rw [qe_cfg_skip_expr]
  simp [h0, h1, h2, h3, h4, h5, h6, h7, h8, h9, TOK_EOF]

theorem stmt_if_tok (f : Nat) (ds : QEmacsDataSource) (sp : Nat) (skip : Bool)
    (h : ds.tok = 132) :
    qe_cfg_stmt (f + 1) ds sp skip =
      after (qe_cfg_expr f (qe_cfg_next_token ds) sp 1 skip) fun r ds1 =>
        stmt_if f (if r != 0 then 1 else (qe_cfg_getvalue ds1 sp).1)
          (if r != 0 then ds1 else (qe_cfg_getvalue ds1 sp).2) sp skip := by
  rw [qe_cfg_stmt]
  simp [h, TOK_IF, PREC_EXPRESSION]

theorem stmt_if_taken (f : Nat) (ds : QEmacsDataSource) (sp : Nat) (skip : Bool) :
    stmt_if (f + 1) 0 ds sp skip =
      after (qe_cfg_stmt f ds sp (skip || !truth_of (slot ds sp))) fun r1 ds1 =>
        if ds1.tok = 133 then
          after (qe_cfg_stmt f (qe_cfg_next_token ds1) sp (skip || truth_of (slot ds sp)))
            fun r2 ds2 => some (res_or (res_or 0 r1) r2, ds2)
        else some (res_or 0 r1, ds1) := by
  rw [stmt_if]
  simp [TOK_ELSE]

theorem res_or_values : res_or 0 0 = 0 ∧ res_or 0 1 = 1 ∧ res_or 1 0 = 1 ∧ res_or 1 1 = 1 := by
  decide

theorem strtoll_literal_nonneg (l : Bytes) (hl : is_int_literal l = true) : 0 ≤ strtoll l := by
  cases l with
  | nil => simp [is_int_literal, qe_isdigit] at hl
  | cons c t =>
    have hc : qe_isdigit c = true := by
      simp only [is_int_literal, List.headD_cons] at hl
      split_ifs at hl with h1
      · simp at h1; simp [qe_isdigit, h1]
      · simp at h1; simp [qe_isdigit, h1]
      · simp at hl; exact hl.1
    unfold strtoll
    rw [strtoll_c_digit_start c t hc]
    dsimp only
    split_ifs <;> simp [LLONG_MAX]

theorem wrap32_small (v : Int) (h0 : 0 ≤ v) (h1 : v ≤ 2147483647) : wrap32 v = v := by
  unfold wrap32
  omega

/-- The script `tab-width = n; tab_width` on an integer literal, run by `qe_parse_script`. -/
theorem parse_tab_width (l : Bytes) (f : Nat) (h : Host) (hl : is_int_literal l = true) :
    ∃ ds, qe_parse_script (f + 12) h
        (qe_cfg_init h (116 :: 97 :: 98 :: 45 :: 119 :: 105 :: 100 :: 116 :: 104 :: 32 :: 61 :: 32 :: (l ++ [59, 32, 116, 97, 98, 95, 119, 105, 100, 116, 104, 0])))
        = some (128, ds) ∧
      slot ds 0 = ⟨128, false, 9, QEUnion.value (wrap32 (strtoll l))⟩ ∧
      ds.errors = [] ∧
      ds.s = qe_set_variable h [116, 97, 98, 45, 119, 105, 100, 116, 104] none (strtoll l) := by
  have t1 : ∀ ln lno len str, lex (116 :: 97 :: 98 :: 45 :: 119 :: 105 :: 100 :: 116 :: 104 :: 32 :: 61 :: 32 :: (l ++ [59, 32, 116, 97, 98, 95, 119, 105, 100, 116, 104, 0])) ln lno len str
      = ⟨32 :: 61 :: 32 :: (l ++ [59, 32, 116, 97, 98, 95, 119, 105, 100, 116, 104, 0]), 116 :: 97 :: 98 :: 45 :: 119 :: 105 :: 100 :: 116 :: 104 :: 32 :: 61 :: 32 :: (l ++ [59, 32, 116, 97, 98, 95, 119, 105, 100, 116, 104, 0]),
         ln, ln, false, 131, 0, 9, [116, 97, 98, 45, 119, 105, 100, 116, 104, 0], lno, none⟩ := by
    intro ln lno len str
    simp +decide [lex, next_token_loop, scan_token, scan_ident, TOK_ID, PREC_NONE]
  have t2 : ∀ ln lno len str, lex (32 :: 61 :: 32 :: (l ++ [59, 32, 116, 97, 98, 95, 119, 105, 100, 116, 104, 0])) ln lno len str
      = ⟨32 :: (l ++ [59, 32, 116, 97, 98, 95, 119, 105, 100, 116, 104, 0]), 61 :: 32 :: (l ++ [59, 32, 116, 97, 98, 95, 119, 105, 100, 116, 104, 0]),
         ln, ln, false, 61, 2, len, str, lno, none⟩ :=
    fun _ _ _ _ => rfl
  have t3 := fun ln lno len str => lex_space_number l [59, 32, 116, 97, 98, 95, 119, 105, 100, 116, 104, 0] ln lno len str hl rfl
  have t4 : ∀ ln lno len str, lex [59, 32, 116, 97, 98, 95, 119, 105, 100, 116, 104, 0] ln lno len str
      = ⟨[32, 116, 97, 98, 95, 119, 105, 100, 116, 104, 0], [59, 32, 116, 97, 98, 95, 119, 105, 100, 116, 104, 0], ln, ln, false, 59, 0, len, str, lno, none⟩ :=
    fun _ _ _ _ => rfl
  have t5 : ∀ ln lno len str, lex [32, 116, 97, 98, 95, 119, 105, 100, 116, 104, 0] ln lno len str
      = ⟨[0], [116, 97, 98, 95, 119, 105, 100, 116, 104, 0], ln, ln, false, 131, 0, 9, [116, 97, 98, 45, 119, 105, 100, 116, 104, 0], lno, none⟩ :=
    fun _ _ _ _ => rfl
  have t6 : ∀ ln lno len str, lex [0] ln lno len str
      = ⟨[0], [0], ln, ln, false, -1, 0, len, str, lno, none⟩ :=
    fun _ _ _ _ => rfl
  have v1 := strtoll_literal_prefix l [59, 32, 116, 97, 98, 95, 119, 105, 100, 116, 104, 0] hl rfl
  simp (disch := simp [slot, cstr, TOK_ID, TOK_NUMBER]) only [qe_parse_script, init_mk,
    script_begin, next_token_mk, set_slot_mk, List.cons_append, List.nil_append,
    store_token, t1, t2, t3, t4, t5, t6, v1, slot, List.length_cons, List.length_nil,
    List.set_cons_zero,
    List.set_cons_succ, List.getD_cons_zero, List.getD_cons_succ, Nat.reduceLT, Nat.reduceAdd,
    TOK_NUMBER, TOK_VOID, PREC_NONE,
    script_loop_stmt, script_loop_eof, stmt_expr_step, expr_enter_new, expr_enter_old,
    again_number, again_ident, loop_exit, loop_assign, assign_number, after_some, chk_some,
    chk1_pair,
    chkb_pair, Option.some_bind, Option.bind_some, qe_cfg_set_num, qe_cfg_set_str,
    getvalue_not_id, getvalue_id, get_set_variable_number, Option.elim, var_slot,
    stmt_end_cases, bne_self_eq_false, Bool.false_eq_true, if_false,
    Int.reduceEq, Int.reduceNeg, if_true, ne_eq, not_true_eq_false, not_false_eq_true, and_true,
    true_and, false_and, Option.map_some', script_finish, cstr, QEUnion.asStr, QEUnion.asValue,
    List.take_succ_cons, List.take_zero, Nat.reduceBEq, Nat.reduceBNe, Int.reduceBEq,
    Int.reduceBNe, beq_self_eq_true, ↓reduceIte]
  exact ⟨_, rfl, rfl, rfl, rfl⟩

/-- C8 (counterexample): `tab-width = 4294967296; tab_width` yields 0. -/
theorem c8_large_value_is_cut :
    (do_eval_expression 50 (host_with [] []) [116, 97, 98, 45, 119, 105, 100, 116, 104, 32, 61, 32, 52, 50, 57, 52, 57, 54, 55, 50, 57, 54, 59, 32, 116, 97, 98, 95, 119, 105, 100, 116, 104, 0] NO_ARG).map
        (fun o => (o.status, o.ds.errors)) = some (some [45, 62, 32, 48], []) := by
  decide!

/-- C8 (amended): for every integer literal n, on any host and with any fuel of 12 or
more, the script `tab-width = n; tab_width` reports no error and shows the value that the
read under the other spelling finds, which is n cut to a C `int`: n itself when n is at
most 2147483647. -/
theorem c8_underscore_reads_dash_variable (l : Bytes) (f : Nat) (h : Host)
    (hl : is_int_literal l = true) :
    (do_eval_expression (f + 12) h (116 :: 97 :: 98 :: 45 :: 119 :: 105 :: 100 :: 116 :: 104 :: 32 :: 61 :: 32 :: (l ++ [59, 32, 116, 97, 98, 95, 119, 105, 100, 116, 104, 0])) NO_ARG).map
        (fun o => (o.status, o.ds.errors))
      = some (some ([45, 62, 32] ++ fmt_lld (wrap32 (strtoll l))), []) ∧
    (strtoll l ≤ 2147483647 → wrap32 (strtoll l) = strtoll l) := by
  obtain ⟨ds, hp, hv, he, hs⟩ := parse_tab_width l f h hl
  refine ⟨?_, fun hle => wrap32_small _ (strtoll_literal_nonneg l hl) hle⟩
  have hid : (slot ds 0).type ≠ TOK_ID := by rw [hv]; simp [TOK_ID]
  unfold do_eval_expression
  rw [hp]
  simp [getvalue_not_id ds 0 hid, hv, he, hs, TOK_ERR, TOK_VOID, TOK_NUMBER, NO_ARG,
    qe_cfg_release, QEUnion.asValue]

/-- C8 (witness): the literal 4: `tab-width = 4; tab_width` shows 4. -/
theorem c8_underscore_reads_dash_variable_witness :
    ((do_eval_expression (0 + 12) (host_with [] []) (116 :: 97 :: 98 :: 45 :: 119 :: 105 :: 100 :: 116 :: 104 :: 32 :: 61 :: 32 :: ([52] ++ [59, 32, 116, 97, 98, 95, 119, 105, 100, 116, 104, 0]))
        NO_ARG).map (fun o => (o.status, o.ds.errors))
      = some (some ([45, 62, 32] ++ fmt_lld (wrap32 (strtoll [52]))), []) ∧
     (strtoll [52] ≤ 2147483647 → wrap32 (strtoll [52]) = strtoll [52])) ∧
    (do_eval_expression 12 (host_with [] []) [116, 97, 98, 45, 119, 105, 100, 116, 104, 32, 61, 32, 52, 59, 32, 116, 97, 98, 95, 119, 105, 100, 116, 104, 0] NO_ARG).map
        (fun o => (o.status, o.ds.errors)) = some (some [45, 62, 32, 52], []) :=
  ⟨c8_underscore_reads_dash_variable [52] 0 (host_with [] []) (by decide), by decide!⟩

/-- C10: on every host without a command named `unknown-cmd`, with any fuel of 12 or more:
the script `unknown_cmd()` reports "unknown command 'unknown-cmd'" on line 1 and ends
with slot 0 void; in `unknown_cmd(); a = 1` the failed expression returns 1 with the `;`
behind the closing parenthesis as the current token, and the following statement is run:
the error is reported once and a is set to 1. -/
theorem c10_unknown_command (f : Nat) (h : Host)
    (hf : qe_find_cmd h [117, 110, 107, 110, 111, 119, 110, 45, 99, 109, 100] = none) :
    (run_script (f + 12) h [117, 110, 107, 110, 111, 119, 110, 95, 99, 109, 100, 40, 41]).map (fun r => (r.1, r.2.errors, r.2.tok))
      = some (TOK_VOID, [(1, QError.unknown_command [117, 110, 107, 110, 111, 119, 110, 45, 99, 109, 100])], TOK_EOF) ∧
    (qe_cfg_expr (f + 10)
        (qe_cfg_next_token (script_begin h (qe_cfg_init h [117, 110, 107, 110, 111, 119, 110, 95, 99, 109, 100, 40, 41, 59, 32, 97, 32, 61, 32, 49, 0])))
        0 PREC_EXPRESSION false).map (fun r => (r.1, r.2.tok, r.2.p, r.2.errors))
      = some (1, 59, [32, 97, 32, 61, 32, 49, 0], [(1, QError.unknown_command [117, 110, 107, 110, 111, 119, 110, 45, 99, 109, 100])]) ∧
    (run_script (f + 12) h [117, 110, 107, 110, 111, 119, 110, 95, 99, 109, 100, 40, 41, 59, 32, 97, 32, 61, 32, 49]).map
        (fun r => (r.1, r.2.errors, r.2.s.vars))
      = some (TOK_NUMBER, [(1, QError.unknown_command [117, 110, 107, 110, 111, 119, 110, 45, 99, 109, 100])],
              ([97], VarValue.number 1) :: h.vars) := by
  have v1 : strtoll [49, 0] = 1 := by decide
  refine ⟨?_, ?_, ?_⟩
  · have s1 : ∀ ln lno len str, lex [117, 110, 107, 110, 111, 119, 110, 95, 99, 109, 100, 40, 41, 0] ln lno len str
        = ⟨[40, 41, 0], [117, 110, 107, 110, 111, 119, 110, 95, 99, 109, 100, 40, 41, 0], ln, ln, false, 131, 0, 11, [117, 110, 107, 110, 111, 119, 110, 45, 99, 109, 100, 0], lno, none⟩ :=
      fun _ _ _ _ => rfl
    have s2 : ∀ ln lno len str, lex [40, 41, 0] ln lno len str
        = ⟨[41, 0], [40, 41, 0], ln, ln, false, 40, 14, len, str, lno, none⟩ :=
      fun _ _ _ _ => rfl
    have s3 : ∀ ln lno len str, lex [41, 0] ln lno len str
        = ⟨[0], [41, 0], ln, ln, false, 41, 0, len, str, lno, none⟩ :=
      fun _ _ _ _ => rfl
    have s4 : ∀ ln lno len str, lex [0] ln lno len str
        = ⟨[0], [0], ln, ln, false, -1, 0, len, str, lno, none⟩ :=
      fun _ _ _ _ => rfl
    simp (disch := simp [slot, cstr, QEUnion.asStr, TOK_ID, TOK_NUMBER, hf]) only [
      s1, s2, s3, s4, TOK_EOF, qe_parse_script, run_script, init_mk, script_begin, next_token_mk,
      set_slot_mk, store_token, put_error, slot, List.length_cons, List.length_nil,
      List.set_cons_zero, List.set_cons_succ, List.getD_cons_zero, List.getD_cons_succ,
      List.take_succ_cons, List.take_zero, List.cons_append, List.nil_append, List.append_nil,
      Nat.reduceLT, Nat.reduceAdd, Nat.reduceSub, Nat.reduceBEq, Nat.reduceBNe, Nat.reduceEqDiff,
      Int.reduceEq, Int.reduceNeg, Int.reduceBEq, Int.reduceBNe, TOK_NUMBER, TOK_STRING,
      TOK_VOID, TOK_ID, PREC_NONE, script_loop_stmt, script_loop_eof, stmt_expr_step,
      stmt_if_tok, stmt_if_taken, expr_enter_new, expr_enter_old, expr_enter_skip, again_number,
      again_string, again_ident, again_paren, loop_exit, loop_postop, loop_assign, loop_binary,
      postop_length, postop_unknown, expr_fail_step, skip_stop_eof, skip_open, skip_close,
      skip_semicolon, skip_other, op_numbers, qe_cfg_op_num, num_op_add, num_op_mul,
      assign_number, has_token_yes, has_token_no, expect_token_yes, getvalue_not_id, getvalue_id,
      get_set_variable_number, find_cmd_set_variable, Option.elim, var_slot, stmt_end_cases,
      after_some, chk_some, chk1_pair, chkb_pair, Option.some_bind, Option.bind_some,
      Option.map_some', script_finish, qe_cfg_set_num, qe_cfg_set_str, qe_cfg_set_void, cstr,
      truth_of, QEUnion.asStr, QEUnion.asValue, res_or_values, bne_self_eq_false,
      beq_self_eq_true, Bool.false_eq_true, Bool.not_false, Bool.not_true, Bool.or_false,
      Bool.or_true, Bool.false_or, Bool.true_or, Bool.and_true, Bool.and_false, if_false,
      if_true, ne_eq, not_true_eq_false, not_false_eq_true, and_true, true_and, false_and,
      and_false, or_true, true_or, or_false, false_or, ↓reduceIte]
  · have t1 : ∀ ln lno len str, lex [117, 110, 107, 110, 111, 119, 110, 95, 99, 109, 100, 40, 41, 59, 32, 97, 32, 61, 32, 49, 0] ln lno len str
        = ⟨[40, 41, 59, 32, 97, 32, 61, 32, 49, 0], [117, 110, 107, 110, 111, 119, 110, 95, 99, 109, 100, 40, 41, 59, 32, 97, 32, 61, 32, 49, 0], ln, ln, false, 131, 0, 11, [117, 110, 107, 110, 111, 119, 110, 45, 99, 109, 100, 0], lno, none⟩ :=
      fun _ _ _ _ => rfl
    have t2 : ∀ ln lno len str, lex [40, 41, 59, 32, 97, 32, 61, 32, 49, 0] ln lno len str
        = ⟨[41, 59, 32, 97, 32, 61, 32, 49, 0], [40, 41, 59, 32, 97, 32, 61, 32, 49, 0], ln, ln, false, 40, 14, len, str, lno, none⟩ :=
      fun _ _ _ _ => rfl
    have t3 : ∀ ln lno len str, lex [41, 59, 32, 97, 32, 61, 32, 49, 0] ln lno len str
        = ⟨[59, 32, 97, 32, 61, 32, 49, 0], [41, 59, 32, 97, 32, 61, 32, 49, 0], ln, ln, false, 41, 0, len, str, lno, none⟩ :=
      fun _ _ _ _ => rfl
    have t4 : ∀ ln lno len str, lex [59, 32, 97, 32, 61, 32, 49, 0] ln lno len str
        = ⟨[32, 97, 32, 61, 32, 49, 0], [59, 32, 97, 32, 61, 32, 49, 0], ln, ln, false, 59, 0, len, str, lno, none⟩ :=
      fun _ _ _ _ => rfl
    have t5 : ∀ ln lno len str, lex [32, 97, 32, 61, 32, 49, 0] ln lno len str
        = ⟨[32, 61, 32, 49, 0], [97, 32, 61, 32, 49, 0], ln, ln, false, 131, 0, 1, [97, 0], lno, none⟩ :=
      fun _ _ _ _ => rfl
    have t6 : ∀ ln lno len str, lex [97, 32, 61, 32, 49, 0] ln lno len str
        = ⟨[32, 61, 32, 49, 0], [97, 32, 61, 32, 49, 0], ln, ln, false, 131, 0, 1, [97, 0], lno, none⟩ :=
      fun _ _ _ _ => rfl
    have t7 : ∀ ln lno len str, lex [32, 61, 32, 49, 0] ln lno len str
        = ⟨[32, 49, 0], [61, 32, 49, 0], ln, ln, false, 61, 2, len, str, lno, none⟩ :=
      fun _ _ _ _ => rfl
    have t8 : ∀ ln lno len str, lex [61, 32, 49, 0] ln lno len str
        = ⟨[32, 49, 0], [61, 32, 49, 0], ln, ln, false, 61, 2, len, str, lno, none⟩ :=
      fun _ _ _ _ => rfl
    have t9 : ∀ ln lno len str, lex [32, 49, 0] ln lno len str
        = ⟨[0], [49, 0], ln, ln, false, 128, 0, len, str, lno, none⟩ :=
      fun _ _ _ _ => rfl
    have t10 : ∀ ln lno len str, lex [49, 0] ln lno len str
        = ⟨[0], [49, 0], ln, ln, false, 128, 0, len, str, lno, none⟩ :=
      fun _ _ _ _ => rfl
    have t11 : ∀ ln lno len str, lex [0] ln lno len str
        = ⟨[0], [0], ln, ln, false, -1, 0, len, str, lno, none⟩ :=
      fun _ _ _ _ => rfl
    simp (disch := simp [slot, cstr, QEUnion.asStr, TOK_ID, TOK_NUMBER, hf]) only [
      t1, t2, t3, t4, t5, t6, t7, t8, t9, t10, t11, PREC_EXPRESSION, qe_parse_script, run_script,
      init_mk, script_begin, next_token_mk, set_slot_mk, store_token, put_error, slot,
      List.length_cons, List.length_nil, List.set_cons_zero, List.set_cons_succ,
      List.getD_cons_zero, List.getD_cons_succ, List.take_succ_cons, List.take_zero,
      List.cons_append, List.nil_append, List.append_nil, Nat.reduceLT, Nat.reduceAdd,
      Nat.reduceSub, Nat.reduceBEq, Nat.reduceBNe, Nat.reduceEqDiff, Int.reduceEq, Int.reduceNeg,
      Int.reduceBEq, Int.reduceBNe, TOK_NUMBER, TOK_STRING, TOK_VOID, TOK_ID, PREC_NONE,
      script_loop_stmt, script_loop_eof, stmt_expr_step, stmt_if_tok, stmt_if_taken,
      expr_enter_new, expr_enter_old, expr_enter_skip, again_number, again_string, again_ident,
      again_paren, loop_exit, loop_postop, loop_assign, loop_binary, postop_length,
      postop_unknown, expr_fail_step, skip_stop_eof, skip_open, skip_close, skip_semicolon,
      skip_other, op_numbers, qe_cfg_op_num, num_op_add, num_op_mul, assign_number,
      has_token_yes, has_token_no, expect_token_yes, getvalue_not_id, getvalue_id,
      get_set_variable_number, find_cmd_set_variable, Option.elim, var_slot, stmt_end_cases,
      after_some, chk_some, chk1_pair, chkb_pair, Option.some_bind, Option.bind_some,
      Option.map_some', script_finish, qe_cfg_set_num, qe_cfg_set_str, qe_cfg_set_void, cstr,
      truth_of, QEUnion.asStr, QEUnion.asValue, res_or_values, bne_self_eq_false,
      beq_self_eq_true, Bool.false_eq_true, Bool.not_false, Bool.not_true, Bool.or_false,
      Bool.or_true, Bool.false_or, Bool.true_or, Bool.and_true, Bool.and_false, if_false,
      if_true, ne_eq, not_true_eq_false, not_false_eq_true, and_true, true_and, false_and,
      and_false, or_true, true_or, or_false, false_or, ↓reduceIte]
  · have t1 : ∀ ln lno len str, lex [117, 110, 107, 110, 111, 119, 110, 95, 99, 109, 100, 40, 41, 59, 32, 97, 32, 61, 32, 49, 0] ln lno len str
        = ⟨[40, 41, 59, 32, 97, 32, 61, 32, 49, 0], [117, 110, 107, 110, 111, 119, 110, 95, 99, 109, 100, 40, 41, 59, 32, 97, 32, 61, 32, 49, 0], ln, ln, false, 131, 0, 11, [117, 110, 107, 110, 111, 119, 110, 45, 99, 109, 100, 0], lno, none⟩ :=
      fun _ _ _ _ => rfl
    have t2 : ∀ ln lno len str, lex [40, 41, 59, 32, 97, 32, 61, 32, 49, 0] ln lno len str
        = ⟨[41, 59, 32, 97, 32, 61, 32, 49, 0], [40, 41, 59, 32, 97, 32, 61, 32, 49, 0], ln, ln, false, 40, 14, len, str, lno, none⟩ :=
      fun _ _ _ _ => rfl
    have t3 : ∀ ln lno len str, lex [41, 59, 32, 97, 32, 61, 32, 49, 0] ln lno len str
        = ⟨[59, 32, 97, 32, 61, 32, 49, 0], [41, 59, 32, 97, 32, 61, 32, 49, 0], ln, ln, false, 41, 0, len, str, lno, none⟩ :=
      fun _ _ _ _ => rfl
    have t4 : ∀ ln lno len str, lex [59, 32, 97, 32, 61, 32, 49, 0] ln lno len str
        = ⟨[32, 97, 32, 61, 32, 49, 0], [59, 32, 97, 32, 61, 32, 49, 0], ln, ln, false, 59, 0, len, str, lno, none⟩ :=
      fun _ _ _ _ => rfl
    have t5 : ∀ ln lno len str, lex [32, 97, 32, 61, 32, 49, 0] ln lno len str
        = ⟨[32, 61, 32, 49, 0], [97, 32, 61, 32, 49, 0], ln, ln, false, 131, 0, 1, [97, 0], lno, none⟩ :=
      fun _ _ _ _ => rfl
    have t6 : ∀ ln lno len str, lex [97, 32, 61, 32, 49, 0] ln lno len str
        = ⟨[32, 61, 32, 49, 0], [97, 32, 61, 32, 49, 0], ln, ln, false, 131, 0, 1, [97, 0], lno, none⟩ :=
      fun _ _ _ _ => rfl
    have t7 : ∀ ln lno len str, lex [32, 61, 32, 49, 0] ln lno len str
        = ⟨[32, 49, 0], [61, 32, 49, 0], ln, ln, false, 61, 2, len, str, lno, none⟩ :=
      fun _ _ _ _ => rfl
    have t8 : ∀ ln lno len str, lex [61, 32, 49, 0] ln lno len str
        = ⟨[32, 49, 0], [61, 32, 49, 0], ln, ln, false, 61, 2, len, str, lno, none⟩ :=
      fun _ _ _ _ => rfl
    have t9 : ∀ ln lno len str, lex [32, 49, 0] ln lno len str
        = ⟨[0], [49, 0], ln, ln, false, 128, 0, len, str, lno, none⟩ :=
      fun _ _ _ _ => rfl
    have t10 : ∀ ln lno len str, lex [49, 0] ln lno len str
        = ⟨[0], [49, 0], ln, ln, false, 128, 0, len, str, lno, none⟩ :=
      fun _ _ _ _ => rfl
    have t11 : ∀ ln lno len str, lex [0] ln lno len str
        = ⟨[0], [0], ln, ln, false, -1, 0, len, str, lno, none⟩ :=
      fun _ _ _ _ => rfl
    simp (disch := simp [slot, cstr, QEUnion.asStr, TOK_ID, TOK_NUMBER, hf]) only [
      t1, t2, t3, t4, t5, t6, t7, t8, t9, t10, t11, v1, qe_parse_script, run_script, init_mk,
      script_begin, next_token_mk, set_slot_mk, store_token, put_error, slot, List.length_cons,
      List.length_nil, List.set_cons_zero, List.set_cons_succ, List.getD_cons_zero,
      List.getD_cons_succ, List.take_succ_cons, List.take_zero, List.cons_append,
      List.nil_append, List.append_nil, Nat.reduceLT, Nat.reduceAdd, Nat.reduceSub,
      Nat.reduceBEq, Nat.reduceBNe, Nat.reduceEqDiff, Int.reduceEq, Int.reduceNeg, Int.reduceBEq,
      Int.reduceBNe, TOK_NUMBER, TOK_STRING, TOK_VOID, TOK_ID, PREC_NONE, script_loop_stmt,
      script_loop_eof, stmt_expr_step, stmt_if_tok, stmt_if_taken, expr_enter_new,
      expr_enter_old, expr_enter_skip, again_number, again_string, again_ident, again_paren,
      loop_exit, loop_postop, loop_assign, loop_binary, postop_length, postop_unknown,
      expr_fail_step, skip_stop_eof, skip_open, skip_close, skip_semicolon, skip_other,
      op_numbers, qe_cfg_op_num, num_op_add, num_op_mul, assign_number, has_token_yes,
      has_token_no, expect_token_yes, getvalue_not_id, getvalue_id, get_set_variable_number,
      find_cmd_set_variable, Option.elim, var_slot, stmt_end_cases, after_some, chk_some,
      chk1_pair, chkb_pair, Option.some_bind, Option.bind_some, Option.map_some', script_finish,
      qe_cfg_set_num, qe_cfg_set_str, qe_cfg_set_void, cstr, truth_of, QEUnion.asStr,
      QEUnion.asValue, res_or_values, bne_self_eq_false, beq_self_eq_true, Bool.false_eq_true,
      Bool.not_false, Bool.not_true, Bool.or_false, Bool.or_true, Bool.false_or, Bool.true_or,
      Bool.and_true, Bool.and_false, if_false, if_true, ne_eq, not_true_eq_false,
      not_false_eq_true, and_true, true_and, false_and, and_false, or_true, true_or, or_false,
      false_or, ↓reduceIte]
    rfl

/-- C10 (witness): the host of the examples, which has no command at all. -/
theorem c10_unknown_command_witness :
    (run_script (0 + 12) (host_with [] []) [117, 110, 107, 110, 111, 119, 110, 95, 99, 109, 100, 40, 41]).map
        (fun r => (r.1, r.2.errors, r.2.tok))
      = some (TOK_VOID, [(1, QError.unknown_command [117, 110, 107, 110, 111, 119, 110, 45, 99, 109, 100])], TOK_EOF) ∧
    (qe_cfg_expr (0 + 10)
        (qe_cfg_next_token (script_begin (host_with [] [])
          (qe_cfg_init (host_with [] []) [117, 110, 107, 110, 111, 119, 110, 95, 99, 109, 100, 40, 41, 59, 32, 97, 32, 61, 32, 49, 0])))
        0 PREC_EXPRESSION false).map (fun r => (r.1, r.2.tok, r.2.p, r.2.errors))
      = some (1, 59, [32, 97, 32, 61, 32, 49, 0], [(1, QError.unknown_command [117, 110, 107, 110, 111, 119, 110, 45, 99, 109, 100])]) ∧
    (run_script (0 + 12) (host_with [] []) [117, 110, 107, 110, 111, 119, 110, 95, 99, 109, 100, 40, 41, 59, 32, 97, 32, 61, 32, 49]).map
        (fun r => (r.1, r.2.errors, r.2.s.vars))
      = some (TOK_NUMBER, [(1, QError.unknown_command [117, 110, 107, 110, 111, 119, 110, 45, 99, 109, 100])],
              ([97], VarValue.number 1) :: (host_with [] []).vars) :=
  c10_unknown_command 0 (host_with [] []) (by decide)

/-- C1 (counterexample): with a = 7, the script `if (0) a = 1 else a = 2; a` runs neither
assignment: a stays 7 and the script yields 7. -/
theorem c1_else_without_semicolon_is_skipped :
    (do_eval_expression 50 (host_with [([97], VarValue.number 7)] [])
        [105, 102, 32, 40, 48, 41, 32, 97, 32, 61, 32, 49, 32, 101, 108, 115, 101, 32, 97, 32, 61, 32, 50, 59, 32, 97, 0] NO_ARG).map
        (fun o => (o.status, o.ds.errors, o.ds.s.vars))
      = some (some [45, 62, 32, 55], [], [([97], VarValue.number 7)]) := by
  decide!

/-- C1 (amended): on every host whose variable c holds the number n, with any fuel of 12
or more, the statement `if (c) a = 1; else a = 2;` reports no error and performs exactly
one assignment: it sets a to 1 when n, cut to a C `int`, is not zero and to 2 otherwise. -/
theorem c1_if_else_runs_one_branch (f : Nat) (h : Host) (n : Int)
    (hc : qe_get_variable h [99] = some (VarValue.number n)) :
    (run_script (f + 12) h [105, 102, 32, 40, 99, 41, 32, 97, 32, 61, 32, 49, 59, 32, 101, 108, 115, 101, 32, 97, 32, 61, 32, 50, 59]).map
        (fun r => (r.2.errors, r.2.s.vars))
      = some ([], ([97], VarValue.number (if wrap32 n ≠ 0 then 1 else 2)) :: h.vars) := by
  have v1 : strtoll [49, 59, 32, 101, 108, 115, 101, 32, 97, 32, 61, 32, 50, 59, 0] = 1 := by
    decide
  have v2 : strtoll [50, 59, 0] = 2 := by decide
  have t1 : ∀ ln lno len str, lex [105, 102, 32, 40, 99, 41, 32, 97, 32, 61, 32, 49, 59, 32, 101, 108, 115, 101, 32, 97, 32, 61, 32, 50, 59, 0] ln lno len str
      = ⟨[32, 40, 99, 41, 32, 97, 32, 61, 32, 49, 59, 32, 101, 108, 115, 101, 32, 97, 32, 61, 32, 50, 59, 0], [105, 102, 32, 40, 99, 41, 32, 97, 32, 61, 32, 49, 59, 32, 101, 108, 115, 101, 32, 97, 32, 61, 32, 50, 59, 0], ln, ln, false, 132, 0, 2, [105, 102, 0], lno, none⟩ :=
    fun _ _ _ _ => rfl
  have t2 : ∀ ln lno len str, lex [32, 40, 99, 41, 32, 97, 32, 61, 32, 49, 59, 32, 101, 108, 115, 101, 32, 97, 32, 61, 32, 50, 59, 0] ln lno len str
      = ⟨[99, 41, 32, 97, 32, 61, 32, 49, 59, 32, 101, 108, 115, 101, 32, 97, 32, 61, 32, 50, 59, 0], [40, 99, 41, 32, 97, 32, 61, 32, 49, 59, 32, 101, 108, 115, 101, 32, 97, 32, 61, 32, 50, 59, 0], ln, ln, false, 40, 14, len, str, lno, none⟩ :=
    fun _ _ _ _ => rfl
  have t3 : ∀ ln lno len str, lex [40, 99, 41, 32, 97, 32, 61, 32, 49, 59, 32, 101, 108, 115, 101, 32, 97, 32, 61, 32, 50, 59, 0] ln lno len str
      = ⟨[99, 41, 32, 97, 32, 61, 32, 49, 59, 32, 101, 108, 115, 101, 32, 97, 32, 61, 32, 50, 59, 0], [40, 99, 41, 32, 97, 32, 61, 32, 49, 59, 32, 101, 108, 115, 101, 32, 97, 32, 61, 32, 50, 59, 0], ln, ln, false, 40, 14, len, str, lno, none⟩ :=
    fun _ _ _ _ => rfl
  have t4 : ∀ ln lno len str, lex [99, 41, 32, 97, 32, 61, 32, 49, 59, 32, 101, 108, 115, 101, 32, 97, 32, 61, 32, 50, 59, 0] ln lno len str
      = ⟨[41, 32, 97, 32, 61, 32, 49, 59, 32, 101, 108, 115, 101, 32, 97, 32, 61, 32, 50, 59, 0], [99, 41, 32, 97, 32, 61, 32, 49, 59, 32, 101, 108, 115, 101, 32, 97, 32, 61, 32, 50, 59, 0], ln, ln, false, 131, 0, 1, [99, 0], lno, none⟩ :=
    fun _ _ _ _ => rfl
  have t5 : ∀ ln lno len str, lex [41, 32, 97, 32, 61, 32, 49, 59, 32, 101, 108, 115, 101, 32, 97, 32, 61, 32, 50, 59, 0] ln lno len str
      = ⟨[32, 97, 32, 61, 32, 49, 59, 32, 101, 108, 115, 101, 32, 97, 32, 61, 32, 50, 59, 0], [41, 32, 97, 32, 61, 32, 49, 59, 32, 101, 108, 115, 101, 32, 97, 32, 61, 32, 50, 59, 0], ln, ln, false, 41, 0, len, str, lno, none⟩ :=
    fun _ _ _ _ => rfl
  have t6 : ∀ ln lno len str, lex [32, 97, 32, 61, 32, 49, 59, 32, 101, 108, 115, 101, 32, 97, 32, 61, 32, 50, 59, 0] ln lno len str
      = ⟨[32, 61, 32, 49, 59, 32, 101, 108, 115, 101, 32, 97, 32, 61, 32, 50, 59, 0], [97, 32, 61, 32, 49, 59, 32, 101, 108, 115, 101, 32, 97, 32, 61, 32, 50, 59, 0], ln, ln, false, 131, 0, 1, [97, 0], lno, none⟩ :=
    fun _ _ _ _ => rfl
  have t7 : ∀ ln lno len str, lex [97, 32, 61, 32, 49, 59, 32, 101, 108, 115, 101, 32, 97, 32, 61, 32, 50, 59, 0] ln lno len str
      = ⟨[32, 61, 32, 49, 59, 32, 101, 108, 115, 101, 32, 97, 32, 61, 32, 50, 59, 0], [97, 32, 61, 32, 49, 59, 32, 101, 108, 115, 101, 32, 97, 32, 61, 32, 50, 59, 0], ln, ln, false, 131, 0, 1, [97, 0], lno, none⟩ :=
    fun _ _ _ _ => rfl
  have t8 : ∀ ln lno len str, lex [32, 61, 32, 49, 59, 32, 101, 108, 115, 101, 32, 97, 32, 61, 32, 50, 59, 0] ln lno len str
      = ⟨[32, 49, 59, 32, 101, 108, 115, 101, 32, 97, 32, 61, 32, 50, 59, 0], [61, 32, 49, 59, 32, 101, 108, 115, 101, 32, 97, 32, 61, 32, 50, 59, 0], ln, ln, false, 61, 2, len, str, lno, none⟩ :=
    fun _ _ _ _ => rfl
  have t9 : ∀ ln lno len str, lex [61, 32, 49, 59, 32, 101, 108, 115, 101, 32, 97, 32, 61, 32, 50, 59, 0] ln lno len str
      = ⟨[32, 49, 59, 32, 101, 108, 115, 101, 32, 97, 32, 61, 32, 50, 59, 0], [61, 32, 49, 59, 32, 101, 108, 115, 101, 32, 97, 32, 61, 32, 50, 59, 0], ln, ln, false, 61, 2, len, str, lno, none⟩ :=
    fun _ _ _ _ => rfl
  have t10 : ∀ ln lno len str, lex [32, 49, 59, 32, 101, 108, 115, 101, 32, 97, 32, 61, 32, 50, 59, 0] ln lno len str
      = ⟨[59, 32, 101, 108, 115, 101, 32, 97, 32, 61, 32, 50, 59, 0], [49, 59, 32, 101, 108, 115, 101, 32, 97, 32, 61, 32, 50, 59, 0], ln, ln, false, 128, 0, len, str, lno, none⟩ :=
    fun _ _ _ _ => rfl
  have t11 : ∀ ln lno len str, lex [49, 59, 32, 101, 108, 115, 101, 32, 97, 32, 61, 32, 50, 59, 0] ln lno len str
      = ⟨[59, 32, 101, 108, 115, 101, 32, 97, 32, 61, 32, 50, 59, 0], [49, 59, 32, 101, 108, 115, 101, 32, 97, 32, 61, 32, 50, 59, 0], ln, ln, false, 128, 0, len, str, lno, none⟩ :=
    fun _ _ _ _ => rfl
  have t12 : ∀ ln lno len str, lex [59, 32, 101, 108, 115, 101, 32, 97, 32, 61, 32, 50, 59, 0] ln lno len str
      = ⟨[32, 101, 108, 115, 101, 32, 97, 32, 61, 32, 50, 59, 0], [59, 32, 101, 108, 115, 101, 32, 97, 32, 61, 32, 50, 59, 0], ln, ln, false, 59, 0, len, str, lno, none⟩ :=
    fun _ _ _ _ => rfl
  have t13 : ∀ ln lno len str, lex [32, 101, 108, 115, 101, 32, 97, 32, 61, 32, 50, 59, 0] ln lno len str
      = ⟨[32, 97, 32, 61, 32, 50, 59, 0], [101, 108, 115, 101, 32, 97, 32, 61, 32, 50, 59, 0], ln, ln, false, 133, 0, 4, [101, 108, 115, 101, 0], lno, none⟩ :=
    fun _ _ _ _ => rfl
  have t14 : ∀ ln lno len str, lex [101, 108, 115, 101, 32, 97, 32, 61, 32, 50, 59, 0] ln lno len str
      = ⟨[32, 97, 32, 61, 32, 50, 59, 0], [101, 108, 115, 101, 32, 97, 32, 61, 32, 50, 59, 0], ln, ln, false, 133, 0, 4, [101, 108, 115, 101, 0], lno, none⟩ :=
    fun _ _ _ _ => rfl
  have t15 : ∀ ln lno len str, lex [32, 97, 32, 61, 32, 50, 59, 0] ln lno len str
      = ⟨[32, 61, 32, 50, 59, 0], [97, 32, 61, 32, 50, 59, 0], ln, ln, false, 131, 0, 1, [97, 0], lno, none⟩ :=
    fun _ _ _ _ => rfl
  have t16 : ∀ ln lno len str, lex [97, 32, 61, 32, 50, 59, 0] ln lno len str
      = ⟨[32, 61, 32, 50, 59, 0], [97, 32, 61, 32, 50, 59, 0], ln, ln, false, 131, 0, 1, [97, 0], lno, none⟩ :=
    fun _ _ _ _ => rfl
  have t17 : ∀ ln lno len str, lex [32, 61, 32, 50, 59, 0] ln lno len str
      = ⟨[32, 50, 59, 0], [61, 32, 50, 59, 0], ln, ln, false, 61, 2, len, str, lno, none⟩ :=
    fun _ _ _ _ => rfl
  have t18 : ∀ ln lno len str, lex [61, 32, 50, 59, 0] ln lno len str
      = ⟨[32, 50, 59, 0], [61, 32, 50, 59, 0], ln, ln, false, 61, 2, len, str, lno, none⟩ :=
    fun _ _ _ _ => rfl
  have t19 : ∀ ln lno len str, lex [32, 50, 59, 0] ln lno len str
      = ⟨[59, 0], [50, 59, 0], ln, ln, false, 128, 0, len, str, lno, none⟩ :=
    fun _ _ _ _ => rfl
  have t20 : ∀ ln lno len str, lex [50, 59, 0] ln lno len str
      = ⟨[59, 0], [50, 59, 0], ln, ln, false, 128, 0, len, str, lno, none⟩ :=
    fun _ _ _ _ => rfl
  have t21 : ∀ ln lno len str, lex [59, 0] ln lno len str
      = ⟨[0], [59, 0], ln, ln, false, 59, 0, len, str, lno, none⟩ :=
    fun _ _ _ _ => rfl
  have t22 : ∀ ln lno len str, lex [0] ln lno len str
      = ⟨[0], [0], ln, ln, false, -1, 0, len, str, lno, none⟩ :=
    fun _ _ _ _ => rfl
  by_cases hn : wrap32 n = 0
  · simp (disch := simp [slot, cstr, QEUnion.asStr, TOK_ID, TOK_NUMBER, hc]) only [
      t1, t2, t3, t4, t5, t6, t7, t8, t9, t10, t11, t12, t13, t14, t15, t16, t17, t18, t19, t20,
      t21, t22, hc, hn, v1, v2, qe_parse_script, run_script, init_mk, script_begin,
      next_token_mk, set_slot_mk, store_token, put_error, slot, List.length_cons,
      List.length_nil, List.set_cons_zero, List.set_cons_succ, List.getD_cons_zero,
      List.getD_cons_succ, List.take_succ_cons, List.take_zero, List.cons_append,
      List.nil_append, List.append_nil, Nat.reduceLT, Nat.reduceAdd, Nat.reduceSub,
      Nat.reduceBEq, Nat.reduceBNe, Nat.reduceEqDiff, Int.reduceEq, Int.reduceNeg, Int.reduceBEq,
      Int.reduceBNe, TOK_NUMBER, TOK_STRING, TOK_VOID, TOK_ID, PREC_NONE, script_loop_stmt,
      script_loop_eof, stmt_expr_step, stmt_if_tok, stmt_if_taken, expr_enter_new,
      expr_enter_old, expr_enter_skip, again_number, again_string, again_ident, again_paren,
      loop_exit, loop_postop, loop_assign, loop_binary, postop_length, postop_unknown,
      expr_fail_step, skip_stop_eof, skip_open, skip_close, skip_semicolon, skip_other,
      op_numbers, qe_cfg_op_num, num_op_add, num_op_mul, assign_number, has_token_yes,
      has_token_no, expect_token_yes, getvalue_not_id, getvalue_id, get_set_variable_number,
      find_cmd_set_variable, Option.elim, var_slot, stmt_end_cases, after_some, chk_some,
      chk1_pair, chkb_pair, Option.some_bind, Option.bind_some, Option.map_some', script_finish,
      qe_cfg_set_num, qe_cfg_set_str, qe_cfg_set_void, cstr, truth_of, QEUnion.asStr,
      QEUnion.asValue, res_or_values, bne_self_eq_false, beq_self_eq_true, Bool.false_eq_true,
      Bool.not_false, Bool.not_true, Bool.or_false, Bool.or_true, Bool.false_or, Bool.true_or,
      Bool.and_true, Bool.and_false, if_false, if_true, ne_eq, not_true_eq_false,
      not_false_eq_true, and_true, true_and, false_and, and_false, or_true, true_or, or_false,
      false_or, ↓reduceIte]
    simp [qe_set_variable, hn]
  · have hb : (wrap32 n != 0) = true := by simpa using hn
    simp (disch := simp [slot, cstr, QEUnion.asStr, TOK_ID, TOK_NUMBER, hc]) only [
      t1, t2, t3, t4, t5, t6, t7, t8, t9, t10, t11, t12, t13, t14, t15, t16, t17, t18, t19, t20,
      t21, t22, hc, hb, v1, v2, qe_parse_script, run_script, init_mk, script_begin,
      next_token_mk, set_slot_mk, store_token, put_error, slot, List.length_cons,
      List.length_nil, List.set_cons_zero, List.set_cons_succ, List.getD_cons_zero,
      List.getD_cons_succ, List.take_succ_cons, List.take_zero, List.cons_append,
      List.nil_append, List.append_nil, Nat.reduceLT, Nat.reduceAdd, Nat.reduceSub,
      Nat.reduceBEq, Nat.reduceBNe, Nat.reduceEqDiff, Int.reduceEq, Int.reduceNeg, Int.reduceBEq,
      Int.reduceBNe, TOK_NUMBER, TOK_STRING, TOK_VOID, TOK_ID, PREC_NONE, script_loop_stmt,
      script_loop_eof, stmt_expr_step, stmt_if_tok, stmt_if_taken, expr_enter_new,
      expr_enter_old, expr_enter_skip, again_number, again_string, again_ident, again_paren,
      loop_exit, loop_postop, loop_assign, loop_binary, postop_length, postop_unknown,
      expr_fail_step, skip_stop_eof, skip_open, skip_close, skip_semicolon, skip_other,
      op_numbers, qe_cfg_op_num, num_op_add, num_op_mul, assign_number, has_token_yes,
      has_token_no, expect_token_yes, getvalue_not_id, getvalue_id, get_set_variable_number,
      find_cmd_set_variable, Option.elim, var_slot, stmt_end_cases, after_some, chk_some,
      chk1_pair, chkb_pair, Option.some_bind, Option.bind_some, Option.map_some', script_finish,
      qe_cfg_set_num, qe_cfg_set_str, qe_cfg_set_void, cstr, truth_of, QEUnion.asStr,
      QEUnion.asValue, res_or_values, bne_self_eq_false, beq_self_eq_true, Bool.false_eq_true,
      Bool.not_false, Bool.not_true, Bool.or_false, Bool.or_true, Bool.false_or, Bool.true_or,
      Bool.and_true, Bool.and_false, if_false, if_true, ne_eq, not_true_eq_false,
      not_false_eq_true, and_true, true_and, false_and, and_false, or_true, true_or, or_false,
      false_or, ↓reduceIte]
    simp [qe_set_variable, hn]

/-- C1 (witness): c = 0 on the host of the examples; and `if (0) a = 1; else a = 2; a`
with a = 7, which sets a to 2 and yields 2, and the same with the condition 1, which sets
a to 1 and yields 1. -/
theorem c1_if_else_runs_one_branch_witness :
    (run_script (0 + 12) (host_with [([99], VarValue.number 0)] [])
        [105, 102, 32, 40, 99, 41, 32, 97, 32, 61, 32, 49, 59, 32, 101, 108, 115, 101, 32, 97, 32, 61, 32, 50, 59]).map (fun r => (r.2.errors, r.2.s.vars))
      = some ([], ([97], VarValue.number (if wrap32 0 ≠ 0 then 1 else 2))
                    :: (host_with [([99], VarValue.number 0)] []).vars) ∧
    (do_eval_expression 50 (host_with [([97], VarValue.number 7)] [])
        [105, 102, 32, 40, 48, 41, 32, 97, 32, 61, 32, 49, 59, 32, 101, 108, 115, 101, 32, 97, 32, 61, 32, 50, 59, 32, 97, 0] NO_ARG).map
        (fun o => (o.status, o.ds.errors, o.ds.s.vars))
      = some (some [45, 62, 32, 50], [], [([97], VarValue.number 2), ([97], VarValue.number 7)]) ∧
    (do_eval_expression 50 (host_with [([97], VarValue.number 7)] [])
        [105, 102, 32, 40, 49, 41, 32, 97, 32, 61, 32, 49, 59, 32, 101, 108, 115, 101, 32, 97, 32, 61, 32, 50, 59, 32, 97, 0] NO_ARG).map
        (fun o => (o.status, o.ds.errors, o.ds.s.vars))
      = some (some [45, 62, 32, 49], [], [([97], VarValue.number 1), ([97], VarValue.number 7)]) :=
  ⟨c1_if_else_runs_one_branch 0 (host_with [([99], VarValue.number 0)] []) 0 (by decide),
   by decide!, by decide!⟩

/-! ## String concatenation -/

theorem next_token_loop_string (f : Nat) (lx : Lexer) (s rest : Bytes)
    (hs : ∀ c ∈ s, c ≠ 34 ∧ c ≠ 92 ∧ c ≠ 10 ∧ c ≠ 0) :
    next_token_loop (f + 1) lx (34 :: (s ++ 34 :: rest)) =
      { lx with start_p := 34 :: (s ++ 34 :: rest), start_line := lx.line_num, prec := PREC_NONE,
                p := rest, str := s.take 255 ++ [0], len := (s.take 255).length,
                tok := TOK_STRING } := by
  rw [next_token_loop]
  have e := parse_string_loop_plain s rest [] (s.length + (rest.length + 1) + 1) hs
    (by omega)
  simp [scan_token, qe_isspace, qe_isalpha_, qe_isalpha, qe_isdigit, qe_cfg_parse_string, e,
    TOK_STRING]

theorem lex_space_string (s rest : Bytes) (ln lno len : Nat) (str : Bytes)
    (hs : ∀ c ∈ s, c ≠ 34 ∧ c ≠ 92 ∧ c ≠ 10 ∧ c ≠ 0) :
    lex (32 :: 34 :: (s ++ 34 :: rest)) ln lno len str =
      ⟨rest, 34 :: (s ++ 34 :: rest), ln, ln, false, TOK_STRING, PREC_NONE,
        (s.take 255).length, s.take 255 ++ [0], lno, none⟩ := by
  unfold lex
  simp only [List.length_cons]
  rw [next_token_loop]
  simp only [List.headD_cons, List.tail_cons]
  have : qe_isspace 32 = true := by decide
  simp only [this, if_true]
  simp only [show ((32 : Nat) == 0) = false by decide, show ((32 : Nat) == 10) = false by decide,
    Bool.false_eq_true, if_false]
  rw [next_token_loop_string _ _ s rest hs]

theorem take_length_append (s r : Bytes) : (s ++ r).take s.length = s := by
  simp

theorem tostr_string (ds : QEmacsDataSource) (sp : Nat) (h : (slot ds sp).type = 129) :
    qe_cfg_tostr ds sp = (0, ds) := by
  have hid : (slot ds sp).type ≠ TOK_ID := by rw [h]; simp [TOK_ID]
  unfold qe_cfg_tostr
  rw [getvalue_not_id ds sp hid]
  simp [h, TOK_STRING]

theorem op_concat (ds : QEmacsDataSource) (sp : Nat) (h0 : (slot ds sp).type = 129)
    (h1 : (slot ds (sp + 1)).type = 129) :
    qe_cfg_op ds sp 43 =
      (0, set_slot ds sp (qe_cfg_set_pstr (slot ds sp)
            ((slot ds sp).u.asStr.take (slot ds sp).len ++
              (slot ds (sp + 1)).u.asStr.take (slot ds (sp + 1)).len)
            ((slot ds sp).len + (slot ds (sp + 1)).len))) := by
  unfold qe_cfg_op qe_cfg_append
  simp [h0, TOK_STRING, TOK_LE, TOK_GE, TOK_EQ, TOK_NE, tostr_string ds (sp + 1) h1,
    tostr_string ds sp h0]

theorem slot_set_slot_ne (ds : QEmacsDataSource) (i j : Nat) (v : QEValue) (h : i ≠ j) :
    slot (set_slot ds i v) j = slot ds j := by
  unfold slot set_slot
  split_ifs with hl
  · simp [List.getD_eq_getElem?_getD, List.getElem?_set_ne h]
  · simp only [not_lt] at hl
    simp only [List.getD_eq_getElem?_getD, List.append_assoc]
    by_cases hj : j < ds.stack.length
    · rw [List.getElem?_append_left hj]
    · simp only [not_lt] at hj
      rw [List.getElem?_append_right hj, List.getElem?_eq_none hj]
      by_cases hj2 : j - ds.stack.length < i - ds.stack.length
      · rw [List.getElem?_append_left (by simpa using hj2)]
        simp [List.getElem?_replicate, hj2, QEValue.zero]
      · simp only [not_lt] at hj2
        rw [List.getElem?_append_right (by simpa using hj2)]
        have : j - ds.stack.length - (List.replicate (i - ds.stack.length) QEValue.zero).length
            ≠ 0 := by
          simp only [List.length_replicate]
          omega
        cases hk : j - ds.stack.length
            - (List.replicate (i - ds.stack.length) QEValue.zero).length with
        | zero => exact absurd hk this
        | succ k => simp

/-- A number as right operand of `+` on a string is converted to its decimal text and
appended. -/
theorem op_concat_number (ds : QEmacsDataSource) (sp : Nat) (x : Bytes) (lx : Nat)
    (al al1 : Bool) (n : Int) (ln1 : Nat)
    (h0 : slot ds sp = ⟨129, al, lx, QEUnion.str x⟩)
    (h1 : slot ds (sp + 1) = ⟨128, al1, ln1, QEUnion.value n⟩) :
    (qe_cfg_op ds sp 43).1 = 0 ∧
    slot (qe_cfg_op ds sp 43).2 sp
      = ⟨129, true, lx + (fmt_lld n).length, QEUnion.str (x.take lx ++ fmt_lld n)⟩ := by
  have hid : (slot ds (sp + 1)).type ≠ TOK_ID := by rw [h1]; simp [TOK_ID]
  have hne : sp + 1 ≠ sp := by omega
  obtain ⟨ds1, hds1⟩ : ∃ d, d = set_slot ds (sp + 1)
      (qe_cfg_set_str (slot ds (sp + 1)) (fmt_lld n) (fmt_lld n).length) := ⟨_, rfl⟩
  have e1 : qe_cfg_tostr ds (sp + 1) = (0, ds1) := by
    unfold qe_cfg_tostr
    rw [getvalue_not_id ds (sp + 1) hid, hds1]
    simp [h1, TOK_STRING, TOK_NUMBER, QEUnion.asValue]
  have s0 : slot ds1 sp = ⟨129, al, lx, QEUnion.str x⟩ := by
    rw [hds1, slot_set_slot_ne _ _ _ _ hne, h0]
  have s1 : slot ds1 (sp + 1) = ⟨129, true, (fmt_lld n).length, QEUnion.str (fmt_lld n)⟩ := by
    rw [hds1, slot_set_slot]
    simp [qe_cfg_set_str, TOK_STRING]
  have e2 : qe_cfg_tostr ds1 sp = (0, ds1) := tostr_string ds1 sp (by rw [s0])
  unfold qe_cfg_op qe_cfg_append
  simp [h0, TOK_STRING, TOK_LE, TOK_GE, TOK_EQ, TOK_NE, e1, e2, s0, s1, slot_set_slot,
    qe_cfg_set_pstr, QEUnion.asStr]

/-- What `do_eval_expression` shows for a script that leaves a string in slot 0. -/
theorem eval_string (fuel : Nat) (h : Host) (e : Bytes) (ds : QEmacsDataSource) (s : Bytes)
    (al : Bool) (ln : Nat)
    (hp : qe_parse_script fuel h (qe_cfg_init h e) = some (129, ds))
    (hv : slot ds 0 = ⟨129, al, ln, QEUnion.str s⟩) :
    (do_eval_expression fuel h e NO_ARG).map (fun o => (o.status, o.ds.errors))
      = some (some ([45, 62, 32, 34] ++ cstr s ++ [34]), ds.errors) := by
  have hid : (slot ds 0).type ≠ TOK_ID := by rw [hv]; simp [TOK_ID]
  unfold do_eval_expression
  rw [hp]
  simp [getvalue_not_id ds 0 hid, hv, TOK_ERR, TOK_VOID, TOK_NUMBER, TOK_STRING, NO_ARG,
    qe_cfg_release, QEUnion.asStr]

/-- The script `s + t + u` on three string literals of plain bytes, run by
`qe_parse_script`. -/
theorem parse_concat (s t u : Bytes) (f : Nat) (h : Host)
    (hs : ∀ c ∈ s, c ≠ 34 ∧ c ≠ 92 ∧ c ≠ 10 ∧ c ≠ 0) (hls : s.length ≤ 255)
    (ht : ∀ c ∈ t, c ≠ 34 ∧ c ≠ 92 ∧ c ≠ 10 ∧ c ≠ 0) (hlt : t.length ≤ 255)
    (hu : ∀ c ∈ u, c ≠ 34 ∧ c ≠ 92 ∧ c ≠ 10 ∧ c ≠ 0) (hlu : u.length ≤ 255) :
    ∃ ds, qe_parse_script (f + 12) h
        (qe_cfg_init h (34 :: (s ++ 34 :: 32 :: 43 :: 32 :: 34 ::
          (t ++ 34 :: 32 :: 43 :: 32 :: 34 :: (u ++ [34, 0])))))
        = some (129, ds) ∧
      slot ds 0 = ⟨129, true, s.length + t.length + u.length, QEUnion.str (s ++ t ++ u)⟩ ∧
      ds.errors = [] := by
  have t1 := fun ln lno len str => lex_string s
    (32 :: 43 :: 32 :: 34 :: (t ++ 34 :: 32 :: 43 :: 32 :: 34 :: (u ++ [34, 0]))) ln lno len str hs
  have t2 : ∀ ln lno len str,
      lex (32 :: 43 :: 32 :: 34 :: (t ++ 34 :: 32 :: 43 :: 32 :: 34 :: (u ++ [34, 0])))
        ln lno len str
      = ⟨32 :: 34 :: (t ++ 34 :: 32 :: 43 :: 32 :: 34 :: (u ++ [34, 0])),
         43 :: 32 :: 34 :: (t ++ 34 :: 32 :: 43 :: 32 :: 34 :: (u ++ [34, 0])),
         ln, ln, false, 43, 12, len, str, lno, none⟩ :=
    fun _ _ _ _ => rfl
  have t3 := fun ln lno len str => lex_space_string t
    (32 :: 43 :: 32 :: 34 :: (u ++ [34, 0])) ln lno len str ht
  have t4 : ∀ ln lno len str, lex (32 :: 43 :: 32 :: 34 :: (u ++ [34, 0])) ln lno len str
      = ⟨32 :: 34 :: (u ++ [34, 0]), 43 :: 32 :: 34 :: (u ++ [34, 0]),
         ln, ln, false, 43, 12, len, str, lno, none⟩ :=
    fun _ _ _ _ => rfl
  have t5 := fun ln lno len str => lex_space_string u [0] ln lno len str hu
  have t6 : ∀ ln lno len str, lex [0] ln lno len str
      = ⟨[0], [0], ln, ln, false, -1, 0, len, str, lno, none⟩ :=
    fun _ _ _ _ => rfl
  have k1 : s.take 255 = s := List.take_of_length_le hls
  have k2 : t.take 255 = t := List.take_of_length_le hlt
  have k3 : u.take 255 = u := List.take_of_length_le hlu
  simp (disch := simp [slot, cstr, QEUnion.asStr, TOK_ID, TOK_NUMBER]) only [
    t1, t2, t3, t4, t5, t6, k1, k2, k3, op_concat, qe_cfg_set_pstr, take_length_append,
    qe_parse_script, run_script, init_mk, script_begin, next_token_mk, set_slot_mk, store_token,
    put_error, slot, List.length_cons, List.length_nil, List.set_cons_zero, List.set_cons_succ,
    List.getD_cons_zero, List.getD_cons_succ, List.take_succ_cons, List.take_zero,
    List.cons_append, List.nil_append, List.append_nil, Nat.reduceLT, Nat.reduceAdd,
    Nat.reduceSub, Nat.reduceBEq, Nat.reduceBNe, Nat.reduceEqDiff, Int.reduceEq, Int.reduceNeg,
    Int.reduceBEq, Int.reduceBNe, TOK_NUMBER, TOK_STRING, TOK_VOID, TOK_ID, PREC_NONE,
    script_loop_stmt, script_loop_eof, stmt_expr_step, stmt_if_tok, stmt_if_taken,
    expr_enter_new, expr_enter_old, expr_enter_skip, again_number, again_string, again_ident,
    again_paren, loop_exit, loop_postop, loop_assign, loop_binary, postop_length, postop_unknown,
    expr_fail_step, skip_stop_eof, skip_open, skip_close, skip_semicolon, skip_other, op_numbers,
    qe_cfg_op_num, num_op_add, num_op_mul, assign_number, has_token_yes, has_token_no,
    expect_token_yes, getvalue_not_id, getvalue_id, get_set_variable_number,
    find_cmd_set_variable, Option.elim, var_slot, stmt_end_cases, after_some, chk_some,
    chk1_pair, chkb_pair, Option.some_bind, Option.bind_some, Option.map_some', script_finish,
    qe_cfg_set_num, qe_cfg_set_str, qe_cfg_set_void, cstr, truth_of, QEUnion.asStr,
    QEUnion.asValue, res_or_values, bne_self_eq_false, beq_self_eq_true, Bool.false_eq_true,
    Bool.not_false, Bool.not_true, Bool.or_false, Bool.or_true, Bool.false_or, Bool.true_or,
    Bool.and_true, Bool.and_false, if_false, if_true, ne_eq, not_true_eq_false,
    not_false_eq_true, and_true, true_and, false_and, and_false, or_true, true_or, or_false,
    false_or, ↓reduceIte]
  refine ⟨_, rfl, ?_, rfl⟩
  have k4 : (s ++ t).take (s.length + t.length) = s ++ t := by
    rw [← List.length_append, List.take_length]
  simp [slot, k4]

/-- C7 (counterexample): with a first literal of 256 bytes `a`, `s + "b" + "c"` yields a
string of 257 bytes, not of 258: the literal is cut to 255 bytes. -/
theorem c7_long_literal_is_cut :
    (do_eval_expression 50 (host_with [] []) [34, 97, 97, 97, 97, 97, 97, 97, 97, 97, 97, 97, 97, 97, 97, 97, 97, 97, 97, 97, 97, 97, 97, 97, 97, 97, 97, 97, 97, 97, 97, 97, 97, 97, 97, 97, 97, 97, 97, 97, 97, 97, 97, 97, 97, 97, 97, 97, 97, 97, 97, 97, 97, 97, 97, 97, 97, 97, 97, 97, 97, 97, 97, 97, 97, 97, 97, 97, 97, 97, 97, 97, 97, 97, 97, 97, 97, 97, 97, 97, 97, 97, 97, 97, 97, 97, 97, 97, 97, 97, 97, 97, 97, 97, 97, 97, 97, 97, 97, 97, 97, 97, 97, 97, 97, 97, 97, 97, 97, 97, 97, 97, 97, 97, 97, 97, 97, 97, 97, 97, 97, 97, 97, 97, 97, 97, 97, 97, 97, 97, 97, 97, 97, 97, 97, 97, 97, 97, 97, 97, 97, 97, 97, 97, 97, 97, 97, 97, 97, 97, 97, 97, 97, 97, 97, 97, 97, 97, 97, 97, 97, 97, 97, 97, 97, 97, 97, 97, 97, 97, 97, 97, 97, 97, 97, 97, 97, 97, 97, 97, 97, 97, 97, 97, 97, 97, 97, 97, 97, 97, 97, 97, 97, 97, 97, 97, 97, 97, 97, 97, 97, 97, 97, 97, 97, 97, 97, 97, 97, 97, 97, 97, 97, 97, 97, 97, 97, 97, 97, 97, 97, 97, 97, 97, 97, 97, 97, 97, 97, 97, 97, 97, 97, 97, 97, 97, 97, 97, 97, 97, 97, 97, 97, 97, 97, 97, 97, 97, 97, 97, 97, 97, 97, 97, 97, 97, 97, 34, 32, 43, 32, 34, 98, 34, 32, 43, 32, 34, 99, 34, 0] NO_ARG).map
        (fun o => (o.status.map List.length, o.ds.errors)) = some (some (4 + 257 + 1), []) := by
  decide!

/-- C7 (amended): for all string literals s, t, u of at most 255 bytes each, none of them
a backslash, a double quote, a newline or a NUL, on any host and with any fuel of 12 or
more, evaluating `s + t + u` shows the string whose bytes are those of s, then t, then u,
and reports no error; the slot holds it with the sum of the three lengths.  A number as
right operand of `+` on a string is first converted to its decimal text. -/
theorem c7_concatenation (s t u : Bytes) (f : Nat) (h : Host)
    (hs : ∀ c ∈ s, c ≠ 34 ∧ c ≠ 92 ∧ c ≠ 10 ∧ c ≠ 0) (hls : s.length ≤ 255)
    (ht : ∀ c ∈ t, c ≠ 34 ∧ c ≠ 92 ∧ c ≠ 10 ∧ c ≠ 0) (hlt : t.length ≤ 255)
    (hu : ∀ c ∈ u, c ≠ 34 ∧ c ≠ 92 ∧ c ≠ 10 ∧ c ≠ 0) (hlu : u.length ≤ 255) :
    (do_eval_expression (f + 12) h
        (34 :: (s ++ 34 :: 32 :: 43 :: 32 :: 34 ::
          (t ++ 34 :: 32 :: 43 :: 32 :: 34 :: (u ++ [34, 0])))) NO_ARG).map
        (fun o => (o.status, o.ds.errors))
      = some (some ([45, 62, 32, 34] ++ (s ++ t ++ u) ++ [34]), []) ∧
    (∃ ds, qe_parse_script (f + 12) h
        (qe_cfg_init h (34 :: (s ++ 34 :: 32 :: 43 :: 32 :: 34 ::
          (t ++ 34 :: 32 :: 43 :: 32 :: 34 :: (u ++ [34, 0])))))
        = some (TOK_STRING, ds) ∧
      slot ds 0 = ⟨TOK_STRING, true, s.length + t.length + u.length,
                    QEUnion.str (s ++ t ++ u)⟩) ∧
    (∀ (ds : QEmacsDataSource) (sp : Nat) (x : Bytes) (lx : Nat) (al al1 : Bool) (n : Int)
        (ln1 : Nat), slot ds sp = ⟨129, al, lx, QEUnion.str x⟩ →
      slot ds (sp + 1) = ⟨128, al1, ln1, QEUnion.value n⟩ →
      (qe_cfg_op ds sp 43).1 = 0 ∧
      slot (qe_cfg_op ds sp 43).2 sp
        = ⟨129, true, lx + (fmt_lld n).length, QEUnion.str (x.take lx ++ fmt_lld n)⟩) := by
  obtain ⟨ds, hp, hv, he⟩ := parse_concat s t u f h hs hls ht hlt hu hlu
  have hc : cstr (s ++ t ++ u) = s ++ t ++ u := by
    apply cstr_plain
    intro c hc
    simp only [List.mem_append] at hc
    rcases hc with (hc | hc) | hc
    · exact (hs c hc).2.2.2
    · exact (ht c hc).2.2.2
    · exact (hu c hc).2.2.2
  refine ⟨?_, ⟨ds, hp, hv⟩, fun ds sp x lx al al1 n ln1 h0 h1 =>
    op_concat_number ds sp x lx al al1 n ln1 h0 h1⟩
  rw [eval_string _ h _ ds _ true _ hp hv, he, hc]

/-- C7 (witness): the literals "a", "b" and "c": `"a" + "b" + "c"` shows "abc"; and a
number as right operand is converted first: `"a" + 1` shows "a1". -/
theorem c7_concatenation_witness :
    ((do_eval_expression (0 + 12) (host_with [] [])
        (34 :: ([97] ++ 34 :: 32 :: 43 :: 32 :: 34 ::
          ([98] ++ 34 :: 32 :: 43 :: 32 :: 34 :: ([99] ++ [34, 0])))) NO_ARG).map
        (fun o => (o.status, o.ds.errors))
      = some (some ([45, 62, 32, 34] ++ ([97] ++ [98] ++ [99]) ++ [34]), []) ∧
     (∃ ds, qe_parse_script (0 + 12) (host_with [] [])
        (qe_cfg_init (host_with [] []) (34 :: ([97] ++ 34 :: 32 :: 43 :: 32 :: 34 ::
          ([98] ++ 34 :: 32 :: 43 :: 32 :: 34 :: ([99] ++ [34, 0])))))
        = some (TOK_STRING, ds) ∧
      slot ds 0 = ⟨TOK_STRING, true, ([97] : Bytes).length + ([98] : Bytes).length
                    + ([99] : Bytes).length, QEUnion.str ([97] ++ [98] ++ [99])⟩) ∧
     (∀ (ds : QEmacsDataSource) (sp : Nat) (x : Bytes) (lx : Nat) (al al1 : Bool) (n : Int)
        (ln1 : Nat), slot ds sp = ⟨129, al, lx, QEUnion.str x⟩ →
      slot ds (sp + 1) = ⟨128, al1, ln1, QEUnion.value n⟩ →
      (qe_cfg_op ds sp 43).1 = 0 ∧
      slot (qe_cfg_op ds sp 43).2 sp
        = ⟨129, true, lx + (fmt_lld n).length, QEUnion.str (x.take lx ++ fmt_lld n)⟩)) ∧
    (do_eval_expression 12 (host_with [] []) [34, 97, 34, 32, 43, 32, 34, 98, 34, 32, 43, 32, 34, 99, 34, 0] NO_ARG).map
        (fun o => (o.status, o.ds.errors)) = some (some [45, 62, 32, 34, 97, 98, 99, 34], []) ∧
    (do_eval_expression 12 (host_with [] []) [34, 97, 34, 32, 43, 32, 49, 0] NO_ARG).map
        (fun o => (o.status, o.ds.errors)) = some (some [45, 62, 32, 34, 97, 49, 34], []) :=
  ⟨c7_concatenation [97] [98] [99] 0 (host_with [] []) (by decide) (by decide) (by decide)
      (by decide) (by decide) (by decide),
   by decide!, by decide!⟩

/-! ## Identifiers: `_` and `-` -/

theorem scan_ident_all (r rest str : Bytes) (hr : ∀ c ∈ r, qe_isalnum_ c = true)
    (he : ident_end rest = true) :
    scan_ident (r ++ rest) str = (rest, str ++ (r.map dash_byte).take (255 - str.length)) := by
  induction r generalizing str with
  | nil =>
    cases rest with
    | nil => simp [scan_ident]
    | cons c p =>
      simp only [ident_end, List.headD_cons, List.tail_cons, Bool.and_eq_true,
        Bool.not_eq_true'] at he
      simp only [List.nil_append, scan_ident, he.1, he.2, Bool.or_false, Bool.false_eq_true,
        if_false]
      simp
  | cons c r ih =>
    have hc := hr c (by simp)
    rw [List.cons_append, scan_ident]
    simp only [hc, Bool.true_or, if_true]
    rw [ih _ (fun d hd => hr d (by simp [hd]))]
    by_cases hl : str.length < 255
    · simp only [hl, if_true, List.length_append, List.length_singleton, List.map_cons,
        List.append_assoc, List.singleton_append, dash_byte]
      have : 255 - str.length = (255 - (str.length + 1)) + 1 := by omega
      rw [this, List.take_succ_cons]
    · simp only [hl, if_false]
      have : 255 - str.length = 0 := by omega
      simp [this]

theorem dash_variant_head (r r' : Bytes) (h : dash_variant r r' = true)
    (ha : qe_isalpha (r.headD 0) = true) : r'.headD 0 = r.headD 0 := by
  cases r with
  | nil => simp [qe_isalpha] at ha
  | cons c r =>
    cases r' with
    | nil => simp [dash_variant] at h
    | cons c' r' =>
      simp only [dash_variant, Bool.and_eq_true, Bool.or_eq_true, beq_iff_eq] at h
      simp only [List.headD_cons] at ha ⊢
      rcases h.1 with h1 | ⟨⟨h1, -⟩, -⟩
      · exact h1
      · subst h1
        simp [qe_isalpha] at ha

theorem scan_ident_variant (r r' rest str : Bytes) (hr : ∀ c ∈ r, qe_isalnum_ c = true)
    (hv : dash_variant r r' = true) :
    scan_ident (r' ++ rest) str = scan_ident (r ++ rest) str := by
  induction r generalizing r' str with
  | nil =>
    cases r' with
    | nil => rfl
    | cons c' r' => simp [dash_variant] at hv
  | cons c r ih =>
    cases r' with
    | nil => simp [dash_variant] at hv
    | cons c' r' =>
      have hc := hr c (by simp)
      simp only [dash_variant, Bool.and_eq_true, Bool.or_eq_true, beq_iff_eq] at hv
      have hrec := fun str => ih r' str (fun d hd => hr d (by simp [hd])) hv.2
      rcases hv.1 with h1 | ⟨⟨h1, h2⟩, h3⟩
      · subst h1
        rw [List.cons_append, List.cons_append, scan_ident, scan_ident]
        simp only [hc, Bool.true_or, if_true]
        exact hrec _
      · subst h1 h2
        have hh : (r' ++ rest).headD 0 = r.headD 0 := by
          have := dash_variant_head r r' hv.2 h3
          cases r with
          | nil => simp [qe_isalpha] at h3
          | cons d r =>
            cases r' with
            | nil => simp [dash_variant] at hv
            | cons d' r' => simpa using this
        rw [List.cons_append, List.cons_append, scan_ident, scan_ident]
        simp only [hc, Bool.true_or, if_true, hh, h3, beq_self_eq_true, Bool.and_self,
          Bool.or_true]
        simp only [show ((45 : Nat) == 95) = false by decide, Bool.false_eq_true, if_false]
        exact hrec _

theorem dash_variant_length (r q : Bytes) (h : dash_variant r q = true) :
    q.length = r.length := by
  induction r generalizing q with
  | nil =>
    cases q with
    | nil => rfl
    | cons c q => simp [dash_variant] at h
  | cons c r ih =>
    cases q with
    | nil => simp [dash_variant] at h
    | cons c' q =>
      simp only [dash_variant, Bool.and_eq_true] at h
      simp [ih q h.2]

theorem dash_variant_no_dash (r q : Bytes) (h : dash_variant r q = true)
    (hq : ∀ x ∈ q, x ≠ 45) : q = r := by
  induction r generalizing q with
  | nil =>
    cases q with
    | nil => rfl
    | cons c q => simp [dash_variant] at h
  | cons c r ih =>
    cases q with
    | nil => simp [dash_variant] at h
    | cons c' q =>
      simp only [dash_variant, Bool.and_eq_true, Bool.or_eq_true, beq_iff_eq] at h
      have h45 := hq c' (by simp)
      rcases h.1 with h1 | ⟨⟨-, h2⟩, -⟩
      · rw [h1, ih q h.2 (fun x hx => hq x (by simp [hx]))]
      · exact absurd h2 h45

/-- The lexer on an identifier: the text `c0 :: q`, a dash variant of the identifier text
`c0 :: r`, gives one identifier token whose lexeme is that of `c0 :: r`. -/
theorem lex_ident_variant (c0 : Nat) (r q rest : Bytes) (ln lno len : Nat) (str : Bytes)
    (h0 : qe_isalpha_ c0 = true) (hr : ∀ c ∈ r, qe_isalnum_ c = true)
    (hv : dash_variant r q = true) (he : ident_end rest = true)
    (hif : c0 :: r ≠ [105, 102]) (helse : c0 :: r ≠ [101, 108, 115, 101]) :
    lex (c0 :: (q ++ rest)) ln lno len str =
      ⟨rest, c0 :: (q ++ rest), ln, ln, false, TOK_ID, PREC_NONE,
        ((c0 :: r.map dash_byte).take 255).length, (c0 :: r.map dash_byte).take 255 ++ [0],
        lno, none⟩ := by
  have hlen := dash_variant_length r q hv
  have a0 : (c0 == 0) = false := by
    cases hc : c0 == 0 with
    | false => rfl
    | true => simp only [beq_iff_eq] at hc; subst hc; simp [qe_isalpha_, qe_isalpha] at h0
  have a1 : (c0 == 10) = false := by
    cases hc : c0 == 10 with
    | false => rfl
    | true => simp only [beq_iff_eq] at hc; subst hc; simp [qe_isalpha_, qe_isalpha] at h0
  have a2 : qe_isspace c0 = false := by
    cases hc : qe_isspace c0 with
    | false => rfl
    | true =>
      simp only [qe_isspace, Bool.or_eq_true, beq_iff_eq, Bool.and_eq_true,
        decide_eq_true_eq] at hc
      simp only [qe_isalpha_, qe_isalpha, Bool.or_eq_true, Bool.and_eq_true, decide_eq_true_eq,
        beq_iff_eq] at h0
      omega
  have a3 : (c0 == 47) = false := by
    cases hc : c0 == 47 with
    | false => rfl
    | true => simp only [beq_iff_eq] at hc; subst hc; simp [qe_isalpha_, qe_isalpha] at h0
  have sc : scan_ident (q ++ rest) [c0] = (rest, [c0] ++ (r.map dash_byte).take 254) := by
    rw [scan_ident_variant r q rest [c0] hr hv, scan_ident_all r rest [c0] hr he]
    simp
  have k2 : ¬ (([c0] ++ (r.map dash_byte).take 254).length = 2
      ∧ (c0 :: (q ++ rest)).take 2 = [105, 102]) := by
    rintro ⟨h1, h2⟩
    simp only [List.singleton_append, List.length_cons, List.length_take, List.length_map] at h1
    have hr1 : r.length = 1 := by omega
    have hq1 : q.length = 1 := by omega
    match q, hq1 with
    | [x], _ =>
      simp only [List.singleton_append, List.take_succ_cons, List.take_zero, List.cons.injEq,
        and_true] at h2
      have hqr : [x] = r := dash_variant_no_dash r [x] hv (by
        intro y hy
        simp only [List.mem_singleton] at hy
        rw [hy, h2.2]; decide)
      apply hif
      rw [← hqr, h2.1, h2.2]
  have k4 : ¬ (([c0] ++ (r.map dash_byte).take 254).length = 4
      ∧ (c0 :: (q ++ rest)).take 4 = [101, 108, 115, 101]) := by
    rintro ⟨h1, h2⟩
    simp only [List.singleton_append, List.length_cons, List.length_take, List.length_map] at h1
    have hr1 : r.length = 3 := by omega
    have hq1 : q.length = 3 := by omega
    match q, hq1 with
    | [x, y, z], _ =>
      simp only [List.cons_append, List.nil_append, List.take_succ_cons, List.take_zero,
        List.cons.injEq, and_true] at h2
      have hqr : [x, y, z] = r := dash_variant_no_dash r [x, y, z] hv (by
        intro w hw
        simp only [List.mem_cons, List.mem_singleton, List.not_mem_nil, or_false] at hw
        rcases hw with hw | hw | hw
        · rw [hw, h2.2.1]; decide
        · rw [hw, h2.2.2.1]; decide
        · rw [hw, h2.2.2.2]; decide)
      apply helse
      rw [← hqr, h2.1, h2.2.1, h2.2.2.1, h2.2.2.2]
  unfold lex
  simp only [List.length_cons]
  rw [next_token_loop]
  simp only [List.headD_cons, List.tail_cons, a0, a1, a2, a3, Bool.false_eq_true, if_false,
    Bool.false_and, scan_token, h0, if_true, sc]
  simp only [beq_iff_eq, Bool.and_eq_true] at k2 k4 ⊢
  simp only [k2, k4, if_false]
  simp [TOK_ID, PREC_NONE]

theorem dash_variant_refl (r : Bytes) : dash_variant r r = true := by
  induction r with
  | nil => rfl
  | cons c r ih => simp [dash_variant, ih]

theorem dash_byte_ne (c : Nat) : dash_byte c ≠ 95 := by
  unfold dash_byte
  split_ifs with h
  · decide
  · simpa using h

/-- C9 (counterexample): `a_1` is lexed to the lexeme `a-1`, but `a-1` to the lexeme `a`
(the `-` before a digit ends the identifier); and the lexeme of `_a` is `_a`, which
contains a `_`. -/
theorem c9_dash_before_digit_ends_identifier :
    ((lex [97, 95, 49, 0] 1 1 0 []).tok, (lex [97, 95, 49, 0] 1 1 0 []).str) = (TOK_ID, [97, 45, 49, 0]) ∧
    ((lex [97, 45, 49, 0] 1 1 0 []).tok, (lex [97, 45, 49, 0] 1 1 0 []).str, (lex [97, 45, 49, 0] 1 1 0 []).p)
      = (TOK_ID, [97, 0], [45, 49, 0]) ∧
    ((lex [95, 97, 0] 1 1 0 []).tok, (lex [95, 97, 0] 1 1 0 []).str) = (TOK_ID, [95, 97, 0]) := by
  decide

/-- C9 (amended): let w = c0 r be an identifier text other than `if` and `else` (c0 a
letter or `_`, r letters, digits and `_`), let w' = c0 r' be w with some of the `_` of r
replaced by `-`, each of them standing before a letter, and let `rest` end an identifier.
Then lexing w and lexing w' each give one identifier token that ends before `rest`, with
the same stored lexeme: c0 followed by the bytes of r with `-` for every `_`, at most
255 bytes; it contains no `_` behind its first byte. -/
theorem c9_underscore_dash_equivalence (c0 : Nat) (r r' rest : Bytes) (ln lno len : Nat)
    (str : Bytes) (h0 : qe_isalpha_ c0 = true) (hr : ∀ c ∈ r, qe_isalnum_ c = true)
    (hv : dash_variant r r' = true) (he : ident_end rest = true)
    (hif : c0 :: r ≠ [105, 102]) (helse : c0 :: r ≠ [101, 108, 115, 101]) :
    lex (c0 :: (r ++ rest)) ln lno len str =
      ⟨rest, c0 :: (r ++ rest), ln, ln, false, TOK_ID, PREC_NONE,
        ((c0 :: r.map dash_byte).take 255).length, (c0 :: r.map dash_byte).take 255 ++ [0],
        lno, none⟩ ∧
    lex (c0 :: (r' ++ rest)) ln lno len str =
      ⟨rest, c0 :: (r' ++ rest), ln, ln, false, TOK_ID, PREC_NONE,
        ((c0 :: r.map dash_byte).take 255).length, (c0 :: r.map dash_byte).take 255 ++ [0],
        lno, none⟩ ∧
    (∀ x ∈ ((c0 :: r.map dash_byte).take 255).tail, x ≠ 95) := by
  refine ⟨lex_ident_variant c0 r r rest ln lno len str h0 hr (dash_variant_refl r) he hif helse,
    lex_ident_variant c0 r r' rest ln lno len str h0 hr hv he hif helse, ?_⟩
  intro x hx
  have : 255 = 254 + 1 := rfl
  rw [this, List.take_succ_cons, List.tail_cons] at hx
  obtain ⟨c, -, hc⟩ := List.mem_map.mp (List.mem_of_mem_take hx)
  rw [← hc]
  exact dash_byte_ne c

/-- C9 (witness): `tab_width` and `tab-width` before the end of the text: both give the
lexeme `tab-width`. -/
theorem c9_underscore_dash_equivalence_witness :
    lex (116 :: ([97, 98, 95, 119, 105, 100, 116, 104] ++ [0])) 1 1 0 [] =
      ⟨[0], 116 :: ([97, 98, 95, 119, 105, 100, 116, 104] ++ [0]), 1, 1, false, TOK_ID, PREC_NONE,
        ((116 :: ([97, 98, 95, 119, 105, 100, 116, 104] : Bytes).map dash_byte).take 255).length,
        (116 :: ([97, 98, 95, 119, 105, 100, 116, 104] : Bytes).map dash_byte).take 255 ++ [0], 1, none⟩ ∧
    lex (116 :: ([97, 98, 45, 119, 105, 100, 116, 104] ++ [0])) 1 1 0 [] =
      ⟨[0], 116 :: ([97, 98, 45, 119, 105, 100, 116, 104] ++ [0]), 1, 1, false, TOK_ID, PREC_NONE,
        ((116 :: ([97, 98, 95, 119, 105, 100, 116, 104] : Bytes).map dash_byte).take 255).length,
        (116 :: ([97, 98, 95, 119, 105, 100, 116, 104] : Bytes).map dash_byte).take 255 ++ [0], 1, none⟩ ∧
    (∀ x ∈ ((116 :: ([97, 98, 95, 119, 105, 100, 116, 104] : Bytes).map dash_byte).take 255).tail, x ≠ 95) :=
  c9_underscore_dash_equivalence 116 [97, 98, 95, 119, 105, 100, 116, 104] [97, 98, 45, 119, 105, 100, 116, 104] [0] 1 1 0 [] (by decide) (by decide)
    (by decide) (by decide) (by decide) (by decide)

/-! ## The operator scan -/

theorem op_match_iff (k : Bytes) (hne : k ≠ []) (h0 : ∀ c ∈ k, c ≠ 0) (s p : Bytes) :
    op_match s k = some p ↔ k ++ p = s := by
  induction k generalizing s with
  | nil => exact absurd rfl hne
  | cons c ks ih =>
    have hc : c ≠ 0 := h0 c (by simp)
    cases ks with
    | nil =>
      cases s with
      | nil => simp [op_match, Ne.symm hc]
      | cons d t =>
        simp only [op_match, List.headD_cons, List.tail_cons, List.cons_append, List.nil_append]
        by_cases hd : d = c
        · simp [hd, eq_comm]
        · simp [hd, Ne.symm hd]
    | cons c2 ks2 =>
      have hrec := ih (by simp) (fun x hx => h0 x (by simp [hx]))
      cases s with
      | nil => simp [op_match, Ne.symm hc]
      | cons d t =>
        simp only [op_match, List.headD_cons, List.tail_cons]
        by_cases hd : d = c
        · simp only [hd, beq_self_eq_true, if_true, hrec t]
          simp
        · simp [hd, Ne.symm hd]

theorem scan_ops_none (L : List opdef) (hL : ∀ e ∈ L, e.str ≠ [] ∧ ∀ c ∈ e.str, c ≠ 0)
    (s : Bytes) (h : scan_ops L s = none) : ∀ e ∈ L, ¬ ∃ t, e.str ++ t = s := by
  induction L with
  | nil => simp
  | cons op rest ih =>
    rw [scan_ops] at h
    cases hm : op_match s op.str with
    | some p => rw [hm] at h; simp at h
    | none =>
      rw [hm] at h
      intro e he
      rcases List.mem_cons.mp he with rfl | he
      · rintro ⟨t, ht⟩
        have := (op_match_iff e.str (hL e (by simp)).1 (hL e (by simp)).2 s t).mpr ht
        rw [hm] at this; simp at this
      · exact ih (fun e he => hL e (by simp [he])) h e he

theorem scan_ops_some (L : List opdef) (hL : ∀ e ∈ L, e.str ≠ [] ∧ ∀ c ∈ e.str, c ≠ 0)
    (s : Bytes) (op : opdef) (p : Bytes) (h : scan_ops L s = some (op, p)) :
    ∃ L1 L2, L = L1 ++ op :: L2 ∧ op.str ++ p = s ∧ ∀ e ∈ L1, ¬ ∃ t, e.str ++ t = s := by
  induction L with
  | nil => simp [scan_ops] at h
  | cons o rest ih =>
    rw [scan_ops] at h
    cases hm : op_match s o.str with
    | some q =>
      rw [hm] at h
      simp only [Option.some.injEq, Prod.mk.injEq] at h
      obtain ⟨rfl, rfl⟩ := h
      exact ⟨[], rest, rfl, (op_match_iff o.str (hL o (by simp)).1 (hL o (by simp)).2 s q).mp hm,
        by simp⟩
    | none =>
      rw [hm] at h
      obtain ⟨L1, L2, e1, e2, e3⟩ := ih (fun e he => hL e (by simp [he])) h
      refine ⟨o :: L1, L2, by simp [e1], e2, ?_⟩
      intro e he
      rcases List.mem_cons.mp he with rfl | he
      · rintro ⟨t, ht⟩
        have := (op_match_iff e.str (hL e (by simp)).1 (hL e (by simp)).2 s t).mpr ht
        rw [hm] at this; simp at this
      · exact e3 e he

theorem strcmp_append_nonneg (a t : Bytes) : 0 ≤ strcmp (a ++ t) a := by
  induction a with
  | nil =>
    cases t with
    | nil => simp [strcmp]
    | cons c t => simp only [List.nil_append, strcmp]; split_ifs <;> simp
  | cons x a ih =>
    simp only [List.cons_append, strcmp, lt_self_iff_false, if_false]
    split_ifs
    · simp
    · exact ih

/-- The operator table is strictly sorted by `strcmp`. -/
theorem ops_sorted : List.Pairwise (fun a b => strcmp a.str b.str < 0) ops := by
  decide

theorem ops_spellings : ∀ e ∈ ops, e.str ≠ [] ∧ ∀ c ∈ e.str, c ≠ 0 := by
  decide

theorem ops_first_bytes : ∀ e ∈ ops,
    e.str.headD 0 ≠ 0 ∧ e.str.headD 0 ≠ 10 ∧ qe_isspace (e.str.headD 0) = false ∧
    qe_isalpha_ (e.str.headD 0) = false ∧ qe_isdigit (e.str.headD 0) = false ∧
    e.str.headD 0 ≠ 39 ∧ e.str.headD 0 ≠ 34 := by
  decide

/-- The scan of the table from its last entry finds the longest spelling that starts the
input, whenever some spelling does. -/
theorem scan_ops_longest (s : Bytes) (e : opdef) (he : e ∈ ops) (hp : ∃ t, e.str ++ t = s) :
    ∃ op ∈ ops, ∃ rest, scan_ops ops.reverse s = some (op, rest) ∧ op.str ++ rest = s ∧
      ∀ e' ∈ ops, (∃ t, e'.str ++ t = s) → e'.str.length ≤ op.str.length := by
  have hL : ∀ e ∈ ops.reverse, e.str ≠ [] ∧ ∀ c ∈ e.str, c ≠ 0 :=
    fun e he => ops_spellings e (List.mem_reverse.mp he)
  cases hs : scan_ops ops.reverse s with
  | none => exact absurd hp (scan_ops_none _ hL s hs e (List.mem_reverse.mpr he))
  | some r =>
    obtain ⟨op, rest⟩ := r
    obtain ⟨L1, L2, e1, e2, e3⟩ := scan_ops_some _ hL s op rest hs
    have hop : op ∈ ops := List.mem_reverse.mp (by rw [e1]; simp)
    refine ⟨op, hop, rest, rfl, e2, ?_⟩
    intro e' he' hp'
    have hmem : e' ∈ L1 ++ op :: L2 := by rw [← e1]; exact List.mem_reverse.mpr he'
    rcases List.mem_append.mp hmem with h1 | h1
    · exact absurd hp' (e3 e' h1)
    · rcases List.mem_cons.mp h1 with rfl | h2
      · exact le_refl _
      · have hsorted : List.Pairwise (fun a b => strcmp b.str a.str < 0) ops.reverse :=
          List.pairwise_reverse.mpr ops_sorted
        rw [e1] at hsorted
        have hlt : strcmp e'.str op.str < 0 :=
          List.rel_of_pairwise_cons (List.pairwise_append.mp hsorted).2.1 h2
        obtain ⟨t, ht⟩ := hp'
        rcases List.append_eq_append_iff.mp (ht.trans e2.symm) with ⟨a', ha, _⟩ | ⟨c', hc, _⟩
        · rw [ha]; simp
        · rw [hc] at hlt
          exact absurd (strcmp_append_nonneg op.str c') (by omega)

/-- C29: the operator table is strictly sorted (by `strcmp`), and for every input `s` that
starts with the spelling of some table entry and is no comment start (`//` or `/*`), the
lexer's token is a table entry `op` whose spelling starts `s`, no entry whose spelling starts
`s` is longer, the token kind and the precedence are those of `op`, and the cursor is behind
the spelling; no error is reported. -/
theorem c29_longest_operator (s : Bytes) (ln lno len : Nat) (str : Bytes) (e : opdef)
    (he : e ∈ ops) (hp : ∃ t, e.str ++ t = s)
    (hc : ¬ (s.headD 0 = 47 ∧ (s.tail.headD 0 = 47 ∨ s.tail.headD 0 = 42))) :
    List.Pairwise (fun a b => strcmp a.str b.str < 0) ops ∧
    ∃ op ∈ ops, ∃ rest, op.str ++ rest = s ∧
      (∀ e' ∈ ops, (∃ t, e'.str ++ t = s) → e'.str.length ≤ op.str.length) ∧
      lex s ln lno len str = ⟨rest, s, ln, ln, false, op.op, op.prec, len, str, lno, none⟩ := by
  refine ⟨ops_sorted, ?_⟩
  obtain ⟨op, hop, rest, h1, h2, h3⟩ := scan_ops_longest s e he hp
  refine ⟨op, hop, rest, h2, h3, ?_⟩
  obtain ⟨t, ht⟩ := hp
  have hfb := ops_first_bytes e he
  have hne := (ops_spellings e he).1
  cases hes : e.str with
  | nil => exact absurd hes hne
  | cons c ks =>
    rw [hes] at ht hfb
    simp only [List.cons_append] at ht
    subst ht
    simp only [List.headD_cons, List.tail_cons] at hfb hc
    obtain ⟨f0, f1, f2, f3, f4, f5, f6⟩ := hfb
    have hc1 : ¬ (c = 47 ∧ (ks ++ t).headD 0 = 47) := fun h => hc ⟨h.1, Or.inl h.2⟩
    have hc2 : ¬ (c = 47 ∧ (ks ++ t).headD 0 = 42) := fun h => hc ⟨h.1, Or.inr h.2⟩
    unfold lex
    simp only [List.length_cons]
    rw [next_token_loop]
    simp only [List.headD_cons, List.tail_cons]
    have hc1' : ¬ (c = 47 ∧ (ks.head?.or (List.head? t)).getD 0 = 47) := by simpa using hc1
    have hc2' : ¬ (c = 47 ∧ (ks.head?.or (List.head? t)).getD 0 = 42) := by simpa using hc2
    simp [f0, f1, f2, hc1', hc2', scan_token, f3, f4, f5, f6, h1, PREC_NONE]

/-- C29 (witness): `<<=1` lexes as the one token `<<=` of the assignment class, and `<<x`
starts with the token `<<` of the shift class. -/
theorem c29_longest_operator_witness :
    (List.Pairwise (fun a b => strcmp a.str b.str < 0) ops ∧
     ∃ op ∈ ops, ∃ rest, op.str ++ rest = [60, 60, 61, 49, 0] ∧
      (∀ e' ∈ ops, (∃ t, e'.str ++ t = [60, 60, 61, 49, 0]) → e'.str.length ≤ op.str.length) ∧
      lex [60, 60, 61, 49, 0] 1 1 0 [] = ⟨rest, [60, 60, 61, 49, 0], 1, 1, false, op.op, op.prec, 0, [], 1, none⟩) ∧
    lex [60, 60, 61, 49, 0] 1 1 0 [] = ⟨[49, 0], [60, 60, 61, 49, 0], 1, 1, false, TOK_SHL_EQ, PREC_ASSIGNMENT, 0, [], 1, none⟩ ∧
    lex [60, 60, 120, 0] 1 1 0 [] = ⟨[120, 0], [60, 60, 120, 0], 1, 1, false, TOK_SHL, PREC_SHIFT, 0, [], 1, none⟩ :=
  ⟨c29_longest_operator [60, 60, 61, 49, 0] 1 1 0 [] ⟨[60], 60, PREC_SHIFT⟩ (by decide)
      ⟨[60, 61, 49, 0], rfl⟩ (by decide),
   by decide, by decide⟩

/-! ## Skip mode of statements -/

theorem with_frame_self (ds : QEmacsDataSource) : with_frame ds ds.s ds.stack ds.sp_max = ds :=
  rfl

theorem next_token_with_frame (ds : QEmacsDataSource) (h : Host) (stk : List QEValue)
    (spm : Nat) :
    qe_cfg_next_token (with_frame ds h stk spm) = with_frame (qe_cfg_next_token ds) h stk spm :=
  rfl

theorem skip_expr_with_frame (fuel : Nat) (ds : QEmacsDataSource) (level : Nat) (h : Host)
    (stk : List QEValue) (spm : Nat) :
    qe_cfg_skip_expr fuel (with_frame ds h stk spm) level =
      (qe_cfg_skip_expr fuel ds level).map fun x => (x.1, with_frame x.2 h stk spm) := by
  induction fuel generalizing ds level with
  | zero => simp [qe_cfg_skip_expr]
  | succ n ih =>
    rw [qe_cfg_skip_expr, qe_cfg_skip_expr]
    simp only [next_token_with_frame, ih]
    have ht : (with_frame ds h stk spm).tok = ds.tok := rfl
    simp only [ht]
    split_ifs <;> rfl

theorem stmt_end_with_frame (res : Int) (ds : QEmacsDataSource) (h : Host)
    (stk : List QEValue) (spm : Nat) :
    stmt_end res (with_frame ds h stk spm) =
      (stmt_end res ds).map fun x => (x.1, with_frame x.2 h stk spm) := by
  rw [stmt_end_cases, stmt_end_cases]
  have ht : (with_frame ds h stk spm).tok = ds.tok := rfl
  have hn : (with_frame ds h stk spm).newline_seen = ds.newline_seen := rfl
  simp only [ht, hn]
  split_ifs <;> rfl

/-- In skip mode a statement, the branches of an `if` and a block commute with a change of
the host, of the value stack and of the high-water mark. -/
theorem stmt_skip_with_frame (fuel : Nat) (h : Host) (stk : List QEValue) (spm : Nat) :
    (∀ ds sp, qe_cfg_stmt fuel (with_frame ds h stk spm) sp true =
        (qe_cfg_stmt fuel ds sp true).map fun x => (x.1, with_frame x.2 h stk spm)) ∧
    (∀ c ds sp, stmt_if fuel c (with_frame ds h stk spm) sp true =
        (stmt_if fuel c ds sp true).map fun x => (x.1, with_frame x.2 h stk spm)) ∧
    (∀ ds sp res, stmt_block fuel (with_frame ds h stk spm) sp true res =
        (stmt_block fuel ds sp true res).map fun x => (x.1, with_frame x.2 h stk spm)) := by
  induction fuel with
  | zero => refine ⟨?_, ?_, ?_⟩ <;> intros <;> simp [qe_cfg_stmt, stmt_if, stmt_block]
  | succ n ih =>
    obtain ⟨ih1, ih2, ih3⟩ := ih
    refine ⟨?_, ?_, ?_⟩
    · intro ds sp
      have ht : (with_frame ds h stk spm).tok = ds.tok := rfl
      rw [qe_cfg_stmt, qe_cfg_stmt]
      simp only [ht, next_token_with_frame]
      split_ifs with h1 h2 h3
      · exact ih3 _ _ _
      · cases n with
        | zero => simp [qe_cfg_expr, after]
        | succ m =>
          rw [qe_cfg_expr, qe_cfg_expr]
          simp only [if_true, skip_expr_with_frame]
          cases hq : qe_cfg_skip_expr m (qe_cfg_next_token ds) 0 with
          | none => simp [after]
          | some x =>
            obtain ⟨r, ds1⟩ := x
            have hr := (skip_expr_frame _ _ _ _ _ hq).1
            subst hr
            simp only [Option.map_some', after]
            exact ih2 _ _ _
      · cases n with
        | zero => simp [qe_cfg_expr, after]
        | succ m =>
          rw [qe_cfg_expr, qe_cfg_expr]
          simp only [if_true, skip_expr_with_frame]
          cases hq : qe_cfg_skip_expr m ds 0 with
          | none => simp [after]
          | some x =>
            obtain ⟨r, ds1⟩ := x
            have hr := (skip_expr_frame _ _ _ _ _ hq).1
            subst hr
            simp only [Option.map_some', after]
            exact stmt_end_with_frame _ _ _ _ _
      · exact stmt_end_with_frame _ _ _ _ _
    · intro c ds sp
      rw [stmt_if, stmt_if]
      have e1 : ∀ b : Bool, ((if c != 0 then true else true) || b) = true := by
        intro b; split_ifs <;> rfl
      simp only [e1, ih1]
      cases hq : qe_cfg_stmt n ds sp true with
      | none => simp [after]
      | some x =>
        obtain ⟨r1, ds1⟩ := x
        simp only [Option.map_some', after]
        have ht : (with_frame ds1 h stk spm).tok = ds1.tok := rfl
        simp only [ht, next_token_with_frame, ih1]
        split_ifs <;>
          first
            | rfl
            | (cases hq2 : qe_cfg_stmt n (qe_cfg_next_token ds1) sp true <;> simp [after])
    · intro ds sp res
      have ht : (with_frame ds h stk spm).tok = ds.tok := rfl
      rw [stmt_block, stmt_block]
      simp only [ht, next_token_with_frame, ih1]
      split_ifs
      · rfl
      · rfl
      · cases hq : qe_cfg_stmt n ds sp true with
        | none => simp [after]
        | some x =>
          simp only [Option.map_some', after]
          exact ih3 _ _ _

/-- C30: when `qe_cfg_stmt` in skip mode returns, the host (its variables, its commands and
the log of command calls), the value stack (the value slot included) and the high-water mark
are what they were, at any nesting of blocks and `if`/`else`; and the run reads none of
them: on the same lexer state with any other host, value stack and high-water mark it
returns the same result and reaches the same lexer state and error log, leaving those too
as they were. -/
theorem c30_skip_statement_only_advances_lexer (fuel : Nat) (ds : QEmacsDataSource) (sp : Nat)
    (r : Int) (ds' : QEmacsDataSource) (h : qe_cfg_stmt fuel ds sp true = some (r, ds')) :
    ds'.s = ds.s ∧ ds'.stack = ds.stack ∧ ds'.sp_max = ds.sp_max ∧
    ∀ (h' : Host) (stk : List QEValue) (spm : Nat),
      qe_cfg_stmt fuel (with_frame ds h' stk spm) sp true = some (r, with_frame ds' h' stk spm) := by
  have key := fun h' stk spm => (stmt_skip_with_frame fuel h' stk spm).1 ds sp
  have hself := key ds.s ds.stack ds.sp_max
  rw [with_frame_self, h] at hself
  simp only [Option.map_some', Option.some.injEq, Prod.mk.injEq, true_and] at hself
  refine ⟨?_, ?_, ?_, ?_⟩
  · rw [hself]; rfl
  · rw [hself]; rfl
  · rw [hself]; rfl
  · intro h' stk spm
    rw [key h' stk spm, h]
    rfl

/-- C30 (witness): the statement `{ x = 1; if (y); else { z = 3; f(2); } }` in skip mode, on
a host with the variable x and the command f: it is consumed up to the end of the text and
the host, the value stack and the high-water mark are what they were. -/
theorem c30_skip_statement_only_advances_lexer_witness :
    (qe_cfg_stmt 30
        (qe_cfg_next_token (script_begin (host_with [([120], VarValue.number 5)] [⟨[102], [0], 0⟩])
          (qe_cfg_init (host_with [([120], VarValue.number 5)] [⟨[102], [0], 0⟩])
            [123, 32, 120, 32, 61, 32, 49, 59, 32, 105, 102, 32, 40, 121, 41, 59, 32, 101, 108, 115, 101, 32, 123, 32, 122, 32, 61, 32, 51, 59, 32, 102, 40, 50, 41, 59, 32, 125, 32, 125, 0]))) 0 true).map
        (fun x => (x.1, x.2.tok, x.2.errors)) = some (1, TOK_EOF, []) ∧
    ∃ r ds', qe_cfg_stmt 30
        (qe_cfg_next_token (script_begin (host_with [([120], VarValue.number 5)] [⟨[102], [0], 0⟩])
          (qe_cfg_init (host_with [([120], VarValue.number 5)] [⟨[102], [0], 0⟩])
            [123, 32, 120, 32, 61, 32, 49, 59, 32, 105, 102, 32, 40, 121, 41, 59, 32, 101, 108, 115, 101, 32, 123, 32, 122, 32, 61, 32, 51, 59, 32, 102, 40, 50, 41, 59, 32, 125, 32, 125, 0]))) 0 true = some (r, ds') ∧
      ds'.s = host_with [([120], VarValue.number 5)] [⟨[102], [0], 0⟩] ∧
      ds'.stack = List.replicate 16 QEValue.zero ∧ ds'.sp_max = 0 := by
  refine ⟨by decide!, ?_⟩
  have hs : (qe_cfg_stmt 30
        (qe_cfg_next_token (script_begin (host_with [([120], VarValue.number 5)] [⟨[102], [0], 0⟩])
          (qe_cfg_init (host_with [([120], VarValue.number 5)] [⟨[102], [0], 0⟩])
            [123, 32, 120, 32, 61, 32, 49, 59, 32, 105, 102, 32, 40, 121, 41, 59, 32, 101, 108, 115, 101, 32, 123, 32, 122, 32, 61, 32, 51, 59, 32, 102, 40, 50, 41, 59, 32, 125, 32, 125, 0]))) 0 true).isSome = true := by
    decide!
  obtain ⟨x, hq⟩ := Option.isSome_iff_exists.mp hs
  obtain ⟨r, ds'⟩ := x
  have hf := c30_skip_statement_only_advances_lexer _ _ _ r ds' hq
  exact ⟨r, ds', hq, hf.1, hf.2.1, hf.2.2.1⟩

/-! ## The lexer on identifiers, numbers and quoted literals -/

/-- The identifier loop stops at the first byte that does not continue the identifier. -/
theorem scan_ident_extent (p str : Bytes) :
    ∃ n, n ≤ p.length ∧ (scan_ident p str).1 = p.drop n ∧
      (∀ i, i < n → ident_byte (p.getD i 0) (p.getD (i + 1) 0) = true) ∧
      ident_byte (p.getD n 0) (p.getD (n + 1) 0) = false := by
  induction p generalizing str with
  | nil => exact ⟨0, by simp, by simp [scan_ident], by simp, by decide⟩
  | cons c p ih =>
    by_cases hc : (qe_isalnum_ c || (c == 45 && qe_isalpha (p.headD 0))) = true
    · obtain ⟨n, h1, h2, h3, h4⟩ :=
        ih (if str.length < 255 then str ++ [if c == 95 then 45 else c] else str)
      refine ⟨n + 1, by simpa using h1, ?_, ?_, ?_⟩
      · rw [scan_ident, if_pos hc, h2]; rfl
      · intro i hi
        cases i with
        | zero =>
          simp only [List.getD_cons_zero, zero_add, List.getD_cons_succ, ident_byte]
          cases p with
          | nil => simpa using hc
          | cons d q => simpa using hc
        | succ j => simpa using h3 j (by omega)
      · simpa using h4
    · refine ⟨0, by simp, ?_, by simp, ?_⟩
      · rw [scan_ident, if_neg hc]; rfl
      · simp only [List.getD_cons_zero, zero_add, List.getD_cons_succ, ident_byte]
        cases p with
        | nil => simpa using hc
        | cons d q => simpa using hc

/-- C26: at a letter or `_` the lexer's token starts there and extends over the n bytes
behind it, each of them a letter, a digit, `_` or a `-` that a letter follows immediately,
up to the first byte that is none of these; it is an identifier (or the keyword `if` or
`else`) and no error is reported. -/
theorem c26_identifier_extent (c : Nat) (p : Bytes) (ln lno len : Nat) (str : Bytes)
    (hc : qe_isalpha_ c = true) :
    ∃ n, n ≤ p.length ∧
      (∀ i, i < n → ident_byte (p.getD i 0) (p.getD (i + 1) 0) = true) ∧
      ident_byte (p.getD n 0) (p.getD (n + 1) 0) = false ∧
      (lex (c :: p) ln lno len str).p = p.drop n ∧
      (lex (c :: p) ln lno len str).start_p = c :: p ∧
      ((lex (c :: p) ln lno len str).tok = TOK_ID ∨ (lex (c :: p) ln lno len str).tok = TOK_IF ∨
        (lex (c :: p) ln lno len str).tok = TOK_ELSE) ∧
      (lex (c :: p) ln lno len str).err = none := by
  obtain ⟨n, h1, h2, h3, h4⟩ := scan_ident_extent p [c]
  have a0 : (c == 0) = false := by
    cases h : c == 0 with
    | false => rfl
    | true => simp only [beq_iff_eq] at h; subst h; simp [qe_isalpha_, qe_isalpha] at hc
  have a1 : (c == 10) = false := by
    cases h : c == 10 with
    | false => rfl
    | true => simp only [beq_iff_eq] at h; subst h; simp [qe_isalpha_, qe_isalpha] at hc
  have a2 : qe_isspace c = false := by
    cases h : qe_isspace c with
    | false => rfl
    | true =>
      simp only [qe_isspace, Bool.or_eq_true, beq_iff_eq, Bool.and_eq_true,
        decide_eq_true_eq] at h
      simp only [qe_isalpha_, qe_isalpha, Bool.or_eq_true, Bool.and_eq_true, decide_eq_true_eq,
        beq_iff_eq] at hc
      omega
  have a3 : (c == 47) = false := by
    cases h : c == 47 with
    | false => rfl
    | true => simp only [beq_iff_eq] at h; subst h; simp [qe_isalpha_, qe_isalpha] at hc
  have e : lex (c :: p) ln lno len str = scan_token
      { p := c :: p, start_p := c :: p, line_num := ln, start_line := ln, newline_seen := false,
        tok := 0, prec := PREC_NONE, len := len, str := str, lineno := lno, err := none } c p := by
    unfold lex
    simp only [List.length_cons]
    rw [next_token_loop]
    simp [a0, a1, a2, a3]
  refine ⟨n, h1, h3, h4, ?_, ?_, ?_, ?_⟩
  · rw [e]; simp only [scan_token, hc, if_true]; split_ifs <;> exact h2
  · rw [e]; simp only [scan_token, hc, if_true]; split_ifs <;> rfl
  · rw [e]; simp only [scan_token, hc, if_true]
    split_ifs
    · exact Or.inr (Or.inl rfl)
    · exact Or.inr (Or.inr rfl)
    · exact Or.inl rfl
  · rw [e]; simp only [scan_token, hc, if_true]; split_ifs <;> rfl

/-- C26 (witness): `indent-width` is one identifier, stored as `indent-width`; `a-1` lexes
as the identifier `a`, the operator `-` and the number 1. -/
theorem c26_identifier_extent_witness :
    (∃ n, n ≤ ([110, 100, 101, 110, 116, 45, 119, 105, 100, 116, 104, 0] : Bytes).length ∧
      (∀ i, i < n → ident_byte (([110, 100, 101, 110, 116, 45, 119, 105, 100, 116, 104, 0] : Bytes).getD i 0)
          (([110, 100, 101, 110, 116, 45, 119, 105, 100, 116, 104, 0] : Bytes).getD (i + 1) 0) = true) ∧
      ident_byte (([110, 100, 101, 110, 116, 45, 119, 105, 100, 116, 104, 0] : Bytes).getD n 0) (([110, 100, 101, 110, 116, 45, 119, 105, 100, 116, 104, 0] : Bytes).getD (n + 1) 0) = false ∧
      (lex (105 :: [110, 100, 101, 110, 116, 45, 119, 105, 100, 116, 104, 0]) 1 1 0 []).p = ([110, 100, 101, 110, 116, 45, 119, 105, 100, 116, 104, 0] : Bytes).drop n ∧
      (lex (105 :: [110, 100, 101, 110, 116, 45, 119, 105, 100, 116, 104, 0]) 1 1 0 []).start_p = 105 :: [110, 100, 101, 110, 116, 45, 119, 105, 100, 116, 104, 0] ∧
      ((lex (105 :: [110, 100, 101, 110, 116, 45, 119, 105, 100, 116, 104, 0]) 1 1 0 []).tok = TOK_ID ∨
        (lex (105 :: [110, 100, 101, 110, 116, 45, 119, 105, 100, 116, 104, 0]) 1 1 0 []).tok = TOK_IF ∨
        (lex (105 :: [110, 100, 101, 110, 116, 45, 119, 105, 100, 116, 104, 0]) 1 1 0 []).tok = TOK_ELSE) ∧
      (lex (105 :: [110, 100, 101, 110, 116, 45, 119, 105, 100, 116, 104, 0]) 1 1 0 []).err = none) ∧
    lex [105, 110, 100, 101, 110, 116, 45, 119, 105, 100, 116, 104, 0] 1 1 0 [] =
      ⟨[0], [105, 110, 100, 101, 110, 116, 45, 119, 105, 100, 116, 104, 0], 1, 1, false, TOK_ID, PREC_NONE, 12, [105, 110, 100, 101, 110, 116, 45, 119, 105, 100, 116, 104, 0], 1, none⟩ ∧
    lex [97, 45, 49, 0] 1 1 0 [] = ⟨[45, 49, 0], [97, 45, 49, 0], 1, 1, false, TOK_ID, PREC_NONE, 1, [97, 0], 1, none⟩ ∧
    lex [45, 49, 0] 1 1 1 [97, 0] =
      ⟨[49, 0], [45, 49, 0], 1, 1, false, 45, PREC_ADDITIVE, 1, [97, 0], 1, none⟩ ∧
    lex [49, 0] 1 1 1 [97, 0] = ⟨[0], [49, 0], 1, 1, false, TOK_NUMBER, PREC_NONE, 1, [97, 0], 1, none⟩ ∧
    strtoll [49, 0] = 1 :=
  ⟨c26_identifier_extent 105 [110, 100, 101, 110, 116, 45, 119, 105, 100, 116, 104, 0] 1 1 0 [] (by decide),
   by decide, by decide, by decide, by decide, by decide⟩

/-- C28: at a digit the lexer runs the numeric conversion on the text from that digit; the
cursor goes to where the conversion stopped; the token is an error with the message
"invalid number" exactly when the byte there is a letter, a digit or `_`, and a number
otherwise; the evaluator takes the value of a number token from the same conversion. -/
theorem c28_number_token (c : Nat) (t : Bytes) (ln lno len : Nat) (str : Bytes)
    (hc : qe_isdigit c = true) :
    lex (c :: t) ln lno len str =
      (if qe_isalnum_ ((strtoll_c (c :: t)).2.headD 0) then
        ⟨(strtoll_c (c :: t)).2, c :: t, ln, ln, false, TOK_ERR, PREC_NONE, len, str, lno,
          some QError.invalid_number⟩
       else
        ⟨(strtoll_c (c :: t)).2, c :: t, ln, ln, false, TOK_NUMBER, PREC_NONE, len, str, lno,
          none⟩) ∧
    ∀ (f : Nat) (ds : QEmacsDataSource) (sp prec0 : Nat) (start_p : Bytes) (start_line : Nat),
      expr_again (f + 1) ds sp prec0 TOK_NUMBER start_p start_line =
        expr_loop f
          (qe_cfg_next_token
            (set_slot ds sp (qe_cfg_set_num (slot ds sp) (strtoll_c ds.start_p).1)))
          sp prec0 TOK_NUMBER start_p start_line := by
  have hc' := hc
  simp only [qe_isdigit, Bool.and_eq_true, decide_eq_true_eq] at hc'
  have e0 : (c == 0) = false := by simp; omega
  have e1 : (c == 10) = false := by simp; omega
  have e2 : qe_isspace c = false := by simp [qe_isspace]; omega
  have e3 : (c == 47) = false := by simp; omega
  have e4 : qe_isalpha_ c = false := by simp [qe_isalpha_, qe_isalpha]; omega
  refine ⟨?_, fun f ds sp prec0 start_p start_line => again_number f ds sp prec0 start_p start_line⟩
  unfold lex
  simp only [List.length_cons]
  rw [next_token_loop]
  simp only [List.headD_cons, List.tail_cons, e0, e1, e2, e3, Bool.false_and, Bool.false_eq_true,
    if_false, scan_token, e4, hc, if_true]

/-- C28 (witness): `12ab`, `08` and `0x` are rejected, with the cursor behind `12`, `0` and
`0`; `0x1F`, `017` and `12` are the numbers 31, 15 and 12. -/
theorem c28_number_token_witness :
    (lex (49 :: [50, 97, 98, 0]) 1 1 0 [] =
      (if qe_isalnum_ ((strtoll_c (49 :: [50, 97, 98, 0])).2.headD 0) then
        ⟨(strtoll_c (49 :: [50, 97, 98, 0])).2, 49 :: [50, 97, 98, 0], 1, 1, false, TOK_ERR, PREC_NONE, 0, [], 1,
          some QError.invalid_number⟩
       else
        ⟨(strtoll_c (49 :: [50, 97, 98, 0])).2, 49 :: [50, 97, 98, 0], 1, 1, false, TOK_NUMBER, PREC_NONE, 0, [], 1,
          none⟩) ∧
     ∀ (f : Nat) (ds : QEmacsDataSource) (sp prec0 : Nat) (start_p : Bytes) (start_line : Nat),
      expr_again (f + 1) ds sp prec0 TOK_NUMBER start_p start_line =
        expr_loop f
          (qe_cfg_next_token
            (set_slot ds sp (qe_cfg_set_num (slot ds sp) (strtoll_c ds.start_p).1)))
          sp prec0 TOK_NUMBER start_p start_line) ∧
    lex [49, 50, 97, 98, 0] 1 1 0 [] =
      ⟨[97, 98, 0], [49, 50, 97, 98, 0], 1, 1, false, TOK_ERR, PREC_NONE, 0, [], 1, some QError.invalid_number⟩ ∧
    lex [48, 56, 0] 1 1 0 [] =
      ⟨[56, 0], [48, 56, 0], 1, 1, false, TOK_ERR, PREC_NONE, 0, [], 1, some QError.invalid_number⟩ ∧
    lex [48, 120, 0] 1 1 0 [] =
      ⟨[120, 0], [48, 120, 0], 1, 1, false, TOK_ERR, PREC_NONE, 0, [], 1, some QError.invalid_number⟩ ∧
    lex [48, 120, 49, 70, 32, 0] 1 1 0 [] =
      ⟨[32, 0], [48, 120, 49, 70, 32, 0], 1, 1, false, TOK_NUMBER, PREC_NONE, 0, [], 1, none⟩ ∧
    lex [48, 49, 55, 59, 0] 1 1 0 [] =
      ⟨[59, 0], [48, 49, 55, 59, 0], 1, 1, false, TOK_NUMBER, PREC_NONE, 0, [], 1, none⟩ ∧
    strtoll_c [48, 120, 49, 70, 32, 0] = (31, [32, 0]) ∧ strtoll_c [48, 49, 55, 59, 0] = (15, [59, 0]) ∧
    strtoll_c [49, 50, 0] = (12, [0]) ∧
    (do_eval_expression 12 (host_with [] []) [48, 120, 49, 70, 0] NO_ARG).map (fun o => (o.status, o.ds.errors))
      = some (some [45, 62, 32, 51, 49], []) ∧
    (do_eval_expression 12 (host_with [] []) [49, 50, 97, 98, 0] NO_ARG).map (fun o => (o.status, o.ds.errors))
      = some (none, [(1, QError.invalid_number)]) :=
  ⟨c28_number_token 49 [50, 97, 98, 0] 1 1 0 [] (by decide),
   by decide, by decide, by decide, by decide, by decide, by decide, by decide, by decide,
   by decide!, by decide!⟩

/-- The string loop on plain bytes up to the closing delimiter, for either delimiter. -/
theorem parse_string_loop_closed (delim : Nat) (s rest dest : Bytes) (fuel : Nat)
    (hd : delim ≠ 10 ∧ delim ≠ 0)
    (hs : ∀ c ∈ s, c ≠ delim ∧ c ≠ 92 ∧ c ≠ 10 ∧ c ≠ 0) (hf : s.length < fuel) :
    parse_string_loop delim 255 fuel (s ++ delim :: rest) dest
      = (0, rest, dest ++ s.take (255 - dest.length)) := by
  induction s generalizing dest fuel with
  | nil =>
    cases fuel with
    | zero => simp at hf
    | succ n => simp [parse_string_loop, hd.1, hd.2]
  | cons c s ih =>
    cases fuel with
    | zero => simp at hf
    | succ n =>
      obtain ⟨h1, h2, h3, h4⟩ := hs c (by simp)
      have hs' : ∀ d ∈ s, d ≠ delim ∧ d ≠ 92 ∧ d ≠ 10 ∧ d ≠ 0 := fun d hd => hs d (by simp [hd])
      have hf' : s.length < n := by simpa using hf
      simp only [List.cons_append, parse_string_loop, List.headD_cons, List.tail_cons]
      simp only [beq_iff_eq, h1, h2, h3, h4, Bool.or_self, Bool.false_eq_true, if_false]
      rw [ih _ _ hs' hf']
      by_cases hl : dest.length < 255
      · simp only [hl, if_true, List.length_append, List.length_singleton, List.append_assoc,
          List.singleton_append]
        have : 255 - dest.length = (255 - (dest.length + 1)) + 1 := by omega
        rw [this, List.take_succ_cons]
        simp [h3, h4]
      · simp only [hl, if_false]
        have : 255 - dest.length = 0 := by omega
        simp [this, h3, h4]

/-- The string loop on plain bytes that a newline or a NUL follows. -/
theorem parse_string_loop_open (delim : Nat) (s rest dest : Bytes) (fuel : Nat) (c : Nat)
    (hc : c = 10 ∨ c = 0)
    (hs : ∀ c ∈ s, c ≠ delim ∧ c ≠ 92 ∧ c ≠ 10 ∧ c ≠ 0) :
    parse_string_loop delim 255 fuel (s ++ c :: rest) dest
      = (-1, (s ++ c :: rest).drop (min fuel s.length),
          dest ++ (s.take fuel).take (255 - dest.length)) := by
  induction s generalizing dest fuel with
  | nil =>
    cases fuel with
    | zero => simp [parse_string_loop]
    | succ n => rcases hc with rfl | rfl <;> simp [parse_string_loop]
  | cons x s ih =>
    cases fuel with
    | zero => simp [parse_string_loop]
    | succ n =>
      obtain ⟨h1, h2, h3, h4⟩ := hs x (by simp)
      have hs' : ∀ d ∈ s, d ≠ delim ∧ d ≠ 92 ∧ d ≠ 10 ∧ d ≠ 0 := fun d hd => hs d (by simp [hd])
      simp only [List.cons_append, parse_string_loop, List.headD_cons, List.tail_cons]
      simp only [beq_iff_eq, h1, h2, h3, h4, Bool.or_self, Bool.false_eq_true, if_false]
      rw [ih _ _ hs']
      by_cases hl : dest.length < 255
      · simp only [hl, if_true, List.length_append, List.length_singleton, List.append_assoc,
          List.singleton_append, List.length_cons, List.take_succ_cons]
        have : 255 - dest.length = (255 - (dest.length + 1)) + 1 := by omega
        rw [this, List.take_succ_cons]
        simp [Nat.succ_min_succ, h3, h4]
      · simp only [hl, if_false]
        have : 255 - dest.length = 0 := by omega
        simp [this, Nat.succ_min_succ, h3, h4]

/-- C27 (counterexample): in `"a\` newline `b" x` a newline stands before the closing quote,
behind a backslash, and the token is a string, with the text `a`, newline, `b`; no error is
reported. -/
theorem c27_escaped_newline_is_accepted :
    lex [34, 97, 92, 10, 98, 34, 32, 120, 0] 1 1 0 [] =
      ⟨[32, 120, 0], [34, 97, 92, 10, 98, 34, 32, 120, 0], 1, 1, false, TOK_STRING, PREC_NONE, 3,
        [97, 10, 98, 0], 1, none⟩ ∧
    (lex [39, 92, 10, 39, 0] 1 1 0 []).tok = TOK_CHAR := by
  decide

/-- C27 (amended): for a literal opened by `"` or `'` whose text s holds no backslash (and
no quote of its kind, newline or NUL): when the closing quote follows s, the token is a
string for `"` and a character for `'`, with no error, the cursor behind the closing quote
and the first 255 bytes of s as its text; when a newline or the NUL follows s, the token is
an error with the message "unterminated string" and the cursor at that byte. -/
theorem c27_literal_without_backslash (delim : Nat) (s rest : Bytes) (ln lno len : Nat)
    (str : Bytes) (hd : delim = 34 ∨ delim = 39)
    (hs : ∀ c ∈ s, c ≠ delim ∧ c ≠ 92 ∧ c ≠ 10 ∧ c ≠ 0) :
    lex (delim :: (s ++ delim :: rest)) ln lno len str =
      ⟨rest, delim :: (s ++ delim :: rest), ln, ln, false,
        if delim = 39 then TOK_CHAR else TOK_STRING, PREC_NONE,
        (s.take 255).length, s.take 255 ++ [0], lno, none⟩ ∧
    ∀ c, c = 10 ∨ c = 0 →
      lex (delim :: (s ++ c :: rest)) ln lno len str =
        ⟨c :: rest, delim :: (s ++ c :: rest), ln, ln, false, TOK_ERR, PREC_NONE,
          (s.take 255).length, s.take 255 ++ [0], lno, some QError.unterminated_string⟩ := by
  constructor
  · unfold lex
    simp only [List.length_cons]
    rw [next_token_loop]
    have e := parse_string_loop_closed delim s rest [] (s.length + (rest.length + 1) + 1)
      (by rcases hd with rfl | rfl <;> decide) hs (by omega)
    rcases hd with rfl | rfl <;>
      simp [scan_token, qe_isspace, qe_isalpha_, qe_isalpha, qe_isdigit, qe_cfg_parse_string, e,
        TOK_STRING, TOK_CHAR, PREC_NONE]
  · intro c hc
    unfold lex
    simp only [List.length_cons]
    rw [next_token_loop]
    have e := parse_string_loop_open delim s rest [] (s.length + (rest.length + 1) + 1) c hc hs
    have hm : min (s.length + (rest.length + 1) + 1) s.length = s.length := by omega
    have ht : s.take (s.length + (rest.length + 1) + 1) = s := List.take_of_length_le (by omega)
    rw [hm, ht] at e
    rcases hd with rfl | rfl <;>
      simp [scan_token, qe_isspace, qe_isalpha_, qe_isalpha, qe_isdigit, qe_cfg_parse_string, e,
        TOK_ERR, PREC_NONE]

/-- C27 (witness): `"ab"` is a string and `'a'` a character; `"ab` before the end of the
text, and `'a` before a newline, are unterminated. -/
theorem c27_literal_without_backslash_witness :
    (lex (34 :: ([97, 98] ++ 34 :: [0])) 1 1 0 [] =
      ⟨[0], 34 :: ([97, 98] ++ 34 :: [0]), 1, 1, false,
        if (34 : Nat) = 39 then TOK_CHAR else TOK_STRING, PREC_NONE,
        (([97, 98] : Bytes).take 255).length, ([97, 98] : Bytes).take 255 ++ [0], 1, none⟩ ∧
     ∀ c, c = 10 ∨ c = 0 →
      lex (34 :: ([97, 98] ++ c :: [0])) 1 1 0 [] =
        ⟨c :: [0], 34 :: ([97, 98] ++ c :: [0]), 1, 1, false, TOK_ERR, PREC_NONE,
          (([97, 98] : Bytes).take 255).length, ([97, 98] : Bytes).take 255 ++ [0], 1,
          some QError.unterminated_string⟩) ∧
    lex [34, 97, 98, 34, 0] 1 1 0 [] =
      ⟨[0], [34, 97, 98, 34, 0], 1, 1, false, TOK_STRING, PREC_NONE, 2, [97, 98, 0], 1, none⟩ ∧
    lex [39, 97, 39, 0] 1 1 0 [] =
      ⟨[0], [39, 97, 39, 0], 1, 1, false, TOK_CHAR, PREC_NONE, 1, [97, 0], 1, none⟩ ∧
    lex [34, 97, 98, 0] 1 1 0 [] =
      ⟨[0], [34, 97, 98, 0], 1, 1, false, TOK_ERR, PREC_NONE, 2, [97, 98, 0], 1,
        some QError.unterminated_string⟩ ∧
    lex [39, 97, 10, 39, 0] 1 1 0 [] =
      ⟨[10, 39, 0], [39, 97, 10, 39, 0], 1, 1, false, TOK_ERR, PREC_NONE, 1, [97, 0], 1,
        some QError.unterminated_string⟩ :=
  ⟨c27_literal_without_backslash 34 [97, 98] [0] 1 1 0 [] (Or.inl rfl) (by decide),
   by decide, by decide, by decide, by decide⟩

/-! ## Relational and shift operators -/

/-- C22: the table gives `<` and `>` the class of the shift operators and `<=` and `>=` the
relational class below it.  So `1 < 1 << 1` is evaluated as (1 < 1) << 1 = 0 and
`2 > 1 << 1` as (2 > 1) << 1 = 2, where C gives 1 < 2 = 1 and 2 > 2 = 0; with `<=` and `>=`
the shift binds tighter, as in C: `1 <= 1 << 1` is 1 <= 2 = 1, `4 >= 1 << 3` is 4 >= 8 = 0
and `1 >= 1 << 1` is 1 >= 2 = 0, not (1 >= 1) << 1 = 2. -/
theorem c22_less_and_greater_bind_as_shift :
    (ops.filter (fun o => o.str = [60] || o.str = [62] || o.str = [60, 61] || o.str = [62, 61]
        || o.str = [60, 60] || o.str = [62, 62])).map (fun o => (o.str, o.prec))
      = [([60], PREC_SHIFT), ([60, 60], PREC_SHIFT), ([60, 61], PREC_RELATIONAL),
         ([62], PREC_SHIFT), ([62, 61], PREC_RELATIONAL), ([62, 62], PREC_SHIFT)] ∧
    (do_eval_expression 30 (host_with [] []) [49, 32, 60, 32, 49, 32, 60, 60, 32, 49, 0] NO_ARG).map
        (fun o => (o.status, o.ds.errors)) = some (some [45, 62, 32, 48], []) ∧
    (do_eval_expression 30 (host_with [] []) [50, 32, 62, 32, 49, 32, 60, 60, 32, 49, 0] NO_ARG).map
        (fun o => (o.status, o.ds.errors)) = some (some [45, 62, 32, 50], []) ∧
    (do_eval_expression 30 (host_with [] []) [49, 32, 60, 61, 32, 49, 32, 60, 60, 32, 49, 0] NO_ARG).map
        (fun o => (o.status, o.ds.errors)) = some (some [45, 62, 32, 49], []) ∧
    (do_eval_expression 30 (host_with [] []) [52, 32, 62, 61, 32, 49, 32, 60, 60, 32, 51, 0] NO_ARG).map
        (fun o => (o.status, o.ds.errors)) = some (some [45, 62, 32, 48], []) ∧
    (do_eval_expression 30 (host_with [] []) [49, 32, 62, 61, 32, 49, 32, 60, 60, 32, 49, 0] NO_ARG).map
        (fun o => (o.status, o.ds.errors)) = some (some [45, 62, 32, 48], []) := by
  refine ⟨by decide, by decide!, by decide!, by decide!, by decide!, by decide!⟩

/-! ## Unary minus -/

theorem again_minus (f : Nat) (ds : QEmacsDataSource) (sp prec0 : Nat) (start_p : Bytes)
    (start_line : Nat) :
    expr_again (f + 1) ds sp prec0 45 start_p start_line =
      chk (qe_cfg_expr f (qe_cfg_next_token ds) sp 14 false)
        (fun ds => expr_fail f ds start_p start_line) fun ds =>
      chk1 (qe_cfg_tonum ds sp)
        (fun ds => expr_fail f ds start_p start_line) fun ds =>
      expr_loop f
        (set_slot ds sp { slot ds sp with u := .value (wrap64 (-(slot ds sp).u.asValue)) })
        sp prec0 45 start_p start_line := by
  rw [expr_again]
  simp [PREC_POSTFIX]

/-- The lexer on a `-` that an integer literal follows: the token is the operator `-`. -/
theorem lex_minus_literal (l rest : Bytes) (ln lno len : Nat) (str : Bytes)
    (hl : is_int_literal l = true) :
    lex (45 :: (l ++ rest)) ln lno len str =
      ⟨l ++ rest, 45 :: (l ++ rest), ln, ln, false, 45, 12, len, str, lno, none⟩ := by
  cases l with
  | nil => simp [is_int_literal, qe_isdigit] at hl
  | cons c t =>
    have hc : qe_isdigit c = true := by
      simp only [is_int_literal, List.headD_cons] at hl
      split_ifs at hl with h1
      · simp at h1; simp [qe_isdigit, h1]
      · simp at h1; simp [qe_isdigit, h1]
      · simp at hl; exact hl.1
    simp only [qe_isdigit, Bool.and_eq_true, decide_eq_true_eq] at hc
    have e1 : (c == 45) = false := by simp; omega
    have e2 : (c == 61) = false := by simp; omega
    have e3 : (c == 47) = false := by simp; omega
    have e4 : (c == 42) = false := by simp; omega
    have hs : scan_ops ops.reverse (45 :: c :: (t ++ rest)) =
        some (⟨[45], 45, PREC_ADDITIVE⟩, c :: (t ++ rest)) := by
      simp +decide [ops, scan_ops, op_match, e1, e2]
    unfold lex
    simp only [List.length_cons, List.cons_append]
    rw [next_token_loop]
    simp +decide [scan_token, hs, PREC_ADDITIVE, PREC_NONE]

theorem strtoll_digits_length (base : Nat) (s : Bytes) (acc : Nat) (any : Bool) :
    (strtoll_digits base s acc any).2.2.length ≤ s.length := by
  induction s generalizing acc any with
  | nil => simp [strtoll_digits]
  | cons c s ih =>
    rw [strtoll_digits]
    split_ifs
    · exact Nat.le_succ_of_le (ih _ _)
    · exact le_refl _

theorem strtoll_literal_le (l : Bytes) (hl : is_int_literal l = true) :
    strtoll l ≤ 9223372036854775807 := by
  cases l with
  | nil => simp [is_int_literal, qe_isdigit] at hl
  | cons c t =>
    have hc : qe_isdigit c = true := by
      simp only [is_int_literal, List.headD_cons] at hl
      split_ifs at hl with h1
      · simp at h1; simp [qe_isdigit, h1]
      · simp at h1; simp [qe_isdigit, h1]
      · simp at hl; exact hl.1
    unfold strtoll
    rw [strtoll_c_digit_start c t hc]
    dsimp only
    split_ifs <;> simp [LLONG_MAX] <;> omega

theorem wrap64_neg_neg (n : Int) (h0 : -9223372036854775808 < n) (h1 : n ≤ 9223372036854775807) :
    wrap64 (-(wrap64 (-n))) = n := by
  unfold wrap64
  omega

/-- The script `-(-n)` on an integer literal, run by `qe_parse_script`. -/
theorem parse_minus_minus (l : Bytes) (f : Nat) (h : Host) (hl : is_int_literal l = true) :
    ∃ ds, qe_parse_script (f + 14) h (qe_cfg_init h (45 :: 40 :: 45 :: (l ++ [41, 0]))) = some (128, ds) ∧
      slot ds 0 = ⟨128, false, 0, QEUnion.value (wrap64 (-(wrap64 (-(strtoll l)))))⟩ ∧
      ds.errors = [] := by
  have t1 : ∀ ln lno len str, lex (45 :: 40 :: 45 :: (l ++ [41, 0])) ln lno len str
      = ⟨40 :: 45 :: (l ++ [41, 0]), 45 :: 40 :: 45 :: (l ++ [41, 0]), ln, ln, false, 45, 12, len, str, lno, none⟩ :=
    fun _ _ _ _ => rfl
  have t2 : ∀ ln lno len str, lex (40 :: 45 :: (l ++ [41, 0])) ln lno len str
      = ⟨45 :: (l ++ [41, 0]), 40 :: 45 :: (l ++ [41, 0]), ln, ln, false, 40, 14, len, str, lno, none⟩ :=
    fun _ _ _ _ => rfl
  have t3 := fun ln lno len str => lex_minus_literal l [41, 0] ln lno len str hl
  have t4 := fun ln lno len str => lex_number l [41, 0] ln lno len str hl rfl
  have t5 : ∀ ln lno len str, lex [41, 0] ln lno len str
      = ⟨[0], [41, 0], ln, ln, false, 41, 0, len, str, lno, none⟩ :=
    fun _ _ _ _ => rfl
  have t6 : ∀ ln lno len str, lex [0] ln lno len str
      = ⟨[0], [0], ln, ln, false, -1, 0, len, str, lno, none⟩ :=
    fun _ _ _ _ => rfl
  have v1 := strtoll_literal_prefix l [41, 0] hl rfl
  simp (disch := simp [slot, cstr, QEUnion.asStr, TOK_ID, TOK_NUMBER]) only [
    t1, t2, t3, t4, t5, t6, v1, again_minus, tonum_number, qe_parse_script, run_script, init_mk,
    script_begin, next_token_mk, set_slot_mk, store_token, put_error, slot, List.length_cons,
    List.length_nil, List.set_cons_zero, List.set_cons_succ, List.getD_cons_zero,
    List.getD_cons_succ, List.take_succ_cons, List.take_zero, List.cons_append, List.nil_append,
    List.append_nil, Nat.reduceLT, Nat.reduceAdd, Nat.reduceSub, Nat.reduceBEq, Nat.reduceBNe,
    Nat.reduceEqDiff, Int.reduceEq, Int.reduceNeg, Int.reduceBEq, Int.reduceBNe, TOK_NUMBER,
    TOK_STRING, TOK_VOID, TOK_ID, PREC_NONE, script_loop_stmt, script_loop_eof, stmt_expr_step,
    stmt_if_tok, stmt_if_taken, expr_enter_new, expr_enter_old, expr_enter_skip, again_number,
    again_string, again_ident, again_paren, loop_exit, loop_postop, loop_assign, loop_binary,
    postop_length, postop_unknown, expr_fail_step, skip_stop_eof, skip_open, skip_close,
    skip_semicolon, skip_other, op_numbers, qe_cfg_op_num, num_op_add, num_op_mul, assign_number,
    has_token_yes, has_token_no, expect_token_yes, getvalue_not_id, getvalue_id,
    get_set_variable_number, find_cmd_set_variable, Option.elim, var_slot, stmt_end_cases,
    after_some, chk_some, chk1_pair, chkb_pair, Option.some_bind, Option.bind_some,
    Option.map_some', script_finish, qe_cfg_set_num, qe_cfg_set_str, qe_cfg_set_void, cstr,
    truth_of, QEUnion.asStr, QEUnion.asValue, res_or_values, bne_self_eq_false, beq_self_eq_true,
    Bool.false_eq_true, Bool.not_false, Bool.not_true, Bool.or_false, Bool.or_true,
    Bool.false_or, Bool.true_or, Bool.and_true, Bool.and_false, if_false, if_true, ne_eq,
    not_true_eq_false, not_false_eq_true, and_true, true_and, false_and, and_false, or_true,
    true_or, or_false, false_or, ↓reduceIte]
  exact ⟨_, rfl, rfl, rfl⟩

/-- C21: for every integer n with INT64_MIN < n <= INT64_MAX, negating twice as the unary
minus does (each negation wrapped to 64 bits) gives n back, and for n = INT64_MIN the
negation wraps and gives INT64_MIN again, so that two negations give INT64_MIN; and for
every integer literal n, on any host and with any fuel of 14 or more, evaluating `-(-n)`
shows n and reports no error. -/
theorem c21_double_negation (l : Bytes) (f : Nat) (h : Host) (hl : is_int_literal l = true) :
    (∀ n : Int, LLONG_MIN < n → n ≤ LLONG_MAX → wrap64 (-(wrap64 (-n))) = n) ∧
    wrap64 (-LLONG_MIN) = LLONG_MIN ∧ wrap64 (-(wrap64 (-LLONG_MIN))) = LLONG_MIN ∧
    (do_eval_expression (f + 14) h (45 :: 40 :: 45 :: (l ++ [41, 0])) NO_ARG).map
        (fun o => (o.status, o.ds.errors))
      = some (some ([45, 62, 32] ++ fmt_lld (strtoll l)), []) := by
  refine ⟨fun n h0 h1 => wrap64_neg_neg n h0 h1, by decide, by decide, ?_⟩
  obtain ⟨ds, hp, hv, he⟩ := parse_minus_minus l f h hl
  rw [eval_number _ h _ ds _ false 0 hp hv, he,
    wrap64_neg_neg _ (by have := strtoll_literal_nonneg l hl; omega) (strtoll_literal_le l hl)]

/-- C21 (witness): `-(-5)` shows 5, `-(-9223372036854775807)` shows 9223372036854775807,
`-(-(0 - 5))` shows -5, and with the operand INT64_MIN, written
`(-9223372036854775807 - 1)`, one negation and two negations both show
-9223372036854775808. -/
theorem c21_double_negation_witness :
    ((∀ n : Int, LLONG_MIN < n → n ≤ LLONG_MAX → wrap64 (-(wrap64 (-n))) = n) ∧
     wrap64 (-LLONG_MIN) = LLONG_MIN ∧ wrap64 (-(wrap64 (-LLONG_MIN))) = LLONG_MIN ∧
     (do_eval_expression (0 + 14) (host_with [] []) (45 :: 40 :: 45 :: ([53] ++ [41, 0])) NO_ARG).map
        (fun o => (o.status, o.ds.errors))
      = some (some ([45, 62, 32] ++ fmt_lld (strtoll [53])), [])) ∧
    (do_eval_expression 14 (host_with [] []) [45, 40, 45, 53, 41, 0] NO_ARG).map
        (fun o => (o.status, o.ds.errors)) = some (some [45, 62, 32, 53], []) ∧
    (do_eval_expression 14 (host_with [] []) [45, 40, 45, 57, 50, 50, 51, 51, 55, 50, 48, 51, 54, 56, 53, 52, 55, 55, 53, 56, 48, 55, 41, 0] NO_ARG).map
        (fun o => (o.status, o.ds.errors)) = some (some [45, 62, 32, 57, 50, 50, 51, 51, 55, 50, 48, 51, 54, 56, 53, 52, 55, 55, 53, 56, 48, 55], []) ∧
    (do_eval_expression 30 (host_with [] []) [45, 40, 45, 40, 48, 32, 45, 32, 53, 41, 41, 0] NO_ARG).map
        (fun o => (o.status, o.ds.errors)) = some (some [45, 62, 32, 45, 53], []) ∧
    (do_eval_expression 30 (host_with [] []) [45, 40, 45, 57, 50, 50, 51, 51, 55, 50, 48, 51, 54, 56, 53, 52, 55, 55, 53, 56, 48, 55, 32, 45, 32, 49, 41, 0] NO_ARG).map
        (fun o => (o.status, o.ds.errors)) = some (some [45, 62, 32, 45, 57, 50, 50, 51, 51, 55, 50, 48, 51, 54, 56, 53, 52, 55, 55, 53, 56, 48, 56], []) ∧
    (do_eval_expression 30 (host_with [] []) [45, 40, 45, 40, 45, 57, 50, 50, 51, 51, 55, 50, 48, 51, 54, 56, 53, 52, 55, 55, 53, 56, 48, 55, 32, 45, 32, 49, 41, 41, 0] NO_ARG).map
        (fun o => (o.status, o.ds.errors)) = some (some [45, 62, 32, 45, 57, 50, 50, 51, 51, 55, 50, 48, 51, 54, 56, 53, 52, 55, 55, 53, 56, 48, 56], []) :=
  ⟨c21_double_negation [53] 0 (host_with [] []) (by decide),
   by decide!, by decide!, by decide!, by decide!, by decide!⟩

/-! ## Chained assignment -/

/-- The plain assignment to a variable slot: the value of the right slot is fetched and
handed to the broker. -/
theorem assign_step (ds : QEmacsDataSource) (sp : Nat) (h0 : (slot ds sp).type = 131) :
    qe_cfg_assign ds sp 61 =
      if (qe_cfg_getvalue ds (sp + 1)).1 != 0 then (1, (qe_cfg_getvalue ds (sp + 1)).2)
      else if (slot (qe_cfg_getvalue ds (sp + 1)).2 (sp + 1)).type == 129 then
        (0, { (qe_cfg_getvalue ds (sp + 1)).2 with
                s := qe_set_variable (qe_cfg_getvalue ds (sp + 1)).2.s
                       (cstr (slot (qe_cfg_getvalue ds (sp + 1)).2 sp).u.asStr)
                       (some (slot (qe_cfg_getvalue ds (sp + 1)).2 (sp + 1)).u.asStr) 0 })
      else
        (0, { (qe_cfg_getvalue ds (sp + 1)).2 with
                s := qe_set_variable (qe_cfg_getvalue ds (sp + 1)).2.s
                       (cstr (slot (qe_cfg_getvalue ds (sp + 1)).2 sp).u.asStr) none
                       (slot (qe_cfg_getvalue ds (sp + 1)).2 (sp + 1)).u.asValue }) := by
  cases hg : qe_cfg_getvalue ds (sp + 1) with
  | mk r ds1 =>
    unfold qe_cfg_assign qe_cfg_check_lvalue
    simp [h0, hg, TOK_ID, TOK_STRING]

theorem wrap32_wrap32 (n : Int) : wrap32 (wrap32 n) = wrap32 n := by
  unfold wrap32
  omega

/-- The script `a = b = n` on an integer literal, run by `qe_parse_script`. -/
theorem parse_chained_assignment (l : Bytes) (f : Nat) (h : Host)
    (hl : is_int_literal l = true) :
    ∃ ds, qe_parse_script (f + 14) h (qe_cfg_init h (97 :: 32 :: 61 :: 32 :: 98 :: 32 :: 61 :: 32 :: (l ++ [0]))) = some (128, ds) ∧
      slot ds 0 = ⟨128, false, 1, QEUnion.value (wrap32 (wrap32 (strtoll l)))⟩ ∧
      ds.errors = [] ∧
      ds.s = qe_set_variable (qe_set_variable h [98] none (strtoll l)) [97] none
               (wrap32 (strtoll l)) := by
  have t1 : ∀ ln lno len str, lex (97 :: 32 :: 61 :: 32 :: 98 :: 32 :: 61 :: 32 :: (l ++ [0])) ln lno len str
      = ⟨32 :: 61 :: 32 :: 98 :: 32 :: 61 :: 32 :: (l ++ [0]), 97 :: 32 :: 61 :: 32 :: 98 :: 32 :: 61 :: 32 :: (l ++ [0]), ln, ln, false, 131, 0, 1, [97, 0], lno,
          none⟩ := by
    intro ln lno len str
    simp +decide [lex, next_token_loop, scan_token, scan_ident, TOK_ID, PREC_NONE]
  have t2 : ∀ ln lno len str, lex (32 :: 61 :: 32 :: 98 :: 32 :: 61 :: 32 :: (l ++ [0])) ln lno len str
      = ⟨32 :: 98 :: 32 :: 61 :: 32 :: (l ++ [0]), 61 :: 32 :: 98 :: 32 :: 61 :: 32 :: (l ++ [0]), ln, ln, false, 61, 2, len, str, lno, none⟩ :=
    fun _ _ _ _ => rfl
  have t3 : ∀ ln lno len str, lex (32 :: 98 :: 32 :: 61 :: 32 :: (l ++ [0])) ln lno len str
      = ⟨32 :: 61 :: 32 :: (l ++ [0]), 98 :: 32 :: 61 :: 32 :: (l ++ [0]), ln, ln, false, 131, 0, 1, [98, 0], lno, none⟩ := by
    intro ln lno len str
    simp +decide [lex, next_token_loop, scan_token, scan_ident, TOK_ID, PREC_NONE]
  have t4 : ∀ ln lno len str, lex (32 :: 61 :: 32 :: (l ++ [0])) ln lno len str
      = ⟨32 :: (l ++ [0]), 61 :: 32 :: (l ++ [0]), ln, ln, false, 61, 2, len, str, lno, none⟩ :=
    fun _ _ _ _ => rfl
  have t5 := fun ln lno len str => lex_space_number l [0] ln lno len str hl rfl
  have t6 : ∀ ln lno len str, lex [0] ln lno len str
      = ⟨[0], [0], ln, ln, false, -1, 0, len, str, lno, none⟩ :=
    fun _ _ _ _ => rfl
  have v1 := strtoll_literal_prefix l [0] hl rfl
  simp (disch := simp [slot, cstr, QEUnion.asStr, TOK_ID, TOK_NUMBER]) only [
    t1, t2, t3, t4, t5, t6, v1, assign_step, qe_parse_script, run_script, init_mk, script_begin,
    next_token_mk, set_slot_mk, store_token, put_error, slot, List.length_cons, List.length_nil,
    List.set_cons_zero, List.set_cons_succ, List.getD_cons_zero, List.getD_cons_succ,
    List.take_succ_cons, List.take_zero, List.cons_append, List.nil_append, List.append_nil,
    Nat.reduceLT, Nat.reduceAdd, Nat.reduceSub, Nat.reduceBEq, Nat.reduceBNe, Nat.reduceEqDiff,
    Int.reduceEq, Int.reduceNeg, Int.reduceBEq, Int.reduceBNe, TOK_NUMBER, TOK_STRING, TOK_VOID,
    TOK_ID, PREC_NONE, script_loop_stmt, script_loop_eof, stmt_expr_step, stmt_if_tok,
    stmt_if_taken, expr_enter_new, expr_enter_old, expr_enter_skip, again_number, again_string,
    again_ident, again_paren, loop_exit, loop_postop, loop_assign, loop_binary, postop_length,
    postop_unknown, expr_fail_step, skip_stop_eof, skip_open, skip_close, skip_semicolon,
    skip_other, op_numbers, qe_cfg_op_num, num_op_add, num_op_mul, assign_number, has_token_yes,
    has_token_no, expect_token_yes, getvalue_not_id, getvalue_id, get_set_variable_number,
    find_cmd_set_variable, Option.elim, var_slot, stmt_end_cases, after_some, chk_some,
    chk1_pair, chkb_pair, Option.some_bind, Option.bind_some, Option.map_some', script_finish,
    qe_cfg_set_num, qe_cfg_set_str, qe_cfg_set_void, cstr, truth_of, QEUnion.asStr,
    QEUnion.asValue, res_or_values, bne_self_eq_false, beq_self_eq_true, Bool.false_eq_true,
    Bool.not_false, Bool.not_true, Bool.or_false, Bool.or_true, Bool.false_or, Bool.true_or,
    Bool.and_true, Bool.and_false, if_false, if_true, ne_eq, not_true_eq_false,
    not_false_eq_true, and_true, true_and, false_and, and_false, or_true, true_or, or_false,
    false_or, ↓reduceIte]
  exact ⟨_, rfl, rfl, rfl, rfl⟩

/-- C23 (counterexample): `a = b = 4294967296` sets b to 4294967296, then a to 0, and
yields 0. -/
theorem c23_large_value_is_cut :
    (do_eval_expression 30 (host_with [] []) [97, 32, 61, 32, 98, 32, 61, 32, 52, 50, 57, 52, 57, 54, 55, 50, 57, 54, 0] NO_ARG).map
        (fun o => (o.status, o.ds.errors, o.ds.s.vars))
      = some (some [45, 62, 32, 48], [],
          [([97], VarValue.number 0), ([98], VarValue.number 4294967296)]) := by
  decide!

/-- C23 (amended): for every integer literal n, on any host and with any fuel of 14 or
more, `a = b = n` reports no error, sets b to n first and then a to the value read back
from b, which is n cut to a C `int`, and yields that value: n itself when n is at most
2147483647. -/
theorem c23_assignment_chains_to_the_right (l : Bytes) (f : Nat) (h : Host)
    (hl : is_int_literal l = true) :
    (do_eval_expression (f + 14) h (97 :: 32 :: 61 :: 32 :: 98 :: 32 :: 61 :: 32 :: (l ++ [0])) NO_ARG).map
        (fun o => (o.status, o.ds.errors, o.ds.s.vars))
      = some (some ([45, 62, 32] ++ fmt_lld (wrap32 (strtoll l))), [],
          ([97], VarValue.number (wrap32 (strtoll l))) :: ([98], VarValue.number (strtoll l))
            :: h.vars) ∧
    (strtoll l ≤ 2147483647 → wrap32 (strtoll l) = strtoll l) := by
  obtain ⟨ds, hp, hv, he, hs⟩ := parse_chained_assignment l f h hl
  refine ⟨?_, fun hle => wrap32_small _ (strtoll_literal_nonneg l hl) hle⟩
  have hid : (slot ds 0).type ≠ TOK_ID := by rw [hv]; simp [TOK_ID]
  unfold do_eval_expression
  rw [hp]
  simp [getvalue_not_id ds 0 hid, hv, he, hs, TOK_ERR, TOK_VOID, TOK_NUMBER, NO_ARG,
    qe_cfg_release, QEUnion.asValue, wrap32_wrap32, qe_set_variable]

/-- C23 (witness): the literal 7: `a = b = 7` sets b and a to 7 and shows 7. -/
theorem c23_assignment_chains_to_the_right_witness :
    ((do_eval_expression (0 + 14) (host_with [] []) (97 :: 32 :: 61 :: 32 :: 98 :: 32 :: 61 :: 32 :: ([55] ++ [0])) NO_ARG).map
        (fun o => (o.status, o.ds.errors, o.ds.s.vars))
      = some (some ([45, 62, 32] ++ fmt_lld (wrap32 (strtoll [55]))), [],
          ([97], VarValue.number (wrap32 (strtoll [55]))) :: ([98], VarValue.number (strtoll [55]))
            :: (host_with [] []).vars) ∧
     (strtoll [55] ≤ 2147483647 → wrap32 (strtoll [55]) = strtoll [55])) ∧
    (do_eval_expression 14 (host_with [] []) [97, 32, 61, 32, 98, 32, 61, 32, 55, 0] NO_ARG).map
        (fun o => (o.status, o.ds.errors, o.ds.s.vars))
      = some (some [45, 62, 32, 55], [], [([97], VarValue.number 7), ([98], VarValue.number 7)]) :=
  ⟨c23_assignment_chains_to_the_right [55] 0 (host_with [] []) (by decide), by decide!⟩

/-! ## Postfix increment and decrement -/

theorem postop_index (f : Nat) (ds : QEmacsDataSource) (sp prec0 : Nat) (tok : Int)
    (start_p : Bytes) (start_line : Nat) :
    expr_postop (f + 1) ds sp prec0 tok start_p start_line 91 =
      chk (qe_cfg_expr f ds (sp + 1) 1 false)
        (fun ds => expr_fail f ds start_p start_line) fun ds =>
      chkb (expect_token ds 93)
        (fun ds => expr_fail f ds start_p start_line) fun ds =>
      chk1 (qe_cfg_op ds sp 91) (fun ds => some (1, ds)) fun ds =>
      expr_loop f ds sp prec0 tok start_p start_line := by
  rw [expr_postop]
  simp [TOK_INC, TOK_DEC, PREC_EXPRESSION]

/-- The subscript on a string slot and a number slot. -/
theorem op_index (ds : QEmacsDataSource) (sp : Nat) (h0 : (slot ds sp).type = 129)
    (h1 : (slot ds (sp + 1)).type = 128) :
    qe_cfg_op ds sp 91 =
      (0, set_slot ds sp
        (if 0 ≤ (slot ds (sp + 1)).u.asValue ∧
            (slot ds (sp + 1)).u.asValue < ((slot ds sp).len : Int) then
          qe_cfg_set_char (slot ds sp)
            (if (slot ds sp).u.asStr.getD (slot ds (sp + 1)).u.asValue.toNat 0 < 128 then
              (((slot ds sp).u.asStr.getD (slot ds (sp + 1)).u.asValue.toNat 0 : Nat) : Int)
             else
              (((slot ds sp).u.asStr.getD (slot ds (sp + 1)).u.asValue.toNat 0 : Nat) : Int) - 256)
         else qe_cfg_set_void (slot ds sp))) := by
  unfold qe_cfg_op
  simp only [h0, TOK_STRING, TOK_LE, TOK_GE, TOK_EQ, TOK_NE, TOK_ADD_EQ,
    tonum_number ds (sp + 1) h1]
  simp
  split_ifs <;> rfl

/-- The script `"s"[i]` on a string literal of plain bytes and an integer literal, run by
`qe_parse_script`, with the index inside the string. -/
theorem parse_index_inside (s l : Bytes) (f : Nat) (h : Host)
    (hs : ∀ c ∈ s, c ≠ 34 ∧ c ≠ 92 ∧ c ≠ 10 ∧ c ≠ 0) (hls : s.length ≤ 255)
    (hl : is_int_literal l = true) (hi : strtoll l < (s.length : Int)) :
    ∃ ds, qe_parse_script (f + 14) h (qe_cfg_init h (34 :: (s ++ 34 :: 91 :: (l ++ [93, 0]))))
        = some (130, ds) ∧
      slot ds 0 = ⟨130, false, s.length,
        QEUnion.value (if s.getD (strtoll l).toNat 0 < 128 then ((s.getD (strtoll l).toNat 0 : Nat) : Int)
          else ((s.getD (strtoll l).toNat 0 : Nat) : Int) - 256)⟩ ∧
      ds.errors = [] := by
  have t1 := fun ln lno len str => lex_string s (91 :: (l ++ [93, 0])) ln lno len str hs
  have t2 : ∀ ln lno len str, lex (91 :: (l ++ [93, 0])) ln lno len str
      = ⟨l ++ [93, 0], 91 :: (l ++ [93, 0]), ln, ln, false, 91, 14, len, str, lno, none⟩ :=
    fun _ _ _ _ => rfl
  have t3 := fun ln lno len str => lex_number l [93, 0] ln lno len str hl rfl
  have t4 : ∀ ln lno len str, lex [93, 0] ln lno len str
      = ⟨[0], [93, 0], ln, ln, false, 93, 0, len, str, lno, none⟩ :=
    fun _ _ _ _ => rfl
  have t5 : ∀ ln lno len str, lex [0] ln lno len str
      = ⟨[0], [0], ln, ln, false, -1, 0, len, str, lno, none⟩ :=
    fun _ _ _ _ => rfl
  have v1 := strtoll_literal_prefix l [93, 0] hl rfl
  have k1 : s.take 255 = s := List.take_of_length_le hls
  have k2 : (s ++ [0]).take s.length = s := by simp
  have hnn : 0 ≤ strtoll l := strtoll_literal_nonneg l hl
  simp (disch := simp [slot, cstr, QEUnion.asStr, TOK_ID, TOK_NUMBER, TOK_CHAR]) only [
    t1, t2, t3, t4, t5, v1, k1, k2, hnn, hi, postop_index, op_index, qe_cfg_set_char, TOK_CHAR,
    qe_parse_script, run_script, init_mk, script_begin, next_token_mk, set_slot_mk, store_token,
    put_error, slot, List.length_cons, List.length_nil, List.set_cons_zero, List.set_cons_succ,
    List.getD_cons_zero, List.getD_cons_succ, List.take_succ_cons, List.take_zero,
    List.cons_append, List.nil_append, List.append_nil, Nat.reduceLT, Nat.reduceAdd,
    Nat.reduceSub, Nat.reduceBEq, Nat.reduceBNe, Nat.reduceEqDiff, Int.reduceEq, Int.reduceNeg,
    Int.reduceBEq, Int.reduceBNe, TOK_NUMBER, TOK_STRING, TOK_VOID, TOK_ID, PREC_NONE,
    script_loop_stmt, script_loop_eof, stmt_expr_step, stmt_if_tok, stmt_if_taken,
    expr_enter_new, expr_enter_old, expr_enter_skip, again_number, again_string, again_ident,
    again_paren, loop_exit, loop_postop, loop_assign, loop_binary, postop_length, postop_unknown,
    expr_fail_step, skip_stop_eof, skip_open, skip_close, skip_semicolon, skip_other, op_numbers,
    qe_cfg_op_num, num_op_add, num_op_mul, assign_number, has_token_yes, has_token_no,
    expect_token_yes, getvalue_not_id, getvalue_id, get_set_variable_number,
    find_cmd_set_variable, Option.elim, var_slot, stmt_end_cases, after_some, chk_some,
    chk1_pair, chkb_pair, Option.some_bind, Option.bind_some, Option.map_some', script_finish,
    qe_cfg_set_num, qe_cfg_set_str, qe_cfg_set_void, cstr, truth_of, QEUnion.asStr,
    QEUnion.asValue, res_or_values, bne_self_eq_false, beq_self_eq_true, Bool.false_eq_true,
    Bool.not_false, Bool.not_true, Bool.or_false, Bool.or_true, Bool.false_or, Bool.true_or,
    Bool.and_true, Bool.and_false, if_false, if_true, ne_eq, not_true_eq_false,
    not_false_eq_true, and_true, true_and, false_and, and_false, or_true, true_or, or_false,
    false_or, ↓reduceIte]
  exact ⟨_, rfl, rfl, rfl⟩

/-- The same script with the index at or behind the end of the string. -/
theorem parse_index_outside (s l : Bytes) (f : Nat) (h : Host)
    (hs : ∀ c ∈ s, c ≠ 34 ∧ c ≠ 92 ∧ c ≠ 10 ∧ c ≠ 0) (hls : s.length ≤ 255)
    (hl : is_int_literal l = true) (hi : (s.length : Int) ≤ strtoll l) :
    ∃ ds, qe_parse_script (f + 14) h (qe_cfg_init h (34 :: (s ++ 34 :: 91 :: (l ++ [93, 0]))))
        = some (0, ds) ∧ (slot ds 0).type = 0 ∧ ds.errors = [] := by
  have t1 := fun ln lno len str => lex_string s (91 :: (l ++ [93, 0])) ln lno len str hs
  have t2 : ∀ ln lno len str, lex (91 :: (l ++ [93, 0])) ln lno len str
      = ⟨l ++ [93, 0], 91 :: (l ++ [93, 0]), ln, ln, false, 91, 14, len, str, lno, none⟩ :=
    fun _ _ _ _ => rfl
  have t3 := fun ln lno len str => lex_number l [93, 0] ln lno len str hl rfl
  have t4 : ∀ ln lno len str, lex [93, 0] ln lno len str
      = ⟨[0], [93, 0], ln, ln, false, 93, 0, len, str, lno, none⟩ :=
    fun _ _ _ _ => rfl
  have t5 : ∀ ln lno len str, lex [0] ln lno len str
      = ⟨[0], [0], ln, ln, false, -1, 0, len, str, lno, none⟩ :=
    fun _ _ _ _ => rfl
  have v1 := strtoll_literal_prefix l [93, 0] hl rfl
  have k1 : s.take 255 = s := List.take_of_length_le hls
  have k2 : (s ++ [0]).take s.length = s := by simp
  have hnn : 0 ≤ strtoll l := strtoll_literal_nonneg l hl
  have hi' : ¬ strtoll l < (s.length : Int) := by omega
  simp (disch := simp [slot, cstr, QEUnion.asStr, TOK_ID, TOK_NUMBER, TOK_CHAR]) only [
    t1, t2, t3, t4, t5, v1, k1, k2, hnn, hi', postop_index, op_index, qe_cfg_set_char, TOK_CHAR,
    qe_parse_script, run_script, init_mk, script_begin, next_token_mk, set_slot_mk, store_token,
    put_error, slot, List.length_cons, List.length_nil, List.set_cons_zero, List.set_cons_succ,
    List.getD_cons_zero, List.getD_cons_succ, List.take_succ_cons, List.take_zero,
    List.cons_append, List.nil_append, List.append_nil, Nat.reduceLT, Nat.reduceAdd,
    Nat.reduceSub, Nat.reduceBEq, Nat.reduceBNe, Nat.reduceEqDiff, Int.reduceEq, Int.reduceNeg,
    Int.reduceBEq, Int.reduceBNe, TOK_NUMBER, TOK_STRING, TOK_VOID, TOK_ID, PREC_NONE,
    script_loop_stmt, script_loop_eof, stmt_expr_step, stmt_if_tok, stmt_if_taken,
    expr_enter_new, expr_enter_old, expr_enter_skip, again_number, again_string, again_ident,
    again_paren, loop_exit, loop_postop, loop_assign, loop_binary, postop_length, postop_unknown,
    expr_fail_step, skip_stop_eof, skip_open, skip_close, skip_semicolon, skip_other, op_numbers,
    qe_cfg_op_num, num_op_add, num_op_mul, assign_number, has_token_yes, has_token_no,
    expect_token_yes, getvalue_not_id, getvalue_id, get_set_variable_number,
    find_cmd_set_variable, Option.elim, var_slot, stmt_end_cases, after_some, chk_some,
    chk1_pair, chkb_pair, Option.some_bind, Option.bind_some, Option.map_some', script_finish,
    qe_cfg_set_num, qe_cfg_set_str, qe_cfg_set_void, cstr, truth_of, QEUnion.asStr,
    QEUnion.asValue, res_or_values, bne_self_eq_false, beq_self_eq_true, Bool.false_eq_true,
    Bool.not_false, Bool.not_true, Bool.or_false, Bool.or_true, Bool.false_or, Bool.true_or,
    Bool.and_true, Bool.and_false, if_false, if_true, ne_eq, not_true_eq_false,
    not_false_eq_true, and_true, true_and, false_and, and_false, or_true, true_or, or_false,
    false_or, ↓reduceIte]
  exact ⟨_, rfl, rfl, rfl⟩

/-- What `do_eval_expression` shows for a script that leaves a character in slot 0. -/
theorem eval_char (fuel : Nat) (h : Host) (e : Bytes) (ds : QEmacsDataSource) (n : Int)
    (al : Bool) (ln : Nat)
    (hp : qe_parse_script fuel h (qe_cfg_init h e) = some (130, ds))
    (hv : slot ds 0 = ⟨130, al, ln, QEUnion.value n⟩) :
    (do_eval_expression fuel h e NO_ARG).map (fun o => (o.status, o.ds.errors))
      = some (some ([45, 62, 32, 39] ++ cstr (utf8_encode (wrap32 n)) ++ [39]), ds.errors) := by
  have hid : (slot ds 0).type ≠ TOK_ID := by rw [hv]; simp [TOK_ID]
  unfold do_eval_expression
  rw [hp]
  simp [getvalue_not_id ds 0 hid, hv, TOK_ERR, TOK_VOID, TOK_NUMBER, TOK_STRING, TOK_CHAR, NO_ARG,
    qe_cfg_release, QEUnion.asValue]

/-- What `do_eval_expression` shows for a script that leaves slot 0 void: nothing. -/
theorem eval_void (fuel : Nat) (h : Host) (e : Bytes) (ds : QEmacsDataSource)
    (hp : qe_parse_script fuel h (qe_cfg_init h e) = some (0, ds))
    (hv : (slot ds 0).type = 0) :
    (do_eval_expression fuel h e NO_ARG).map (fun o => (o.status, o.inserted, o.ds.errors))
      = some (none, none, ds.errors) := by
  have hid : (slot ds 0).type ≠ TOK_ID := by rw [hv]; simp [TOK_ID]
  unfold do_eval_expression
  rw [hp]
  simp [getvalue_not_id ds 0 hid, hv, TOK_ERR, TOK_VOID, NO_ARG, qe_cfg_release]

/-- A byte read back through a signed `char` and encoded for display is the byte again. -/
theorem encode_signed_byte (b : Nat) (h0 : b ≠ 0) (h1 : b < 256) :
    cstr (utf8_encode (wrap32 (if b < 128 then (b : Int) else (b : Int) - 256))) = [b] := by
  have hw : wrap32 (if b < 128 then (b : Int) else (b : Int) - 256)
      = if b < 128 then (b : Int) else (b : Int) - 256 := by
    unfold wrap32; split_ifs <;> omega
  rw [hw]
  have hlt : (if b < 128 then (b : Int) else (b : Int) - 256) < 128 := by split_ifs <;> omega
  have hm : ((if b < 128 then (b : Int) else (b : Int) - 256) % 256).toNat = b := by
    split_ifs <;> omega
  simp [utf8_encode, hlt, hm, cstr, h0]

/-- The subscript in general: for every string literal s of plain bytes (at most 255 of
them) and every integer literal i, on any host and with any fuel of 14 or more, `"s"[i]`
reports no error and, when i is less than the length of s, yields the character whose value
is the byte of s at index i read as a signed `char`: the byte itself, in 0..127, for a byte
below 128, and the byte minus 256 for a byte from 128 up; it is shown as that byte between
single quotes.  When i is the length of s or more, it yields void and nothing is shown. -/
theorem c25_string_index (s l : Bytes) (f : Nat) (h : Host)
    (hs : ∀ c ∈ s, c ≠ 34 ∧ c ≠ 92 ∧ c ≠ 10 ∧ c ≠ 0) (hb : ∀ c ∈ s, c < 256)
    (hls : s.length ≤ 255) (hl : is_int_literal l = true) :
    (strtoll l < (s.length : Int) →
      (qe_parse_script (f + 14) h (qe_cfg_init h (34 :: (s ++ 34 :: 91 :: (l ++ [93, 0]))))).map
          (fun r => (r.1, (slot r.2 0).u.asValue, r.2.errors))
        = some (TOK_CHAR,
            (if s.getD (strtoll l).toNat 0 < 128 then ((s.getD (strtoll l).toNat 0 : Nat) : Int)
             else ((s.getD (strtoll l).toNat 0 : Nat) : Int) - 256), []) ∧
      (do_eval_expression (f + 14) h (34 :: (s ++ 34 :: 91 :: (l ++ [93, 0]))) NO_ARG).map
          (fun o => (o.status, o.ds.errors))
        = some (some [45, 62, 32, 39, s.getD (strtoll l).toNat 0, 39], [])) ∧
    ((s.length : Int) ≤ strtoll l →
      (qe_parse_script (f + 14) h (qe_cfg_init h (34 :: (s ++ 34 :: 91 :: (l ++ [93, 0]))))).map
          (fun r => (r.1, r.2.errors)) = some (TOK_VOID, []) ∧
      (do_eval_expression (f + 14) h (34 :: (s ++ 34 :: 91 :: (l ++ [93, 0]))) NO_ARG).map
          (fun o => (o.status, o.inserted, o.ds.errors)) = some (none, none, [])) := by
  constructor
  · intro hi
    obtain ⟨ds, hp, hv, he⟩ := parse_index_inside s l f h hs hls hl hi
    have hnn := strtoll_literal_nonneg l hl
    have hlt : (strtoll l).toNat < s.length := by omega
    have hmem : s.getD (strtoll l).toNat 0 ∈ s := by
      rw [List.getD_eq_getElem _ _ hlt]
      exact List.getElem_mem _
    refine ⟨?_, ?_⟩
    · rw [hp]
      simp [hv, he, QEUnion.asValue, TOK_CHAR]
    · rw [eval_char _ h _ ds _ false s.length hp hv, he,
        encode_signed_byte _ (hs _ hmem).2.2.2 (hb _ hmem)]
      rfl
  · intro hi
    obtain ⟨ds, hp, hv, he⟩ := parse_index_outside s l f h hs hls hl hi
    refine ⟨?_, ?_⟩
    · rw [hp]
      simp [he, TOK_VOID]
    · rw [eval_void _ h _ ds hp hv, he]

/-- The subscript on `"abc"`: `"abc"[1]` yields the character 98, shown as `'b'`; `"abc"[3]` and
`"abc"[-1]` yield void. -/
theorem c25_string_index_witness :
    ((strtoll [49] < (([97, 98, 99] : Bytes).length : Int) →
      (qe_parse_script (0 + 14) (host_with [] [])
          (qe_cfg_init (host_with [] []) (34 :: ([97, 98, 99] ++ 34 :: 91 :: ([49] ++ [93, 0]))))).map
          (fun r => (r.1, (slot r.2 0).u.asValue, r.2.errors))
        = some (TOK_CHAR,
            (if ([97, 98, 99] : Bytes).getD (strtoll [49]).toNat 0 < 128
             then ((([97, 98, 99] : Bytes).getD (strtoll [49]).toNat 0 : Nat) : Int)
             else ((([97, 98, 99] : Bytes).getD (strtoll [49]).toNat 0 : Nat) : Int) - 256), []) ∧
      (do_eval_expression (0 + 14) (host_with [] [])
          (34 :: ([97, 98, 99] ++ 34 :: 91 :: ([49] ++ [93, 0]))) NO_ARG).map
          (fun o => (o.status, o.ds.errors))
        = some (some [45, 62, 32, 39, ([97, 98, 99] : Bytes).getD (strtoll [49]).toNat 0, 39], [])) ∧
     ((([97, 98, 99] : Bytes).length : Int) ≤ strtoll [49] →
      (qe_parse_script (0 + 14) (host_with [] [])
          (qe_cfg_init (host_with [] []) (34 :: ([97, 98, 99] ++ 34 :: 91 :: ([49] ++ [93, 0]))))).map
          (fun r => (r.1, r.2.errors)) = some (TOK_VOID, []) ∧
      (do_eval_expression (0 + 14) (host_with [] [])
          (34 :: ([97, 98, 99] ++ 34 :: 91 :: ([49] ++ [93, 0]))) NO_ARG).map
          (fun o => (o.status, o.inserted, o.ds.errors)) = some (none, none, []))) ∧
    (do_eval_expression 14 (host_with [] []) [34, 97, 98, 99, 34, 91, 49, 93, 0] NO_ARG).map
        (fun o => (o.status, o.ds.errors)) = some (some [45, 62, 32, 39, 98, 39], []) ∧
    (do_eval_expression 14 (host_with [] []) [34, 97, 98, 99, 34, 91, 51, 93, 0] NO_ARG).map
        (fun o => (o.status, o.ds.errors)) = some (none, []) ∧
    (do_eval_expression 30 (host_with [] []) [34, 97, 98, 99, 34, 91, 45, 49, 93, 0] NO_ARG).map
        (fun o => (o.status, o.ds.errors)) = some (none, []) :=
  ⟨c25_string_index [97, 98, 99] [49] 0 (host_with [] []) (by decide) (by decide) (by decide)
      (by decide),
   by decide!, by decide!, by decide!⟩

/-! ## Bytes that start no token -/

theorem ops_first_bytes_ascii : ∀ e ∈ ops, e.str.headD 0 < 128 := by
  decide

theorem scan_ops_high_byte (c : Nat) (p : Bytes) (hc : 128 ≤ c) :
    scan_ops ops.reverse (c :: p) = none := by
  have hL : ∀ e ∈ ops.reverse, e.str ≠ [] ∧ ∀ c ∈ e.str, c ≠ 0 :=
    fun e he => ops_spellings e (List.mem_reverse.mp he)
  cases hs : scan_ops ops.reverse (c :: p) with
  | none => rfl
  | some r =>
    obtain ⟨op, rest⟩ := r
    obtain ⟨L1, L2, e1, e2, _⟩ := scan_ops_some _ hL (c :: p) op rest hs
    have hop : op ∈ ops := List.mem_reverse.mp (by rw [e1]; simp)
    have h1 := ops_first_bytes_ascii op hop
    cases hstr : op.str with
    | nil => exact absurd hstr (ops_spellings op hop).1
    | cons k ks =>
      rw [hstr] at e2 h1
      simp only [List.cons_append, List.cons.injEq] at e2
      simp only [List.headD_cons] at h1
      omega

/-- C40: a byte c of 128 or more starts no token: the lexer reports "unsupported
operator" and returns the byte itself as the token code.  The named token kinds are the
codes 128 to 153, so the bytes 0x80 to 0x99 come back as named kinds: 0x80 is a number,
0x81 a string, 0x83 an identifier, 0x84 the keyword `if`, 0x92 the operator `<<`.  The
parser takes them for that: the script made of the byte 0x80 shows the number 0, and the
script made of the byte 0x81 shows an empty string.  A byte below 128 that starts no token,
such as `@`, comes back as a code below every named kind. -/
theorem c40_high_byte_is_a_named_token :
    (∀ (c : Nat) (p : Bytes) (ln lno len : Nat) (str : Bytes), 128 ≤ c →
      lex (c :: p) ln lno len str =
        ⟨p, c :: p, ln, ln, false, (c : Int), PREC_NONE, len, str, lno,
          some (QError.unsupported_operator_byte c)⟩) ∧
    (TOK_NUMBER = 128 ∧ TOK_STRING = 129 ∧ TOK_CHAR = 130 ∧ TOK_ID = 131 ∧ TOK_IF = 132 ∧
      TOK_ELSE = 133 ∧ TOK_SHL = 146 ∧ TOK_LAND = 153) ∧
    (lex [128, 0] 1 1 0 []).tok = TOK_NUMBER ∧ (lex [129, 0] 1 1 0 []).tok = TOK_STRING ∧
    (lex [131, 0] 1 1 0 []).tok = TOK_ID ∧ (lex [132, 32, 49, 0] 1 1 0 []).tok = TOK_IF ∧
    (lex [146, 0] 1 1 0 []).tok = TOK_SHL ∧
    (do_eval_expression 30 (host_with [] []) [128, 0] NO_ARG).map
        (fun o => (o.status, o.ds.errors))
      = some (some [45, 62, 32, 48], [(1, QError.unsupported_operator_byte 128)]) ∧
    (do_eval_expression 30 (host_with [] []) [129, 0] NO_ARG).map
        (fun o => (o.status, o.ds.errors))
      = some (some [45, 62, 32, 34, 34], [(1, QError.unsupported_operator_byte 129)]) ∧
    lex [64, 0] 1 1 0 [] =
      ⟨[0], [64, 0], 1, 1, false, 64, PREC_NONE, 0, [], 1,
        some (QError.unsupported_operator_byte 64)⟩ := by
  refine ⟨?_, by decide, by decide, by decide, by decide, by decide, by decide, by decide!,
    by decide!, by decide⟩
  intro c p ln lno len str hc
  have e0 : (c == 0) = false := by simp; omega
  have e1 : (c == 10) = false := by simp; omega
  have e2 : qe_isspace c = false := by simp [qe_isspace]; omega
  have e3 : (c == 47) = false := by simp; omega
  have e4 : qe_isalpha_ c = false := by simp [qe_isalpha_, qe_isalpha]; omega
  have e5 : qe_isdigit c = false := by simp [qe_isdigit]; omega
  have e6 : (c == 39) = false := by simp; omega
  have e7 : (c == 34) = false := by simp; omega
  unfold lex
  simp only [List.length_cons]
  rw [next_token_loop]
  simp [e0, e1, e2, e3, e4, e5, e6, e7, scan_token, scan_ops_high_byte c p hc, PREC_NONE]

/-! ## The cursor and the end of the text -/

/-- C39: in the text `"a\` followed by its NUL, the backslash takes the NUL as the escaped
byte and the cursor goes behind it: the text left at the cursor is empty, it does not
even hold the NUL; the same for `'\`.  Without the backslash, `"a` leaves the cursor at the
NUL. -/
theorem c39_backslash_before_nul_passes_the_end :
    lex [34, 97, 92, 0] 1 1 0 [] =
      ⟨[], [34, 97, 92, 0], 1, 1, false, TOK_ERR, PREC_NONE, 2, [97, 0, 0], 1,
        some QError.unterminated_string⟩ ∧
    (lex [39, 92, 0] 1 1 0 []).p = [] ∧
    (lex [34, 97, 0] 1 1 0 []).p = [0] ∧
    (∀ (dest : Bytes) (fuel : Nat),
      (parse_string_loop 34 255 (fuel + 2) [92, 0] dest).2.1 = []) := by
  refine ⟨by decide, by decide, by decide, ?_⟩
  intro dest fuel
  simp [parse_string_loop, qe_isoctdigit]

/-! ## The conversion to a character -/

/-- C33: `qe_cfg_tochar` on a string slot stores the first code point of the string as a
number: the slot is tagged NUMBER, not CHAR; on a slot that is neither a string, a number
nor a character it stores the number 0, again tagged NUMBER.  On a number or a character it
keeps the value and tags the slot CHAR.  So `char("a")` shows the number 97 and not `'a'`,
`char(f())` with a command f (whose result is void) shows the number 0, while `char(65)`
shows `'A'` and `char('b')` shows `'b'`. -/
theorem c33_char_of_string_is_a_number :
    (∀ (ds : QEmacsDataSource) (sp : Nat), (slot ds sp).type = TOK_STRING →
      qe_cfg_tochar ds sp =
        (0, set_slot ds sp (qe_cfg_set_num (slot ds sp) (utf8_decode (slot ds sp).u.asStr))) ∧
      (slot (qe_cfg_tochar ds sp).2 sp).type = TOK_NUMBER) ∧
    (∀ (ds : QEmacsDataSource) (sp : Nat),
      (slot ds sp).type = TOK_NUMBER ∨ (slot ds sp).type = TOK_CHAR →
      qe_cfg_tochar ds sp = (0, set_slot ds sp { slot ds sp with type := TOK_CHAR })) ∧
    (∀ (ds : QEmacsDataSource) (sp : Nat), (slot ds sp).type = TOK_VOID →
      qe_cfg_tochar ds sp = (0, set_slot ds sp (qe_cfg_set_num (slot ds sp) 0))) ∧
    (do_eval_expression 30 (host_with [] []) [99, 104, 97, 114, 40, 34, 97, 34, 41, 0] NO_ARG).map
        (fun o => (o.status, o.ds.errors)) = some (some [45, 62, 32, 57, 55], []) ∧
    (do_eval_expression 30 (host_with [] [⟨[102], [0], 0⟩]) [99, 104, 97, 114, 40, 102, 40, 41, 41, 0] NO_ARG).map
        (fun o => (o.status, o.ds.errors)) = some (some [45, 62, 32, 48], []) ∧
    (do_eval_expression 30 (host_with [] []) [99, 104, 97, 114, 40, 54, 53, 41, 0] NO_ARG).map
        (fun o => (o.status, o.ds.errors)) = some (some [45, 62, 32, 39, 65, 39], []) ∧
    (do_eval_expression 30 (host_with [] []) [99, 104, 97, 114, 40, 39, 98, 39, 41, 0] NO_ARG).map
        (fun o => (o.status, o.ds.errors)) = some (some [45, 62, 32, 39, 98, 39], []) := by
  refine ⟨?_, ?_, ?_, by decide!, by decide!, by decide!, by decide!⟩
  · intro ds sp h
    have hid : (slot ds sp).type ≠ TOK_ID := by rw [h]; decide
    have e : qe_cfg_tochar ds sp =
        (0, set_slot ds sp (qe_cfg_set_num (slot ds sp) (utf8_decode (slot ds sp).u.asStr))) := by
      unfold qe_cfg_tochar
      rw [getvalue_not_id ds sp hid]
      simp [h]
    refine ⟨e, ?_⟩
    rw [e]
    simp only [slot_set_slot]
    rfl
  · intro ds sp h
    have hid : (slot ds sp).type ≠ TOK_ID := by rcases h with h | h <;> rw [h] <;> decide
    unfold qe_cfg_tochar
    rw [getvalue_not_id ds sp hid]
    rcases h with h | h <;> simp [h, TOK_STRING, TOK_NUMBER, TOK_CHAR]
  · intro ds sp h
    have hid : (slot ds sp).type ≠ TOK_ID := by rw [h]; decide
    unfold qe_cfg_tochar
    rw [getvalue_not_id ds sp hid]
    simp [h, TOK_STRING, TOK_NUMBER, TOK_CHAR, TOK_VOID]

/-! ## The newline flag -/

theorem scan_token_newline_seen (lx : Lexer) (c : Nat) (p : Bytes) :
    (scan_token lx c p).newline_seen = lx.newline_seen := by
  unfold scan_token
  dsimp only
  repeat' split
  all_goals rfl

/-- Once set in a call of the lexer, the newline flag stays set to the end of the call. -/
theorem next_token_loop_newline_kept (fuel : Nat) (lx : Lexer) (p : Bytes)
    (h : lx.newline_seen = true) : (next_token_loop fuel lx p).newline_seen = true := by
  induction fuel generalizing lx p with
  | zero => simpa [next_token_loop] using h
  | succ n ih =>
    unfold next_token_loop
    dsimp only
    repeat' split
    all_goals first
      | exact h
      | (rw [scan_token_newline_seen]; exact h)
      | exact ih _ _ rfl
      | exact ih _ _ h

/-- C32: the lexer clears the flag on entry and sets it at a newline byte between tokens,
also at the one that ends a line comment: behind a newline every token has the flag set.
A newline inside a block comment only moves the line count: in `/*` newline `*/ b` the
token `b` is on line 2 and its flag is not set.  So `a = 1 /*` newline `*/ b = 2` reports
"missing ';'" where `a = 1 //c` newline `b = 2` and `a = 1` newline `b = 2` report
nothing. -/
theorem c32_newline_in_block_comment_is_not_seen :
    (∀ (p : Bytes) (ln lno len : Nat) (str : Bytes),
      (lex (10 :: p) ln lno len str).newline_seen = true) ∧
    lex [32, 47, 47, 99, 10, 32, 98, 0] 1 1 0 [] = ⟨[0], [98, 0], 2, 2, true, TOK_ID, PREC_NONE, 1, [98, 0], 2, none⟩ ∧
    lex [32, 47, 42, 10, 42, 47, 32, 98, 0] 1 1 0 [] = ⟨[0], [98, 0], 2, 2, false, TOK_ID, PREC_NONE, 1, [98, 0], 2, none⟩ ∧
    (do_eval_expression 40 (host_with [] []) [97, 32, 61, 32, 49, 32, 47, 42, 10, 42, 47, 32, 98, 32, 61, 32, 50, 0] NO_ARG).map
        (fun o => (o.status, o.ds.errors))
      = some (some [45, 62, 32, 50], [(2, QError.missing_semicolon)]) ∧
    (do_eval_expression 40 (host_with [] []) [97, 32, 61, 32, 49, 32, 47, 47, 99, 10, 32, 98, 32, 61, 32, 50, 0] NO_ARG).map
        (fun o => (o.status, o.ds.errors)) = some (some [45, 62, 32, 50], []) ∧
    (do_eval_expression 40 (host_with [] []) [97, 32, 61, 32, 49, 10, 98, 32, 61, 32, 50, 0] NO_ARG).map
        (fun o => (o.status, o.ds.errors)) = some (some [45, 62, 32, 50], []) := by
  refine ⟨?_, by decide, by decide, by decide!, by decide!, by decide!⟩
  intro p ln lno len str
  unfold lex
  simp only [List.length_cons]
  rw [next_token_loop]
  simp only [List.headD_cons, List.tail_cons]
  simp only [show ((10 : Nat) == 0) = false by decide, show ((10 : Nat) == 10) = true by decide,
    Bool.false_eq_true, if_false, if_true]
  exact next_token_loop_newline_kept _ _ _ rfl

/-! ## A statement that starts with a closing bracket -/

theorem set_slot_lexer (ds : QEmacsDataSource) (i : Nat) (v : QEValue) :
    (set_slot ds i v).tok = ds.tok ∧ (set_slot ds i v).start_p = ds.start_p ∧
    (set_slot ds i v).newline_seen = ds.newline_seen := by
  unfold set_slot
  split_ifs <;> exact ⟨rfl, rfl, rfl⟩

theorem lex_close_paren (rest : Bytes) (ln lno len : Nat) (str : Bytes) :
    lex (41 :: rest) ln lno len str =
      ⟨rest, 41 :: rest, ln, ln, false, 41, 0, len, str, lno, none⟩ := rfl

/-- The label `fail` of an expression that started at a `)`: the rewind reads the `)`
again and the skip stops at it at once. -/
theorem fail_at_close_paren (f : Nat) (ds : QEmacsDataSource) (rest : Bytes) (sl : Nat) :
    expr_fail (f + 1) ds (41 :: rest) sl =
      some (1, qe_cfg_next_token { ds with p := 41 :: rest, line_num := sl }) := by
  unfold expr_fail
  rw [qe_cfg_skip_expr]
  have ht : (qe_cfg_next_token { ds with p := 41 :: rest, line_num := sl }).tok = 41 := by
    show (store_token _ (lex (41 :: rest) _ _ _ _)).tok = 41
    rw [lex_close_paren]
    rfl
  simp [ht, TOK_EOF]

theorem next_at_close_paren (ds : QEmacsDataSource) (rest : Bytes) (sl : Nat) :
    (qe_cfg_next_token { ds with p := 41 :: rest, line_num := sl }).tok = 41 ∧
    (qe_cfg_next_token { ds with p := 41 :: rest, line_num := sl }).start_p = 41 :: rest ∧
    (qe_cfg_next_token { ds with p := 41 :: rest, line_num := sl }).newline_seen = false :=
  ⟨rfl, rfl, rfl⟩

/-- An expression entered at a `)` fails without consuming it. -/
theorem again_at_close_paren (k : Nat) (ds : QEmacsDataSource) (sp prec0 : Nat) (rest : Bytes)
    (sl : Nat) :
    expr_again k ds sp prec0 41 (41 :: rest) sl = none ∨
    ∃ ds1, expr_again k ds sp prec0 41 (41 :: rest) sl = some (1, ds1) ∧ ds1.tok = 41 ∧
      ds1.start_p = 41 :: rest ∧ ds1.newline_seen = false := by
  cases k with
  | zero => left; simp [expr_again]
  | succ k =>
    cases k with
    | zero => left; simp [expr_again, expr_fail, qe_cfg_skip_expr, TOK_INC, TOK_DEC, TOK_NUMBER,
        TOK_STRING, TOK_ID, TOK_CHAR]
    | succ k =>
      right
      refine ⟨qe_cfg_next_token
          { put_error (set_slot ds sp (qe_cfg_set_void (slot ds sp))) QError.invalid_expression
            with p := 41 :: rest, line_num := sl },
        ?_, (next_at_close_paren _ rest sl).1, (next_at_close_paren _ rest sl).2.1,
        (next_at_close_paren _ rest sl).2.2⟩
      rw [expr_again]
      simp only [TOK_INC, TOK_DEC, TOK_NUMBER, TOK_STRING, TOK_ID, TOK_CHAR, Int.reduceBEq,
        Bool.false_eq_true, if_false, Bool.or_self]
      exact fail_at_close_paren k _ rest sl

/-- A statement entered at a `)` returns, if it returns, with the `)` still the current
token. -/
theorem stmt_at_close_paren (f : Nat) (ds : QEmacsDataSource) (rest : Bytes) (r : Int)
    (ds' : QEmacsDataSource) (h1 : ds.tok = 41) (h2 : ds.start_p = 41 :: rest)
    (h : qe_cfg_stmt f ds 0 false = some (r, ds')) :
    ds'.tok = 41 ∧ ds'.start_p = 41 :: rest := by
  cases f with
  | zero => simp [qe_cfg_stmt] at h
  | succ n =>
    rw [stmt_expr_step n ds 0 false (by rw [h1]; decide) (by rw [h1]; decide)
      (by rw [h1]; decide)] at h
    have key : qe_cfg_expr n ds 0 1 false = none ∨
        ∃ ds1, qe_cfg_expr n ds 0 1 false = some (1, ds1) ∧ ds1.tok = 41 ∧
          ds1.start_p = 41 :: rest ∧ ds1.newline_seen = false := by
      cases n with
      | zero => left; simp [qe_cfg_expr]
      | succ m =>
        rw [qe_cfg_expr]
        simp only [Bool.false_eq_true, if_false, h1, h2]
        split_ifs
        · omega
        · exact again_at_close_paren m _ 0 1 rest _
        · exact again_at_close_paren m _ 0 1 rest _
    rcases key with e | ⟨ds1, e, t1, t2, t3⟩
    · rw [e] at h; simp [after] at h
    · rw [e] at h
      simp only [after, stmt_end_cases, t1, t3] at h
      simp at h
      obtain ⟨_, rfl⟩ := h
      exact ⟨t1, t2⟩

/-- The statement loop entered at a `)` does not return, whatever the fuel. -/
theorem script_loop_at_close_paren (f : Nat) (ds : QEmacsDataSource) (rest : Bytes)
    (h1 : ds.tok = 41) (h2 : ds.start_p = 41 :: rest) : parse_script_loop f ds = none := by
  induction f generalizing ds with
  | zero => rfl
  | succ n ih =>
    rw [parse_script_loop]
    simp only [h1, TOK_EOF, TOK_ERR, Int.reduceBNe, Bool.and_self, if_true]
    cases hq : qe_cfg_stmt n ds 0 false with
    | none => rfl
    | some x =>
      obtain ⟨r, ds'⟩ := x
      obtain ⟨t1, t2⟩ := stmt_at_close_paren n ds rest r ds' h1 h2 hq
      simp only
      split_ifs
      · exact ih _ (by rw [(set_slot_lexer _ _ _).1]; exact t1)
          (by rw [(set_slot_lexer _ _ _).2.1]; exact t2)
      · exact ih _ t1 t2

/-- C37: on every script that starts with `)`, on any host, `qe_parse_script` returns with
no amount of fuel: the statement driver is entered at the `)` again and again, each
statement reporting its errors and consuming nothing.  The same happens at `]`, `:` and
`}` (here with the fuel 40), while a byte that starts no token, such as `@`, is consumed
and the script ends. -/
theorem c37_close_paren_never_returns :
    (∀ (rest : Bytes) (fuel : Nat) (h : Host),
      qe_parse_script fuel h (qe_cfg_init h (41 :: rest)) = none) ∧
    (qe_parse_script 40 (host_with [] []) (qe_cfg_init (host_with [] []) [93, 0])).isSome = false ∧
    (qe_parse_script 40 (host_with [] []) (qe_cfg_init (host_with [] []) [58, 0])).isSome = false ∧
    (qe_parse_script 40 (host_with [] []) (qe_cfg_init (host_with [] []) [49, 32, 125, 0])).isSome = false ∧
    (qe_parse_script 20 (host_with [] []) (qe_cfg_init (host_with [] []) [64, 0])).isSome = true := by
  refine ⟨?_, by decide!, by decide!, by decide!, by decide!⟩
  intro rest fuel h
  unfold qe_parse_script
  rw [script_loop_at_close_paren fuel _ rest rfl rfl]
  rfl

/-! ## The slots behind the operand of `++` and `--` -/

/-- C38: with the operand `x` in slot 15, behind fifteen `x=` of a chain of assignments,
the postfix `x++` writes the slots 16 and 17 and the prefix `++x` writes the slot 16: the
stack ends with 18 and 17 slots where it has 16, no error is reported and the value is
shown (5, and 6), with the high-water mark at 16.  A binary operator at the same place,
which needs slot 16 for its right operand, raises "stack overflow" and leaves the 16
slots, while behind fourteen `x=` it evaluates within them. -/
theorem c38_increment_writes_behind_the_stack :
    (do_eval_expression 200 (host_with [([120], VarValue.number 5)] [])
        [120, 61, 120, 61, 120, 61, 120, 61, 120, 61, 120, 61, 120, 61, 120, 61, 120, 61, 120, 61, 120, 61, 120, 61, 120, 61, 120, 61, 120, 61, 120, 43, 43, 0] NO_ARG).map
        (fun o => (o.status, o.ds.errors, o.ds.stack.length)) = some (some [45, 62, 32, 53], [], 18) ∧
    (do_eval_expression 200 (host_with [([120], VarValue.number 5)] [])
        [120, 61, 120, 61, 120, 61, 120, 61, 120, 61, 120, 61, 120, 61, 120, 61, 120, 61, 120, 61, 120, 61, 120, 61, 120, 61, 120, 61, 120, 61, 43, 43, 120, 0] NO_ARG).map
        (fun o => (o.status, o.ds.errors, o.ds.stack.length)) = some (some [45, 62, 32, 54], [], 17) ∧
    (do_eval_expression 200 (host_with [([120], VarValue.number 5)] [])
        [120, 61, 120, 61, 120, 61, 120, 61, 120, 61, 120, 61, 120, 61, 120, 61, 120, 61, 120, 61, 120, 61, 120, 61, 120, 61, 120, 61, 120, 61, 120, 43, 43, 0] NO_ARG).map
        (fun o => o.ds.sp_max) = some 16 ∧
    (do_eval_expression 200 (host_with [([120], VarValue.number 5)] [])
        [120, 61, 120, 61, 120, 61, 120, 61, 120, 61, 120, 61, 120, 61, 120, 61, 120, 61, 120, 61, 120, 61, 120, 61, 120, 61, 120, 61, 120, 61, 48, 43, 120, 0] NO_ARG).map
        (fun o => (o.status, o.ds.errors, o.ds.stack.length))
      = some (none, [(1, QError.stack_overflow)], 16) ∧
    (do_eval_expression 200 (host_with [([120], VarValue.number 5)] [])
        [120, 61, 120, 61, 120, 61, 120, 61, 120, 61, 120, 61, 120, 61, 120, 61, 120, 61, 120, 61, 120, 61, 120, 61, 120, 61, 120, 61, 48, 43, 120, 0] NO_ARG).map
        (fun o => (o.status, o.ds.errors, o.ds.stack.length, o.ds.sp_max))
      = some (some [45, 62, 32, 53], [], 16, 16) ∧
    (qe_cfg_init (host_with [] []) [0]).stack.length = 16 := by
  refine ⟨by decide!, by decide!, by decide!, by decide!, by decide!, by decide⟩

/-! ## Default arguments of a command call -/

/-- C36: in the argument loop of `qe_cfg_call`, with the current token `)`, a parameter
whose kind has a default receives it and the context is passed on as it is, no expression
being evaluated; the defaults are NO_ARG for a raw argument, 1 for a numeric argument, -1
for a negated argument, the mark, the point, 0 and the buffer size.  An explicit argument
of a negated-argument parameter is converted to a number and passed negated. -/
theorem c36_default_arguments (fuel : Nat) (ds : QEmacsDataSource) (sp : Nat) (d : CmdDef)
    (t : Nat) (n : Int) (ts : List Nat) (prompt : Bytes) (sep : Int) (used : Nat)
    (args : List CmdArg) (h41 : ds.tok = 41) (hd : default_arg ds.s t = some n) :
    call_args (fuel + 1) ds sp d (t :: ts) prompt sep used args =
      call_args fuel ds sp d ts prompt sep used (args ++ [CmdArg.n n]) ∧
    (default_arg ds.s (CMD_ARG_INT ||| CMD_ARG_RAW_ARGVAL) = some NO_ARG ∧
     default_arg ds.s (CMD_ARG_INT ||| CMD_ARG_NUM_ARGVAL) = some 1 ∧
     default_arg ds.s (CMD_ARG_INT ||| CMD_ARG_NEG_ARGVAL) = some (-1) ∧
     default_arg ds.s (CMD_ARG_INT ||| CMD_ARG_USE_MARK) = some (wrap32 ds.s.mark) ∧
     default_arg ds.s (CMD_ARG_INT ||| CMD_ARG_USE_POINT) = some (wrap32 ds.s.offset) ∧
     default_arg ds.s (CMD_ARG_INT ||| CMD_ARG_USE_ZERO) = some 0 ∧
     default_arg ds.s (CMD_ARG_INT ||| CMD_ARG_USE_BSIZE) = some (wrap32 ds.s.total_size)) ∧
    (∀ (ds0 ds1 : QEmacsDataSource), ds0.tok ≠ 41 →
      qe_cfg_expr fuel ds0 sp PREC_ASSIGNMENT false = some (0, ds1) →
      call_args (fuel + 1) ds0 sp d ((CMD_ARG_INT ||| CMD_ARG_NEG_ARGVAL) :: ts) prompt 0 used args =
        call_args fuel (qe_cfg_tonum ds1 sp).2 sp d ts prompt 44 used
          (args ++ [CmdArg.n (wrap32 (-(wrap32 (slot (qe_cfg_tonum ds1 sp).2 sp).u.asValue)))])) := by
  refine ⟨?_, ⟨rfl, rfl, rfl, rfl, rfl, rfl, rfl⟩, ?_⟩
  · have ht : t ≠ CMD_ARG_WINDOW ∧ t ≠ CMD_ARG_INTVAL ∧ t ≠ CMD_ARG_STRINGVAL := by
      unfold default_arg at hd
      split_ifs at hd with a1 a2 a3 a4 a5 a6 a7 <;>
        (simp only [beq_iff_eq] at *; subst_vars; decide)
    rw [call_args]
    simp [ht.1, ht.2.1, ht.2.2, h41, hd]
  · intro ds0 ds1 hne he
    have hm : (48 : Nat) &&& 15 = 0 := by decide
    rw [call_args]
    simp [hne, he, hm, CMD_ARG_INT, CMD_ARG_NEG_ARGVAL, CMD_ARG_WINDOW, CMD_ARG_INTVAL,
      CMD_ARG_STRINGVAL, CMD_ARG_TYPE_MASK]

/-- C36 (witness): at a `)` a raw-argument parameter receives NO_ARG; and on a host with
the mark 7, the point 9 and the buffer size 11, `f()` passes NO_ARG, 1 and -1 to a command
with a raw, a numeric and a negated parameter, `g()` passes 7, 9, 0 and 11 to a command
with a mark, a point, a zero and a size parameter, `n(5)` passes -5 to a command with a
negated parameter and `f(3)` passes 3, 1 and -1. -/
theorem c36_default_arguments_witness :
    (call_args (0 + 1) { qe_cfg_init (host_with [] []) [0] with tok := 41 } 0 ⟨[102], [16], 0⟩
        (16 :: []) [] 0 0 [] =
      call_args 0 { qe_cfg_init (host_with [] []) [0] with tok := 41 } 0 ⟨[102], [16], 0⟩
        [] [] 0 0 ([] ++ [CmdArg.n NO_ARG]) ∧
     (default_arg (host_with [] []) (CMD_ARG_INT ||| CMD_ARG_RAW_ARGVAL) = some NO_ARG ∧
      default_arg (host_with [] []) (CMD_ARG_INT ||| CMD_ARG_NUM_ARGVAL) = some 1 ∧
      default_arg (host_with [] []) (CMD_ARG_INT ||| CMD_ARG_NEG_ARGVAL) = some (-1) ∧
      default_arg (host_with [] []) (CMD_ARG_INT ||| CMD_ARG_USE_MARK)
        = some (wrap32 (host_with [] []).mark) ∧
      default_arg (host_with [] []) (CMD_ARG_INT ||| CMD_ARG_USE_POINT)
        = some (wrap32 (host_with [] []).offset) ∧
      default_arg (host_with [] []) (CMD_ARG_INT ||| CMD_ARG_USE_ZERO) = some 0 ∧
      default_arg (host_with [] []) (CMD_ARG_INT ||| CMD_ARG_USE_BSIZE)
        = some (wrap32 (host_with [] []).total_size)) ∧
     (∀ (ds0 ds1 : QEmacsDataSource), ds0.tok ≠ 41 →
       qe_cfg_expr 0 ds0 0 PREC_ASSIGNMENT false = some (0, ds1) →
       call_args (0 + 1) ds0 0 ⟨[102], [16], 0⟩ ((CMD_ARG_INT ||| CMD_ARG_NEG_ARGVAL) :: []) [] 0 0 [] =
         call_args 0 (qe_cfg_tonum ds1 0).2 0 ⟨[102], [16], 0⟩ [] [] 44 0
           ([] ++ [CmdArg.n (wrap32 (-(wrap32 (slot (qe_cfg_tonum ds1 0).2 0).u.asValue)))]))) ∧
    (do_eval_expression 60
        { host_with [] [⟨[102], [16, 32, 48], 0⟩, ⟨[103], [64, 80, 96, 112], 0⟩, ⟨[110], [48], 0⟩]
          with mark := 7, offset := 9, total_size := 11 } [102, 40, 41, 0] NO_ARG).map
        (fun o => (o.ds.errors, o.ds.s.calls))
      = some ([], [([102], [CmdArg.s, CmdArg.n NO_ARG, CmdArg.n 1, CmdArg.n (-1)])]) ∧
    (do_eval_expression 60
        { host_with [] [⟨[102], [16, 32, 48], 0⟩, ⟨[103], [64, 80, 96, 112], 0⟩, ⟨[110], [48], 0⟩]
          with mark := 7, offset := 9, total_size := 11 } [103, 40, 41, 0] NO_ARG).map
        (fun o => (o.ds.errors, o.ds.s.calls))
      = some ([], [([103], [CmdArg.s, CmdArg.n 7, CmdArg.n 9, CmdArg.n 0, CmdArg.n 11])]) ∧
    (do_eval_expression 60
        { host_with [] [⟨[102], [16, 32, 48], 0⟩, ⟨[103], [64, 80, 96, 112], 0⟩, ⟨[110], [48], 0⟩]
          with mark := 7, offset := 9, total_size := 11 } [110, 40, 53, 41, 0] NO_ARG).map
        (fun o => (o.ds.errors, o.ds.s.calls))
      = some ([], [([110], [CmdArg.s, CmdArg.n (-5)])]) ∧
    (do_eval_expression 60
        { host_with [] [⟨[102], [16, 32, 48], 0⟩, ⟨[103], [64, 80, 96, 112], 0⟩, ⟨[110], [48], 0⟩]
          with mark := 7, offset := 9, total_size := 11 } [102, 40, 51, 41, 0] NO_ARG).map
        (fun o => (o.ds.errors, o.ds.s.calls))
      = some ([], [([102], [CmdArg.s, CmdArg.n 3, CmdArg.n 1, CmdArg.n (-1)])]) :=
  ⟨c36_default_arguments 0 { qe_cfg_init (host_with [] []) [0] with tok := 41 } 0
      ⟨[102], [16], 0⟩ 16 NO_ARG [] [] 0 0 [] rfl rfl,
   by decide!, by decide!, by decide!, by decide!⟩

/-! ## Octal escapes -/

/-- C34: behind a backslash and an octal digit d1 the string loop consumes one to three
octal digits and decodes them to one byte v of at most 255, stored if the lexeme has room:
d1 alone when no octal digit follows; d1 d2 when d2 is an octal digit and either their value
is 040 or more or no octal digit follows d2; d1 d2 d3 when the value of d1 d2 is below 040
and d3 is an octal digit. -/
theorem c34_octal_escape (delim end_ fuel d1 : Nat) (p dest : Bytes)
    (h1 : qe_isoctdigit d1 = true) (hd : delim ≠ 92) :
    ∃ v p', v ≤ 255 ∧
      parse_string_loop delim end_ (fuel + 1) (92 :: d1 :: p) dest =
        parse_string_loop delim end_ fuel p' (if dest.length < end_ then dest ++ [v] else dest) ∧
      (qe_isoctdigit (p.headD 0) = false → v = d1 - 48 ∧ p' = p) ∧
      (qe_isoctdigit (p.headD 0) = true →
        (32 ≤ (d1 - 48) * 8 + (p.headD 0 - 48) ∨ qe_isoctdigit (p.tail.headD 0) = false) →
        v = (d1 - 48) * 8 + (p.headD 0 - 48) ∧ p' = p.tail) ∧
      (qe_isoctdigit (p.headD 0) = true → (d1 - 48) * 8 + (p.headD 0 - 48) < 32 →
        qe_isoctdigit (p.tail.headD 0) = true →
        v = ((d1 - 48) * 8 + (p.headD 0 - 48)) * 8 + (p.tail.headD 0 - 48) ∧ p' = p.tail.tail) := by
  have g1 := h1
  simp only [qe_isoctdigit, Bool.and_eq_true, decide_eq_true_eq] at g1
  have n1 : (d1 == 85) = false := by simp; omega
  have n2 : (d1 == 117) = false := by simp; omega
  have n3 : (d1 == 120) = false := by simp; omega
  have n4 : (d1 == 110) = false := by simp; omega
  have n5 : (d1 == 114) = false := by simp; omega
  have n6 : (d1 == 116) = false := by simp; omega
  have n7 : (d1 == 97) = false := by simp; omega
  have n8 : (d1 == 98) = false := by simp; omega
  have n9 : (d1 == 101) = false := by simp; omega
  have n10 : (d1 == 102) = false := by simp; omega
  have n11 : (d1 == 118) = false := by simp; omega
  have hd' : ((92 : Nat) == delim) = false := by simp; exact fun h => hd h.symm
  have step : ∀ (v : Nat) (p' : Bytes),
      (if qe_isoctdigit (p.headD 0) then
        (if (d1 - 48) * 8 + (p.headD 0 - 48) < 32 && qe_isoctdigit (p.tail.headD 0) then
          (((d1 - 48) * 8 + (p.headD 0 - 48)) * 8 + (p.tail.headD 0 - 48), p.tail.tail)
         else ((d1 - 48) * 8 + (p.headD 0 - 48), p.tail))
       else (d1 - 48, p)) = (v, p') →
      parse_string_loop delim end_ (fuel + 1) (92 :: d1 :: p) dest =
        parse_string_loop delim end_ fuel p' (if dest.length < end_ then dest ++ [v] else dest) := by
    intro v p' hv
    rw [parse_string_loop]
    simp only [List.headD_cons, List.tail_cons, hd', n1, n2, n3, n4, n5, n6, n7, n8, n9, n10, n11,
      h1, show ((92 : Nat) == 10) = false by decide, show ((92 : Nat) == 0) = false by decide,
      show ((92 : Nat) == 92) = true by decide, Bool.or_self, Bool.false_eq_true, if_false,
      if_true, hv]
  by_cases o2 : qe_isoctdigit (p.headD 0) = true
  · have g2 := o2
    simp only [qe_isoctdigit, Bool.and_eq_true, decide_eq_true_eq] at g2
    by_cases hlt : (d1 - 48) * 8 + (p.headD 0 - 48) < 32
    · by_cases o3 : qe_isoctdigit (p.tail.headD 0) = true
      · have g3 := o3
        simp only [qe_isoctdigit, Bool.and_eq_true, decide_eq_true_eq] at g3
        refine ⟨_, _, ?_, step _ _ (by simp only [o2, hlt, o3, decide_True, Bool.and_self, if_true]; rfl), ?_, ?_, ?_⟩
        · omega
        · intro h; rw [o2] at h; exact absurd h (by decide)
        · intro _ h
          rcases h with h | h
          · omega
          · rw [o3] at h; exact absurd h (by decide)
        · intro _ _ _; exact ⟨rfl, rfl⟩
      · have o3' : qe_isoctdigit (p.tail.headD 0) = false := by simpa using o3
        refine ⟨_, _, ?_, step _ _ (by simp only [o2, hlt, o3', decide_True, Bool.and_false, Bool.false_eq_true, if_true, if_false]; rfl), ?_, ?_, ?_⟩
        · omega
        · intro h; rw [o2] at h; exact absurd h (by decide)
        · intro _ _; exact ⟨rfl, rfl⟩
        · intro _ _ h; rw [o3'] at h; exact absurd h (by decide)
    · refine ⟨_, _, ?_, step _ _ (by simp only [o2, hlt, decide_False, Bool.false_and, Bool.false_eq_true, if_true, if_false]; rfl), ?_, ?_, ?_⟩
      · omega
      · intro h; rw [o2] at h; exact absurd h (by decide)
      · intro _ _; exact ⟨rfl, rfl⟩
      · intro _ h; exact absurd h hlt
  · have o2' : qe_isoctdigit (p.headD 0) = false := by simpa using o2
    refine ⟨_, _, ?_, step _ _ (by simp only [o2', Bool.false_eq_true, if_false]; rfl), ?_, ?_, ?_⟩
    · omega
    · intro _; exact ⟨rfl, rfl⟩
    · intro h; rw [o2'] at h; exact absurd h (by decide)
    · intro h; rw [o2'] at h; exact absurd h (by decide)

/-- C34 (witness): behind `\3` the digits `77` are both consumed; `"\377"` is the string of
the one byte 255, `"\477"` is the byte 39 (047) followed by `7`, `"\7"` is the byte 7 and
`"\08"` is the byte 0 followed by `8`. -/
theorem c34_octal_escape_witness :
    (∃ v p', v ≤ 255 ∧
      parse_string_loop 34 255 (10 + 1) (92 :: 51 :: [55, 55, 34, 0]) [] =
        parse_string_loop 34 255 10 p' (if ([] : Bytes).length < 255 then [] ++ [v] else []) ∧
      (qe_isoctdigit (([55, 55, 34, 0] : Bytes).headD 0) = false →
        v = 51 - 48 ∧ p' = [55, 55, 34, 0]) ∧
      (qe_isoctdigit (([55, 55, 34, 0] : Bytes).headD 0) = true →
        (32 ≤ (51 - 48) * 8 + (([55, 55, 34, 0] : Bytes).headD 0 - 48) ∨
          qe_isoctdigit (([55, 55, 34, 0] : Bytes).tail.headD 0) = false) →
        v = (51 - 48) * 8 + (([55, 55, 34, 0] : Bytes).headD 0 - 48) ∧
          p' = ([55, 55, 34, 0] : Bytes).tail) ∧
      (qe_isoctdigit (([55, 55, 34, 0] : Bytes).headD 0) = true →
        (51 - 48) * 8 + (([55, 55, 34, 0] : Bytes).headD 0 - 48) < 32 →
        qe_isoctdigit (([55, 55, 34, 0] : Bytes).tail.headD 0) = true →
        v = ((51 - 48) * 8 + (([55, 55, 34, 0] : Bytes).headD 0 - 48)) * 8
              + (([55, 55, 34, 0] : Bytes).tail.headD 0 - 48) ∧
          p' = ([55, 55, 34, 0] : Bytes).tail.tail)) ∧
    lex [34, 92, 51, 55, 55, 34, 0] 1 1 0 [] =
      ⟨[0], [34, 92, 51, 55, 55, 34, 0], 1, 1, false, TOK_STRING, PREC_NONE, 1, [255, 0], 1, none⟩ ∧
    lex [34, 92, 52, 55, 55, 34, 0] 1 1 0 [] =
      ⟨[0], [34, 92, 52, 55, 55, 34, 0], 1, 1, false, TOK_STRING, PREC_NONE, 2, [39, 55, 0], 1, none⟩ ∧
    lex [34, 92, 55, 34, 0] 1 1 0 [] =
      ⟨[0], [34, 92, 55, 34, 0], 1, 1, false, TOK_STRING, PREC_NONE, 1, [7, 0], 1, none⟩ ∧
    lex [34, 92, 48, 56, 34, 0] 1 1 0 [] =
      ⟨[0], [34, 92, 48, 56, 34, 0], 1, 1, false, TOK_STRING, PREC_NONE, 2, [0, 56, 0], 1, none⟩ :=
  ⟨c34_octal_escape 34 255 10 51 [55, 55, 34, 0] [] (by decide) (by decide),
   by decide, by decide, by decide, by decide⟩

/-! ## Hexadecimal and Unicode escapes -/

theorem parse_hex_all (hs rest : Bytes) (maxc c : Int)
    (hh : ∀ d ∈ hs, qe_isxdigit d = true) (hr : qe_isxdigit (rest.headD 0) = false)
    (hm : maxc < 0) : parse_hex (hs ++ rest) maxc c = (hex_code hs c, rest) := by
  induction hs generalizing maxc c with
  | nil =>
    cases rest with
    | nil => simp [parse_hex, hex_code]
    | cons d p =>
      simp only [List.headD_cons] at hr
      simp [parse_hex, hex_code, hr]
  | cons d t ih =>
    have hd := hh d (by simp)
    have hne : (maxc != 0) = true := by simp; omega
    simp only [List.cons_append, parse_hex, hd, hne, Bool.and_self, if_true, List.append_eq]
    rw [ih _ _ (fun x hx => hh x (by simp [hx])) (by omega)]
    simp [hex_code]

theorem parse_hex_some (hs rest : Bytes) (m : Nat) (c : Int)
    (hh : ∀ d ∈ hs, qe_isxdigit d = true) (hr : qe_isxdigit (rest.headD 0) = false) :
    parse_hex (hs ++ rest) (m : Int) c = (hex_code (hs.take m) c, hs.drop m ++ rest) := by
  induction hs generalizing m c with
  | nil =>
    cases rest with
    | nil => simp [parse_hex, hex_code]
    | cons d p =>
      simp only [List.headD_cons] at hr
      simp [parse_hex, hex_code, hr]
  | cons d t ih =>
    have hd := hh d (by simp)
    cases m with
    | zero => simp [parse_hex, hex_code]
    | succ k =>
      have hne : (((k + 1 : Nat) : Int) != 0) = true := by simp; omega
      simp only [List.cons_append, parse_hex, hd, hne, Bool.and_self, if_true, List.append_eq]
      have e : ((k + 1 : Nat) : Int) - 1 = (k : Int) := by omega
      rw [e, ih _ _ (fun x hx => hh x (by simp [hx]))]
      simp [hex_code]

/-- The string loop over a run of plain bytes: they are stored while there is room. -/
theorem parse_string_loop_run (delim e : Nat) (s rest dest : Bytes) (n : Nat)
    (hs : ∀ c ∈ s, c ≠ delim ∧ c ≠ 92 ∧ c ≠ 10 ∧ c ≠ 0) :
    parse_string_loop delim e (s.length + n) (s ++ rest) dest =
      parse_string_loop delim e n rest (dest ++ s.take (e - dest.length)) := by
  induction s generalizing dest with
  | nil => simp
  | cons c s ih =>
    obtain ⟨h1, h2, h3, h4⟩ := hs c (by simp)
    have hs' : ∀ d ∈ s, d ≠ delim ∧ d ≠ 92 ∧ d ≠ 10 ∧ d ≠ 0 := fun d hd => hs d (by simp [hd])
    have hf : (c :: s).length + n = (s.length + n) + 1 := by simp; omega
    rw [hf, List.cons_append, parse_string_loop]
    simp only [List.headD_cons, List.tail_cons, beq_iff_eq, h1, h2, h3, h4, Bool.or_self,
      Bool.false_eq_true, if_false]
    rw [ih _ hs']
    by_cases hl : dest.length < e
    · simp only [hl, if_true, List.length_append, List.length_singleton, List.append_assoc,
        List.singleton_append]
      have : e - dest.length = (e - (dest.length + 1)) + 1 := by omega
      rw [this, List.take_succ_cons]
      simp [h3, h4]
    · simp only [hl, if_false]
      have : e - dest.length = 0 := by omega
      simp [this, h3, h4]

/-- The lexer on a double-quoted literal that the string loop closes. -/
theorem lex_double_quoted (p q d : Bytes) (n ln lno len : Nat) (str : Bytes)
    (h : parse_string_loop 34 255 (p.length + 1) p [] = (0, q, d)) (hn : d.length = n) :
    lex (34 :: p) ln lno len str =
      ⟨q, 34 :: p, ln, ln, false, TOK_STRING, PREC_NONE, n, d ++ [0], lno, none⟩ := by
  unfold lex
  simp only [List.length_cons]
  rw [next_token_loop]
  simp [scan_token, qe_isspace, qe_isalpha_, qe_isalpha, qe_isdigit, qe_cfg_parse_string, h,
    TOK_STRING, hn]

theorem replicate_plain (n : Nat) :
    ∀ c ∈ List.replicate n 97, c ≠ 34 ∧ c ≠ 92 ∧ c ≠ 10 ∧ c ≠ 0 := by
  intro c hc
  obtain ⟨_, rfl⟩ := List.mem_replicate.mp hc
  decide

/-- C35 (counterexample): behind 254 bytes `a`, the escape `\xe9` is consumed and its code
point is not stored: the lexeme is the 254 bytes `a`. -/
theorem c35_code_point_is_dropped :
    lex (34 :: (List.replicate 254 97 ++ [92, 120, 101, 57, 34, 0])) 1 1 0 [] =
      ⟨[0], 34 :: (List.replicate 254 97 ++ [92, 120, 101, 57, 34, 0]), 1, 1, false, TOK_STRING,
        PREC_NONE, 254, List.replicate 254 97 ++ [0], 1, none⟩ := by
  apply lex_double_quoted
  · have hf : (List.replicate 254 97 ++ [92, 120, 101, 57, 34, 0]).length + 1
        = (List.replicate 254 97).length + 7 := by simp only [List.length_append, List.length_replicate, List.length_cons, List.length_nil]
    rw [hf, parse_string_loop_run 34 255 _ _ _ 7 (replicate_plain 254)]
    decide!
  · simp only [List.length_replicate]

/-- C35 (amended): behind a backslash and `x`, `u` or `U`, followed by the run hs of hex
digits, the string loop consumes all of hs for `x`, its first 4 digits at most for `u` and
its first 8 at most for `U`; the code point formed from the consumed digits, accumulated
as a C `int`, is stored as its UTF-8 encoding when the lexeme so far and the encoding
together stay below the limit of the lexeme, and is dropped whole otherwise. -/
theorem c35_hex_escape (delim end_ fuel k : Nat) (hs rest dest : Bytes)
    (hk : k = 120 ∨ k = 117 ∨ k = 85) (hd : delim ≠ 92)
    (hh : ∀ d ∈ hs, qe_isxdigit d = true) (hr : qe_isxdigit (rest.headD 0) = false) :
    parse_string_loop delim end_ (fuel + 1) (92 :: k :: (hs ++ rest)) dest =
      parse_string_loop delim end_ fuel (hex_left k hs ++ rest)
        (if dest.length + (utf8_encode (hex_code (hex_taken k hs) 0)).length < end_
         then dest ++ utf8_encode (hex_code (hex_taken k hs) 0) else dest) ∧
    hex_taken 120 hs = hs ∧ hex_taken 117 hs = hs.take 4 ∧ hex_taken 85 hs = hs.take 8 ∧
    hex_left 120 hs = [] ∧ hex_left 117 hs = hs.drop 4 ∧ hex_left 85 hs = hs.drop 8 := by
  refine ⟨?_, rfl, rfl, rfl, rfl, rfl, rfl⟩
  have hd' : ((92 : Nat) == delim) = false := by simp; exact fun h => hd h.symm
  have e4 := parse_hex_some hs rest 4 0 hh hr
  have e8 := parse_hex_some hs rest 8 0 hh hr
  have ea := parse_hex_all hs rest (-1) 0 hh hr (by decide)
  simp only [Nat.cast_ofNat] at e4 e8
  rw [parse_string_loop]
  rcases hk with rfl | rfl | rfl
  · simp [hd', ea, hex_taken, hex_left]
  · simp [hd', e4, hex_taken, hex_left]
  · simp [hd', e8, hex_taken, hex_left]

/-- C35 (witness): `\u00e9ab` consumes the four digits `00e9` and leaves `ab` in the text;
`"\u00e9ab"` is the string of the bytes 195, 169, `a`, `b`; `"\U0001F600ab"` is the four
bytes of U+1F600 followed by `ab`; `"\xe9ab"` consumes all five digits and is the three
bytes of U+E9AB; `"\xg"` stores the code point 0. -/
theorem c35_hex_escape_witness :
    (parse_string_loop 34 255 (10 + 1) (92 :: 117 :: ([48, 48, 101, 57, 97, 98] ++ [34, 0])) [] =
      parse_string_loop 34 255 10 (hex_left 117 [48, 48, 101, 57, 97, 98] ++ [34, 0])
        (if ([] : Bytes).length
              + (utf8_encode (hex_code (hex_taken 117 [48, 48, 101, 57, 97, 98]) 0)).length < 255
         then [] ++ utf8_encode (hex_code (hex_taken 117 [48, 48, 101, 57, 97, 98]) 0) else []) ∧
     hex_taken 120 [48, 48, 101, 57, 97, 98] = [48, 48, 101, 57, 97, 98] ∧
     hex_taken 117 [48, 48, 101, 57, 97, 98] = ([48, 48, 101, 57, 97, 98] : Bytes).take 4 ∧
     hex_taken 85 [48, 48, 101, 57, 97, 98] = ([48, 48, 101, 57, 97, 98] : Bytes).take 8 ∧
     hex_left 120 [48, 48, 101, 57, 97, 98] = [] ∧
     hex_left 117 [48, 48, 101, 57, 97, 98] = ([48, 48, 101, 57, 97, 98] : Bytes).drop 4 ∧
     hex_left 85 [48, 48, 101, 57, 97, 98] = ([48, 48, 101, 57, 97, 98] : Bytes).drop 8) ∧
    lex [34, 92, 117, 48, 48, 101, 57, 97, 98, 34, 0] 1 1 0 [] =
      ⟨[0], [34, 92, 117, 48, 48, 101, 57, 97, 98, 34, 0], 1, 1, false, TOK_STRING, PREC_NONE, 4, [195, 169, 97, 98, 0], 1,
        none⟩ ∧
    lex [34, 92, 85, 48, 48, 48, 49, 70, 54, 48, 48, 97, 98, 34, 0] 1 1 0 [] =
      ⟨[0], [34, 92, 85, 48, 48, 48, 49, 70, 54, 48, 48, 97, 98, 34, 0], 1, 1, false, TOK_STRING, PREC_NONE, 6,
        [240, 159, 152, 128, 97, 98, 0], 1, none⟩ ∧
    lex [34, 92, 120, 101, 57, 97, 98, 34, 0] 1 1 0 [] =
      ⟨[0], [34, 92, 120, 101, 57, 97, 98, 34, 0], 1, 1, false, TOK_STRING, PREC_NONE, 3, [238, 166, 171, 0], 1,
        none⟩ ∧
    lex [34, 92, 120, 103, 34, 0] 1 1 0 [] =
      ⟨[0], [34, 92, 120, 103, 34, 0], 1, 1, false, TOK_STRING, PREC_NONE, 2, [0, 103, 0], 1, none⟩ :=
  ⟨c35_hex_escape 34 255 10 117 [48, 48, 101, 57, 97, 98] [34, 0] [] (Or.inr (Or.inl rfl))
      (by decide) (by decide) (by decide),
   by decide, by decide, by decide, by decide⟩

/-! ## Truncation of the lexeme -/

theorem no_hex_escape_tail (p : Bytes) (h : no_hex_escape p = true) :
    no_hex_escape p.tail = true := by
  cases p with
  | nil => rfl
  | cons c q =>
    simp only [no_hex_escape, Bool.and_eq_true] at h
    exact h.2

theorem take_append_step (dest : Bytes) (e1 e2 c : Nat) (h : e1 ≤ e2) :
    (if (dest.take e1).length < e1 then dest.take e1 ++ [c] else dest.take e1) =
      (if dest.length < e2 then dest ++ [c] else dest).take e1 := by
  by_cases h1 : dest.length < e1
  · have ht : dest.take e1 = dest := List.take_of_length_le (by omega)
    have h2 : dest.length < e2 := by omega
    rw [ht, if_pos h1, if_pos h2]
    exact (List.take_of_length_le (by simp; omega)).symm
  · have hl : (dest.take e1).length = e1 := by simp; omega
    rw [if_neg (by omega)]
    split_ifs
    · rw [List.take_append_of_le_length (by omega)]
    · rfl

/-- The text behind a one-byte escape is the text behind its first, second or third byte. -/
theorem escape_rest (k d2 d3 : Nat) (t1 t2 t3 : Bytes) (P : Nat × Bytes → Prop)
    (h1 : ∀ v, P (v, t1)) (h2 : ∀ v, P (v, t2)) (h3 : ∀ v, P (v, t3)) :
    P (if k == 110 then (10, t1)
        else if k == 114 then (13, t1)
        else if k == 116 then (9, t1)
        else if k == 97 then (7, t1)
        else if k == 98 then (8, t1)
        else if k == 101 then (27, t1)
        else if k == 102 then (12, t1)
        else if k == 118 then (11, t1)
        else if qe_isoctdigit k then
          if qe_isoctdigit d2 then
            if (k - 48) * 8 + (d2 - 48) < 32 && qe_isoctdigit d3 then
              (((k - 48) * 8 + (d2 - 48)) * 8 + (d3 - 48), t3)
            else ((k - 48) * 8 + (d2 - 48), t2)
          else (k - 48, t1)
        else (k, t1)) := by
  by_cases c0 : (k == 110) = true
  · rw [if_pos c0]; exact h1 _
  rw [if_neg c0]
  by_cases c1 : (k == 114) = true
  · rw [if_pos c1]; exact h1 _
  rw [if_neg c1]
  by_cases c2 : (k == 116) = true
  · rw [if_pos c2]; exact h1 _
  rw [if_neg c2]
  by_cases c3 : (k == 97) = true
  · rw [if_pos c3]; exact h1 _
  rw [if_neg c3]
  by_cases c4 : (k == 98) = true
  · rw [if_pos c4]; exact h1 _
  rw [if_neg c4]
  by_cases c5 : (k == 101) = true
  · rw [if_pos c5]; exact h1 _
  rw [if_neg c5]
  by_cases c6 : (k == 102) = true
  · rw [if_pos c6]; exact h1 _
  rw [if_neg c6]
  by_cases c7 : (k == 118) = true
  · rw [if_pos c7]; exact h1 _
  rw [if_neg c7]
  by_cases o1 : qe_isoctdigit k = true
  · rw [if_pos o1]
    by_cases o2 : qe_isoctdigit d2 = true
    · rw [if_pos o2]
      by_cases o3 : ((k - 48) * 8 + (d2 - 48) < 32 && qe_isoctdigit d3) = true
      · rw [if_pos o3]; exact h3 _
      · rw [if_neg o3]; exact h2 _
    · rw [if_neg o2]; exact h1 _
  · rw [if_neg o1]; exact h1 _

/-- What a one-byte escape decodes to and the text behind it: `c` is the byte behind the
backslash and `p` the text behind `c`. -/
theorem escape_step (delim : Nat) (q : Bytes) (hd : delim ≠ 92)
    (hq : (q.headD 0 == 85 || q.headD 0 == 117 || q.headD 0 == 120) = false) :
    ∃ X : Nat × Bytes,
      (X.2 = q.tail ∨ X.2 = q.tail.tail ∨ X.2 = q.tail.tail.tail) ∧
      ∀ (end_ n : Nat) (dest : Bytes),
        parse_string_loop delim end_ (n + 1) (92 :: q) dest =
          parse_string_loop delim end_ n X.2 (if dest.length < end_ then dest ++ [X.1] else dest) := by
  have hd' : ((92 : Nat) == delim) = false := by simp; exact fun h => hd h.symm
  refine ⟨(if q.headD 0 == 110 then (10, q.tail)
            else if q.headD 0 == 114 then (13, q.tail)
            else if q.headD 0 == 116 then (9, q.tail)
            else if q.headD 0 == 97 then (7, q.tail)
            else if q.headD 0 == 98 then (8, q.tail)
            else if q.headD 0 == 101 then (27, q.tail)
            else if q.headD 0 == 102 then (12, q.tail)
            else if q.headD 0 == 118 then (11, q.tail)
            else if qe_isoctdigit (q.headD 0) then
              if qe_isoctdigit (q.tail.headD 0) then
                if (q.headD 0 - 48) * 8 + (q.tail.headD 0 - 48) < 32
                    && qe_isoctdigit (q.tail.tail.headD 0) then
                  (((q.headD 0 - 48) * 8 + (q.tail.headD 0 - 48)) * 8
                    + (q.tail.tail.headD 0 - 48), q.tail.tail.tail)
                else ((q.headD 0 - 48) * 8 + (q.tail.headD 0 - 48), q.tail.tail)
              else (q.headD 0 - 48, q.tail)
            else (q.headD 0, q.tail)), ?_, ?_⟩
  · exact escape_rest (q.headD 0) (q.tail.headD 0) (q.tail.tail.headD 0) q.tail q.tail.tail
      q.tail.tail.tail (fun x => x.2 = q.tail ∨ x.2 = q.tail.tail ∨ x.2 = q.tail.tail.tail)
      (fun _ => Or.inl rfl) (fun _ => Or.inr (Or.inl rfl)) (fun _ => Or.inr (Or.inr rfl))
  · intro end_ n dest
    rw [parse_string_loop]
    simp only [List.headD_cons, List.tail_cons, hd', hq,
      show ((92 : Nat) == 10) = false by decide, show ((92 : Nat) == 0) = false by decide,
      show ((92 : Nat) == 92) = true by decide, Bool.or_self, Bool.false_eq_true, if_false,
      if_true]

theorem plain_step (delim end_ n c : Nat) (q dest : Bytes) (h1 : c ≠ 10) (h2 : c ≠ 0)
    (h3 : c ≠ delim) (h4 : c ≠ 92) :
    parse_string_loop delim end_ (n + 1) (c :: q) dest =
      parse_string_loop delim end_ n q (if dest.length < end_ then dest ++ [c] else dest) := by
  rw [parse_string_loop]
  simp [h1, h2, h3, h4]

theorem close_step (delim end_ n : Nat) (q dest : Bytes) (h1 : delim ≠ 10) (h2 : delim ≠ 0) :
    parse_string_loop delim end_ (n + 1) (delim :: q) dest = (0, q, dest) := by
  rw [parse_string_loop]
  simp [h1, h2]

theorem open_step (delim end_ n : Nat) (p dest : Bytes) (h : p.headD 0 = 10 ∨ p.headD 0 = 0) :
    parse_string_loop delim end_ (n + 1) p dest = (-1, p, dest) := by
  rw [parse_string_loop]
  rcases h with h | h <;>
    simp only [h, beq_self_eq_true, Bool.true_or, Bool.or_true, if_true]

/-- The string loop with the smaller buffer stores the first bytes of what it stores with
the larger buffer, and reads the same text, when no escape `\x`, `\u` or `\U` occurs. -/
theorem parse_string_loop_truncates (delim e1 e2 : Nat) (h : e1 ≤ e2) (fuel : Nat)
    (p dest : Bytes) (hx : no_hex_escape p = true) :
    parse_string_loop delim e1 fuel p (dest.take e1) =
      ((parse_string_loop delim e2 fuel p dest).1, (parse_string_loop delim e2 fuel p dest).2.1,
        (parse_string_loop delim e2 fuel p dest).2.2.take e1) := by
  induction fuel generalizing p dest with
  | zero => rfl
  | succ n ih =>
    by_cases h0 : p.headD 0 = 10 ∨ p.headD 0 = 0
    · rw [open_step _ _ _ _ _ h0, open_step _ _ _ _ _ h0]
    · cases p with
      | nil => exact absurd (Or.inr rfl) h0
      | cons c q =>
        simp only [List.headD_cons, not_or] at h0
        have hq := no_hex_escape_tail _ hx
        simp only [List.tail_cons] at hq
        by_cases hc : c = delim
        · subst hc
          rw [close_step _ _ _ _ _ h0.1 h0.2, close_step _ _ _ _ _ h0.1 h0.2]
        · by_cases hb : c = 92
          · subst hb
            have hk : (q.headD 0 == 85 || q.headD 0 == 117 || q.headD 0 == 120) = false := by
              simp only [no_hex_escape, Bool.and_eq_true, Bool.not_eq_true'] at hx
              simpa using hx.1
            obtain ⟨X, hX, hstep⟩ := escape_step delim q (fun e => hc e.symm) hk
            have hX' : no_hex_escape X.2 = true := by
              rcases hX with e | e | e <;> rw [e]
              · exact no_hex_escape_tail _ hq
              · exact no_hex_escape_tail _ (no_hex_escape_tail _ hq)
              · exact no_hex_escape_tail _ (no_hex_escape_tail _ (no_hex_escape_tail _ hq))
            rw [hstep, hstep, take_append_step dest e1 e2 X.1 h]
            exact ih _ _ hX'
          · rw [plain_step _ _ _ _ _ _ h0.1 h0.2 hc hb, plain_step _ _ _ _ _ _ h0.1 h0.2 hc hb,
              take_append_step dest e1 e2 c h]
            exact ih _ _ hq

/-- Without an escape `\x`, `\u` or `\U` every round of the string loop stores one byte at
most. -/
theorem parse_string_loop_length (delim e : Nat) (fuel : Nat) (p dest : Bytes)
    (hx : no_hex_escape p = true) :
    (parse_string_loop delim e fuel p dest).2.2.length ≤ dest.length + fuel := by
  induction fuel generalizing p dest with
  | zero => simp [parse_string_loop]
  | succ n ih =>
    have hstep : ∀ c : Nat, (if dest.length < e then dest ++ [c] else dest).length
        ≤ dest.length + 1 := by
      intro c; split_ifs <;> simp
    by_cases h0 : p.headD 0 = 10 ∨ p.headD 0 = 0
    · rw [open_step _ _ _ _ _ h0]; simp
    · cases p with
      | nil => exact absurd (Or.inr rfl) h0
      | cons c q =>
        simp only [List.headD_cons, not_or] at h0
        have hq := no_hex_escape_tail _ hx
        simp only [List.tail_cons] at hq
        by_cases hc : c = delim
        · subst hc
          rw [close_step _ _ _ _ _ h0.1 h0.2]; simp
        · by_cases hb : c = 92
          · subst hb
            have hk : (q.headD 0 == 85 || q.headD 0 == 117 || q.headD 0 == 120) = false := by
              simp only [no_hex_escape, Bool.and_eq_true, Bool.not_eq_true'] at hx
              simpa using hx.1
            obtain ⟨X, hX, hstep2⟩ := escape_step delim q (fun e => hc e.symm) hk
            have hX' : no_hex_escape X.2 = true := by
              rcases hX with e | e | e <;> rw [e]
              · exact no_hex_escape_tail _ hq
              · exact no_hex_escape_tail _ (no_hex_escape_tail _ hq)
              · exact no_hex_escape_tail _ (no_hex_escape_tail _ (no_hex_escape_tail _ hq))
            rw [hstep2]
            have h1 := ih X.2 (if dest.length < e then dest ++ [X.1] else dest) hX'
            have h2 := hstep X.1
            omega
          · rw [plain_step _ _ _ _ _ _ h0.1 h0.2 hc hb]
            have h1 := ih q (if dest.length < e then dest ++ [c] else dest) hq
            have h2 := hstep c
            omega

/-- The lexeme of a quoted literal is what `qe_cfg_parse_string` stores. -/
theorem lex_quoted_lexeme (delim : Nat) (p : Bytes) (ln lno len : Nat) (str : Bytes)
    (hd : delim = 34 ∨ delim = 39) :
    (lex (delim :: p) ln lno len str).str = (qe_cfg_parse_string p delim 256).2.2.1 ∧
    (lex (delim :: p) ln lno len str).len = (qe_cfg_parse_string p delim 256).2.2.2 := by
  unfold lex
  simp only [List.length_cons]
  rw [next_token_loop]
  rcases hd with rfl | rfl
  · simp only [List.headD_cons, List.tail_cons, scan_token]
    simp only [show ((34 : Nat) == 0) = false by decide, show ((34 : Nat) == 10) = false by decide,
      show qe_isspace 34 = false by decide, show ((34 : Nat) == 47) = false by decide,
      show qe_isalpha_ 34 = false by decide, show qe_isdigit 34 = false by decide,
      show ((34 : Nat) == 39) = false by decide, show ((34 : Nat) == 34) = true by decide,
      Bool.false_and, Bool.false_or, Bool.false_eq_true, if_false, if_true]
    split_ifs <;> exact ⟨rfl, rfl⟩
  · simp only [List.headD_cons, List.tail_cons, scan_token]
    simp only [show ((39 : Nat) == 0) = false by decide, show ((39 : Nat) == 10) = false by decide,
      show qe_isspace 39 = false by decide, show ((39 : Nat) == 47) = false by decide,
      show qe_isalpha_ 39 = false by decide, show qe_isdigit 39 = false by decide,
      show ((39 : Nat) == 39) = true by decide, Bool.true_or,
      Bool.false_and, Bool.false_or, Bool.false_eq_true, if_false, if_true]
    split_ifs <;> exact ⟨rfl, rfl⟩

/-- C31 (counterexample): behind 254 bytes `a`, in `\xe9z` the two bytes of the code point
are dropped and the `z` behind them is stored: the lexeme is the 254 bytes `a` and `z`, of
length 255, where the decoded content is the 254 bytes `a`, 195, 169 and `z`, whose first
255 bytes end with 195. -/
theorem c31_dropped_code_point_is_skipped :
    lex (34 :: (List.replicate 254 97 ++ [92, 120, 101, 57, 122, 34, 0])) 1 1 0 [] =
      ⟨[0], 34 :: (List.replicate 254 97 ++ [92, 120, 101, 57, 122, 34, 0]), 1, 1, false,
        TOK_STRING, PREC_NONE, 255, List.replicate 254 97 ++ [122, 0], 1, none⟩ ∧
    (parse_string_loop 34 1000 300 (List.replicate 254 97 ++ [92, 120, 101, 57, 122, 34, 0])
        []).2.2 = List.replicate 254 97 ++ [195, 169, 122] := by
  constructor
  · have hf : (List.replicate 254 97 ++ [92, 120, 101, 57, 122, 34, 0]).length + 1
        = (List.replicate 254 97).length + 8 := by simp only [List.length_append, List.length_replicate, List.length_cons, List.length_nil]
    have e : parse_string_loop 34 255
        ((List.replicate 254 97 ++ [92, 120, 101, 57, 122, 34, 0]).length + 1)
        (List.replicate 254 97 ++ [92, 120, 101, 57, 122, 34, 0]) []
        = (0, [0], List.replicate 254 97 ++ [122]) := by
      rw [hf, parse_string_loop_run 34 255 _ _ _ 8 (replicate_plain 254)]
      decide!
    have t := lex_double_quoted _ _ _ 255 1 1 0 [] e
      (by simp only [List.length_append, List.length_replicate, List.length_cons, List.length_nil])
    simpa only [List.append_assoc, List.singleton_append] using t
  · have hf : 300 = (List.replicate 254 97).length + 46 := by simp only [List.length_replicate]
    rw [hf, parse_string_loop_run 34 1000 _ _ _ 46 (replicate_plain 254)]
    decide!

/-- C31 (amended): for every literal text p behind the opening quote that holds no escape
`\x`, `\u` or `\U`, let d be its decoded content, the bytes the string loop stores in a
buffer that never fills up (d has at most |p| + 1 bytes, the buffer has room for
|p| + 256).  Then the lexer reads the same text and stores the first min(|d|, 255) bytes of
d followed by a NUL, and records the length min(|d|, 255). -/
theorem c31_lexeme_is_truncated (delim : Nat) (p : Bytes) (ln lno len : Nat) (str : Bytes)
    (hd : delim = 34 ∨ delim = 39) (hx : no_hex_escape p = true) :
    (parse_string_loop delim (p.length + 256) (p.length + 1) p []).2.2.length ≤ p.length + 1 ∧
    qe_cfg_parse_string p delim 256 =
      ((parse_string_loop delim (p.length + 256) (p.length + 1) p []).1,
       (parse_string_loop delim (p.length + 256) (p.length + 1) p []).2.1,
       (parse_string_loop delim (p.length + 256) (p.length + 1) p []).2.2.take 255 ++ [0],
       min (parse_string_loop delim (p.length + 256) (p.length + 1) p []).2.2.length 255) ∧
    (lex (delim :: p) ln lno len str).str =
      (parse_string_loop delim (p.length + 256) (p.length + 1) p []).2.2.take 255 ++ [0] ∧
    (lex (delim :: p) ln lno len str).len =
      min (parse_string_loop delim (p.length + 256) (p.length + 1) p []).2.2.length 255 := by
  have hl := parse_string_loop_length delim (p.length + 256) (p.length + 1) p [] hx
  have ht := parse_string_loop_truncates delim 255 (p.length + 256) (by omega) (p.length + 1) p
    [] hx
  simp only [List.take_nil] at ht
  have hq : qe_cfg_parse_string p delim 256 =
      ((parse_string_loop delim (p.length + 256) (p.length + 1) p []).1,
       (parse_string_loop delim (p.length + 256) (p.length + 1) p []).2.1,
       (parse_string_loop delim (p.length + 256) (p.length + 1) p []).2.2.take 255 ++ [0],
       min (parse_string_loop delim (p.length + 256) (p.length + 1) p []).2.2.length 255) := by
    unfold qe_cfg_parse_string
    simp only [Nat.add_one_sub_one, ht, List.length_take]
    rw [Nat.min_comm]
  obtain ⟨e1, e2⟩ := lex_quoted_lexeme delim p ln lno len str hd
  refine ⟨by simpa using hl, hq, ?_, ?_⟩
  · rw [e1, hq]
  · rw [e2, hq]

/-- C31 (witness): the literal `"a\nb"` is stored as `a`, newline, `b` and a NUL, with the
length 3; a literal of 300 bytes `a` is stored as 255 bytes `a` and a NUL, with the length
255. -/
theorem c31_lexeme_is_truncated_witness :
    ((parse_string_loop 34 (([97, 92, 110, 98, 34, 0] : Bytes).length + 256) (([97, 92, 110, 98, 34, 0] : Bytes).length + 1) [97, 92, 110, 98, 34, 0] []).2.2.length ≤ ([97, 92, 110, 98, 34, 0] : Bytes).length + 1 ∧
     qe_cfg_parse_string [97, 92, 110, 98, 34, 0] 34 256 =
       ((parse_string_loop 34 (([97, 92, 110, 98, 34, 0] : Bytes).length + 256) (([97, 92, 110, 98, 34, 0] : Bytes).length + 1) [97, 92, 110, 98, 34, 0] []).1, (parse_string_loop 34 (([97, 92, 110, 98, 34, 0] : Bytes).length + 256) (([97, 92, 110, 98, 34, 0] : Bytes).length + 1) [97, 92, 110, 98, 34, 0] []).2.1, (parse_string_loop 34 (([97, 92, 110, 98, 34, 0] : Bytes).length + 256) (([97, 92, 110, 98, 34, 0] : Bytes).length + 1) [97, 92, 110, 98, 34, 0] []).2.2.take 255 ++ [0], min (parse_string_loop 34 (([97, 92, 110, 98, 34, 0] : Bytes).length + 256) (([97, 92, 110, 98, 34, 0] : Bytes).length + 1) [97, 92, 110, 98, 34, 0] []).2.2.length 255) ∧
     (lex (34 :: [97, 92, 110, 98, 34, 0]) 1 1 0 []).str = (parse_string_loop 34 (([97, 92, 110, 98, 34, 0] : Bytes).length + 256) (([97, 92, 110, 98, 34, 0] : Bytes).length + 1) [97, 92, 110, 98, 34, 0] []).2.2.take 255 ++ [0] ∧
     (lex (34 :: [97, 92, 110, 98, 34, 0]) 1 1 0 []).len = min (parse_string_loop 34 (([97, 92, 110, 98, 34, 0] : Bytes).length + 256) (([97, 92, 110, 98, 34, 0] : Bytes).length + 1) [97, 92, 110, 98, 34, 0] []).2.2.length 255) ∧
    lex (34 :: [97, 92, 110, 98, 34, 0]) 1 1 0 [] =
      ⟨[0], 34 :: [97, 92, 110, 98, 34, 0], 1, 1, false, TOK_STRING, PREC_NONE, 3, [97, 10, 98, 0], 1, none⟩ ∧
    ((lex (34 :: (List.replicate 300 97 ++ [34, 0])) 1 1 0 []).len = 255 ∧
     (lex (34 :: (List.replicate 300 97 ++ [34, 0])) 1 1 0 []).str
       = List.replicate 255 97 ++ [0]) :=
  ⟨c31_lexeme_is_truncated 34 [97, 92, 110, 98, 34, 0] 1 1 0 [] (Or.inl rfl) (by decide), by decide,
   by
    rw [lex_string (List.replicate 300 97) [0] 1 1 0 [] (replicate_plain 300)]
    simp only [List.take_replicate, List.length_replicate]
    exact ⟨rfl, rfl⟩⟩

/-! ## Truthiness of a condition -/

/-- C16 (counterexample): the char value 0 is falsy: `if ('\0') a = 1; else a = 2;` runs
the `else` branch and sets a to 2, and `'\0' ? 1 : 2` yields 2. -/
theorem c16_char_zero_is_falsy :
    (run_script 50 (host_with [] []) [105, 102, 32, 40, 39, 92, 48, 39, 41, 32, 97, 32, 61, 32, 49, 59, 32, 101, 108, 115, 101, 32, 97, 32, 61, 32, 50, 59]).map
        (fun r => (r.2.s.vars, r.2.errors)) = some ([([97], VarValue.number 2)], []) ∧
    (do_eval_expression 50 (host_with [] []) [39, 92, 48, 39, 32, 63, 32, 49, 32, 58, 32, 50, 0] NO_ARG).map
        (fun o => (o.status, o.ds.errors)) = some (some [45, 62, 32, 50], []) := by
  refine ⟨by decide!, by decide!⟩

/-- C16 (amended): let t be the truth of a condition value: true for every string, and
for a number or a char true exactly when the value is not zero.  In `qe_cfg_stmt`, an `if`
whose condition evaluates to such a value runs its first branch with the skip flag
`skip || !t` and the branch behind `else` with `skip || t`; behind a `?`, `qe_cfg_expr`
evaluates the first branch with the skip flag `!t` and the second with `t`.  So `if ("")`,
`if ('a')` and `if (-3)` run the first branch, `if (0)` the second, and `"" ? 1 : 2`,
`'a' ? 1 : 2` and `-3 ? 1 : 2` yield 1 while `0 ? 1 : 2` yields 2. -/
theorem c16_truthiness :
    (∀ (g : Nat) (ds : QEmacsDataSource) (sp : Nat) (skip : Bool) (ds1 ds2 : QEmacsDataSource)
        (t : Bool),
      ds.tok = TOK_IF →
      qe_cfg_expr (g + 1) (qe_cfg_next_token ds) sp PREC_EXPRESSION skip = some (0, ds1) →
      qe_cfg_getvalue ds1 sp = (0, ds2) →
      (((slot ds2 sp).type = TOK_STRING ∧ t = true) ∨
       (∃ n : Int, ((slot ds2 sp).type = TOK_NUMBER ∨ (slot ds2 sp).type = TOK_CHAR) ∧
          (slot ds2 sp).u = QEUnion.value n ∧ (t = true ↔ n ≠ 0))) →
      qe_cfg_stmt (g + 2) ds sp skip =
        after (qe_cfg_stmt g ds2 sp (skip || !t)) fun r1 d1 =>
          if d1.tok = TOK_ELSE then
            after (qe_cfg_stmt g (qe_cfg_next_token d1) sp (skip || t))
              fun r2 d2 => some (res_or (res_or 0 r1) r2, d2)
          else some (res_or 0 r1, d1)) ∧
    (∀ (f : Nat) (ds : QEmacsDataSource) (sp prec0 : Nat) (tok : Int) (start_p : Bytes)
        (start_line : Nat) (dsv : QEmacsDataSource) (t : Bool),
      qe_cfg_getvalue ds sp = (0, dsv) →
      (((slot dsv sp).type = TOK_STRING ∧ t = true) ∨
       (∃ n : Int, ((slot dsv sp).type = TOK_NUMBER ∨ (slot dsv sp).type = TOK_CHAR) ∧
          (slot dsv sp).u = QEUnion.value n ∧ (t = true ↔ n ≠ 0))) →
      expr_cond (f + 1) ds sp prec0 tok start_p start_line =
        after (qe_cfg_expr f dsv sp PREC_EXPRESSION (!t)) fun r ds1 =>
          if r != (if t then 0 else 1) then expr_again f ds1 sp prec0 tok start_p start_line
          else
            chkb (has_token ds1 58)
              (fun ds => expr_again f ds sp prec0 tok start_p start_line) fun ds2 =>
            after (qe_cfg_expr f ds2 sp PREC_CONDITIONAL t) fun r ds3 =>
              if r != (if t then 1 else 0) then
                expr_again f ds3 sp prec0 tok start_p start_line
              else expr_loop f ds3 sp prec0 tok start_p start_line) ∧
    (run_script 50 (host_with [] []) [105, 102, 32, 40, 34, 34, 41, 32, 97, 32, 61, 32, 49, 59, 32, 101, 108, 115, 101, 32, 97, 32, 61, 32, 50, 59]).map
        (fun r => (r.2.s.vars, r.2.errors)) = some ([([97], VarValue.number 1)], []) ∧
    (run_script 50 (host_with [] []) [105, 102, 32, 40, 39, 97, 39, 41, 32, 97, 32, 61, 32, 49, 59, 32, 101, 108, 115, 101, 32, 97, 32, 61, 32, 50, 59]).map
        (fun r => (r.2.s.vars, r.2.errors)) = some ([([97], VarValue.number 1)], []) ∧
    (run_script 50 (host_with [] []) [105, 102, 32, 40, 48, 41, 32, 97, 32, 61, 32, 49, 59, 32, 101, 108, 115, 101, 32, 97, 32, 61, 32, 50, 59]).map
        (fun r => (r.2.s.vars, r.2.errors)) = some ([([97], VarValue.number 2)], []) ∧
    (run_script 50 (host_with [] []) [105, 102, 32, 40, 45, 51, 41, 32, 97, 32, 61, 32, 49, 59, 32, 101, 108, 115, 101, 32, 97, 32, 61, 32, 50, 59]).map
        (fun r => (r.2.s.vars, r.2.errors)) = some ([([97], VarValue.number 1)], []) ∧
    (do_eval_expression 50 (host_with [] []) [34, 34, 32, 63, 32, 49, 32, 58, 32, 50, 0] NO_ARG).map
        (fun o => (o.status, o.ds.errors)) = some (some [45, 62, 32, 49], []) ∧
    (do_eval_expression 50 (host_with [] []) [39, 97, 39, 32, 63, 32, 49, 32, 58, 32, 50, 0] NO_ARG).map
        (fun o => (o.status, o.ds.errors)) = some (some [45, 62, 32, 49], []) ∧
    (do_eval_expression 50 (host_with [] []) [48, 32, 63, 32, 49, 32, 58, 32, 50, 0] NO_ARG).map
        (fun o => (o.status, o.ds.errors)) = some (some [45, 62, 32, 50], []) ∧
    (do_eval_expression 50 (host_with [] []) [45, 51, 32, 63, 32, 49, 32, 58, 32, 50, 0] NO_ARG).map
        (fun o => (o.status, o.ds.errors)) = some (some [45, 62, 32, 49], []) := by
  have truth : ∀ (v : QEValue) (t : Bool),
      ((v.type = TOK_STRING ∧ t = true) ∨
       (∃ n : Int, (v.type = TOK_NUMBER ∨ v.type = TOK_CHAR) ∧
          v.u = QEUnion.value n ∧ (t = true ↔ n ≠ 0))) → truth_of v = t := by
    intro v t h
    rcases h with ⟨h1, h2⟩ | ⟨n, h1, h2, h3⟩
    · simp [truth_of, h1, h2]
    · have hs : (v.type == TOK_STRING) = false := by
        rcases h1 with h1 | h1 <;> simp [h1, TOK_NUMBER, TOK_CHAR, TOK_STRING]
      cases t <;> simp_all [truth_of, QEUnion.asValue]
  refine ⟨?_, ?_, by decide!, by decide!, by decide!, by decide!, by decide!, by decide!,
    by decide!, by decide!⟩
  · intro g ds sp skip ds1 ds2 t htok hx hv hc
    have ht := truth _ _ hc
    simp only [PREC_EXPRESSION] at hx
    rw [stmt_if_tok _ _ _ _ (by simpa [TOK_IF] using htok), hx]
    simp only [after_some, bne_self_eq_false, Bool.false_eq_true, if_false, hv]
    rw [stmt_if_taken, ht]
    simp [TOK_ELSE]
  · intro f ds sp prec0 tok start_p start_line dsv t hv hc
    have ht := truth _ _ hc
    rw [expr_cond]
    simp only [hv, chk1_pair, bne_self_eq_false, Bool.false_eq_true, if_false, ht]

/-! ## Recovery of the statement driver -/

end QEScript
